import Mathlib

/-!
# Variorum backend adapters: a shallow embedding

The C sources embedded here are `src/variorum/AMD/epyc.c`,
`src/variorum/Intel_GPU/intel_gpu_power_features.c` and
`src/variorum/IBM/Power9.c`.

Conventions of the embedding.

* A C function that talks to the outside world becomes a pure function of an
  environment record (the answers of the vendor library, the clock, the process
  environment) that returns its C return value together with the ordered list
  of everything it did: every line it printed, every vendor call it issued.
* `int` is `Int` wrapped to 32 bits by `toInt32`; `uint32_t` is `Nat` reduced
  by `u32`; the casts between them are `toInt32` and `toUInt32`.
* `double` is an abstract carrier `D` with the operations of `DoubleOps`;
  theorems hold for every interpretation, closed examples use `ℚ`.
* `printf` is recorded as its format string and its argument list.
* Loops `for (i = 0; i < n; i++)` are recursive functions on the number of
  remaining iterations, started with `n` remaining at index `0`.
* The AMD file is embedded as compiled with `VARIORUM_WITH_AMD_CPU` defined and
  `LIBJUSTIFY_FOUND`, `VARIORUM_DEBUG` undefined.
-/

namespace Variorum

/-! ## C scalars -/

/-- Conversion to C `int`: reduction to the 32-bit two's complement range. -/
def toInt32 (x : Int) : Int := (2147483648 + x) % 4294967296 - 2147483648

/-- Conversion to C `uint32_t`. -/
def toUInt32 (x : Int) : Nat := (x % 4294967296).toNat

/-- A value stored in a `uint32_t` object. -/
def u32 (x : Nat) : Nat := x % 4294967296

/-- Conversion to C `json_int_t` / `int64_t`. -/
def toInt64 (x : Int) : Int :=
  (9223372036854775808 + x) % 18446744073709551616 - 9223372036854775808

/-- A value stored in a `uint64_t` / `unsigned long` object. -/
def u64 (x : Nat) : Nat := x % 18446744073709551616

/-- Conversion to C `unsigned long` (64 bits). -/
def toUInt64 (x : Int) : Nat := (x % 18446744073709551616).toNat

/-- The arithmetic of C `double`, kept abstract. -/
class DoubleOps (D : Type) where
  /-- Conversion of an integer value to `double`. -/
  ofInt : Int → D
  /-- Addition `a + b`. -/
  add : D → D → D
  /-- Subtraction `a - b`. -/
  sub : D → D → D
  /-- Multiplication `a * b`. -/
  mul : D → D → D
  /-- Division `a / b`. -/
  div : D → D → D
  /-- The literal `1.e-6`. -/
  micro : D
  /-- Conversion `(int)x` of a `double` to an integer. -/
  toInt : D → Int

/-- Exact rational arithmetic as an interpretation of `double`. -/
instance : DoubleOps ℚ where
  ofInt := fun z => (z : ℚ)
  add := fun a b => a + b
  sub := fun a b => a - b
  mul := fun a b => a * b
  div := fun a b => a / b
  micro := 1 / 1000000
  toInt := fun a => Int.tdiv a.num a.den

/-- The C expression `(double)x / 1000` for an integer `x`. -/
def milli_to_unit {D : Type} [DoubleOps D] (x : Int) : D :=
  DoubleOps.div (DoubleOps.ofInt x) (DoubleOps.ofInt 1000)

/-- The C type `struct timeval`. -/
structure Timeval where
  tv_sec : Int
  tv_usec : Int
deriving DecidableEq, Repr

/-- The C expression
`now.tv_sec - start.tv_sec + (now.tv_usec - start.tv_usec) / 1000000.0`. -/
def elapsed {D : Type} [DoubleOps D] (now start : Timeval) : D :=
  DoubleOps.add (DoubleOps.ofInt (now.tv_sec - start.tv_sec))
    (DoubleOps.div (DoubleOps.ofInt (now.tv_usec - start.tv_usec))
      (DoubleOps.ofInt 1000000))

/-! ## libc helpers -/

/-- The C predicate `isspace` in the "C" locale. -/
def isspace (c : Char) : Bool :=
  c = ' ' || c = '\t' || c = '\n' || c = '\x0b' || c = '\x0c' || c = '\r'

/-- The digit loop of `atoi`: accumulates leading decimal digits. -/
def atoi_digits : List Char → Int → Int
  | [], acc => acc
  | c :: cs, acc =>
    if c.isDigit then atoi_digits cs (acc * 10 + ((c.toNat : Int) - 48)) else acc

/-- The libc function `atoi`: optional white space, optional sign, digits. -/
def atoi (s : String) : Int :=
  match s.toList.dropWhile isspace with
  | '-' :: cs => - atoi_digits cs 0
  | '+' :: cs => atoi_digits cs 0
  | cs => atoi_digits cs 0

/-- The decimal digits of a natural number, as `%d` prints them. -/
def decimal (n : Nat) : List Char := Nat.toDigits 10 n

/-- The C call `snprintf(buf, size, "<prefix>%d", i)` for `i >= 0`: the
formatted text cut to `size - 1` characters. -/
def snprintf_d (size : Nat) (pre : String) (i : Nat) : String :=
  String.mk ((pre.toList ++ decimal i).take (size - 1))

/-- The text `%d` prints for an `int`. -/
def decimal_int (d : Int) : List Char :=
  if d < 0 then '-' :: decimal d.natAbs else decimal d.toNat

/-- The C call `snprintf(buf, size, "<prefix>%d", d)` for an `int` `d`. -/
def snprintf_int (size : Nat) (pre : String) (d : Int) : String :=
  String.mk ((pre.toList ++ decimal_int d).take (size - 1))

/-- The C call `snprintf(sockID, 12, "socket_%d", i)`. -/
def snprintf_socket (i : Nat) : String := snprintf_d 12 "socket_" i

/-! ## Observable behaviour -/

/-- One argument of a `printf` call. -/
inductive Arg (D : Type) where
  | str (s : String)
  | int (v : Int)
  | dbl (v : D)
deriving DecidableEq

/-- The external functions the adapters call. -/
inductive Fn where
  | esmi_init
  | esmi_socket_power_get
  | esmi_socket_power_cap_get
  | esmi_socket_power_cap_max_get
  | esmi_socket_power_cap_set
  | esmi_socket_energy_get
  | esmi_core_energy_get
  | esmi_core_boostlimit_get
  | esmi_core_boostlimit_set
  | esmi_socket_boostlimit_set
  | print_energy_data
  | usleep
  | apmidg_readenergy
  | apmidg_readpoweravg
  | apmidg_readtemp
  | apmidg_readfreq
  | apmidg_setpwrlim
  | apmidg_getpwrlim
  | open_occ_inband_sensors
  | lseek
  | malloc
  | read
  | free
  | close
  | print_power_sensors
  | get_node_power
  | pthread_attr_init
  | pthread_attr_setdetachstate
  | pthread_attr_destroy
  | pthread_mutex_init
  | pthread_mutex_lock
  | pthread_mutex_unlock
  | pthread_create
  | print_all_sensors_header
  | print_all_sensors
  | json_get_power_sensors
  | json_get_thermal_sensors
  | json_get_frequency_sensors
  | init_msTimer
  | timer_sleep
deriving DecidableEq, Repr

/-- One observable action of an adapter operation. -/
inductive Event (D : Type) where
  /-- A `printf` / `fprintf(stdout, ...)` with its format and arguments. -/
  | printf (fmt : String) (args : List (Arg D))
  /-- A call of an external function with its integer arguments. -/
  | call (fn : Fn) (args : List Int)
  /-- A call of `variorum_error_handler` with its message, error class and
  the name of the calling function. -/
  | error_handler (msg : String) (err : String) (func : String)
  /-- A call `fopen(path, mode)`. -/
  | fopen (path : String) (mode : String)
  /-- A call `fprintf(fp, "%d", v)` on the stream opened from `path`. -/
  | fprintf_d (path : String) (v : Int)
  /-- A call `fscanf(fp, "%d", ...)` on the stream opened from `path`. -/
  | fscanf_d (path : String)
  /-- A call `fclose(fp)` on the stream opened from `path`. -/
  | fclose (path : String)
deriving DecidableEq

/-- The result of running an operation: C return value and trace. -/
structure Run (D : Type) where
  ret : Int
  out : List (Event D)

/-- The `VARIORUM_LOG` preamble of every entry point:
`if (val != NULL && atoi(val) == 1) printf(fmt, ...)`. -/
def log_entry {D : Type} (val : Option String) (fmt : String)
    (args : List (Arg D)) : List (Event D) :=
  match val with
  | some v => if atoi v = 1 then [Event.printf fmt args] else []
  | none => []

/-! ## The AMD adapter (`AMD/epyc.c`) -/

/-- Everything an AMD operation reads from outside during one call. The
vendor answers are given per socket (or core); an answer is the status code
and the value stored through the out-parameter. One answer per socket
describes any run, because an operation issues each vendor call at most once
per socket (the traces record every call). -/
structure AmdEnv where
  /-- Result of `getenv("VARIORUM_LOG")`. -/
  VARIORUM_LOG : Option String
  /-- Result of `gethostname`. -/
  hostname : String
  /-- The topology entry `g_platform[P_AMD_CPU_IDX].num_sockets`. -/
  num_sockets : Nat
  /-- The topology entry `g_platform[P_AMD_CPU_IDX].total_cores`. -/
  total_cores : Nat
  /-- The vendor status constant `ESMI_PERMISSION`. -/
  ESMI_PERMISSION : Int
  /-- The vendor function `esmi_get_err_msg`. -/
  esmi_get_err_msg : Int → String
  /-- The clock reading taken by `gettimeofday(&start, NULL)`. -/
  clock_start : Timeval
  /-- The clock reading taken by `gettimeofday(&now, NULL)` in iteration `i`. -/
  clock_now : Nat → Timeval
  /-- The clock reading taken by `gettimeofday(&tv, NULL)`. -/
  clock_tv : Timeval
  esmi_init : Int
  esmi_socket_power_get : Nat → Int × Nat
  esmi_socket_power_cap_get : Nat → Int × Nat
  esmi_socket_power_cap_max_get : Nat → Int × Nat
  esmi_socket_power_cap_set : Nat → Nat → Int
  esmi_socket_energy_get : Nat → Int × Nat
  esmi_core_energy_get : Nat → Int × Nat
  /-- Return value of the MSR fallback `print_energy_data`. -/
  print_energy_data : Int
  /-- Status of `esmi_core_boostlimit_get(i, &boostlimit)` and the value it
  stores; `none` when it stores nothing, the variable keeping its value. -/
  esmi_core_boostlimit_get : Nat → Int × Option Nat := fun _ => (0, some 3000)
  esmi_core_boostlimit_set : Nat → Nat → Int := fun _ _ => 0
  esmi_socket_boostlimit_set : Int → Nat → Int := fun _ _ => 0

/-- The block executed when `esmi_socket_power_cap_set` fails (shared by the
two cap setters): the failure line, then the permission branch. -/
def cap_set_failure {D : Type} (E : AmdEnv) (func : String) (i : Nat)
    (ret : Int) : Run D :=
  let line : Event D :=
    Event.printf "Failed to set socket[%d] _POWERCAP, Err[%d]:%s\n"
      [Arg.int i, Arg.int ret, Arg.str (E.esmi_get_err_msg ret)]
  if ret = E.ESMI_PERMISSION then
    ⟨-1, [line, Event.error_handler "Incorrect permissions"
                  "VARIORUM_ERROR_INVAL" func]⟩
  else
    ⟨ret, [line]⟩

/-- The events of the clamp step
`ret = esmi_socket_power_cap_max_get(i, &max_power);
 if ((ret == 0) && (pcap_new > (int)max_power)) { printf(...); ... }`. -/
def clamp_events {D : Type} [DoubleOps D] (E : AmdEnv) (i : Nat)
    (pcap_new : Int) : List (Event D) :=
  let r := E.esmi_socket_power_cap_max_get i
  Event.call Fn.esmi_socket_power_cap_max_get [i] ::
    (if r.1 = 0 ∧ pcap_new > toInt32 (u32 r.2) then
      [Event.printf
        "Input power is more than max limit, So sets to default max %.3f Watts\n\n"
        [Arg.dbl (milli_to_unit (u32 r.2))]]
     else [])

/-- The value of `pcap_new` after the clamp step at socket `i`
(`pcap_new = max_power;` when the branch is taken). -/
def clamp_value (E : AmdEnv) (i : Nat) (pcap_new : Int) : Int :=
  let r := E.esmi_socket_power_cap_max_get i
  if r.1 = 0 ∧ pcap_new > toInt32 (u32 r.2) then toInt32 (u32 r.2) else pcap_new

/-- The three guidance lines printed when the read-back differs. -/
def verify_guidance {D : Type} : List (Event D) :=
  [Event.printf "Could not verify if the power cap was set correctly.\n" [],
   Event.printf "Verification check after 100ms failed.\n" [],
   Event.printf "Please verify again with dump_power_limits.\n" []]

/-- The socket loop of
`amd_cpu_epyc_set_and_verify_best_effort_node_power_limit` with `i` the
current socket and the first argument the number of sockets left; when none
is left control falls through to the final `fprintf` and `return 0`. -/
def node_power_limit_loop {D : Type} [DoubleOps D] (E : AmdEnv) :
    Nat → Nat → Int → Run D
  | 0, _, pcap_new =>
    ⟨0, [Event.printf "Changed node power cap to %2.03f W.\n"
          [Arg.dbl (milli_to_unit pcap_new)]]⟩
  | left + 1, i, pcap_new =>
    let pre := clamp_events E i pcap_new
    let pcap_new := clamp_value E i pcap_new
    let ret := E.esmi_socket_power_cap_set i (toUInt32 pcap_new)
    let set_ev : Event D :=
      Event.call Fn.esmi_socket_power_cap_set [i, toUInt32 pcap_new]
    if ret ≠ 0 then
      let f : Run D := cap_set_failure E
        "amd_cpu_epyc_set_and_verify_best_effort_node_power_limit" i ret
      ⟨f.ret, pre ++ set_ev :: f.out⟩
    else
      let get := E.esmi_socket_power_cap_get i
      let pcap_test := u32 get.2
      let mid : List (Event D) :=
        pre ++ [set_ev, Event.call Fn.usleep [100000],
                Event.call Fn.esmi_socket_power_cap_get [i]]
      if get.1 ≠ 0 then
        ⟨get.1, mid ++
          [Event.printf "Failed to get socket[%d] _POWERCAP, Err[%d]:%s\n"
            [Arg.int i, Arg.int get.1, Arg.str (E.esmi_get_err_msg get.1)]]⟩
      else if pcap_new ≠ toInt32 pcap_test then
        ⟨-1, mid ++ verify_guidance⟩
      else
        let rest := node_power_limit_loop E left (i + 1) pcap_new
        ⟨rest.ret, mid ++ rest.out⟩

/-- The C function `amd_cpu_epyc_set_and_verify_best_effort_node_power_limit`. -/
def amd_cpu_epyc_set_and_verify_best_effort_node_power_limit {D : Type}
    [DoubleOps D] (E : AmdEnv) (pcap_new : Int) : Run D :=
  let pre : List (Event D) :=
    log_entry E.VARIORUM_LOG "Running %s with value %d\n"
      [Arg.str "amd_cpu_epyc_set_and_verify_best_effort_node_power_limit",
       Arg.int pcap_new]
  let pcap_new := toInt32 (toInt32 (Int.tdiv pcap_new 2) * 1000)
  let r := node_power_limit_loop E E.num_sockets 0 pcap_new
  ⟨r.ret, pre ++ r.out⟩

/-- The socket loop of `amd_cpu_epyc_set_socket_power_limit`; when no socket
is left control falls through to `return 0`. -/
def socket_power_limit_loop {D : Type} [DoubleOps D] (E : AmdEnv) :
    Nat → Nat → Int → Run D
  | 0, _, _ => ⟨0, []⟩
  | left + 1, i, pcap_new =>
    let pre := clamp_events E i pcap_new
    let pcap_new := clamp_value E i pcap_new
    let ret := E.esmi_socket_power_cap_set i (toUInt32 pcap_new)
    let set_ev : Event D :=
      Event.call Fn.esmi_socket_power_cap_set [i, toUInt32 pcap_new]
    if ret ≠ 0 then
      let f : Run D := cap_set_failure E "amd_cpu_epyc_set_socket_power_limit" i ret
      ⟨f.ret, pre ++ set_ev :: f.out⟩
    else
      let rest := socket_power_limit_loop E left (i + 1) pcap_new
      ⟨rest.ret, pre ++
        [set_ev,
         Event.printf "%6d | %14.03f    | successfully set\n"
           [Arg.int i, Arg.dbl (milli_to_unit pcap_new)]] ++ rest.out⟩

/-- The C function `amd_cpu_epyc_set_socket_power_limit`. -/
def amd_cpu_epyc_set_socket_power_limit {D : Type} [DoubleOps D] (E : AmdEnv)
    (pcap_new : Int) : Run D :=
  let pre : List (Event D) :=
    log_entry E.VARIORUM_LOG "Running %s\n"
      [Arg.str "amd_cpu_epyc_set_socket_power_limit"]
  let pcap_new := toInt32 (pcap_new * 1000)
  let r := socket_power_limit_loop E E.num_sockets 0 pcap_new
  ⟨r.ret, pre ++ Event.printf "Socket |  Powercap(Watts)  |\n" [] :: r.out⟩

/-- The function-local statics `initial` and `start` of a reporting
operation: the epoch latch. -/
structure Epoch where
  initial : Int
  start : Timeval
deriving DecidableEq, Repr

/-- The statics as the C runtime initialises them. -/
def Epoch.fresh : Epoch := ⟨0, ⟨0, 0⟩⟩

/-- The block `if (!initial) { initial = 1; gettimeofday(&start, NULL); ... }`:
the statics after it. -/
def latch_epoch (E : AmdEnv) (st : Epoch) : Epoch :=
  if st.initial = 0 then ⟨1, E.clock_start⟩ else st

/-- The block `if (!initial) { ... if (long_ver == 0) fprintf(header) }`:
the header it prints. -/
def latch_header {D : Type} (st : Epoch) (long_ver : Int) (header : String) :
    List (Event D) :=
  if st.initial = 0 ∧ long_ver = 0 then [Event.printf header []] else []

/-- The socket loop of `amd_cpu_epyc_get_power`. -/
def get_power_loop {D : Type} [DoubleOps D] (E : AmdEnv) (long_ver : Int)
    (start : Timeval) : Nat → Nat → Run D
  | 0, _ => ⟨0, []⟩
  | left + 1, i =>
    let now := E.clock_now i
    let r := E.esmi_socket_power_get i
    let current_power := u32 r.2
    let q : Event D := Event.call Fn.esmi_socket_power_get [i]
    if r.1 ≠ 0 then
      ⟨r.1, [q, Event.printf "Failed to get socket[%d] _POWER, Err[%d]:%s\n"
        [Arg.int i, Arg.int r.1, Arg.str (E.esmi_get_err_msg r.1)]]⟩
    else
      let row : Event D :=
        if long_ver = 0 then
          Event.printf "_AMDPOWER %s %d %f %lf\n"
            [Arg.str E.hostname, Arg.int i, Arg.dbl (milli_to_unit current_power),
             Arg.dbl (elapsed now start)]
        else
          Event.printf
            "_AMDPOWER Host: %s, Socket: %d, Power: %f W, Timestamp: %lf sec\n"
            [Arg.str E.hostname, Arg.int i, Arg.dbl (milli_to_unit current_power),
             Arg.dbl (elapsed now start)]
      let rest := get_power_loop E long_ver start left (i + 1)
      ⟨rest.ret, q :: row :: rest.out⟩

/-- The C function `amd_cpu_epyc_get_power`: its run and the statics it leaves. -/
def amd_cpu_epyc_get_power {D : Type} [DoubleOps D] (E : AmdEnv) (st : Epoch)
    (long_ver : Int) : Run D × Epoch :=
  let pre : List (Event D) :=
    log_entry E.VARIORUM_LOG "Running %s\n" [Arg.str "amd_cpu_epyc_get_power"]
  let hdr : List (Event D) :=
    latch_header st long_ver "_AMDPOWER Host Socket Power_W Timestamp_sec\n"
  let st := latch_epoch E st
  let r := get_power_loop E long_ver st.start E.num_sockets 0
  (⟨r.ret, pre ++ hdr ++ r.out⟩, st)

/-- The socket loop of `amd_cpu_epyc_get_power_limits`. -/
def get_power_limits_loop {D : Type} [DoubleOps D] (E : AmdEnv) (long_ver : Int)
    (start : Timeval) : Nat → Nat → Run D
  | 0, _ => ⟨0, []⟩
  | left + 1, i =>
    let now := E.clock_now i
    let r1 := E.esmi_socket_power_get i
    let power := u32 r1.2
    let q1 : Event D := Event.call Fn.esmi_socket_power_get [i]
    if r1.1 ≠ 0 then
      ⟨r1.1, [q1, Event.printf "Failed to get socket[%d] _POWER, Err[%d]:%s\n"
        [Arg.int i, Arg.int r1.1, Arg.str (E.esmi_get_err_msg r1.1)]]⟩
    else
      let r2 := E.esmi_socket_power_cap_get i
      let pcap_current := u32 r2.2
      let q2 : Event D := Event.call Fn.esmi_socket_power_cap_get [i]
      if r2.1 ≠ 0 then
        ⟨r2.1, [q1, q2, Event.printf "Failed to get socket[%d] _POWERCAP, Err[%d]:%s\n"
          [Arg.int i, Arg.int r2.1, Arg.str (E.esmi_get_err_msg r2.1)]]⟩
      else
        let r3 := E.esmi_socket_power_cap_max_get i
        let pcap_max := u32 r3.2
        let q3 : Event D := Event.call Fn.esmi_socket_power_cap_max_get [i]
        if r3.1 ≠ 0 then
          ⟨r3.1, [q1, q2, q3,
            Event.printf "Failed to get socket[%d] _POWERCAPMAX, Err[%d]:%s\n"
              [Arg.int i, Arg.int r3.1, Arg.str (E.esmi_get_err_msg r3.1)]]⟩
        else
          let row : Event D :=
            if long_ver = 0 then
              Event.printf "_AMDPOWER %s %d %f %f %f %lf\n"
                [Arg.str E.hostname, Arg.int i, Arg.dbl (milli_to_unit power),
                 Arg.dbl (milli_to_unit pcap_current), Arg.dbl (milli_to_unit pcap_max),
                 Arg.dbl (elapsed now start)]
            else
              Event.printf
                "_AMDPOWER Host: %s, Socket: %d, Power: %f W, PowerCap: %f W, MaxPowerCap: %f W, Timestamp: %lf sec\n"
                [Arg.str E.hostname, Arg.int i, Arg.dbl (milli_to_unit power),
                 Arg.dbl (milli_to_unit pcap_current), Arg.dbl (milli_to_unit pcap_max),
                 Arg.dbl (elapsed now start)]
          let rest := get_power_limits_loop E long_ver start left (i + 1)
          ⟨rest.ret, q1 :: q2 :: q3 :: row :: rest.out⟩

/-- The C function `amd_cpu_epyc_get_power_limits`: its run and the statics it
leaves. -/
def amd_cpu_epyc_get_power_limits {D : Type} [DoubleOps D] (E : AmdEnv)
    (st : Epoch) (long_ver : Int) : Run D × Epoch :=
  let pre : List (Event D) :=
    log_entry E.VARIORUM_LOG "Running %s\n" [Arg.str "amd_cpu_epyc_get_power_limits"]
  let hdr : List (Event D) :=
    latch_header st long_ver
      "_AMDPOWER Host Socket Power_W PowerCap_W MaxPowerCap_W Timestamp_sec\n"
  let st := latch_epoch E st
  let r := get_power_limits_loop E long_ver st.start E.num_sockets 0
  (⟨r.ret, pre ++ hdr ++ r.out⟩, st)

/-- The C expression `(double)energy / 1000000` for a `uint64_t` energy. -/
def micro_to_unit {D : Type} [DoubleOps D] (energy : Nat) : D :=
  DoubleOps.div (DoubleOps.ofInt (u64 energy)) (DoubleOps.ofInt 1000000)

/-- The socket loop of `amd_cpu_epyc_print_energy`. The flag is `true` when
the loop ran to its end and `false` when it left through `goto energy_batch`. -/
def socket_energy_loop {D : Type} [DoubleOps D] (E : AmdEnv) :
    Nat → Nat → Bool × List (Event D)
  | 0, _ => (true, [])
  | left + 1, i =>
    let r := E.esmi_socket_energy_get i
    let q : Event D := Event.call Fn.esmi_socket_energy_get [i]
    if r.1 ≠ 0 then
      (false, [q, Event.printf "Failed to get socket[%d] _SOCKENERGY, Err[%d]:%s\n"
        [Arg.int i, Arg.int r.1, Arg.str (E.esmi_get_err_msg r.1)]])
    else
      let rest := socket_energy_loop E left (i + 1)
      (rest.1, q :: Event.printf "%6d  | %17.06f | \n"
        [Arg.int i, Arg.dbl (micro_to_unit r.2)] :: rest.2)

/-- The core loop of `amd_cpu_epyc_print_energy`: a failing core prints its
failure line and the loop continues. -/
def core_energy_loop {D : Type} [DoubleOps D] (E : AmdEnv) :
    Nat → Nat → List (Event D)
  | 0, _ => []
  | left + 1, i =>
    let r := E.esmi_core_energy_get i
    let q : Event D := Event.call Fn.esmi_core_energy_get [i]
    let line : Event D :=
      if r.1 ≠ 0 then
        Event.printf "Failed to get core[%d] _COREENERGY, Err[%d]:%s\n"
          [Arg.int i, Arg.int r.1, Arg.str (E.esmi_get_err_msg r.1)]
      else
        Event.printf " %6d | %17.06f | \n" [Arg.int i, Arg.dbl (micro_to_unit r.2)]
    q :: line :: core_energy_loop E left (i + 1)

/-- The code at the label `energy_batch`: the MSR fallback with the register
addresses `msrs.msr_rapl_power_unit` and `msrs.msr_core_energy_stat`. -/
def energy_batch {D : Type} (E : AmdEnv) : Run D :=
  ⟨E.print_energy_data,
   [Event.printf "Msg: Checking msr-safe module...\n" [],
    Event.call Fn.print_energy_data [0xC0010299, 0xC001029A]]⟩

/-- The C function `amd_cpu_epyc_print_energy`. -/
def amd_cpu_epyc_print_energy {D : Type} [DoubleOps D] (E : AmdEnv)
    (long_ver : Int) : Run D :=
  let pre : List (Event D) :=
    log_entry E.VARIORUM_LOG "Running %s\n" [Arg.str "amd_cpu_epyc_print_energy"] ++
      [Event.call Fn.esmi_init []]
  if E.esmi_init = 0 ∧ long_ver = 0 then
    let head : List (Event D) :=
      [Event.printf "_SOCKET_ENERGY :\n" [],
       Event.printf " Socket |  Energy (uJoules) |\n" []]
    let s := socket_energy_loop E E.num_sockets 0
    if s.1 then
      ⟨0, pre ++ head ++ s.2 ++
        [Event.printf "\n_CORE_ENERGY :\n" [],
         Event.printf "   Core |  Energy (uJoules) |\n" []] ++
        core_energy_loop E E.total_cores 0⟩
    else
      let b : Run D := energy_batch E
      ⟨b.ret, pre ++ head ++ s.2 ++ b.out⟩
  else
    let b : Run D := energy_batch E
    ⟨b.ret, pre ++ b.out⟩

/-- The core loop of `amd_cpu_epyc_print_boostlimit`; when no core is left
control falls through to `return 0`. -/
def print_boostlimit_loop {D : Type} (E : AmdEnv) : Nat → Nat → Run D
  | 0, _ => ⟨0, []⟩
  | left + 1, i =>
    let r := E.esmi_core_boostlimit_get i
    let boostlimit : Nat :=
      match r.2 with
      | some v => u32 v
      | none => 0
    let q : Event D := Event.call Fn.esmi_core_boostlimit_get [i]
    if r.1 ≠ 0 then
      ⟨r.1, [q, Event.printf "Failed to get core[%u] _BOOSTLIMIT, Err[%d]:%s\n"
        [Arg.int i, Arg.int r.1, Arg.str (E.esmi_get_err_msg r.1)]]⟩
    else
      let rest := print_boostlimit_loop E left (i + 1)
      ⟨rest.ret, q :: Event.printf "%6d  | %10u  |\n" [Arg.int i, Arg.int boostlimit] ::
        rest.out⟩

/-- The C function `amd_cpu_epyc_print_boostlimit` (its argument is not used). -/
def amd_cpu_epyc_print_boostlimit {D : Type} (E : AmdEnv) (long_ver : Int) : Run D :=
  let _ := long_ver
  let pre : List (Event D) :=
    log_entry E.VARIORUM_LOG "Running %s\n\n" [Arg.str "amd_cpu_epyc_print_boostlimit"] ++
      [Event.printf " Core   | Freq (MHz)  |\n" []]
  let r : Run D := print_boostlimit_loop E E.total_cores 0
  ⟨r.ret, pre ++ r.out⟩

/-- The core loop of `amd_cpu_epyc_set_each_core_boostlimit`; the `int`
argument is converted to the `uint32_t` parameter of the vendor call. A failing
core prints its line; only the permission status leaves the loop. -/
def set_each_core_boostlimit_loop {D : Type} (E : AmdEnv) (boostlimit : Int) :
    Nat → Nat → Run D
  | 0, _ => ⟨0, []⟩
  | left + 1, i =>
    let ret := E.esmi_core_boostlimit_set i (toUInt32 boostlimit)
    let q : Event D := Event.call Fn.esmi_core_boostlimit_set [i, toUInt32 boostlimit]
    if ret ≠ 0 then
      let line : Event D :=
        Event.printf "Failed to set core[%u] _BOOSTLIMIT, Err[%d]:%s\n"
          [Arg.int i, Arg.int ret, Arg.str (E.esmi_get_err_msg ret)]
      if ret = E.ESMI_PERMISSION then
        ⟨-1, [q, line, Event.error_handler "Incorrect permissions" "VARIORUM_ERROR_INVAL"
                "amd_cpu_epyc_set_each_core_boostlimit"]⟩
      else
        let rest := set_each_core_boostlimit_loop E boostlimit left (i + 1)
        ⟨rest.ret, q :: line :: rest.out⟩
    else
      let rest := set_each_core_boostlimit_loop E boostlimit left (i + 1)
      ⟨rest.ret, q :: rest.out⟩

/-- The C function `amd_cpu_epyc_set_each_core_boostlimit`. -/
def amd_cpu_epyc_set_each_core_boostlimit {D : Type} (E : AmdEnv) (boostlimit : Int) :
    Run D :=
  let pre : List (Event D) :=
    log_entry E.VARIORUM_LOG "Running %s with value %u\n\n"
      [Arg.str "amd_cpu_epyc_set_each_core_boostlimit", Arg.int (toUInt32 boostlimit)]
  let r : Run D := set_each_core_boostlimit_loop E boostlimit E.total_cores 0
  ⟨r.ret, pre ++ r.out⟩

/-- The C function `amd_cpu_epyc_set_socket_boostlimit`. -/
def amd_cpu_epyc_set_socket_boostlimit {D : Type} (E : AmdEnv) (socket boostlimit : Int) :
    Run D :=
  let pre : List (Event D) :=
    log_entry E.VARIORUM_LOG "Running %s with value %u\n\n"
      [Arg.str "amd_cpu_epyc_set_socket_boostlimit", Arg.int (toUInt32 boostlimit)]
  let ret := E.esmi_socket_boostlimit_set socket (toUInt32 boostlimit)
  let q : Event D := Event.call Fn.esmi_socket_boostlimit_set [socket, toUInt32 boostlimit]
  if ret ≠ 0 then
    let line : Event D :=
      Event.printf "Failed to set socket[%d] _BOOSTLIMIT, Err[%d]:%s\n"
        [Arg.int socket, Arg.int ret, Arg.str (E.esmi_get_err_msg ret)]
    if ret = E.ESMI_PERMISSION then
      ⟨-1, pre ++ [q, line, Event.error_handler "Incorrect permissions" "VARIORUM_ERROR_INVAL"
              "amd_cpu_epyc_set_socket_boostlimit"]⟩
    else ⟨ret, pre ++ [q, line]⟩
  else ⟨ret, pre ++ [q]⟩

/-! ## JSON documents (the jansson library) -/

/-- A jansson value. Objects keep their members in insertion order. -/
inductive Json (D : Type) where
  | null
  | bool (b : Bool)
  | integer (v : Int)
  | real (v : D)
  | string (s : String)
  | array (items : List (Json D))
  | object (members : List (String × Json D))

/-- Lookup of a key among the members of an object. -/
def members_get {D : Type} : List (String × Json D) → String → Option (Json D)
  | [], _ => none
  | (k, v) :: rest, key => if k = key then some v else members_get rest key

/-- Setting a key among the members of an object: the value of an existing
key is replaced in place, a new key is added at the end. -/
def members_set {D : Type} :
    List (String × Json D) → String → Json D → List (String × Json D)
  | [], key, v => [(key, v)]
  | (k, x) :: rest, key, v =>
    if k = key then (k, v) :: rest else (k, x) :: members_set rest key v

/-- The jansson function `json_object_get`: `none` is `NULL`, returned for a
missing key and for a value that is not an object. -/
def json_object_get {D : Type} (obj : Json D) (key : String) : Option (Json D) :=
  match obj with
  | Json.object ms => members_get ms key
  | _ => none

/-- The jansson functions `json_object_set_new` and `json_object_set`, as the
object they leave behind; a value that is not an object is left as it is (the
C call fails). -/
def json_object_set_new {D : Type} (obj : Json D) (key : String) (v : Json D) :
    Json D :=
  match obj with
  | Json.object ms => Json.object (members_set ms key v)
  | other => other

/-- The jansson function `json_array_append`. -/
def json_array_append {D : Type} (arr : Json D) (v : Json D) : Json D :=
  match arr with
  | Json.array items => Json.array (items ++ [v])
  | other => other

/-- The jansson function `json_real_value`: the value of a real, and `0.0`
for every value that is not a real. -/
def json_real_value {D : Type} [DoubleOps D] : Json D → D
  | Json.real v => v
  | _ => DoubleOps.ofInt 0

/-- The jansson function `json_integer`, whose argument is a `json_int_t`. -/
def json_integer {D : Type} (v : Int) : Json D := Json.integer (toInt64 v)

/-- A change made through a pointer to the member `key` of `obj`: the member
is replaced by `f` of it (jansson objects are mutated in place). -/
def json_in_place {D : Type} (obj : Json D) (key : String)
    (f : Json D → Json D) : Json D :=
  match json_object_get obj key with
  | some child => json_object_set_new obj key (f child)
  | none => obj

/-- The socket loop of `amd_cpu_epyc_get_power_json` on the document
`get_power_obj` with the running total `node_power`; when no socket is left
control falls through to the `power_node_watts` assignment and `return 0`. -/
def get_power_json_loop {D : Type} [DoubleOps D] (E : AmdEnv) :
    Nat → Nat → Json D → D → Run D × Json D
  | 0, _, get_power_obj, node_power =>
    (⟨0, []⟩,
     json_object_set_new get_power_obj "power_node_watts" (Json.real node_power))
  | left + 1, i, get_power_obj, node_power =>
    let sockID := snprintf_socket i
    let get_power_obj := json_object_set_new get_power_obj sockID (Json.object [])
    let r := E.esmi_socket_power_get i
    let current_power := u32 r.2
    let q : Event D := Event.call Fn.esmi_socket_power_get [i]
    if r.1 ≠ 0 then
      (⟨r.1, [q, Event.printf "Failed to get socket[%d] _POWER, Err[%d]:%s\n"
        [Arg.int i, Arg.int r.1, Arg.str (E.esmi_get_err_msg r.1)]]⟩, get_power_obj)
    else
      let get_power_obj := json_in_place get_power_obj sockID (fun socket_obj =>
        json_object_set_new socket_obj "power_cpu_watts"
          (Json.real (milli_to_unit current_power)))
      let get_power_obj := json_in_place get_power_obj sockID (fun socket_obj =>
        json_object_set_new socket_obj "power_mem_watts"
          (Json.real (DoubleOps.ofInt (-1))))
      let rest := get_power_json_loop E left (i + 1) get_power_obj
        (DoubleOps.add node_power (milli_to_unit current_power))
      (⟨rest.1.ret, q :: rest.1.out⟩, rest.2)

/-- The C function `amd_cpu_epyc_get_power_json`: its run and the document it
leaves. -/
def amd_cpu_epyc_get_power_json {D : Type} [DoubleOps D] (E : AmdEnv)
    (get_power_obj : Json D) : Run D × Json D :=
  let pre : List (Event D) :=
    log_entry E.VARIORUM_LOG "Running %s\n" [Arg.str "amd_cpu_epyc_get_power_json"]
  let r := get_power_json_loop E E.num_sockets 0 get_power_obj (DoubleOps.ofInt 0)
  (⟨r.1.ret, pre ++ r.1.out⟩, r.2)

/-- The C function `amd_cpu_epyc_get_node_power_domain_info_json`: its run and
the document whose dump it stores through `get_domain_obj_str` (`none` when
nothing is stored). -/
def amd_cpu_epyc_get_node_power_domain_info_json {D : Type} (E : AmdEnv) :
    Run D × Option (Json D) :=
  let pre : List (Event D) :=
    log_entry E.VARIORUM_LOG "Running %s\n"
      [Arg.str "amd_cpu_epyc_get_node_power_domain_info_json"]
  let r := E.esmi_socket_power_cap_max_get 0
  let q : Event D := Event.call Fn.esmi_socket_power_cap_max_get [0]
  if r.1 ≠ 0 then
    (⟨r.1, pre ++ [q, Event.printf "Failed to get maximum socket power, Err[%d]:%s\n"
      [Arg.int r.1, Arg.str (E.esmi_get_err_msg r.1)]]⟩, none)
  else
    let max_power := u32 r.2 / 1000
    let ts := ((E.clock_tv.tv_sec * 1000000 + E.clock_tv.tv_usec) % 18446744073709551616).toNat
    let control_cpu_obj : Json D :=
      json_object_set_new
        (json_object_set_new
          (json_object_set_new (Json.object []) "min" (json_integer 50))
          "max" (json_integer max_power))
        "units" (Json.string "Watts")
    let control_obj : Json D :=
      json_object_set_new (Json.object []) "power_cpu" control_cpu_obj
    let unsupported_features : Json D :=
      json_array_append
        (json_array_append (Json.array []) (Json.string "power_node"))
        (Json.string "power_mem")
    let measurement_cpu_obj : Json D :=
      json_object_set_new (Json.object []) "units" (Json.string "Watts")
    let measurement_obj : Json D :=
      json_object_set_new (Json.object []) "power_cpu" measurement_cpu_obj
    let node_obj : Json D :=
      json_object_set_new
        (json_object_set_new
          (json_object_set_new
            (json_object_set_new (Json.object []) "timestamp" (json_integer ts))
            "control" control_obj)
          "unsupported" unsupported_features)
        "measurement" measurement_obj
    (⟨0, pre ++ [q]⟩,
     some (json_object_set_new (Json.object []) E.hostname node_obj))

/-- The C call `snprintf(core_avg_string, 24, "core_%d_avg_freq_mhz", current_core)`. -/
def snprintf_core (current_core : Int) : String :=
  String.mk (("core_".toList ++ decimal_int current_core ++ "_avg_freq_mhz".toList).take 23)

/-- The variables the core loop of `amd_cpu_epyc_get_json_boostlimit` changes. -/
structure JsonBoostCores (D : Type) where
  out : List (Event D)
  current_core : Nat
  boostlimit : Nat
  core_obj : Json D

/-- The core loop of `amd_cpu_epyc_get_json_boostlimit` for one socket. The
status `ret` is assigned and not read; `boostlimit` is what the variable holds
after the call, its previous content when the call stores nothing. -/
def json_boostlimit_cores {D : Type} [DoubleOps D] (E : AmdEnv) :
    Nat → Nat → Nat → Json D → JsonBoostCores D
  | 0, current_core, boostlimit, core_obj => ⟨[], current_core, boostlimit, core_obj⟩
  | left + 1, current_core, boostlimit, core_obj =>
    let r := E.esmi_core_boostlimit_get current_core
    let boostlimit : Nat :=
      match r.2 with
      | some v => u32 v
      | none => boostlimit
    let core_obj := json_object_set_new core_obj (snprintf_core current_core)
      (Json.real (DoubleOps.ofInt boostlimit))
    let rest := json_boostlimit_cores E left (current_core + 1) boostlimit core_obj
    ⟨Event.call Fn.esmi_core_boostlimit_get [current_core] :: rest.out,
     rest.current_core, rest.boostlimit, rest.core_obj⟩

/-- The socket loop of `amd_cpu_epyc_get_json_boostlimit`: the trace and the
document. The objects `cpu_obj` and `core_obj` are attached before the core loop
in C and filled through their pointers; here they are attached with their final
content. -/
def json_boostlimit_sockets {D : Type} [DoubleOps D] (E : AmdEnv) (cores_per_socket : Nat) :
    Nat → Nat → Nat → Nat → Json D → List (Event D) × Json D
  | 0, _, _, _, get_clock_obj_json => ([], get_clock_obj_json)
  | left + 1, socket, current_core, boostlimit, get_clock_obj_json =>
    let socket_name := snprintf_d 16 "socket_" socket
    let doc :=
      match json_object_get get_clock_obj_json socket_name with
      | none => json_object_set_new get_clock_obj_json socket_name (Json.object [])
      | some _ => get_clock_obj_json
    let c := json_boostlimit_cores E cores_per_socket current_core boostlimit (Json.object [])
    let doc := json_in_place doc socket_name (fun socket_obj =>
      json_object_set_new socket_obj "CPU" (Json.object [("core", c.core_obj)]))
    let rest := json_boostlimit_sockets E cores_per_socket left (socket + 1) c.current_core
      c.boostlimit doc
    (c.out ++ rest.1, rest.2)

/-- The C function `amd_cpu_epyc_get_json_boostlimit`: its run and the document
it leaves. `boostlimit` is the content of the uninitialised local variable;
`cores_per_socket = total_cores / num_sockets` is undefined in C for
`num_sockets = 0`. -/
def amd_cpu_epyc_get_json_boostlimit {D : Type} [DoubleOps D] (E : AmdEnv)
    (boostlimit : Nat) (get_clock_obj_json : Json D) : Run D × Json D :=
  let pre : List (Event D) :=
    log_entry E.VARIORUM_LOG "Running %s\n\n" [Arg.str "amd_cpu_epyc_get_json_boostlimit"]
  let cores_per_socket := E.total_cores / E.num_sockets
  let r := json_boostlimit_sockets E cores_per_socket E.num_sockets 0 0 boostlimit
    get_clock_obj_json
  (⟨0, pre ++ r.1⟩, r.2)

/-! ## The Intel GPU adapter (`Intel_GPU/intel_gpu_power_features.c`) -/

/-- The file-level statics of the Intel GPU adapter that the energy
operations use; the two arrays are given by their entries (indexed by the
C `int` used as subscript). -/
structure GpuState (D : Type) where
  m_gpus_per_socket : Nat
  m_init_energy : Nat → Int
  m_initial_energy_for_gpu : Int → D

/-- The initial value of the device loops, `chipid * (int)m_gpus_per_socket`,
for a socket index `chipid >= 0`; the conversion of the `unsigned` count to
`int` and the `int` product wrap at 32 bits. -/
def device_first (chipid g : Nat) : Int :=
  toInt32 ((chipid : Int) * toInt32 g)

/-- The bound of the device loops, `(chipid + 1) * (int)m_gpus_per_socket`. -/
def device_bound (chipid g : Nat) : Int :=
  toInt32 (toInt32 ((chipid : Int) + 1) * toInt32 g)

/-- The number of iterations of
`for (d = first; d < bound; ++d)`. -/
def device_count (chipid g : Nat) : Nat :=
  (device_bound chipid g - device_first chipid g).toNat

/-- The new value of a static `init_output` after the terse branch
`if (!init_output) { ...; init_output = 1; }`. -/
def header_latched (init_output : Int) : Int :=
  if init_output = 0 then 1 else init_output

/-- The device loop of `get_power_data`: the trace and the static
`init_output` it leaves; `readpoweravg d` is what `apmidg_readpoweravg(d, 0)`
returns. -/
def get_power_data_loop {D : Type} (hostname : String) (readpoweravg : Int → D)
    (chipid : Nat) (verbose : Int) : Nat → Int → Int → List (Event D) × Int
  | 0, _, init_output => ([], init_output)
  | left + 1, d, init_output =>
    let value := readpoweravg d
    let q : Event D := Event.call Fn.apmidg_readpoweravg [d, 0]
    if verbose ≠ 0 then
      let r := get_power_data_loop hostname readpoweravg chipid verbose left (d + 1)
        init_output
      (q :: Event.printf
          "_INTEL_GPU_POWER_USAGE Host: %s, Socket: %d, DeviceID: %d, Power: %lf W\n"
          [Arg.str hostname, Arg.int chipid, Arg.int d, Arg.dbl value] :: r.1, r.2)
    else
      let hdr : List (Event D) :=
        if init_output = 0 then
          [Event.printf "%s %s %s %s %s\n"
            [Arg.str "_INTEL_GPU_POWER_USAGE", Arg.str "Host", Arg.str "Socket",
             Arg.str "DeviceID", Arg.str "Power_W"]]
        else []
      let r := get_power_data_loop hostname readpoweravg chipid verbose left (d + 1)
        (header_latched init_output)
      (q :: hdr ++ Event.printf "%s %s %d %d %lf\n"
          [Arg.str "_INTEL_GPU_POWER_USAGE", Arg.str hostname, Arg.int chipid, Arg.int d,
           Arg.dbl value] :: r.1, r.2)

/-- The C function `get_power_data` (its `fprintf`s go to `output`). -/
def get_power_data {D : Type} (hostname : String) (readpoweravg : Int → D)
    (g : Nat) (init_output : Int) (chipid : Nat) (verbose : Int) :
    List (Event D) × Int :=
  get_power_data_loop hostname readpoweravg chipid verbose (device_count chipid g)
    (device_first chipid g) init_output

/-- The device loop of `get_thermal_data`; `readtemp d` is the value
`apmidg_readtemp(d, 0, &temp_C)` stores. -/
def get_thermal_data_loop {D : Type} (hostname : String) (readtemp : Int → D)
    (chipid : Nat) (verbose : Int) : Nat → Int → Int → List (Event D) × Int
  | 0, _, init_output => ([], init_output)
  | left + 1, d, init_output =>
    let temp_C := readtemp d
    let q : Event D := Event.call Fn.apmidg_readtemp [d, 0]
    if verbose ≠ 0 then
      let r := get_thermal_data_loop hostname readtemp chipid verbose left (d + 1)
        init_output
      (q :: Event.printf
          "_INTLE_GPU_TEMPERATURE Host: %s, Socket: %d, DeviceID: %d, Temperature: %.1lf C\n"
          [Arg.str hostname, Arg.int chipid, Arg.int d, Arg.dbl temp_C] :: r.1, r.2)
    else
      let hdr : List (Event D) :=
        if init_output = 0 then
          [Event.printf "%s %s %s %s %s\n"
            [Arg.str "_INTEL_GPU_TEMPERATURE", Arg.str "Host", Arg.str "Socket",
             Arg.str "DeviceID", Arg.str "Temperature_C"]]
        else []
      let r := get_thermal_data_loop hostname readtemp chipid verbose left (d + 1)
        (header_latched init_output)
      (q :: hdr ++ Event.printf "_INTEL_GPU_TEMPERATURE %s %d %d %.1lf\n"
          [Arg.str hostname, Arg.int chipid, Arg.int d, Arg.dbl temp_C] :: r.1, r.2)

/-- The C function `get_thermal_data`. -/
def get_thermal_data {D : Type} (hostname : String) (readtemp : Int → D)
    (g : Nat) (init_output : Int) (chipid : Nat) (verbose : Int) :
    List (Event D) × Int :=
  get_thermal_data_loop hostname readtemp chipid verbose (device_count chipid g)
    (device_first chipid g) init_output

/-- The device loop of `get_clocks_data`; `readfreq d` is the value
`apmidg_readfreq(d, 0, &freq_MHz)` stores. -/
def get_clocks_data_loop {D : Type} [DoubleOps D] (hostname : String)
    (readfreq : Int → D) (chipid : Nat) (verbose : Int) :
    Nat → Int → Int → List (Event D) × Int
  | 0, _, init_output => ([], init_output)
  | left + 1, d, init_output =>
    let freq_MHz := readfreq d
    let q : Event D := Event.call Fn.apmidg_readfreq [d, 0]
    if verbose ≠ 0 then
      let r := get_clocks_data_loop hostname readfreq chipid verbose left (d + 1)
        init_output
      (q :: Event.printf
          "_INTEL_GPU_CLOCKS Host: %s, Socket: %d, DeviceID: %d, GPU_Clock: %d MHz\n"
          [Arg.str hostname, Arg.int chipid, Arg.int d,
           Arg.int (DoubleOps.toInt freq_MHz)] :: r.1, r.2)
    else
      let hdr : List (Event D) :=
        if init_output = 0 then
          [Event.printf "%s %s %s %s %s\n"
            [Arg.str "_INTEL_GPU_CLOCKS", Arg.str "Host", Arg.str "Socket",
             Arg.str "DeviceID", Arg.str "GPU_Clock_MHz"]]
        else []
      let r := get_clocks_data_loop hostname readfreq chipid verbose left (d + 1)
        (header_latched init_output)
      (q :: hdr ++ Event.printf "%s %s %d %d %d\n"
          [Arg.str "_INTEL_GPU_CLOCKS", Arg.str hostname, Arg.int chipid, Arg.int d,
           Arg.int (DoubleOps.toInt freq_MHz)] :: r.1, r.2)

/-- The C function `get_clocks_data`. -/
def get_clocks_data {D : Type} [DoubleOps D] (hostname : String) (readfreq : Int → D)
    (g : Nat) (init_output : Int) (chipid : Nat) (verbose : Int) :
    List (Event D) × Int :=
  get_clocks_data_loop hostname readfreq chipid verbose (device_count chipid g)
    (device_first chipid g) init_output

/-- The device loop of `cap_each_gpu_power_limit`; `getpwrlim d` is the value
`apmidg_getpwrlim(d, 0, &current_powerlimit_mwatts)` stores. -/
def cap_each_gpu_power_limit_loop {D : Type} (getpwrlim : Int → Int)
    (powerlimit_mwatts : Int) : Nat → Int → List (Event D)
  | 0, _ => []
  | left + 1, d =>
    let current_powerlimit_mwatts := getpwrlim d
    let calls : List (Event D) :=
      [Event.call Fn.apmidg_setpwrlim [d, 0, powerlimit_mwatts],
       Event.call Fn.apmidg_getpwrlim [d, 0]]
    let err : List (Event D) :=
      if powerlimit_mwatts ≠ current_powerlimit_mwatts then
        [Event.error_handler "Could not set the specified GPU power limit"
          "VARIORUM_ERROR_PLATFORM_ENV" "cap_each_gpu_power_limit"]
      else []
    calls ++ err ++ cap_each_gpu_power_limit_loop getpwrlim powerlimit_mwatts left (d + 1)

/-- The C function `cap_each_gpu_power_limit`; `powerlimit` is `unsigned`, so
`powerlimit * 1000` wraps at 32 bits before it is stored in the `int`. -/
def cap_each_gpu_power_limit {D : Type} (getpwrlim : Int → Int) (g : Nat)
    (chipid : Nat) (powerlimit : Nat) : List (Event D) :=
  cap_each_gpu_power_limit_loop getpwrlim (toInt32 (u32 (u32 powerlimit * 1000)))
    (device_count chipid g) (device_first chipid g)

/-- The device loop of `get_power_limit_data`. -/
def get_power_limit_data_loop {D : Type} (hostname : String) (getpwrlim : Int → Int)
    (chipid : Nat) (verbose : Int) : Nat → Int → Int → List (Event D) × Int
  | 0, _, init_output => ([], init_output)
  | left + 1, d, init_output =>
    let current_powerlimit_mwatts := getpwrlim d
    let q : Event D := Event.call Fn.apmidg_getpwrlim [d, 0]
    if verbose ≠ 0 then
      let r := get_power_limit_data_loop hostname getpwrlim chipid verbose left (d + 1)
        init_output
      (q :: Event.printf
          "_INTEL_GPU_POWER_LIMIT Host: %s, Socket: %d, DeviceID: %d, GPU_Power_limit: %d mW\n"
          [Arg.str hostname, Arg.int chipid, Arg.int d,
           Arg.int current_powerlimit_mwatts] :: r.1, r.2)
    else
      let hdr : List (Event D) :=
        if init_output = 0 then
          [Event.printf "%s %s %s %s %s"
            [Arg.str "_INTEL_GPU_POWER_LIMIT", Arg.str "Host", Arg.str "Socket",
             Arg.str "DeviceID", Arg.str "GPU_Power_limit_mW"]]
        else []
      let r := get_power_limit_data_loop hostname getpwrlim chipid verbose left (d + 1)
        (header_latched init_output)
      (q :: hdr ++ Event.printf "%s %s %d %d %d\n"
          [Arg.str "_INTEL_GPU_POWER_LIMIT", Arg.str hostname, Arg.int chipid, Arg.int d,
           Arg.int current_powerlimit_mwatts] :: r.1, r.2)

/-- The C function `get_power_limit_data`. -/
def get_power_limit_data {D : Type} (hostname : String) (getpwrlim : Int → Int)
    (g : Nat) (init_output : Int) (chipid : Nat) (verbose : Int) :
    List (Event D) × Int :=
  get_power_limit_data_loop hostname getpwrlim chipid verbose (device_count chipid g)
    (device_first chipid g) init_output

/-- The variables the device loop of `get_energy_data` changes. -/
structure EnergyDataLoop (D : Type) where
  out : List (Event D)
  init_output : Int
  m_initial_energy_for_gpu : Int → D

/-- The device loop of `get_energy_data` for socket `chipid` whose latch
`m_init_energy[chipid]` holds `init`; `readenergy d` is the counter that
`apmidg_readenergy` stores for device `d`. -/
def get_energy_data_loop {D : Type} [DoubleOps D] (hostname : String)
    (readenergy : Int → Nat) (chipid : Nat) (verbose : Int) (init : Int) :
    Nat → Int → Int → (Int → D) → EnergyDataLoop D
  | 0, _, init_output, baseline => ⟨[], init_output, baseline⟩
  | left + 1, d, init_output, baseline =>
    let energy_uj := u64 (readenergy d)
    let joules : D := DoubleOps.mul (DoubleOps.ofInt energy_uj) DoubleOps.micro
    let baseline' := if init = 0 then Function.update baseline d joules else baseline
    let value : D := if init = 0 then DoubleOps.ofInt 0 else DoubleOps.sub joules (baseline d)
    let q : Event D := Event.call Fn.apmidg_readenergy [d, 0]
    if verbose ≠ 0 then
      let r := get_energy_data_loop hostname readenergy chipid verbose init left (d + 1)
        init_output baseline'
      ⟨q :: Event.printf "%s: %s, %s: %d, %s: %d, %s: %lf J\n"
          [Arg.str "_INTEL_GPU_ENERGY_USAGE Host", Arg.str hostname, Arg.str "Socket",
           Arg.int chipid, Arg.str "DeviceID", Arg.int d, Arg.str "Energy",
           Arg.dbl value] :: r.out, r.init_output, r.m_initial_energy_for_gpu⟩
    else
      let hdr : List (Event D) :=
        if init_output = 0 then
          [Event.printf "%s %s %s %s %s\n"
            [Arg.str "_INTEL_GPU_ENERGY_USAGE", Arg.str "Host", Arg.str "Socket",
             Arg.str "DeviceID", Arg.str "Energy"]]
        else []
      let r := get_energy_data_loop hostname readenergy chipid verbose init left (d + 1)
        (header_latched init_output) baseline'
      ⟨q :: hdr ++ Event.printf "%s %s %d %d %lf\n"
          [Arg.str "_INTEL_GPU_ENERGY_USAGE", Arg.str hostname, Arg.int chipid, Arg.int d,
           Arg.dbl value] :: r.out, r.init_output, r.m_initial_energy_for_gpu⟩

/-- The C function `get_energy_data`: its trace, its static `init_output` and
the file-level statics it leaves. -/
def get_energy_data {D : Type} [DoubleOps D] (hostname : String)
    (readenergy : Int → Nat) (init_output : Int) (chipid : Nat) (verbose : Int)
    (st : GpuState D) : List (Event D) × Int × GpuState D :=
  let l := get_energy_data_loop hostname readenergy chipid verbose
    (st.m_init_energy chipid) (device_count chipid st.m_gpus_per_socket)
    (device_first chipid st.m_gpus_per_socket) init_output st.m_initial_energy_for_gpu
  (l.out, l.init_output,
   { m_gpus_per_socket := st.m_gpus_per_socket
     m_init_energy := Function.update st.m_init_energy chipid 1
     m_initial_energy_for_gpu := l.m_initial_energy_for_gpu })

/-- The variables the device loop of `get_energy_json` changes. -/
structure EnergyJsonLoop (D : Type) where
  out : List (Event D)
  m_initial_energy_for_gpu : Int → D
  gpu_obj : Json D
  total_energy_gpu : D
  /-- The values passed to `json_real` for the devices, in loop order. -/
  values : List D

/-- The device loop of `get_energy_json` for socket `chipid` whose latch
`m_init_energy[chipid]` holds `init`; `readenergy d` is the counter that
`apmidg_readenergy` stores for device `d`. -/
def get_energy_json_loop {D : Type} [DoubleOps D] (readenergy : Int → Nat)
    (init : Int) : Nat → Int → (Int → D) → Json D → D → EnergyJsonLoop D
  | 0, _, baseline, gpu_obj, total => ⟨[], baseline, gpu_obj, total, []⟩
  | left + 1, d, baseline, gpu_obj, total =>
    let energy_uj := u64 (readenergy d)
    let joules : D := DoubleOps.mul (DoubleOps.ofInt energy_uj) DoubleOps.micro
    let baseline' := if init = 0 then Function.update baseline d joules else baseline
    let value : D := if init = 0 then DoubleOps.ofInt 0 else DoubleOps.sub joules (baseline d)
    let gpu_obj := json_object_set_new gpu_obj (snprintf_int 24 "GPU_" d) (Json.real value)
    let rest := get_energy_json_loop readenergy init left (d + 1) baseline' gpu_obj
      (DoubleOps.add total value)
    ⟨Event.call Fn.apmidg_readenergy [d, 0] :: rest.out,
     rest.m_initial_energy_for_gpu, rest.gpu_obj, rest.total_energy_gpu,
     value :: rest.values⟩

/-- The device loop of `get_energy_json` as the function starts it for socket
`chipid`. -/
def energy_json_devices {D : Type} [DoubleOps D] (readenergy : Int → Nat)
    (chipid : Nat) (st : GpuState D) : EnergyJsonLoop D :=
  get_energy_json_loop readenergy (st.m_init_energy chipid)
    (device_count chipid st.m_gpus_per_socket) (device_first chipid st.m_gpus_per_socket)
    st.m_initial_energy_for_gpu (Json.object []) (DoubleOps.ofInt 0)

/-- The C function `get_energy_json` for a socket index `chipid >= 0`: its
trace, the statics and the document it leaves. The object `gpu_obj` is attached
to the socket object before the loop in C and filled through its pointer; here
it is attached with its final content. -/
def get_energy_json {D : Type} [DoubleOps D] (readenergy : Int → Nat)
    (chipid : Nat) (st : GpuState D) (get_energy_obj : Json D) :
    List (Event D) × GpuState D × Json D :=
  let socket_id := snprintf_socket chipid
  let doc := json_object_set_new get_energy_obj "num_gpus_per_socket"
    (json_integer st.m_gpus_per_socket)
  let doc :=
    match json_object_get doc socket_id with
    | none => json_object_set_new doc socket_id (Json.object [])
    | some _ => doc
  let l := energy_json_devices readenergy chipid st
  let doc := json_in_place doc socket_id (fun socket_obj =>
    json_object_set_new socket_obj "energy_gpu_joules" l.gpu_obj)
  let st' : GpuState D :=
    { m_gpus_per_socket := st.m_gpus_per_socket
      m_init_energy := Function.update st.m_init_energy chipid 1
      m_initial_energy_for_gpu := l.m_initial_energy_for_gpu }
  let doc :=
    match json_object_get doc "energy_node_joules" with
    | some e =>
      json_object_set_new doc "energy_node_joules"
        (Json.real (DoubleOps.add (json_real_value e) l.total_energy_gpu))
    | none => doc
  (l.out, st', doc)

/-- The per-device values `get_energy_json` writes for socket `chipid`. -/
def gpu_values {D : Type} [DoubleOps D] (readenergy : Int → Nat) (chipid : Nat)
    (st : GpuState D) : List D :=
  (energy_json_devices readenergy chipid st).values

/-- The sum `((0.0 + v0) + v1) + ...` as the C loops accumulate it. -/
def sum_from {D : Type} [DoubleOps D] (acc : D) (vs : List D) : D :=
  vs.foldl DoubleOps.add acc

/-! ## The IBM adapter (`IBM/Power9.c`): the energy toggle -/

/-- The globals of the energy sampler: `active_sampling` and the two fields of
`th_args`. -/
structure Sampler where
  active_sampling : Int
  energy_acc : Nat
  sample_interval : Nat
deriving DecidableEq, Repr

/-- The C function `ibm_cpu_p9_get_node_energy_json`: its run, the globals and
the document it leaves. -/
def ibm_cpu_p9_get_node_energy_json {D : Type} (st : Sampler)
    (get_energy_obj : Json D) : Run D × Sampler × Json D :=
  if st.active_sampling = 0 then
    (⟨0, [Event.call Fn.pthread_attr_init [], Event.call Fn.pthread_attr_setdetachstate [],
          Event.call Fn.pthread_mutex_init [], Event.call Fn.pthread_create []]⟩,
     { active_sampling := 1, energy_acc := 0, sample_interval := 250 },
     json_object_set_new get_energy_obj "energy_node_joules" (json_integer 0))
  else
    (⟨0, [Event.call Fn.pthread_attr_destroy [], Event.call Fn.pthread_mutex_lock [],
          Event.call Fn.pthread_mutex_unlock []]⟩,
     { st with active_sampling := 0 },
     json_object_set_new get_energy_obj "energy_node_joules"
       (json_integer (u64 st.energy_acc)))

/-- Everything an IBM operation reads from outside during one call. -/
structure IbmEnv where
  /-- Result of `gethostname`. -/
  hostname : String
  /-- The socket count stored by `variorum_get_topology`. -/
  nsockets : Nat
  /-- The macro `OCC_SENSOR_DATA_BLOCK_SIZE`. -/
  OCC_SENSOR_DATA_BLOCK_SIZE : Int
  /-- The clock reading taken by `gettimeofday(&start, NULL)`. -/
  clock_start : Timeval
  /-- The clock reading taken by `gettimeofday(&now, NULL)`. -/
  clock_now : Timeval
  /-- Whether `fopen(path, mode)` returns a stream (`false` is `NULL`). -/
  fopen : String → String → Bool
  /-- The integer `fscanf(fp, "%d", ...)` converts from the file at `path`;
  `none` when nothing is converted. -/
  fscanf_d : String → Option Int
  /-- The descriptor returned by `open` on the sensor file. -/
  open_sensors : Int
  /-- Whether `malloc` returns a buffer in the iteration of socket `iter`. -/
  malloc : Nat → Bool
  /-- The result of the `k`-th `read` call of the iteration of socket `iter`. -/
  read : Nat → Nat → Int

/-- The sysfs file of the current node power cap. -/
def powercap_current : String :=
  "/sys/firmware/opal/powercap/system-powercap/powercap-current"

/-- The sysfs file of the maximum node power cap. -/
def powercap_max : String :=
  "/sys/firmware/opal/powercap/system-powercap/powercap-max"

/-- The first power-shift-ratio file. -/
def psr_cpu_to_gpu_0 : String := "/sys/firmware/opal/psr/cpu_to_gpu_0"

/-- The second power-shift-ratio file. -/
def psr_cpu_to_gpu_8 : String := "/sys/firmware/opal/psr/cpu_to_gpu_8"

/-- The preamble of the IBM entry points,
`char *val = ("VARIORUM_LOG"); if (val != NULL && atoi(val) == 1) printf(...)`:
`val` is the string literal itself. -/
def ibm_log_entry {D : Type} (fmt : String) (args : List (Arg D)) : List (Event D) :=
  log_entry (some "VARIORUM_LOG") fmt args

/-- The call of `variorum_error_handler` made by the IBM cap setters. -/
def opal_permission_error {D : Type} (func : String) : Event D :=
  Event.error_handler "Incorrect permissions on OPAL files" "VARIORUM_ERROR_INVAL" func

/-- The four guidance `fprintf`s of `ibm_cpu_p9_cap_and_verify_node_power_limit`. -/
def ibm_verify_guidance {D : Type} : List (Event D) :=
  [Event.printf
    "IBM systems may encounter a delay when setting power limits on the node." [],
   Event.printf "We could not verify if the power cap was set correctly.\n" [],
   Event.printf "The verification check after 100ms failed.\n" [],
   Event.printf "Please verify again with variorum_print_power_limit().\n" []]

/-- The C function `ibm_cpu_p9_cap_and_verify_node_power_limit`. -/
def ibm_cpu_p9_cap_and_verify_node_power_limit {D : Type} (E : IbmEnv)
    (pcap_new : Int) : Run D :=
  let pre : List (Event D) :=
    ibm_log_entry "Running %s with value %d\n"
      [Arg.str "ibm_cpu_p9_cap_and_verify_node_power_limit", Arg.int pcap_new]
  if E.fopen powercap_current "w+" = false then
    ⟨-1, pre ++ [Event.fopen powercap_current "w+",
      opal_permission_error "ibm_cpu_p9_cap_and_verify_node_power_limit"]⟩
  else
    let write : List (Event D) :=
      [Event.fopen powercap_current "w+", Event.fprintf_d powercap_current pcap_new,
       Event.fclose powercap_current, Event.call Fn.usleep [100000],
       Event.fopen powercap_current "r"]
    if E.fopen powercap_current "r" = false then
      ⟨-1, pre ++ write ++
        [opal_permission_error "ibm_cpu_p9_cap_and_verify_node_power_limit"]⟩
    else
      let pcap_test : Int :=
        match E.fscanf_d powercap_current with
        | some v => v
        | none => 0
      let read : List (Event D) :=
        [Event.fscanf_d powercap_current, Event.fclose powercap_current]
      if pcap_new ≠ pcap_test then
        ⟨-1, pre ++ write ++ read ++ ibm_verify_guidance⟩
      else
        ⟨0, pre ++ write ++ read ++
          [Event.printf "Changed node power cap to %d W.\n" [Arg.int pcap_new]]⟩

/-- The C function `ibm_cpu_p9_cap_gpu_power_ratio`. -/
def ibm_cpu_p9_cap_gpu_power_ratio {D : Type} (E : IbmEnv)
    (gpu_power_ratio : Int) : Run D :=
  let pre : List (Event D) :=
    ibm_log_entry "Running %s with value %d\n"
      [Arg.str "ibm_cpu_p9_cap_gpu_power_ratio", Arg.int gpu_power_ratio]
  let opens : List (Event D) :=
    [Event.fopen psr_cpu_to_gpu_0 "w+", Event.fopen psr_cpu_to_gpu_8 "w+"]
  if E.fopen psr_cpu_to_gpu_0 "w+" = false ∨ E.fopen psr_cpu_to_gpu_8 "w+" = false then
    ⟨-1, pre ++ opens ++ [opal_permission_error "ibm_cpu_p9_cap_gpu_power_ratio"]⟩
  else
    ⟨0, pre ++ opens ++
      [Event.fprintf_d psr_cpu_to_gpu_0 gpu_power_ratio,
       Event.fprintf_d psr_cpu_to_gpu_8 gpu_power_ratio,
       Event.fclose psr_cpu_to_gpu_0, Event.fclose psr_cpu_to_gpu_8,
       Event.call Fn.usleep [100000],
       Event.printf "Changed power shifting ratio on both sockets to %d percent.\n"
         [Arg.int gpu_power_ratio],
       Event.printf "\nNOTE: \n" [],
       Event.printf
         "  A 100ms delay was added to allow for file operations to propagate out of band.\n  This delay may not be sufficient, so please verify again with\n  variorum_print_power_limit() before setting the ratio again. We have seen delays of up to\n  2 seconds with out of band enforcement for GPU ratio.\n"
         []]⟩

/-- The read loop of the sensor operations,
`for (rc = bytes = 0; bytes < SIZE; bytes += rc) { rc = read(...); if (!rc || rc < 0) break; }`,
from the `k`-th read on with `bytes` bytes read so far: the final `bytes` and the
`read` calls. The first argument bounds the number of iterations; `SIZE`
iterations are enough, since every iteration that continues adds at least one
byte. -/
def read_block_loop {D : Type} (size : Int) (fd : Int) (read : Nat → Int) :
    Nat → Nat → Int → Int × List (Event D)
  | 0, _, bytes => (bytes, [])
  | fuel + 1, k, bytes =>
    if bytes < size then
      let rc := read k
      let ev : Event D := Event.call Fn.read [fd, bytes, size - bytes]
      if rc = 0 ∨ rc < 0 then (bytes, [ev])
      else
        let r := read_block_loop size fd read fuel (k + 1) (bytes + rc)
        (r.1, ev :: r.2)
    else (bytes, [])

/-- The read loop for the block of socket `iter`, started as in the C code. -/
def read_block {D : Type} (E : IbmEnv) (iter : Nat) : Int × List (Event D) :=
  read_block_loop E.OCC_SENSOR_DATA_BLOCK_SIZE E.open_sensors (E.read iter)
    E.OCC_SENSOR_DATA_BLOCK_SIZE.toNat 0 0

/-- The socket loop of `ibm_cpu_p9_get_power`; when no socket is left control
falls through to `close(fd); return 0`. The offset passed to `lseek` is the
product `iter * OCC_SENSOR_DATA_BLOCK_SIZE`, taken without wrap-around. -/
def ibm_get_power_loop {D : Type} (E : IbmEnv) (long_ver : Int) : Nat → Nat → Run D
  | 0, _ => ⟨0, [Event.call Fn.close [E.open_sensors]]⟩
  | left + 1, iter =>
    let head : List (Event D) :=
      [Event.call Fn.lseek [E.open_sensors, iter * E.OCC_SENSOR_DATA_BLOCK_SIZE],
       Event.call Fn.malloc [E.OCC_SENSOR_DATA_BLOCK_SIZE]]
    if E.malloc iter = false then
      ⟨-1, head ++ [Event.printf "Failed to allocate\n" []]⟩
    else
      let rd : Int × List (Event D) := read_block E iter
      if rd.1 ≠ E.OCC_SENSOR_DATA_BLOCK_SIZE then
        ⟨-1, head ++ rd.2 ++
          [Event.printf "Failed to read data\n" [], Event.call Fn.free []]⟩
      else
        let rest := ibm_get_power_loop E long_ver left (iter + 1)
        ⟨rest.ret, head ++ rd.2 ++
          [Event.call Fn.print_power_sensors [iter, long_ver], Event.call Fn.free []] ++
          rest.out⟩

/-- The C function `ibm_cpu_p9_get_power`. -/
def ibm_cpu_p9_get_power {D : Type} (E : IbmEnv) (long_ver : Int) : Run D :=
  let pre : List (Event D) :=
    ibm_log_entry "Running %s\n" [Arg.str "ibm_cpu_p9_get_power"] ++
      [Event.call Fn.open_occ_inband_sensors []]
  if E.open_sensors < 0 then
    ⟨-1, pre ++ [Event.printf "Failed to open occ_inband_sensors file\n" []]⟩
  else
    let r : Run D := ibm_get_power_loop E long_ver E.nsockets 0
    ⟨r.ret, pre ++ r.out⟩

/-- The C function `ibm_cpu_p9_get_energy`: its run, its statics `init` and
`start`, and the globals of the sampler. -/
def ibm_cpu_p9_get_energy {D : Type} [DoubleOps D] (E : IbmEnv) (ep : Epoch)
    (st : Sampler) (long_ver : Int) : Run D × Epoch × Sampler :=
  let hdr : List (Event D) :=
    latch_header ep long_ver "_IBMENERGY Host AccumulatedEnergy_J Timestamp_sec\n"
  let ep : Epoch := if ep.initial = 0 then ⟨1, E.clock_start⟩ else ep
  let row (energy_acc : Nat) : Event D :=
    if long_ver ≠ 0 then
      Event.printf "_IBMENERGY Host: %s, Accumulated Energy: %lu J, Timestamp: %lf sec\n"
        [Arg.str E.hostname, Arg.int (u64 energy_acc), Arg.dbl (elapsed E.clock_now ep.start)]
    else
      Event.printf "%s %s %lu %lf\n"
        [Arg.str "_IBMENERGY", Arg.str E.hostname, Arg.int (u64 energy_acc),
         Arg.dbl (elapsed E.clock_now ep.start)]
  if st.active_sampling = 0 then
    (⟨0, hdr ++ [row 0, Event.call Fn.pthread_attr_init [],
        Event.call Fn.pthread_attr_setdetachstate [],
        Event.call Fn.pthread_mutex_init [], Event.call Fn.pthread_create []]⟩,
     ep, { active_sampling := 1, energy_acc := 0, sample_interval := 250 })
  else
    (⟨0, hdr ++ [Event.call Fn.pthread_attr_destroy [], Event.call Fn.pthread_mutex_lock [],
        row st.energy_acc, Event.call Fn.pthread_mutex_unlock []]⟩,
     ep, { st with active_sampling := 0 })

/-- One pass through the body of the `while (active_sampling)` loop of
`power_measurement`, `take_measurement` returning `curr_measurement`:
`th_args.energy_acc += curr_measurement * th_args.sample_interval` on
`unsigned long`. -/
def power_measurement_step (curr_measurement : Nat) (st : Sampler) : Sampler :=
  { st with
    energy_acc := u64 (u64 st.energy_acc + u64 (u64 curr_measurement * st.sample_interval)) }

/-- The C function `take_measurement`, called on the descriptor `E.open_sensors`
for the block of socket 0: the `unsigned long` it returns and its trace.
`node_power` is what `get_node_power(buf)` returns for a block read in full. The
two failure paths execute `return -1`. -/
def take_measurement {D : Type} (E : IbmEnv) (node_power : Nat) : Nat × List (Event D) :=
  let pre : List (Event D) := ibm_log_entry "Running %s\n" [Arg.str "take_measurement"]
  let head : List (Event D) :=
    [Event.call Fn.lseek [E.open_sensors, 0 * E.OCC_SENSOR_DATA_BLOCK_SIZE],
     Event.call Fn.malloc [E.OCC_SENSOR_DATA_BLOCK_SIZE]]
  if E.malloc 0 = false then
    (toUInt64 (-1), pre ++ head ++ [Event.printf "Failed to allocate\n" []])
  else
    let rd : Int × List (Event D) := read_block E 0
    if rd.1 ≠ E.OCC_SENSOR_DATA_BLOCK_SIZE then
      (toUInt64 (-1), pre ++ head ++ rd.2 ++
        [Event.printf "Failed to read data\n" [], Event.call Fn.free []])
    else
      (u64 node_power, pre ++ head ++ rd.2 ++
        [Event.call Fn.get_node_power [], Event.call Fn.free []])

/-- The results of the `read` calls fit their requests along the read loop:
whenever the loop calls `read` with `bytes` bytes read so far, the result is at
most `size - bytes`. -/
def reads_fit (size : Int) (read : Nat → Int) : Nat → Nat → Int → Prop
  | 0, _, _ => True
  | fuel + 1, k, bytes =>
    bytes < size →
      read k ≤ size - bytes ∧ (0 < read k → reads_fit size read fuel (k + 1) (bytes + read k))

/-- The results delivered by the `read` calls of a run of the read loop, in
order. -/
def delivered {D : Type} (read : Nat → Int) (k : Nat) (run : Int × List (Event D)) :
    List Int :=
  (List.range' k run.2.length).map read

/-- The assignment `m_gpus_per_socket = m_total_unit_devices / m_num_package` of
`initAPMIDG`, on `unsigned` values (undefined in C for `m_num_package = 0`). -/
def initAPMIDG_gpus_per_socket (m_total_unit_devices m_num_package : Nat) : Nat :=
  m_total_unit_devices / m_num_package

/-- The device indices `s*g <= d < (s+1)*g` of socket `s`. -/
def device_range (s g : Nat) : List Nat := List.range' (s * g) g

/-! ## Reading traces -/

/-- The trace holds a call `esmi_socket_power_cap_set(i, v)`. -/
def wrote {D : Type} (out : List (Event D)) (i v : Nat) : Prop :=
  Event.call Fn.esmi_socket_power_cap_set [(i : Int), (v : Int)] ∈ out

/-- The trace holds the final line `Changed node power cap to ... W.`. -/
def printed_changed {D : Type} (out : List (Event D)) : Prop :=
  ∃ w : D, Event.printf "Changed node power cap to %2.03f W.\n" [Arg.dbl w] ∈ out

/-- A value in the range of C `int`. -/
def in_int32 (x : Int) : Prop := -2147483648 ≤ x ∧ x < 2147483648

/-- Socket `j` was written and its read-back equals the value written. -/
def readback_ok {D : Type} (E : AmdEnv) (out : List (Event D)) (j : Nat) : Prop :=
  ∃ v : Nat, wrote out j v ∧ u32 (E.esmi_socket_power_cap_get j).2 = v

/-- The trace of one iteration of the node-cap loop from the maximum query
up to and including the read-back call (used to state the loop lemmas). -/
def iteration_events {D : Type} [DoubleOps D] (E : AmdEnv) (i : Nat)
    (p : Int) : List (Event D) :=
  clamp_events E i p ++
    [Event.call Fn.esmi_socket_power_cap_set
        [(i : Int), (toUInt32 (clamp_value E i p) : Int)],
     Event.call Fn.usleep [100000],
     Event.call Fn.esmi_socket_power_cap_get [(i : Int)]]

/-- The external call of an event, if the event is one. -/
def vendor_call {D : Type} : Event D → Option (Fn × List Int)
  | Event.call fn args => some (fn, args)
  | _ => none

/-- All external calls of a trace, in order. -/
def vendor_calls {D : Type} (out : List (Event D)) : List (Fn × List Int) :=
  out.filterMap vendor_call

/-- The socket (or core) index of a data row: a `printf` with one of the given
row formats, whose arguments start with the index (`lead = 0`) or with the host
name followed by the index (`lead = 1`). -/
def row_index {D : Type} (formats : List String) (lead : Nat) : Event D → Option Int
  | Event.printf fmt args =>
    if fmt ∈ formats then
      match args.drop lead with
      | Arg.int i :: _ => some i
      | _ => none
    else none
  | _ => none

/-- The indices of all data rows of a trace, in order. -/
def row_indices {D : Type} (formats : List String) (lead : Nat)
    (out : List (Event D)) : List Int :=
  out.filterMap (row_index formats lead)

/-- The two row formats of `amd_cpu_epyc_get_power` (terse and verbose). -/
def power_row_formats : List String :=
  ["_AMDPOWER %s %d %f %lf\n",
   "_AMDPOWER Host: %s, Socket: %d, Power: %f W, Timestamp: %lf sec\n"]

/-- The two row formats of `amd_cpu_epyc_get_power_limits`. -/
def limit_row_formats : List String :=
  ["_AMDPOWER %s %d %f %f %f %lf\n",
   "_AMDPOWER Host: %s, Socket: %d, Power: %f W, PowerCap: %f W, MaxPowerCap: %f W, Timestamp: %lf sec\n"]

/-- The socket indices of the data rows printed by `amd_cpu_epyc_get_power`. -/
def power_rows {D : Type} (out : List (Event D)) : List Int :=
  row_indices power_row_formats 1 out

/-- The socket indices of the data rows printed by
`amd_cpu_epyc_get_power_limits`. -/
def limit_rows {D : Type} (out : List (Event D)) : List Int :=
  row_indices limit_row_formats 1 out

/-- The indices `s, s + 1, ..., s + n - 1` as C `int` values. -/
def index_range (s n : Nat) : List Int :=
  (List.range' s n).map (fun (i : Nat) => (i : Int))

/-- The three vendor queries `amd_cpu_epyc_get_power_limits` issues for socket
`i`, in order. -/
def limit_queries (i : Nat) : List (Fn × List Int) :=
  [(Fn.esmi_socket_power_get, [(i : Int)]),
   (Fn.esmi_socket_power_cap_get, [(i : Int)]),
   (Fn.esmi_socket_power_cap_max_get, [(i : Int)])]

/-- The status codes of the three queries of `limit_queries` on socket `i`. -/
def limit_status (E : AmdEnv) (i : Nat) : List Int :=
  [(E.esmi_socket_power_get i).1, (E.esmi_socket_power_cap_get i).1,
   (E.esmi_socket_power_cap_max_get i).1]


/-- The trace holds the row `<i> | <w> | successfully set`. -/
def reported_set {D : Type} (out : List (Event D)) (i : Nat) (w : D) : Prop :=
  Event.printf "%6d | %14.03f    | successfully set\n"
    [Arg.int (i : Int), Arg.dbl w] ∈ out


/-- The core indices of the energy rows printed by the core loop of
`amd_cpu_epyc_print_energy`. -/
def core_energy_rows {D : Type} (out : List (Event D)) : List Int :=
  row_indices [" %6d | %17.06f | \n"] 0 out

/-- The core indices named by the failure lines of the core loop of
`amd_cpu_epyc_print_energy`. -/
def core_failure_lines {D : Type} (out : List (Event D)) : List Int :=
  row_indices ["Failed to get core[%d] _COREENERGY, Err[%d]:%s\n"] 0 out

/-- The cores among `s, ..., s + n - 1` whose energy query fails (`failing`)
or succeeds (`¬ failing`), in ascending order. -/
def cores_with_status (E : AmdEnv) (failing : Bool) (s n : Nat) : List Int :=
  ((List.range' s n).filter
    (fun i => decide ((E.esmi_core_energy_get i).1 ≠ 0) == failing)).map
    (fun (i : Nat) => (i : Int))

/-! ## Concrete environments -/

/-- A two-socket node whose vendor calls all succeed: every socket reports
a maximum cap of 200 W and reads back a cap of 100 W. -/
def amd_two_sockets : AmdEnv where
  VARIORUM_LOG := none
  hostname := "node0"
  num_sockets := 2
  total_cores := 4
  ESMI_PERMISSION := 4
  esmi_get_err_msg := fun _ => "error"
  clock_start := ⟨10, 0⟩
  clock_now := fun _ => ⟨12, 0⟩
  clock_tv := ⟨12, 0⟩
  esmi_init := 0
  esmi_socket_power_get := fun i => (0, 50000 + 1000 * i)
  esmi_socket_power_cap_get := fun _ => (0, 100000)
  esmi_socket_power_cap_max_get := fun _ => (0, 200000)
  esmi_socket_power_cap_set := fun _ _ => 0
  esmi_socket_energy_get := fun _ => (0, 7000000)
  esmi_core_energy_get := fun i => if i = 1 then (1, 0) else (0, 3000000)
  print_energy_data := 0

/-- The message of a `variorum_error_handler` call, if the event is one. -/
def handler_message {D : Type} : Event D → Option String
  | Event.error_handler msg _ _ => some msg
  | _ => none

/-- The messages of all `variorum_error_handler` calls of a trace, in order. -/
def handler_messages {D : Type} (out : List (Event D)) : List String :=
  out.filterMap handler_message

/-- The value of a power-cap write to socket `i`, if the event is one. -/
def written_to {D : Type} (i : Nat) : Event D → Option Int
  | Event.call Fn.esmi_socket_power_cap_set [a, v] =>
    if a = (i : Int) then some v else none
  | _ => none

/-- The values of all power-cap writes to socket `i` in a trace, in order. -/
def writes_to {D : Type} (i : Nat) (out : List (Event D)) : List Int :=
  out.filterMap (written_to i)

/-- The trace holds a call `esmi_socket_power_cap_get(i, ...)`. -/
def read_back {D : Type} (out : List (Event D)) (i : Nat) : Prop :=
  Event.call Fn.esmi_socket_power_cap_get [(i : Int)] ∈ out

/-- A two-socket node on which the power-cap write to socket 1 is refused
with the permission status; socket 0 accepts and reads back 100 W. -/
def amd_denied : AmdEnv :=
  { amd_two_sockets with
    esmi_socket_power_cap_set := fun i _ => if i = 1 then 4 else 0 }

/-- A two-socket node on which the power-cap query of socket 1 fails with
status 7 (its power query succeeds). -/
def amd_query_fails : AmdEnv :=
  { amd_two_sockets with
    esmi_socket_power_cap_get := fun i => if i = 1 then (7, 0) else (0, 100000) }

/-- A two-socket node on which the power query of socket 1 fails with
status 5. -/
def amd_power_fails : AmdEnv :=
  { amd_two_sockets with
    esmi_socket_power_get := fun i => if i = 1 then (5, 0) else (0, 50000) }

/-- The socket powers in watts, `(double)current_power / 1000`, that
`amd_cpu_epyc_get_power_json` measures for sockets `s, ..., s + n - 1`. -/
def socket_watts {D : Type} [DoubleOps D] (E : AmdEnv) (s n : Nat) : List D :=
  (List.range' s n).map (fun i => milli_to_unit ((u32 (E.esmi_socket_power_get i).2 : Nat) : Int))

/-- A sampler in the Sampling state with 7 accumulated units. -/
def sampler_running : Sampler := ⟨1, 7, 250⟩

/-- A sampler in the Idle state. -/
def sampler_idle : Sampler := ⟨0, 0, 0⟩

/-- The value found by following a path of keys through nested objects
(`json_object_get` at every step), starting from a possibly absent document. -/
def json_path {D : Type} : Option (Json D) → List String → Option (Json D)
  | o, [] => o
  | none, _ :: _ => none
  | some j, k :: ks => json_path (json_object_get j k) ks

/-- A GPU adapter with one device per socket whose socket 0 has already been
sampled once, with a baseline of 1 J for every device. -/
def gpu_started : GpuState ℚ where
  m_gpus_per_socket := 1
  m_init_energy := fun _ => 1
  m_initial_energy_for_gpu := fun _ => 1

/-- A vendor library whose energy counter reads 3000000 microjoules on every
device. -/
def gpu_counter : Int → Nat := fun _ => 3000000

/-- The document left by the stop toggle of `ibm_cpu_p9_get_node_energy_json`
on an empty document, the sampler holding 7: `{"energy_node_joules": 7}`. -/
def cpu_energy_document : Json ℚ :=
  (ibm_cpu_p9_get_node_energy_json sampler_running (Json.object []) :
    Run ℚ × Sampler × Json ℚ).2.2

/-- The number written by a list of decimal digit characters. -/
def digits_value (cs : List Char) : Nat :=
  cs.foldl (fun acc c => 10 * acc + (c.toNat - 48)) 0

/-- The member `socket_<i>` that `amd_cpu_epyc_get_power_json` builds for
socket `i`: its key and its object. -/
def socket_entry {D : Type} [DoubleOps D] (E : AmdEnv) (i : Nat) : String × Json D :=
  (snprintf_socket i,
   Json.object
    [("power_cpu_watts",
        Json.real (milli_to_unit ((u32 (E.esmi_socket_power_get i).2 : Nat) : Int))),
     ("power_mem_watts", Json.real (DoubleOps.ofInt (-1)))])

/-- A node with 10001 sockets, each reading 1000 mW. -/
def amd_many_sockets : AmdEnv :=
  { amd_two_sockets with
    num_sockets := 10001
    esmi_socket_power_get := fun _ => (0, 1000) }

/-- A two-socket node on which the power-cap write to socket 0 fails with the
vendor code 5, which is not the permission status 4. -/
def amd_write_error : AmdEnv :=
  { amd_two_sockets with
    esmi_socket_power_cap_set := fun _ _ => 5 }

/-! ## Sequences of calls in one process -/

/-- A sequence of calls of `amd_cpu_epyc_get_power` in one process: each call
has its own environment and its `long_ver` argument, the statics are handed
from one call to the next. The result is the whole output and the statics
left by the last call. -/
def get_power_calls {D : Type} [DoubleOps D] :
    List (AmdEnv × Int) → Epoch → List (Event D) × Epoch
  | [], st => ([], st)
  | (E, long_ver) :: rest, st =>
    let r : Run D × Epoch := amd_cpu_epyc_get_power E st long_ver
    let t := get_power_calls rest r.2
    (r.1.out ++ t.1, t.2)

/-- The terse header line of `amd_cpu_epyc_get_power`. -/
def is_power_header {D : Type} : Event D → Bool
  | Event.printf fmt [] => fmt = "_AMDPOWER Host Socket Power_W Timestamp_sec\n"
  | _ => false

/-- The number of terse header lines in an output. -/
def power_header_count {D : Type} (out : List (Event D)) : Nat :=
  out.countP is_power_header

/-- The socket indices of the terse data rows of `amd_cpu_epyc_get_power`. -/
def terse_power_rows {D : Type} (out : List (Event D)) : List Int :=
  row_indices ["_AMDPOWER %s %d %f %lf\n"] 1 out

/-- The elapsed-time column of a data row of `amd_cpu_epyc_get_power`. -/
def elapsed_column {D : Type} : Event D → Option D
  | Event.printf fmt [Arg.str _, Arg.int _, Arg.dbl _, Arg.dbl t] =>
    if fmt ∈ power_row_formats then some t else none
  | _ => none

/-- The elapsed-time columns of all data rows of an output, in order. -/
def elapsed_columns {D : Type} (out : List (Event D)) : List D :=
  out.filterMap elapsed_column

/-- The number of data rows the power loop prints from socket `i` on: the
sockets before the first failing query. -/
def rows_emitted (E : AmdEnv) : Nat → Nat → Nat
  | 0, _ => 0
  | left + 1, i =>
    if (E.esmi_socket_power_get i).1 ≠ 0 then 0 else 1 + rows_emitted E left (i + 1)

/-- The clock readings `now` of the data rows of a sequence of calls. -/
def row_clocks (calls : List (AmdEnv × Int)) : List Timeval :=
  calls.flatMap (fun c =>
    (List.range' 0 (rows_emitted c.1 c.1.num_sockets 0)).map c.1.clock_now)

/-- A clock reading in microseconds. -/
def micros (t : Timeval) : Int := t.tv_sec * 1000000 + t.tv_usec

/-- The two-socket node at a later time: the clock reads 15 s. -/
def amd_two_sockets_later : AmdEnv :=
  { amd_two_sockets with clock_now := fun _ => ⟨15, 0⟩ }

/-- The file and value of a `fprintf(fp, "%d", v)`, if the event is one. -/
def file_write {D : Type} : Event D → Option (String × Int)
  | Event.fprintf_d path v => some (path, v)
  | _ => none

/-- All `fprintf(fp, "%d", v)` calls of a trace, in order. -/
def file_writes {D : Type} (out : List (Event D)) : List (String × Int) :=
  out.filterMap file_write

/-- The file and mode of a `fopen`, if the event is one. -/
def file_open {D : Type} : Event D → Option (String × String)
  | Event.fopen path mode => some (path, mode)
  | _ => none

/-- All `fopen` calls of a trace, in order. -/
def file_opens {D : Type} (out : List (Event D)) : List (String × String) :=
  out.filterMap file_open

/-- The formats of all `printf` calls of a trace, in order. -/
def printed_formats {D : Type} (out : List (Event D)) : List String :=
  out.filterMap (fun e => match e with
    | Event.printf fmt _ => some fmt
    | _ => none)

/-- The value `pcap_test` that `ibm_cpu_p9_cap_and_verify_node_power_limit`
compares with the request: the integer converted by `fscanf`, and the initial
0 when nothing is converted. -/
def ibm_read_back (E : IbmEnv) : Int :=
  match E.fscanf_d powercap_current with
  | some v => v
  | none => 0

/-- The arguments of the calls of one external function, in order. -/
def calls_of {D : Type} (fn : Fn) (out : List (Event D)) : List (List Int) :=
  (vendor_calls out).filterMap (fun c => if c.1 = fn then some c.2 else none)

/-- The block of socket `iter` is allocated and read in full. -/
def block_ok (E : IbmEnv) (iter : Nat) : Prop :=
  E.malloc iter = true ∧
    (read_block E iter : Int × List (Event Unit)).1 = E.OCC_SENSOR_DATA_BLOCK_SIZE

/-- The accumulator value printed by a row of `ibm_cpu_p9_get_energy`. -/
def energy_row_value {D : Type} : Event D → Option Int
  | Event.printf fmt [Arg.str _, Arg.int v, Arg.dbl _] =>
    if fmt = "_IBMENERGY Host: %s, Accumulated Energy: %lu J, Timestamp: %lf sec\n"
    then some v else none
  | Event.printf fmt [Arg.str _, Arg.str _, Arg.int v, Arg.dbl _] =>
    if fmt = "%s %s %lu %lf\n" then some v else none
  | _ => none

/-- The accumulator values reported by the rows of a trace. -/
def reported_energy {D : Type} (out : List (Event D)) : List Int :=
  out.filterMap energy_row_value

/-- An IBM node with two sockets and a sensor block of 8 bytes; every file
opens, the cap file reads back 3000, the maximum-cap file holds 3050, and every
block arrives in two reads of 5 and 3 bytes. -/
def ibm_node : IbmEnv where
  hostname := "node0"
  nsockets := 2
  OCC_SENSOR_DATA_BLOCK_SIZE := 8
  clock_start := ⟨10, 0⟩
  clock_now := ⟨12, 0⟩
  fopen := fun _ _ => true
  fscanf_d := fun path => if path = powercap_max then some 3050 else some 3000
  open_sensors := 3
  malloc := fun _ => true
  read := fun _ k => if k = 0 then 5 else 3

/-- The IBM node with the second power-shift-ratio file not writable. -/
def ibm_node_psr_denied : IbmEnv :=
  { ibm_node with fopen := fun path _ => decide (path ≠ psr_cpu_to_gpu_8) }

/-- The IBM node on which the block of socket 1 ends after 5 bytes. -/
def ibm_node_short_read : IbmEnv :=
  { ibm_node with read := fun iter k => if k = 0 then 5 else if iter = 1 then 0 else 3 }

/-- The IBM node on which `malloc` fails. -/
def ibm_node_no_memory : IbmEnv :=
  { ibm_node with malloc := fun _ => false }

/-- The vendor calls `fn(d, 0)` for the devices `chipid*g <= d < (chipid+1)*g`,
each once, in ascending order. -/
def device_calls (fn : Fn) (chipid g : Nat) : List (Fn × List Int) :=
  (List.range' (chipid * g) g).map (fun (d : Nat) => (fn, [(d : Int), 0]))

/-- The vendor calls of the cap for the devices `chipid*g <= d < (chipid+1)*g`,
in ascending order: the limit is set, then read back. -/
def cap_device_calls (powerlimit_mwatts : Int) (chipid g : Nat) :
    List (Fn × List Int) :=
  ((List.range' (chipid * g) g).map (fun (d : Nat) =>
    [(Fn.apmidg_setpwrlim, [(d : Int), 0, powerlimit_mwatts]),
     (Fn.apmidg_getpwrlim, [(d : Int), 0])])).flatten

/-- A node whose two sockets carry three GPUs each; the energy latch of
socket 1 is still clear. -/
def gpu_two_by_three : GpuState ℚ where
  m_gpus_per_socket := 3
  m_init_energy := fun _ => 0
  m_initial_energy_for_gpu := fun _ => 0

/-- A state whose device count does not fit an `int`. -/
def gpu_count_out_of_int : GpuState ℚ where
  m_gpus_per_socket := 2147483648
  m_init_energy := fun _ => 0
  m_initial_energy_for_gpu := fun _ => 0

/-! ## The IBM sampling engine as a step function -/

/-- The sampler globals together with the number of live `power_measurement`
threads; a live thread is asleep in `timer_sleep` between two tests of
`while (active_sampling)`. -/
structure Engine where
  sampler : Sampler
  tasks : Nat
deriving DecidableEq, Repr

/-- The steps of the sampling engine: a call of one of the two toggling entry
points, or the wake-up of one live thread whose `take_measurement` returns
`curr_measurement`. -/
inductive EngineStep where
  | toggle
  | wake (curr_measurement : Nat)
deriving DecidableEq, Repr

/-- The number of `pthread_create` calls in a trace. -/
def threads_created {D : Type} (out : List (Event D)) : Nat :=
  (vendor_calls out).countP (fun c => decide (c.1 = Fn.pthread_create))

/-- One step of the engine. A toggle runs `ibm_cpu_p9_get_node_energy_json`
(`ibm_cpu_p9_get_energy` treats the globals alike); the thread it creates stays
alive when its `open` of the sensor file succeeds. A woken thread tests
`active_sampling`: when set it runs the loop body and sleeps again, when clear
it leaves the loop and ends. -/
def engine_step (E : IbmEnv) (s : Engine) : EngineStep → Engine
  | EngineStep.toggle =>
    let r : Run Unit × Sampler × Json Unit :=
      ibm_cpu_p9_get_node_energy_json s.sampler (Json.object [])
    { sampler := r.2.1
      tasks := s.tasks + (if E.open_sensors < 0 then 0 else threads_created r.1.out) }
  | EngineStep.wake curr_measurement =>
    if s.tasks = 0 then s
    else if s.sampler.active_sampling ≠ 0 then
      { sampler := power_measurement_step curr_measurement s.sampler, tasks := s.tasks }
    else { sampler := s.sampler, tasks := s.tasks - 1 }

/-- A sequence of steps of the engine. -/
def engine_run (E : IbmEnv) (s : Engine) (steps : List EngineStep) : Engine :=
  steps.foldl (engine_step E) s

/-- The engine before the first toggle: idle, no thread. -/
def engine_idle : Engine := ⟨⟨0, 0, 0⟩, 0⟩

/-- The value of `pcap_new` after the clamp steps of the `n` sockets
`i, ..., i + n - 1` of the node-cap loop, entered with `pcap_new`. -/
def clamp_through (E : AmdEnv) : Nat → Nat → Int → Int
  | 0, _, pcap_new => pcap_new
  | n + 1, i, pcap_new => clamp_through E n (i + 1) (clamp_value E i pcap_new)

/-- The claimed cap, following the words of the claim: `min(p, M_0, ..., M_{n-1})`
with `M_j` the maximum the query at socket `j` stores; the value claimed for
socket `i` is `cap_upto E p (i + 1)`. -/
def cap_upto (E : AmdEnv) (p : Int) : Nat → Int
  | 0 => p
  | n + 1 => min (cap_upto E p n) ((E.esmi_socket_power_cap_max_get n).2 : Int)

/-- A two-socket node whose socket maxima differ (150 W and 200 W) and whose
sockets read back 150 W. -/
def amd_uneven_maxima : AmdEnv :=
  { amd_two_sockets with
    esmi_socket_power_cap_max_get := fun i => if i = 0 then (0, 150000) else (0, 200000)
    esmi_socket_power_cap_get := fun _ => (0, 150000) }

/-- The C expression `(double)energy_uj * 1.e-6` for the counter that
`apmidg_readenergy` stores for device `d`. -/
def counter_joules {D : Type} [DoubleOps D] (readenergy : Int → Nat) (d : Int) : D :=
  DoubleOps.mul (DoubleOps.ofInt (u64 (readenergy d))) DoubleOps.micro

/-- The energy value printed by a data row of `get_energy_data`. -/
def energy_data_value {D : Type} : Event D → Option D
  | Event.printf fmt args =>
    if fmt = "%s: %s, %s: %d, %s: %d, %s: %lf J\n" then
      match args with
      | [_, _, _, _, _, _, _, Arg.dbl v] => some v
      | _ => none
    else if fmt = "%s %s %d %d %lf\n" then
      match args with
      | [_, _, _, _, Arg.dbl v] => some v
      | _ => none
    else none
  | _ => none

/-- The energy values `get_energy_data` prints, in order. -/
def energy_data_values {D : Type} (out : List (Event D)) : List D :=
  out.filterMap energy_data_value

/-- The file-level statics `get_energy_data` leaves. -/
def energy_data_state {D : Type} [DoubleOps D] (hostname : String)
    (readenergy : Int → Nat) (init_output : Int) (chipid : Nat) (verbose : Int)
    (st : GpuState D) : GpuState D :=
  (get_energy_data hostname readenergy init_output chipid verbose st).2.2

/-- The per-device values `get_energy_data` prints, in order. -/
def energy_data_reported {D : Type} [DoubleOps D] (hostname : String)
    (readenergy : Int → Nat) (init_output : Int) (chipid : Nat) (verbose : Int)
    (st : GpuState D) : List D :=
  energy_data_values (get_energy_data hostname readenergy init_output chipid verbose st).1

/-- The file-level statics `get_energy_json` leaves. -/
def energy_json_state {D : Type} [DoubleOps D] (readenergy : Int → Nat) (chipid : Nat)
    (st : GpuState D) (get_energy_obj : Json D) : GpuState D :=
  (get_energy_json readenergy chipid st get_energy_obj).2.1

/-- A node without GPUs: zero devices per socket. -/
def gpu_without_devices : GpuState ℚ where
  m_gpus_per_socket := 0
  m_init_energy := fun _ => 0
  m_initial_energy_for_gpu := fun _ => 0

/-- A two-socket node on which the energy query of socket 0 fails with status 5;
the MSR fallback returns 0. -/
def amd_socket_energy_fails : AmdEnv :=
  { amd_two_sockets with
    esmi_socket_energy_get := fun i => if i = 0 then (5, 0) else (0, 7000000) }

/-- A node with four cores on which the boost-limit calls of core 1 fail with
status 6, which is not the permission status 4. -/
def amd_boost_fails : AmdEnv :=
  { amd_two_sockets with
    esmi_core_boostlimit_get := fun i => if i = 1 then (6, none) else (0, some 3000)
    esmi_core_boostlimit_set := fun i _ => if i = 1 then 6 else 0 }

/-- The two-socket node with `VARIORUM_LOG=1` in the environment. -/
def amd_logging : AmdEnv :=
  { amd_two_sockets with VARIORUM_LOG := some "1" }

/-! ## Diagnostics in a trace -/

/-- A diagnostic: a `printf` whose format starts with `Failed to `, or a call of
the error funnel `variorum_error_handler`. -/
def is_diagnostic {D : Type} : Event D → Bool
  | Event.printf fmt _ => decide (fmt.toList.take 10 = "Failed to ".toList)
  | Event.error_handler _ _ _ => true
  | _ => false

/-- The trace holds at least one diagnostic. -/
def has_diagnostic {D : Type} (out : List (Event D)) : Prop :=
  ∃ e, e ∈ out ∧ is_diagnostic e = true

/-- The call `c` of a trace failed: the status the environment gives for the
function at the arguments of the call is non-zero. The function alone selects
the case: every function of the vendor library (`esmi_*`) and the MSR fallback
`print_energy_data` has a status. `usleep` and the functions of the other two
adapters have none in an AMD environment. -/
def amd_call_failed (E : AmdEnv) (c : Fn × List Int) : Prop :=
  match c.1 with
  | Fn.esmi_init => E.esmi_init ≠ 0
  | Fn.esmi_socket_power_get => (E.esmi_socket_power_get (c.2.getD 0 0).toNat).1 ≠ 0
  | Fn.esmi_socket_power_cap_get =>
    (E.esmi_socket_power_cap_get (c.2.getD 0 0).toNat).1 ≠ 0
  | Fn.esmi_socket_power_cap_max_get =>
    (E.esmi_socket_power_cap_max_get (c.2.getD 0 0).toNat).1 ≠ 0
  | Fn.esmi_socket_power_cap_set =>
    E.esmi_socket_power_cap_set (c.2.getD 0 0).toNat (c.2.getD 1 0).toNat ≠ 0
  | Fn.esmi_socket_energy_get => (E.esmi_socket_energy_get (c.2.getD 0 0).toNat).1 ≠ 0
  | Fn.esmi_core_energy_get => (E.esmi_core_energy_get (c.2.getD 0 0).toNat).1 ≠ 0
  | Fn.esmi_core_boostlimit_get =>
    (E.esmi_core_boostlimit_get (c.2.getD 0 0).toNat).1 ≠ 0
  | Fn.esmi_core_boostlimit_set =>
    E.esmi_core_boostlimit_set (c.2.getD 0 0).toNat (c.2.getD 1 0).toNat ≠ 0
  | Fn.esmi_socket_boostlimit_set =>
    E.esmi_socket_boostlimit_set (c.2.getD 0 0) (c.2.getD 1 0).toNat ≠ 0
  | Fn.print_energy_data => E.print_energy_data ≠ 0
  | Fn.usleep => False
  | Fn.apmidg_readenergy | Fn.apmidg_readpoweravg | Fn.apmidg_readtemp
  | Fn.apmidg_readfreq | Fn.apmidg_setpwrlim | Fn.apmidg_getpwrlim => False
  | Fn.open_occ_inband_sensors | Fn.lseek | Fn.malloc | Fn.read | Fn.free | Fn.close
  | Fn.print_power_sensors | Fn.get_node_power | Fn.print_all_sensors_header
  | Fn.print_all_sensors | Fn.json_get_power_sensors | Fn.json_get_thermal_sensors
  | Fn.json_get_frequency_sensors | Fn.init_msTimer | Fn.timer_sleep => False
  | Fn.pthread_attr_init | Fn.pthread_attr_setdetachstate | Fn.pthread_attr_destroy
  | Fn.pthread_mutex_init | Fn.pthread_mutex_lock | Fn.pthread_mutex_unlock
  | Fn.pthread_create => False

/-- A two-socket node on which the maximum-cap query of socket 0 fails with
status 5; the writes succeed and the sockets read back 100 W. -/
def amd_max_query_fails : AmdEnv :=
  { amd_two_sockets with
    esmi_socket_power_cap_max_get := fun i => if i = 0 then (5, 0) else (0, 200000) }

/-- A two-socket node on which `esmi_init` fails with status 1 and the MSR
fallback `print_energy_data` returns -1. -/
def amd_esmi_init_fails : AmdEnv :=
  { amd_two_sockets with esmi_init := 1, print_energy_data := -1 }

/-- The IBM node whose sensor file does not open. -/
def ibm_node_no_sensors : IbmEnv :=
  { ibm_node with open_sensors := -1 }

/-! ## The IBM adapter: the other sensor readers, the limits report, the sampling thread -/

/-- The sysfs file of the minimum node power cap. -/
def powercap_min : String :=
  "/sys/firmware/opal/powercap/system-powercap/powercap-min"

/-- The socket loop that `ibm_cpu_p9_monitoring`, `ibm_cpu_p9_get_power_json`,
`ibm_cpu_p9_get_node_thermal_json` and `ibm_cpu_p9_get_node_frequency_json`
each spell out: seek, allocate, read the block, hand the block over, free. The
functions differ in what they do with a block read in full; `consume iter s`
gives those events and the new value of the function's own static state `s`.
When no socket is left control falls through to `close(fd); return 0`. The
offset passed to `lseek` is taken without wrap-around. -/
def sensor_blocks_loop {D S : Type} (E : IbmEnv)
    (consume : Nat → S → List (Event D) × S) : Nat → Nat → S → Run D × S
  | 0, _, s => (⟨0, [Event.call Fn.close [E.open_sensors]]⟩, s)
  | left + 1, iter, s =>
    let head : List (Event D) :=
      [Event.call Fn.lseek [E.open_sensors, iter * E.OCC_SENSOR_DATA_BLOCK_SIZE],
       Event.call Fn.malloc [E.OCC_SENSOR_DATA_BLOCK_SIZE]]
    if E.malloc iter = false then
      (⟨-1, head ++ [Event.printf "Failed to allocate\n" []]⟩, s)
    else
      let rd : Int × List (Event D) := read_block E iter
      if rd.1 ≠ E.OCC_SENSOR_DATA_BLOCK_SIZE then
        (⟨-1, head ++ rd.2 ++
          [Event.printf "Failed to read data\n" [], Event.call Fn.free []]⟩, s)
      else
        let c := consume iter s
        let rest := sensor_blocks_loop E consume left (iter + 1) c.2
        (⟨rest.1.ret, head ++ rd.2 ++ c.1 ++ [Event.call Fn.free []] ++ rest.1.out⟩,
         rest.2)

/-- The part the four sensor readers share around the loop: the preamble, the
`open` of the sensor file and its test. -/
def sensor_reader {D S : Type} (E : IbmEnv) (func : String)
    (consume : Nat → S → List (Event D) × S) (s : S) : Run D × S :=
  let pre : List (Event D) :=
    ibm_log_entry "Running %s\n" [Arg.str func] ++
      [Event.call Fn.open_occ_inband_sensors []]
  if E.open_sensors < 0 then
    (⟨-1, pre ++ [Event.printf "Failed to open occ_inband_sensors file\n" []]⟩, s)
  else
    let r := sensor_blocks_loop E consume E.nsockets 0 s
    (⟨r.1.ret, pre ++ r.1.out⟩, r.2)

/-- The C function `ibm_cpu_p9_monitoring` with its static `count`: the first
`nsockets` blocks ever read also print the sensor header. -/
def ibm_cpu_p9_monitoring {D : Type} (E : IbmEnv) (count : Nat) : Run D × Nat :=
  sensor_reader E "ibm_cpu_p9_monitoring"
    (fun iter count =>
      if count < E.nsockets then
        ([Event.call Fn.print_all_sensors_header [iter],
          Event.call Fn.print_all_sensors [iter]], u32 (count + 1))
      else ([Event.call Fn.print_all_sensors [iter]], count))
    count

/-- The C function `ibm_cpu_p9_get_power_json`. The document is filled by
`json_get_power_sensors`, a function of another file, recorded as a call. -/
def ibm_cpu_p9_get_power_json {D : Type} (E : IbmEnv) : Run D :=
  (sensor_reader E "ibm_cpu_p9_get_power_json"
    (fun iter (s : Unit) => ([Event.call Fn.json_get_power_sensors [iter]], s)) ()).1

/-- The C function `ibm_cpu_p9_get_node_thermal_json`. -/
def ibm_cpu_p9_get_node_thermal_json {D : Type} (E : IbmEnv) : Run D :=
  (sensor_reader E "ibm_cpu_p9_get_node_thermal_json"
    (fun iter (s : Unit) => ([Event.call Fn.json_get_thermal_sensors [iter]], s)) ()).1

/-- The C function `ibm_cpu_p9_get_node_frequency_json`. -/
def ibm_cpu_p9_get_node_frequency_json {D : Type} (E : IbmEnv) : Run D :=
  (sensor_reader E "ibm_cpu_p9_get_node_frequency_json"
    (fun iter (s : Unit) => ([Event.call Fn.json_get_frequency_sensors [iter]], s)) ()).1

/-- The statements `fscanf(fp, "%d", &v); fclose(fp);` on the stream opened
from `path`, for a variable `v` initialised to 0: the value of `v` afterwards
(0 when nothing is converted; the result of `fscanf` is not read) and the
events. -/
def scan_and_close {D : Type} (E : IbmEnv) (path : String) : Int × List (Event D) :=
  ((match E.fscanf_d path with
    | some v => v
    | none => 0),
   [Event.fscanf_d path, Event.fclose path])

/-- The C function `ibm_cpu_p9_get_power_limits`: five files are opened for
reading one after the other; the first that does not open ends the call
through the error funnel. -/
def ibm_cpu_p9_get_power_limits {D : Type} (E : IbmEnv) (long_ver : Int) : Run D :=
  let func := "ibm_cpu_p9_get_power_limits"
  let pre : List (Event D) := ibm_log_entry "Running %s\n" [Arg.str func]
  if E.fopen powercap_current "r" = false then
    ⟨-1, pre ++ [Event.fopen powercap_current "r",
      Event.error_handler "Incorrect permissions on OPAL files -- powercap-current"
        "VARIORUM_ERROR_INVAL" func]⟩
  else
    let pcap_current : Int × List (Event D) := scan_and_close E powercap_current
    let t1 : List (Event D) := pre ++ Event.fopen powercap_current "r" :: pcap_current.2
    if E.fopen powercap_max "r" = false then
      ⟨-1, t1 ++ [Event.fopen powercap_max "r",
        Event.error_handler "Incorrect permissions on OPAL files -- powercap-max"
          "VARIORUM_ERROR_INVAL" func]⟩
    else
      let pcap_max : Int × List (Event D) := scan_and_close E powercap_max
      let t2 : List (Event D) := t1 ++ Event.fopen powercap_max "r" :: pcap_max.2
      if E.fopen powercap_min "r" = false then
        ⟨-1, t2 ++ [Event.fopen powercap_min "r",
          Event.error_handler "Incorrect permissions on OPAL files -- powercap-min"
            "VARIORUM_ERROR_INVAL" func]⟩
      else
        let pcap_min : Int × List (Event D) := scan_and_close E powercap_min
        let t3 : List (Event D) := t2 ++ Event.fopen powercap_min "r" :: pcap_min.2
        if E.fopen psr_cpu_to_gpu_0 "r" = false then
          ⟨-1, t3 ++ [Event.fopen psr_cpu_to_gpu_0 "r",
            Event.error_handler "Incorrect permissions on OPAL files -- cpu_to_gpu_0"
              "VARIORUM_ERROR_INVAL" func]⟩
        else
          let psr_1 : Int × List (Event D) := scan_and_close E psr_cpu_to_gpu_0
          let t4 : List (Event D) := t3 ++ Event.fopen psr_cpu_to_gpu_0 "r" :: psr_1.2
          if E.fopen psr_cpu_to_gpu_8 "r" = false then
            ⟨-1, t4 ++ [Event.fopen psr_cpu_to_gpu_8 "r",
              Event.error_handler "Incorrect permissions on OPAL files -- cpu_to_gpu_8"
                "VARIORUM_ERROR_INVAL" func]⟩
          else
            let psr_2 : Int × List (Event D) := scan_and_close E psr_cpu_to_gpu_8
            let t5 : List (Event D) := t4 ++ Event.fopen psr_cpu_to_gpu_8 "r" :: psr_2.2
            let values : List (Arg D) :=
              [Arg.str E.hostname, Arg.int pcap_current.1, Arg.int pcap_max.1,
               Arg.int pcap_min.1, Arg.int psr_1.1, Arg.int psr_2.1]
            if long_ver = 0 then
              ⟨0, t5 ++
                [Event.printf
                  "_POWERCAP Host CurrentPower_W MaxPower_W MinPower_W PSR_CPU_to_GPU_0_%% PSR_CPU_to_GPU_8_%%\n"
                  [],
                 Event.printf "_POWERCAP %s %d %d %d %d %d \n" values]⟩
            else
              ⟨0, t5 ++
                [Event.printf
                  "_POWERCAP Host: %s, CurrentPower: %d W, MaxPower: %d W, MinPower: %d W, PSR_CPU_to_GPU_0: %d%%, PSR_CPU_to_GPU_8: %d%%\n"
                  values]⟩

/-- The five files `ibm_cpu_p9_get_power_limits` opens, in order. -/
def limit_files : List String :=
  [powercap_current, powercap_max, powercap_min, psr_cpu_to_gpu_0, psr_cpu_to_gpu_8]

/-- The loop `while (active_sampling) { ... }` of `power_measurement` on the
descriptor `fd`. The flag is written by the entry points on another thread;
`passes` lists, for every time the test finds the flag set, what the sensor
file answers during that pass and the node power of its block. When the test
finds the flag clear the file is closed. -/
def power_measurement_loop {D : Type} (fd : Int) :
    List (IbmEnv × Nat) → Sampler → Sampler × List (Event D)
  | [], st => (st, [Event.call Fn.close [fd]])
  | pass :: rest, st =>
    let m : Nat × List (Event D) :=
      take_measurement { pass.1 with open_sensors := fd } pass.2
    let r := power_measurement_loop fd rest (power_measurement_step m.1 st)
    (r.1, Event.call Fn.pthread_mutex_lock [] :: m.2 ++
      Event.call Fn.pthread_mutex_unlock [] :: Event.call Fn.timer_sleep [] :: r.2)

/-- The C function `power_measurement`, the body of the sampling thread: the
globals of the sampler it leaves and its trace. -/
def power_measurement {D : Type} (E : IbmEnv) (passes : List (IbmEnv × Nat))
    (st : Sampler) : Sampler × List (Event D) :=
  if E.open_sensors < 0 then
    (st, [Event.call Fn.open_occ_inband_sensors [],
          Event.printf "Failed to open occ_inband_sensors file\n" []])
  else
    let r := power_measurement_loop E.open_sensors passes st
    (r.1, Event.call Fn.open_occ_inband_sensors [] ::
      Event.call Fn.init_msTimer [st.sample_interval] ::
      Event.call Fn.timer_sleep [] :: r.2)

/-! ## Lemmas on the scalar conversions -/

theorem toInt32_in_int32 (x : Int) : in_int32 (toInt32 x) := by
  unfold in_int32 toInt32
  omega

theorem clamp_value_in_int32 (E : AmdEnv) (i : Nat) (p : Int)
    (h : in_int32 p) : in_int32 (clamp_value E i p) := by
  unfold clamp_value
  simp only
  split
  · exact toInt32_in_int32 _
  · exact h

theorem int_eq_readback_iff (p : Int) (t : Nat) (h : in_int32 p) :
    p = toInt32 (u32 t) ↔ toUInt32 p = u32 t := by
  unfold in_int32 at h
  unfold toInt32 toUInt32 u32
  omega

/-! ## The node cap: set, read back, compare -/

theorem wrote_append {D : Type} (a b : List (Event D)) (j v : Nat) :
    wrote (a ++ b) j v ↔ wrote a j v ∨ wrote b j v := by
  unfold wrote
  exact List.mem_append

theorem not_wrote_clamp_events {D : Type} [DoubleOps D] (E : AmdEnv)
    (i : Nat) (p : Int) (j v : Nat) :
    ¬ wrote (clamp_events E i p : List (Event D)) j v := by
  unfold wrote clamp_events
  simp only [List.mem_cons]
  intro h
  rcases h with h | h
  · cases h
  · split at h <;> simp at h

theorem not_wrote_verify_guidance {D : Type} (j v : Nat) :
    ¬ wrote (verify_guidance : List (Event D)) j v := by
  unfold wrote verify_guidance
  simp

/-- One iteration of the node-cap loop when the write and the read-back both
return 0: the comparison decides between the guidance exit and the next
socket. -/
theorem node_power_limit_loop_succ {D : Type} [DoubleOps D] (E : AmdEnv)
    (left i : Nat) (p : Int)
    (hs : E.esmi_socket_power_cap_set i (toUInt32 (clamp_value E i p)) = 0)
    (hg : (E.esmi_socket_power_cap_get i).1 = 0) :
    (node_power_limit_loop E (left + 1) i p : Run D) =
      if clamp_value E i p ≠ toInt32 (u32 (E.esmi_socket_power_cap_get i).2) then
        ⟨-1, (iteration_events E i p : List (Event D)) ++ verify_guidance⟩
      else
        ⟨(node_power_limit_loop E left (i + 1) (clamp_value E i p) : Run D).ret,
         (iteration_events E i p : List (Event D)) ++
          (node_power_limit_loop E left (i + 1) (clamp_value E i p) : Run D).out⟩ := by
  simp [node_power_limit_loop, iteration_events, hs, hg]

theorem wrote_iteration {D : Type} [DoubleOps D] (E : AmdEnv) (i : Nat)
    (p : Int) (w j v : Nat) :
    wrote (clamp_events E i p ++
      [(Event.call Fn.esmi_socket_power_cap_set [(i : Int), (w : Int)] : Event D),
       Event.call Fn.usleep [100000],
       Event.call Fn.esmi_socket_power_cap_get [(i : Int)]]) j v ↔ j = i ∧ v = w := by
  rw [wrote_append]
  constructor
  · rintro (h | h)
    · exact absurd h (not_wrote_clamp_events E i p j v)
    · unfold wrote at h
      simp at h
      omega
  · rintro ⟨rfl, rfl⟩
    right
    unfold wrote
    simp

/-- The node-cap loop started at socket `i` with `left` sockets to go, when
every write and read-back in that range returns 0. -/
theorem node_power_limit_loop_spec {D : Type} [DoubleOps D] (E : AmdEnv) :
    ∀ (left i : Nat) (p : Int), in_int32 p →
    (∀ j, i ≤ j → j < i + left → ∀ v, E.esmi_socket_power_cap_set j v = 0) →
    (∀ j, i ≤ j → j < i + left → (E.esmi_socket_power_cap_get j).1 = 0) →
    (∀ j v, wrote (node_power_limit_loop E left i p : Run D).out j v →
        i ≤ j ∧ j < i + left) ∧
    ((∀ j, i ≤ j → j < i + left →
        readback_ok E (node_power_limit_loop E left i p : Run D).out j) →
      (node_power_limit_loop E left i p : Run D).ret = 0 ∧
      ∃ pre w, (node_power_limit_loop E left i p : Run D).out =
        pre ++ [Event.printf "Changed node power cap to %2.03f W.\n" [Arg.dbl w]]) ∧
    (¬ (∀ j, i ≤ j → j < i + left →
        readback_ok E (node_power_limit_loop E left i p : Run D).out j) →
      (node_power_limit_loop E left i p : Run D).ret = -1 ∧
      ¬ printed_changed (node_power_limit_loop E left i p : Run D).out ∧
      ∃ k, i ≤ k ∧ k < i + left ∧
        (∀ j, i ≤ j → j < k →
          readback_ok E (node_power_limit_loop E left i p : Run D).out j) ∧
        (∃ v, wrote (node_power_limit_loop E left i p : Run D).out k v ∧
          u32 (E.esmi_socket_power_cap_get k).2 ≠ v) ∧
        (∃ pre, (node_power_limit_loop E left i p : Run D).out =
          pre ++ verify_guidance) ∧
        ∀ j v, k < j → ¬ wrote (node_power_limit_loop E left i p : Run D).out j v) := by
  intro left
  induction left with
  | zero =>
    intro i p _ _ _
    refine ⟨?_, ?_, ?_⟩
    · intro j v h
      unfold wrote at h
      simp [node_power_limit_loop] at h
    · intro _
      exact ⟨rfl, [], milli_to_unit p, rfl⟩
    · intro h
      exact absurd (fun j h1 h2 => by omega) h
  | succ left ih =>
    intro i p hp hset hget
    have hp' := clamp_value_in_int32 E i p hp
    have hs := hset i (le_refl _) (by omega) (toUInt32 (clamp_value E i p))
    have hg := hget i (le_refl _) (by omega)
    have hcmp := int_eq_readback_iff (clamp_value E i p)
      (E.esmi_socket_power_cap_get i).2 hp'
    rw [node_power_limit_loop_succ E left i p hs hg]
    by_cases hm : clamp_value E i p = toInt32 (u32 (E.esmi_socket_power_cap_get i).2)
    · -- the read-back matches: continue with socket i + 1
      have hw := hcmp.mp hm
      obtain ⟨ih1, ih2, ih3⟩ := ih (i + 1) (clamp_value E i p) hp'
        (fun j h1 h2 => hset j (by omega) (by omega))
        (fun j h1 h2 => hget j (by omega) (by omega))
      rw [if_neg (not_not_intro hm)]
      dsimp only
      have hwr : ∀ j v, wrote ((iteration_events E i p : List (Event D)) ++
          (node_power_limit_loop E left (i + 1) (clamp_value E i p) : Run D).out) j v ↔
          (j = i ∧ v = toUInt32 (clamp_value E i p)) ∨
          wrote (node_power_limit_loop E left (i + 1) (clamp_value E i p) : Run D).out j v := by
        intro j v
        rw [wrote_append, iteration_events, wrote_iteration]
      have hok_i : readback_ok E ((iteration_events E i p : List (Event D)) ++
          (node_power_limit_loop E left (i + 1) (clamp_value E i p) : Run D).out) i :=
        ⟨toUInt32 (clamp_value E i p), (hwr _ _).mpr (Or.inl ⟨rfl, rfl⟩), hw.symm⟩
      have hok : ∀ j, i + 1 ≤ j → (readback_ok E ((iteration_events E i p : List (Event D)) ++
          (node_power_limit_loop E left (i + 1) (clamp_value E i p) : Run D).out) j ↔
          readback_ok E
            (node_power_limit_loop E left (i + 1) (clamp_value E i p) : Run D).out j) := by
        intro j hj
        unfold readback_ok
        constructor
        · rintro ⟨v, h1, h2⟩
          rcases (hwr j v).mp h1 with ⟨h, _⟩ | h
          · omega
          · exact ⟨v, h, h2⟩
        · rintro ⟨v, h1, h2⟩
          exact ⟨v, (hwr j v).mpr (Or.inr h1), h2⟩
      have hall : (∀ j, i ≤ j → j < i + (left + 1) → readback_ok E ((iteration_events E i p : List (Event D)) ++
          (node_power_limit_loop E left (i + 1) (clamp_value E i p) : Run D).out) j) ↔
          (∀ j, i + 1 ≤ j → j < i + 1 + left → readback_ok E
            (node_power_limit_loop E left (i + 1) (clamp_value E i p) : Run D).out j) := by
        constructor
        · intro h j h1 h2
          exact (hok j h1).mp (h j (by omega) (by omega))
        · intro h j h1 h2
          by_cases hji : j = i
          · subst hji
            exact hok_i
          · exact (hok j (by omega)).mpr (h j (by omega) (by omega))
      refine ⟨?_, ?_, ?_⟩
      · intro j v h
        rcases (hwr j v).mp h with ⟨h, _⟩ | h
        · omega
        · have := ih1 j v h
          omega
      · intro h
        obtain ⟨hr, pre, w, hout⟩ := ih2 (hall.mp h)
        refine ⟨hr, iteration_events E i p ++ pre, w, ?_⟩
        rw [hout, List.append_assoc]
      · intro h
        obtain ⟨hr, hnc, k, hk1, hk2, hk3, ⟨v, hk4, hk5⟩, ⟨pre, hk6⟩, hk7⟩ :=
          ih3 (fun h2 => h (hall.mpr h2))
        refine ⟨hr, ?_, k, by omega, by omega, ?_, ⟨v, (hwr k v).mpr (Or.inr hk4), hk5⟩,
          ⟨iteration_events E i p ++ pre, ?_⟩, ?_⟩
        · rintro ⟨w, hmem⟩
          rcases List.mem_append.mp hmem with hmem | hmem
          · unfold iteration_events at hmem
            rcases List.mem_append.mp hmem with hmem | hmem
            · unfold clamp_events at hmem
              simp only [List.mem_cons] at hmem
              rcases hmem with hmem | hmem
              · cases hmem
              · split at hmem <;> simp at hmem
            · simp at hmem
          · exact hnc ⟨w, hmem⟩
        · intro j h1 h2
          by_cases hji : j = i
          · subst hji
            exact hok_i
          · exact (hok j (by omega)).mpr (hk3 j (by omega) h2)
        · rw [hk6, List.append_assoc]
        · intro j v hkj hwj
          rcases (hwr j v).mp hwj with ⟨h, _⟩ | h
          · omega
          · exact hk7 j v hkj h
    · -- the read-back differs: guidance and return -1
      have hw : toUInt32 (clamp_value E i p) ≠ u32 (E.esmi_socket_power_cap_get i).2 :=
        fun h => hm (hcmp.mpr h)
      rw [if_pos hm]
      dsimp only
      have hwr : ∀ j v, wrote ((iteration_events E i p : List (Event D)) ++
          (verify_guidance : List (Event D))) j v ↔
          (j = i ∧ v = toUInt32 (clamp_value E i p)) := by
        intro j v
        rw [wrote_append, iteration_events, wrote_iteration]
        constructor
        · rintro (h | h)
          · exact h
          · exact absurd h (not_wrote_verify_guidance j v)
        · exact Or.inl
      have hbad : ¬ (∀ j, i ≤ j → j < i + (left + 1) → readback_ok E ((iteration_events E i p : List (Event D)) ++
          (verify_guidance : List (Event D))) j) := by
        intro h
        obtain ⟨v, h1, h2⟩ := h i (le_refl _) (by omega)
        obtain ⟨_, h3⟩ := (hwr i v).mp h1
        exact hw (by rw [← h3, h2])
      refine ⟨?_, ?_, ?_⟩
      · intro j v h
        obtain ⟨h, _⟩ := (hwr j v).mp h
        omega
      · intro h
        exact absurd h hbad
      · intro _
        refine ⟨rfl, ?_, i, le_refl _, by omega, ?_,
          ⟨toUInt32 (clamp_value E i p), (hwr _ _).mpr ⟨rfl, rfl⟩, fun h => hw h.symm⟩,
          ⟨_, rfl⟩, ?_⟩
        · rintro ⟨w, hmem⟩
          rcases List.mem_append.mp hmem with hmem | hmem
          · unfold iteration_events at hmem
            rcases List.mem_append.mp hmem with hmem | hmem
            · unfold clamp_events at hmem
              simp only [List.mem_cons] at hmem
              rcases hmem with hmem | hmem
              · cases hmem
              · split at hmem <;> simp at hmem
            · simp at hmem
          · simp [verify_guidance] at hmem
        · intro j h1 h2
          omega
        · intro j v hkj hwj
          obtain ⟨h, _⟩ := (hwr j v).mp hwj
          omega

theorem not_wrote_log_entry {D : Type} (val : Option String) (fmt : String)
    (args : List (Arg D)) (j v : Nat) : ¬ wrote (log_entry val fmt args) j v := by
  unfold wrote log_entry
  intro h
  split at h
  · split at h <;> simp at h
  · simp at h

theorem wrote_log_entry_append {D : Type} (val : Option String) (fmt : String)
    (args : List (Arg D)) (out : List (Event D)) (j v : Nat) :
    wrote (log_entry val fmt args ++ out) j v ↔ wrote out j v := by
  rw [wrote_append]
  constructor
  · rintro (h | h)
    · exact absurd h (not_wrote_log_entry val fmt args j v)
    · exact h
  · exact Or.inr

theorem readback_ok_log_entry_append {D : Type} (E : AmdEnv) (val : Option String)
    (fmt : String) (args : List (Arg D)) (out : List (Event D)) (j : Nat) :
    readback_ok E (log_entry val fmt args ++ out) j ↔ readback_ok E out j := by
  unfold readback_ok
  simp only [wrote_log_entry_append]

theorem printed_changed_log_entry_append {D : Type} (val : Option String)
    (fmt : String) (args : List (Arg D)) (out : List (Event D))
    (hfmt : fmt ≠ "Changed node power cap to %2.03f W.\n") :
    printed_changed (log_entry val fmt args ++ out) ↔ printed_changed out := by
  unfold printed_changed
  constructor
  · rintro ⟨w, h⟩
    rcases List.mem_append.mp h with h | h
    · unfold log_entry at h
      split at h
      · split at h
        · simp at h
          exact absurd h.1.symm hfmt
        · simp at h
      · simp at h
    · exact ⟨w, h⟩
  · rintro ⟨w, h⟩
    exact ⟨w, List.mem_append.mpr (Or.inr h)⟩

/-- C1. In `amd_cpu_epyc_set_and_verify_best_effort_node_power_limit`, for
every socket count and every run in which all power-cap writes and read-backs
return 0: the call returns 0 and prints `Changed node power cap to ... W.` if
and only if every socket was written and its read-back equals the value
written; otherwise it returns -1, does not print that line, and there is a
first socket `k` whose read-back differs: the sockets before `k` verified, the
trace ends with the three guidance lines, and no later socket is written. -/
theorem node_power_limit_verified_iff {D : Type} [DoubleOps D] (E : AmdEnv)
    (pcap_new : Int)
    (hset : ∀ i, i < E.num_sockets → ∀ v, E.esmi_socket_power_cap_set i v = 0)
    (hget : ∀ i, i < E.num_sockets → (E.esmi_socket_power_cap_get i).1 = 0) :
    (((amd_cpu_epyc_set_and_verify_best_effort_node_power_limit E pcap_new : Run D).ret = 0 ∧
        printed_changed
          (amd_cpu_epyc_set_and_verify_best_effort_node_power_limit E pcap_new : Run D).out) ↔
      ∀ j, j < E.num_sockets → readback_ok E
        (amd_cpu_epyc_set_and_verify_best_effort_node_power_limit E pcap_new : Run D).out j) ∧
    (¬ (∀ j, j < E.num_sockets → readback_ok E
        (amd_cpu_epyc_set_and_verify_best_effort_node_power_limit E pcap_new : Run D).out j) →
      (amd_cpu_epyc_set_and_verify_best_effort_node_power_limit E pcap_new : Run D).ret = -1 ∧
      ¬ printed_changed
        (amd_cpu_epyc_set_and_verify_best_effort_node_power_limit E pcap_new : Run D).out ∧
      ∃ k, k < E.num_sockets ∧
        (∀ j, j < k → readback_ok E
          (amd_cpu_epyc_set_and_verify_best_effort_node_power_limit E pcap_new : Run D).out j) ∧
        (∃ v, wrote
            (amd_cpu_epyc_set_and_verify_best_effort_node_power_limit E pcap_new : Run D).out k v ∧
          u32 (E.esmi_socket_power_cap_get k).2 ≠ v) ∧
        (∃ pre,
          (amd_cpu_epyc_set_and_verify_best_effort_node_power_limit E pcap_new : Run D).out =
            pre ++ verify_guidance) ∧
        ∀ j v, k < j → ¬ wrote
          (amd_cpu_epyc_set_and_verify_best_effort_node_power_limit E pcap_new : Run D).out j v) := by
  obtain ⟨_, h2, h3⟩ := node_power_limit_loop_spec (D := D) E E.num_sockets 0
    (toInt32 (toInt32 (Int.tdiv pcap_new 2) * 1000)) (toInt32_in_int32 _)
    (fun j _ h => hset j (by omega)) (fun j _ h => hget j (by omega))
  unfold amd_cpu_epyc_set_and_verify_best_effort_node_power_limit
  dsimp only
  simp only [readback_ok_log_entry_append, wrote_log_entry_append]
  rw [printed_changed_log_entry_append _ _ _ _ (by decide)]
  simp only [Nat.zero_le, true_implies, Nat.zero_add] at h2 h3
  have hdec : (∀ j, j < E.num_sockets → readback_ok E
      (node_power_limit_loop E E.num_sockets 0
        (toInt32 (toInt32 (Int.tdiv pcap_new 2) * 1000)) : Run D).out j) →
      printed_changed (node_power_limit_loop E E.num_sockets 0
        (toInt32 (toInt32 (Int.tdiv pcap_new 2) * 1000)) : Run D).out := by
    intro h
    obtain ⟨_, pre, w, hout⟩ := h2 h
    exact ⟨w, by rw [hout]; simp⟩
  refine ⟨⟨?_, fun h => ⟨(h2 h).1, hdec h⟩⟩, ?_⟩
  · rintro ⟨hr, _⟩
    by_contra hne
    have := (h3 hne).1
    omega
  · intro hne
    obtain ⟨hr, hnc, k, _, hk2, hk3, hk4, ⟨pre, hk5⟩, hk6⟩ := h3 hne
    exact ⟨hr, hnc, k, hk2, hk3, hk4,
      ⟨log_entry E.VARIORUM_LOG "Running %s with value %d\n"
        [Arg.str "amd_cpu_epyc_set_and_verify_best_effort_node_power_limit",
         Arg.int pcap_new] ++ pre, by rw [hk5, List.append_assoc]⟩, hk6⟩

/-- The node-cap theorem applied to `amd_two_sockets` with a request of 200 W
(100 W per socket, which both sockets read back): the call returns 0. -/
theorem node_power_limit_verified_iff_witness :
    (amd_cpu_epyc_set_and_verify_best_effort_node_power_limit
        amd_two_sockets 200 : Run ℚ).ret = 0 ∧
    (((amd_cpu_epyc_set_and_verify_best_effort_node_power_limit
          amd_two_sockets 200 : Run ℚ).ret = 0 ∧
        printed_changed
          (amd_cpu_epyc_set_and_verify_best_effort_node_power_limit
            amd_two_sockets 200 : Run ℚ).out) ↔
      ∀ j, j < amd_two_sockets.num_sockets → readback_ok amd_two_sockets
        (amd_cpu_epyc_set_and_verify_best_effort_node_power_limit
          amd_two_sockets 200 : Run ℚ).out j) :=
  ⟨by decide,
   (node_power_limit_verified_iff amd_two_sockets 200
      (fun _ _ _ => rfl) (fun _ _ => rfl)).1⟩

/-! ## The per-socket cap: clamp before write -/

theorem reported_set_append {D : Type} (a b : List (Event D)) (j : Nat) (w : D) :
    reported_set (a ++ b) j w ↔ reported_set a j w ∨ reported_set b j w := by
  unfold reported_set
  exact List.mem_append

theorem not_reported_set_clamp_events {D : Type} [DoubleOps D] (E : AmdEnv)
    (i : Nat) (p : Int) (j : Nat) (w : D) :
    ¬ reported_set (clamp_events E i p : List (Event D)) j w := by
  unfold reported_set clamp_events
  simp only [List.mem_cons]
  intro h
  rcases h with h | h
  · cases h
  · split at h <;> simp at h

theorem not_wrote_cap_set_failure {D : Type} (E : AmdEnv) (func : String)
    (i : Nat) (ret : Int) (j v : Nat) :
    ¬ wrote (cap_set_failure E func i ret : Run D).out j v := by
  unfold wrote cap_set_failure
  dsimp only
  split <;> simp

theorem not_reported_set_cap_set_failure {D : Type} (E : AmdEnv) (func : String)
    (i : Nat) (ret : Int) (j : Nat) (w : D) :
    ¬ reported_set (cap_set_failure E func i ret : Run D).out j w := by
  unfold reported_set cap_set_failure
  dsimp only
  split <;> simp

/-- The per-socket cap loop when the clamp step yields the same value `W` at
every socket of the range, whether it starts from `p` or from `W`. -/
theorem socket_power_limit_loop_spec {D : Type} [DoubleOps D] (E : AmdEnv)
    (W : Int) :
    ∀ (left i : Nat) (p : Int),
    (∀ j, i ≤ j → j < i + left → clamp_value E j p = W ∧ clamp_value E j W = W) →
    (∀ j v, wrote (socket_power_limit_loop E left i p : Run D).out j v →
        v = toUInt32 W ∧ i ≤ j ∧ j < i + left) ∧
    (∀ j w, reported_set (socket_power_limit_loop E left i p : Run D).out j w →
        w = milli_to_unit W ∧ i ≤ j ∧ j < i + left) ∧
    (0 < left → wrote (socket_power_limit_loop E left i p : Run D).out i (toUInt32 W)) ∧
    ((∀ j, i ≤ j → j < i + left → ∀ v, E.esmi_socket_power_cap_set j v = 0) →
      (socket_power_limit_loop E left i p : Run D).ret = 0 ∧
      ∀ j, i ≤ j → j < i + left →
        wrote (socket_power_limit_loop E left i p : Run D).out j (toUInt32 W) ∧
        reported_set (socket_power_limit_loop E left i p : Run D).out j (milli_to_unit W)) := by
  intro left
  induction left with
  | zero =>
    intro i p _
    refine ⟨?_, ?_, ?_, ?_⟩
    · intro j v h
      unfold wrote at h
      simp [socket_power_limit_loop] at h
    · intro j w h
      unfold reported_set at h
      simp [socket_power_limit_loop] at h
    · intro h
      omega
    · intro _
      exact ⟨rfl, fun j h1 h2 => by omega⟩
  | succ left ih =>
    intro i p hc
    obtain ⟨hcp, hcW⟩ := hc i (le_refl _) (by omega)
    obtain ⟨ih1, ih2, _, ih4⟩ := ih (i + 1) W
      (fun j h1 h2 => ⟨(hc j (by omega) (by omega)).2, (hc j (by omega) (by omega)).2⟩)
    have hhere : wrote ([(Event.call Fn.esmi_socket_power_cap_set
        [(i : Int), (toUInt32 W : Int)] : Event D)]) i (toUInt32 W) := by
      unfold wrote
      simp
    by_cases hs : E.esmi_socket_power_cap_set i (toUInt32 W) = 0
    · have hrun : (socket_power_limit_loop E (left + 1) i p : Run D) =
          ⟨(socket_power_limit_loop E left (i + 1) W : Run D).ret,
           clamp_events E i p ++
            [Event.call Fn.esmi_socket_power_cap_set [(i : Int), (toUInt32 W : Int)],
             Event.printf "%6d | %14.03f    | successfully set\n"
               [Arg.int (i : Int), Arg.dbl (milli_to_unit W)]] ++
            (socket_power_limit_loop E left (i + 1) W : Run D).out⟩ := by
        simp [socket_power_limit_loop, hcp, hs]
      rw [hrun]
      dsimp only
      have hwr : ∀ j v, wrote (clamp_events E i p ++
            [(Event.call Fn.esmi_socket_power_cap_set
                [(i : Int), (toUInt32 W : Int)] : Event D),
             Event.printf "%6d | %14.03f    | successfully set\n"
               [Arg.int (i : Int), Arg.dbl (milli_to_unit W)]] ++
            (socket_power_limit_loop E left (i + 1) W : Run D).out) j v ↔
          (j = i ∧ v = toUInt32 W) ∨
            wrote (socket_power_limit_loop E left (i + 1) W : Run D).out j v := by
        intro j v
        rw [wrote_append, wrote_append]
        constructor
        · rintro ((h | h) | h)
          · exact absurd h (not_wrote_clamp_events E i p j v)
          · unfold wrote at h
            simp at h
            left
            omega
          · exact Or.inr h
        · rintro (⟨rfl, rfl⟩ | h)
          · left
            right
            unfold wrote
            simp
          · exact Or.inr h
      have hrp : ∀ j w, reported_set (clamp_events E i p ++
            [(Event.call Fn.esmi_socket_power_cap_set
                [(i : Int), (toUInt32 W : Int)] : Event D),
             Event.printf "%6d | %14.03f    | successfully set\n"
               [Arg.int (i : Int), Arg.dbl (milli_to_unit W)]] ++
            (socket_power_limit_loop E left (i + 1) W : Run D).out) j w ↔
          (j = i ∧ w = milli_to_unit W) ∨
            reported_set (socket_power_limit_loop E left (i + 1) W : Run D).out j w := by
        intro j w
        rw [reported_set_append, reported_set_append]
        constructor
        · rintro ((h | h) | h)
          · exact absurd h (not_reported_set_clamp_events E i p j w)
          · unfold reported_set at h
            simp at h
            left
            exact ⟨by omega, h.2⟩
          · exact Or.inr h
        · rintro (⟨rfl, rfl⟩ | h)
          · left
            right
            unfold reported_set
            simp
          · exact Or.inr h
      refine ⟨?_, ?_, ?_, ?_⟩
      · intro j v h
        rcases (hwr j v).mp h with ⟨h1, h2⟩ | h
        · exact ⟨h2, by omega, by omega⟩
        · have := ih1 j v h
          exact ⟨this.1, by omega, by omega⟩
      · intro j w h
        rcases (hrp j w).mp h with ⟨h1, h2⟩ | h
        · exact ⟨h2, by omega, by omega⟩
        · have := ih2 j w h
          exact ⟨this.1, by omega, by omega⟩
      · intro _
        exact (hwr i _).mpr (Or.inl ⟨rfl, rfl⟩)
      · intro hset
        obtain ⟨hr, hall⟩ := ih4 (fun j h1 h2 => hset j (by omega) (by omega))
        refine ⟨hr, fun j h1 h2 => ?_⟩
        by_cases hji : j = i
        · subst hji
          exact ⟨(hwr j _).mpr (Or.inl ⟨rfl, rfl⟩), (hrp j _).mpr (Or.inl ⟨rfl, rfl⟩)⟩
        · obtain ⟨ha, hb⟩ := hall j (by omega) (by omega)
          exact ⟨(hwr j _).mpr (Or.inr ha), (hrp j _).mpr (Or.inr hb)⟩
    · have hrun : (socket_power_limit_loop E (left + 1) i p : Run D) =
          ⟨(cap_set_failure E "amd_cpu_epyc_set_socket_power_limit" i
              (E.esmi_socket_power_cap_set i (toUInt32 W)) : Run D).ret,
           clamp_events E i p ++
            (Event.call Fn.esmi_socket_power_cap_set [(i : Int), (toUInt32 W : Int)] ::
             (cap_set_failure E "amd_cpu_epyc_set_socket_power_limit" i
              (E.esmi_socket_power_cap_set i (toUInt32 W)) : Run D).out)⟩ := by
        simp [socket_power_limit_loop, hcp, hs]
      rw [hrun]
      dsimp only
      refine ⟨?_, ?_, ?_, ?_⟩
      · intro j v h
        rcases (wrote_append _ _ j v).mp h with h | h
        · exact absurd h (not_wrote_clamp_events E i p j v)
        · unfold wrote at h
          rcases List.mem_cons.mp h with h | h
          · simp at h
            exact ⟨by omega, by omega, by omega⟩
          · exact absurd h (not_wrote_cap_set_failure E _ i _ j v)
      · intro j w h
        rcases (reported_set_append _ _ j w).mp h with h | h
        · exact absurd h (not_reported_set_clamp_events E i p j w)
        · unfold reported_set at h
          rcases List.mem_cons.mp h with h | h
          · cases h
          · exact absurd h (not_reported_set_cap_set_failure E _ i _ j w)
      · intro _
        rw [wrote_append]
        right
        unfold wrote
        simp
      · intro hset
        exact absurd (hset i (le_refl _) (by omega) _) hs

theorem toInt32_of_in_int32 (x : Int) (h : in_int32 x) : toInt32 x = x := by
  unfold in_int32 at h
  unfold toInt32
  omega

theorem clamp_value_of_max (E : AmdEnv) (i : Nat) (M : Nat) (p : Int)
    (hM : M < 2147483648) (hmax : E.esmi_socket_power_cap_max_get i = (0, M)) :
    clamp_value E i p = if p > (M : Int) then (M : Int) else p := by
  have h1 : toInt32 ((u32 M : Nat) : Int) = (M : Int) := by
    unfold toInt32 u32
    omega
  unfold clamp_value
  simp only [hmax, h1, true_and]

theorem socket_limit_header_wrote {D : Type} (val : Option String) (fmt : String)
    (args : List (Arg D)) (out : List (Event D)) (j v : Nat) :
    wrote (log_entry val fmt args ++
      Event.printf "Socket |  Powercap(Watts)  |\n" [] :: out) j v ↔ wrote out j v := by
  rw [wrote_log_entry_append]
  unfold wrote
  simp

theorem socket_limit_header_reported {D : Type} (val : Option String)
    (out : List (Event D)) (j : Nat) (w : D) :
    reported_set (log_entry val "Running %s\n"
        [Arg.str "amd_cpu_epyc_set_socket_power_limit"] ++
      Event.printf "Socket |  Powercap(Watts)  |\n" [] :: out) j w ↔
      reported_set out j w := by
  unfold reported_set log_entry
  split
  · split <;> simp
  · simp

/-- C2. In `amd_cpu_epyc_set_socket_power_limit`, for a request of `R` watts
(`R >= 0`, `R * 1000` an `int`) and a hardware maximum of `M` milliwatts
(`M < 2^31`) reported successfully for every socket: if `R * 1000 > M` every
power-cap write in the trace carries `M` and every reported row carries
`M / 1000`; if `R * 1000 <= M` every write carries `R * 1000`. In both cases
socket 0 is written when there is one, and when every write succeeds the call
returns 0 having written (and reported) every socket. -/
theorem set_socket_power_limit_clamps {D : Type} [DoubleOps D] (E : AmdEnv)
    (R : Int) (M : Nat) (hR : 0 ≤ R) (hR' : R * 1000 < 2147483648)
    (hM : M < 2147483648)
    (hmax : ∀ i, i < E.num_sockets → E.esmi_socket_power_cap_max_get i = (0, M)) :
    ((M : Int) < R * 1000 →
      (∀ j v, wrote (amd_cpu_epyc_set_socket_power_limit E R : Run D).out j v → v = M) ∧
      (∀ j w, reported_set (amd_cpu_epyc_set_socket_power_limit E R : Run D).out j w →
        w = milli_to_unit (M : Int)) ∧
      (0 < E.num_sockets →
        wrote (amd_cpu_epyc_set_socket_power_limit E R : Run D).out 0 M) ∧
      ((∀ j, j < E.num_sockets → ∀ v, E.esmi_socket_power_cap_set j v = 0) →
        (amd_cpu_epyc_set_socket_power_limit E R : Run D).ret = 0 ∧
        ∀ j, j < E.num_sockets →
          wrote (amd_cpu_epyc_set_socket_power_limit E R : Run D).out j M ∧
          reported_set (amd_cpu_epyc_set_socket_power_limit E R : Run D).out j
            (milli_to_unit (M : Int)))) ∧
    (R * 1000 ≤ (M : Int) →
      (∀ j v, wrote (amd_cpu_epyc_set_socket_power_limit E R : Run D).out j v →
        (v : Int) = R * 1000) ∧
      (∀ j w, reported_set (amd_cpu_epyc_set_socket_power_limit E R : Run D).out j w →
        w = milli_to_unit (R * 1000)) ∧
      (0 < E.num_sockets →
        wrote (amd_cpu_epyc_set_socket_power_limit E R : Run D).out 0 (R * 1000).toNat) ∧
      ((∀ j, j < E.num_sockets → ∀ v, E.esmi_socket_power_cap_set j v = 0) →
        (amd_cpu_epyc_set_socket_power_limit E R : Run D).ret = 0 ∧
        ∀ j, j < E.num_sockets →
          wrote (amd_cpu_epyc_set_socket_power_limit E R : Run D).out j (R * 1000).toNat ∧
          reported_set (amd_cpu_epyc_set_socket_power_limit E R : Run D).out j
            (milli_to_unit (R * 1000)))) := by
  have hp0 : toInt32 (R * 1000) = R * 1000 :=
    toInt32_of_in_int32 _ ⟨by omega, hR'⟩
  unfold amd_cpu_epyc_set_socket_power_limit
  dsimp only
  simp only [socket_limit_header_wrote, socket_limit_header_reported, hp0]
  constructor
  · intro hgt
    have hW : toUInt32 (M : Int) = M := by
      unfold toUInt32
      omega
    obtain ⟨h1, h2, h3, h4⟩ := socket_power_limit_loop_spec (D := D) E (M : Int)
      E.num_sockets 0 (R * 1000) (fun j _ hj => by
        rw [clamp_value_of_max E j M _ hM (hmax j (by omega)),
          clamp_value_of_max E j M _ hM (hmax j (by omega))]
        constructor
        · rw [if_pos hgt]
        · rw [if_neg (lt_irrefl _)])
    rw [hW] at h1 h3 h4
    simp only [Nat.zero_le, true_implies, Nat.zero_add] at h1 h2 h3 h4
    exact ⟨fun j v h => (h1 j v h).1, fun j w h => (h2 j w h).1, h3, h4⟩
  · intro hle
    have hW : toUInt32 (R * 1000) = (R * 1000).toNat := by
      unfold toUInt32
      omega
    obtain ⟨h1, h2, h3, h4⟩ := socket_power_limit_loop_spec (D := D) E (R * 1000)
      E.num_sockets 0 (R * 1000) (fun j _ hj => by
        rw [clamp_value_of_max E j M _ hM (hmax j (by omega))]
        exact ⟨if_neg (by omega), if_neg (by omega)⟩)
    rw [hW] at h1 h3 h4
    simp only [Nat.zero_le, true_implies, Nat.zero_add] at h1 h2 h3 h4
    refine ⟨fun j v h => ?_, fun j w h => (h2 j w h).1, h3, h4⟩
    have := (h1 j v h).1
    omega

/-- The clamp theorem applied to `amd_two_sockets` (maximum 200 W) with a
request of 300 W: both sockets are written with 200000 mW. -/
theorem set_socket_power_limit_clamps_witness :
    (amd_cpu_epyc_set_socket_power_limit amd_two_sockets 300 : Run ℚ).ret = 0 ∧
    ∀ j, j < amd_two_sockets.num_sockets →
      wrote (amd_cpu_epyc_set_socket_power_limit amd_two_sockets 300 : Run ℚ).out j 200000 ∧
      reported_set (amd_cpu_epyc_set_socket_power_limit amd_two_sockets 300 : Run ℚ).out j
        (milli_to_unit ((200000 : Nat) : Int)) :=
  ((set_socket_power_limit_clamps amd_two_sockets 300 200000 (by decide) (by decide)
    (by decide) (fun _ _ => rfl)).1 (by decide)).2.2.2 (fun _ _ _ => rfl)

/-! ## The node cap: a failing write -/

theorem handler_messages_append {D : Type} (a b : List (Event D)) :
    handler_messages (a ++ b) = handler_messages a ++ handler_messages b := by
  unfold handler_messages
  exact List.filterMap_append _ _ _

theorem writes_to_append {D : Type} (i : Nat) (a b : List (Event D)) :
    writes_to i (a ++ b) = writes_to i a ++ writes_to i b := by
  unfold writes_to
  exact List.filterMap_append _ _ _

theorem read_back_append {D : Type} (a b : List (Event D)) (j : Nat) :
    read_back (a ++ b) j ↔ read_back a j ∨ read_back b j := by
  unfold read_back
  exact List.mem_append

theorem clamp_events_quiet {D : Type} [DoubleOps D] (E : AmdEnv) (i : Nat)
    (p : Int) (j : Nat) :
    handler_messages (clamp_events E i p : List (Event D)) = [] ∧
    writes_to j (clamp_events E i p : List (Event D)) = [] ∧
    ¬ read_back (clamp_events E i p : List (Event D)) j := by
  unfold handler_messages writes_to read_back clamp_events
  dsimp only
  split <;> simp [handler_message, written_to]

theorem iteration_events_quiet {D : Type} [DoubleOps D] (E : AmdEnv) (i : Nat)
    (p : Int) (j : Nat) (hji : j ≠ i) :
    handler_messages (iteration_events E i p : List (Event D)) = [] ∧
    writes_to j (iteration_events E i p : List (Event D)) = [] ∧
    ¬ read_back (iteration_events E i p : List (Event D)) j := by
  obtain ⟨h1, h2, h3⟩ := clamp_events_quiet (D := D) E i p j
  unfold iteration_events
  rw [handler_messages_append, writes_to_append, read_back_append, h1, h2]
  refine ⟨?_, ?_, ?_⟩
  · simp [handler_messages, handler_message]
  · have : ¬ ((i : Int) = (j : Int)) := by omega
    simp [writes_to, written_to, this]
  · rintro (h | h)
    · exact h3 h
    · unfold read_back at h
      simp at h
      omega

theorem wrote_iteration_events {D : Type} [DoubleOps D] (E : AmdEnv) (i : Nat)
    (p : Int) (j v : Nat) :
    wrote (iteration_events E i p : List (Event D)) j v ↔
      j = i ∧ v = toUInt32 (clamp_value E i p) := by
  unfold iteration_events
  exact wrote_iteration E i p _ j v

/-- The node-cap loop at a socket whose write fails. -/
theorem node_power_limit_loop_set_fails {D : Type} [DoubleOps D] (E : AmdEnv)
    (left i : Nat) (p : Int)
    (hs : E.esmi_socket_power_cap_set i (toUInt32 (clamp_value E i p)) ≠ 0) :
    (node_power_limit_loop E (left + 1) i p : Run D) =
      ⟨(cap_set_failure E "amd_cpu_epyc_set_and_verify_best_effort_node_power_limit" i
          (E.esmi_socket_power_cap_set i (toUInt32 (clamp_value E i p))) : Run D).ret,
       clamp_events E i p ++
        (Event.call Fn.esmi_socket_power_cap_set
            [(i : Int), (toUInt32 (clamp_value E i p) : Int)] ::
         (cap_set_failure E "amd_cpu_epyc_set_and_verify_best_effort_node_power_limit" i
          (E.esmi_socket_power_cap_set i (toUInt32 (clamp_value E i p))) : Run D).out)⟩ := by
  simp [node_power_limit_loop, hs]

/-- The node-cap loop at a socket whose write succeeds and whose read-back
call fails. -/
theorem node_power_limit_loop_get_fails {D : Type} [DoubleOps D] (E : AmdEnv)
    (left i : Nat) (p : Int)
    (hs : E.esmi_socket_power_cap_set i (toUInt32 (clamp_value E i p)) = 0)
    (hg : (E.esmi_socket_power_cap_get i).1 ≠ 0) :
    (node_power_limit_loop E (left + 1) i p : Run D) =
      ⟨(E.esmi_socket_power_cap_get i).1,
       iteration_events E i p ++
        [Event.printf "Failed to get socket[%d] _POWERCAP, Err[%d]:%s\n"
          [Arg.int (i : Int), Arg.int (E.esmi_socket_power_cap_get i).1,
           Arg.str (E.esmi_get_err_msg (E.esmi_socket_power_cap_get i).1)]]⟩ := by
  simp [node_power_limit_loop, iteration_events, hs, hg]

/-- Every power-cap write of the node-cap loop started at socket `s` targets a
socket `>= s`. -/
theorem node_power_limit_loop_wrote_ge {D : Type} [DoubleOps D] (E : AmdEnv) :
    ∀ (left s : Nat) (p : Int) (j w : Nat),
    wrote (node_power_limit_loop E left s p : Run D).out j w → s ≤ j := by
  intro left
  induction left with
  | zero =>
    intro s p j w h
    unfold wrote at h
    simp [node_power_limit_loop] at h
  | succ left ih =>
    intro s p j w h
    by_cases hs : E.esmi_socket_power_cap_set s (toUInt32 (clamp_value E s p)) = 0
    · by_cases hg : (E.esmi_socket_power_cap_get s).1 = 0
      · rw [node_power_limit_loop_succ E left s p hs hg] at h
        split at h
        · dsimp only at h
          rcases (wrote_append _ _ j w).mp h with h | h
          · exact le_of_eq ((wrote_iteration_events E s p j w).mp h).1.symm
          · exact absurd h (not_wrote_verify_guidance j w)
        · dsimp only at h
          rcases (wrote_append _ _ j w).mp h with h | h
          · exact le_of_eq ((wrote_iteration_events E s p j w).mp h).1.symm
          · have := ih (s + 1) _ j w h
            omega
      · rw [node_power_limit_loop_get_fails E left s p hs hg] at h
        dsimp only at h
        rcases (wrote_append _ _ j w).mp h with h | h
        · exact le_of_eq ((wrote_iteration_events E s p j w).mp h).1.symm
        · unfold wrote at h
          simp at h
    · rw [node_power_limit_loop_set_fails E left s p hs] at h
      dsimp only at h
      rcases (wrote_append _ _ j w).mp h with h | h
      · exact absurd h (not_wrote_clamp_events E s p j w)
      · unfold wrote at h
        rcases List.mem_cons.mp h with h | h
        · simp at h
          omega
        · exact absurd h (not_wrote_cap_set_failure E _ s _ j w)

/-- The node-cap loop, seen from a failing write `esmi_socket_power_cap_set(i, v)`
that occurs in its trace. -/
theorem node_power_limit_loop_write_failure {D : Type} [DoubleOps D] (E : AmdEnv) :
    ∀ (left s : Nat) (p : Int) (i v : Nat),
    wrote (node_power_limit_loop E left s p : Run D).out i v →
    E.esmi_socket_power_cap_set i v ≠ 0 →
    (node_power_limit_loop E left s p : Run D).ret =
      (if E.esmi_socket_power_cap_set i v = E.ESMI_PERMISSION then -1
       else E.esmi_socket_power_cap_set i v) ∧
    handler_messages (node_power_limit_loop E left s p : Run D).out =
      (if E.esmi_socket_power_cap_set i v = E.ESMI_PERMISSION
       then ["Incorrect permissions"] else []) ∧
    writes_to i (node_power_limit_loop E left s p : Run D).out = [(v : Int)] ∧
    ¬ read_back (node_power_limit_loop E left s p : Run D).out i ∧
    ∀ j w, i < j → ¬ wrote (node_power_limit_loop E left s p : Run D).out j w := by
  intro left
  induction left with
  | zero =>
    intro s p i v h
    unfold wrote at h
    simp [node_power_limit_loop] at h
  | succ left ih =>
    intro s p i v h hne
    by_cases hs : E.esmi_socket_power_cap_set s (toUInt32 (clamp_value E s p)) = 0
    · have hnot : ¬ wrote (iteration_events E s p : List (Event D)) i v := by
        intro h'
        obtain ⟨rfl, rfl⟩ := (wrote_iteration_events E s p i v).mp h'
        exact hne hs
      by_cases hg : (E.esmi_socket_power_cap_get s).1 = 0
      · rw [node_power_limit_loop_succ E left s p hs hg] at h ⊢
        split at h
        · dsimp only at h
          rcases (wrote_append _ _ i v).mp h with h | h
          · exact absurd h hnot
          · exact absurd h (not_wrote_verify_guidance i v)
        · rename_i hm
          rw [if_neg hm]
          dsimp only at h ⊢
          rcases (wrote_append _ _ i v).mp h with h | h
          · exact absurd h hnot
          · have hsi : s + 1 ≤ i := node_power_limit_loop_wrote_ge E left (s + 1) _ i v h
            obtain ⟨q1, q2, q3⟩ := iteration_events_quiet (D := D) E s p i (by omega)
            obtain ⟨h1, h2, h3, h4, h5⟩ := ih (s + 1) _ i v h hne
            rw [handler_messages_append, writes_to_append, read_back_append, q1, q2]
            refine ⟨h1, by simpa using h2, by simpa using h3, ?_, ?_⟩
            · rintro (h' | h')
              · exact q3 h'
              · exact h4 h'
            · intro j w hj hw
              rcases (wrote_append _ _ j w).mp hw with hw | hw
              · have := ((wrote_iteration_events E s p j w).mp hw).1
                omega
              · exact h5 j w hj hw
      · rw [node_power_limit_loop_get_fails E left s p hs hg] at h
        dsimp only at h
        rcases (wrote_append _ _ i v).mp h with h | h
        · exact absurd h hnot
        · unfold wrote at h
          simp at h
    · rw [node_power_limit_loop_set_fails E left s p hs] at h ⊢
      dsimp only at h ⊢
      have hiv : i = s ∧ v = toUInt32 (clamp_value E s p) := by
        rcases (wrote_append _ _ i v).mp h with h | h
        · exact absurd h (not_wrote_clamp_events E s p i v)
        · unfold wrote at h
          rcases List.mem_cons.mp h with h | h
          · simp at h
            omega
          · exact absurd h (not_wrote_cap_set_failure E _ s _ i v)
      obtain ⟨rfl, rfl⟩ := hiv
      obtain ⟨q1, q2, q3⟩ := clamp_events_quiet (D := D) E i p i
      rw [handler_messages_append, writes_to_append, read_back_append, q1, q2]
      unfold cap_set_failure
      dsimp only
      refine ⟨?_, ?_, ?_, ?_, ?_⟩
      · split <;> rfl
      · split <;> simp [handler_messages, handler_message]
      · split <;> simp [writes_to, written_to]
      · rintro (h' | h')
        · exact q3 h'
        · unfold read_back at h'
          split at h' <;> simp at h'
      · intro j w hj hw
        rcases (wrote_append _ _ j w).mp hw with hw | hw
        · exact absurd hw (not_wrote_clamp_events E i p j w)
        · unfold wrote at hw
          split at hw
          · simp at hw
            omega
          · simp at hw
            omega

theorem log_entry_quiet {D : Type} (val : Option String) (fmt : String)
    (args : List (Arg D)) (j : Nat) :
    handler_messages (log_entry val fmt args) = [] ∧
    writes_to j (log_entry val fmt args) = [] ∧
    ¬ read_back (log_entry val fmt args) j := by
  unfold handler_messages writes_to read_back log_entry
  split
  · split <;> simp [handler_message, written_to]
  · simp

/-- C3. In `amd_cpu_epyc_set_and_verify_best_effort_node_power_limit`, when
the call `esmi_socket_power_cap_set(i, v)` occurs in the run and returns a
non-zero code `r`: if `r` is `ESMI_PERMISSION` the error handler is invoked
exactly once, with the message `Incorrect permissions`, and the call returns
-1; otherwise the handler is not invoked and the call returns `r`. In both
cases socket `i` is written exactly once, no read-back is issued for socket
`i`, and no later socket is written. -/
theorem node_power_limit_write_failure {D : Type} [DoubleOps D] (E : AmdEnv)
    (pcap_new : Int) (i v : Nat) (r : Int)
    (hcall : wrote
      (amd_cpu_epyc_set_and_verify_best_effort_node_power_limit E pcap_new : Run D).out i v)
    (hr : E.esmi_socket_power_cap_set i v = r) (hne : r ≠ 0) :
    (amd_cpu_epyc_set_and_verify_best_effort_node_power_limit E pcap_new : Run D).ret =
      (if r = E.ESMI_PERMISSION then -1 else r) ∧
    handler_messages
      (amd_cpu_epyc_set_and_verify_best_effort_node_power_limit E pcap_new : Run D).out =
      (if r = E.ESMI_PERMISSION then ["Incorrect permissions"] else []) ∧
    writes_to i
      (amd_cpu_epyc_set_and_verify_best_effort_node_power_limit E pcap_new : Run D).out =
      [(v : Int)] ∧
    ¬ read_back
      (amd_cpu_epyc_set_and_verify_best_effort_node_power_limit E pcap_new : Run D).out i ∧
    ∀ j w, i < j → ¬ wrote
      (amd_cpu_epyc_set_and_verify_best_effort_node_power_limit E pcap_new : Run D).out j w := by
  subst hr
  unfold amd_cpu_epyc_set_and_verify_best_effort_node_power_limit at hcall ⊢
  dsimp only at hcall ⊢
  rw [wrote_log_entry_append] at hcall
  obtain ⟨h1, h2, h3, h4, h5⟩ :=
    node_power_limit_loop_write_failure E E.num_sockets 0 _ i v hcall hne
  obtain ⟨q1, q2, q3⟩ := log_entry_quiet (D := D) E.VARIORUM_LOG
    "Running %s with value %d\n"
    [Arg.str "amd_cpu_epyc_set_and_verify_best_effort_node_power_limit",
     Arg.int pcap_new] i
  rw [handler_messages_append, writes_to_append, read_back_append, q1, q2]
  refine ⟨h1, by simpa using h2, by simpa using h3, ?_, ?_⟩
  · rintro (h | h)
    · exact q3 h
    · exact h4 h
  · intro j w hj hw
    exact h5 j w hj ((wrote_log_entry_append _ _ _ _ j w).mp hw)

/-- The write-failure theorem applied to `amd_denied` with a request of 200 W:
the write of 100000 mW to socket 1 is refused with the permission status, the
call returns -1 and the handler is invoked once. -/
theorem node_power_limit_write_failure_witness :
    (amd_cpu_epyc_set_and_verify_best_effort_node_power_limit amd_denied 200 : Run ℚ).ret =
      (if (4 : Int) = amd_denied.ESMI_PERMISSION then -1 else 4) ∧
    handler_messages
      (amd_cpu_epyc_set_and_verify_best_effort_node_power_limit amd_denied 200 : Run ℚ).out =
      (if (4 : Int) = amd_denied.ESMI_PERMISSION then ["Incorrect permissions"] else []) ∧
    writes_to 1
      (amd_cpu_epyc_set_and_verify_best_effort_node_power_limit amd_denied 200 : Run ℚ).out =
      [((100000 : Nat) : Int)] ∧
    ¬ read_back
      (amd_cpu_epyc_set_and_verify_best_effort_node_power_limit amd_denied 200 : Run ℚ).out 1 ∧
    ∀ j w, 1 < j → ¬ wrote
      (amd_cpu_epyc_set_and_verify_best_effort_node_power_limit amd_denied 200 : Run ℚ).out j w :=
  node_power_limit_write_failure amd_denied 200 1 100000 4
    (by unfold wrote; decide) rfl (by decide)

/-! ## Per-socket reporting loops -/

theorem vendor_calls_append {D : Type} (a b : List (Event D)) :
    vendor_calls (a ++ b) = vendor_calls a ++ vendor_calls b := by
  unfold vendor_calls
  exact List.filterMap_append _ _ _

theorem row_indices_append {D : Type} (formats : List String) (lead : Nat)
    (a b : List (Event D)) :
    row_indices formats lead (a ++ b) =
      row_indices formats lead a ++ row_indices formats lead b := by
  unfold row_indices
  exact List.filterMap_append _ _ _

theorem log_entry_no_calls {D : Type} (val : Option String) (fmt : String)
    (args : List (Arg D)) : vendor_calls (log_entry val fmt args) = [] := by
  unfold vendor_calls log_entry
  split
  · split <;> simp [vendor_call]
  · simp

theorem log_entry_no_rows {D : Type} (formats : List String) (lead : Nat)
    (val : Option String) (fmt : String) (args : List (Arg D))
    (hfmt : fmt ∉ formats) :
    row_indices formats lead (log_entry val fmt args) = [] := by
  unfold row_indices log_entry
  split
  · split <;> simp [row_index, hfmt]
  · simp

theorem latch_header_no_calls {D : Type} (st : Epoch) (long_ver : Int)
    (header : String) :
    vendor_calls (latch_header st long_ver header : List (Event D)) = [] := by
  unfold vendor_calls latch_header
  split <;> simp [vendor_call]

theorem latch_header_no_rows {D : Type} (formats : List String) (lead : Nat)
    (st : Epoch) (long_ver : Int) (header : String) :
    row_indices formats lead (latch_header st long_ver header : List (Event D)) = [] := by
  unfold row_indices latch_header
  split <;> simp [row_index]

theorem index_range_succ (s n : Nat) :
    index_range s (n + 1) = (s : Int) :: index_range (s + 1) n := by
  unfold index_range
  simp [List.range'_succ]

/-- The power loop when every query of the range succeeds. -/
theorem get_power_loop_success {D : Type} [DoubleOps D] (E : AmdEnv)
    (long_ver : Int) (start : Timeval) :
    ∀ (left i : Nat),
    (∀ j, i ≤ j → j < i + left → (E.esmi_socket_power_get j).1 = 0) →
    (get_power_loop E long_ver start left i : Run D).ret = 0 ∧
    power_rows (get_power_loop E long_ver start left i : Run D).out = index_range i left ∧
    vendor_calls (get_power_loop E long_ver start left i : Run D).out =
      (List.range' i left).map (fun (j : Nat) => (Fn.esmi_socket_power_get, [(j : Int)])) := by
  intro left
  induction left with
  | zero =>
    intro i _
    simp [get_power_loop, power_rows, row_indices, vendor_calls, index_range]
  | succ left ih =>
    intro i h
    have h0 := h i (le_refl _) (by omega)
    obtain ⟨ih1, ih2, ih3⟩ := ih (i + 1) (fun j h1 h2 => h j (by omega) (by omega))
    unfold power_rows at ih2 ⊢
    unfold row_indices at ih2 ⊢
    unfold vendor_calls at ih3 ⊢
    unfold power_row_formats at ih2 ⊢
    rw [index_range_succ, List.range'_succ]
    simp only [get_power_loop, h0, ne_eq, not_true_eq_false, if_false]
    refine ⟨ih1, ?_, ?_⟩
    · by_cases hl : long_ver = 0
      · subst hl
        simp [row_index, ih2]
      · simp [hl, row_index, ih2]
    · by_cases hl : long_ver = 0
      · subst hl
        simp [vendor_call, ih3]
      · simp [hl, vendor_call, ih3]

/-- C4. For every socket count and either verbosity level, if every
`esmi_socket_power_get` call returns 0, `amd_cpu_epyc_get_power` returns 0, its
data rows carry the socket indices `0, 1, ..., N-1` in this order, and its
vendor calls are exactly one power query per socket, in ascending order. -/
theorem get_power_emits_all_rows {D : Type} [DoubleOps D] (E : AmdEnv)
    (st : Epoch) (long_ver : Int)
    (hok : ∀ i, i < E.num_sockets → (E.esmi_socket_power_get i).1 = 0) :
    (amd_cpu_epyc_get_power E st long_ver : Run D × Epoch).1.ret = 0 ∧
    power_rows (amd_cpu_epyc_get_power E st long_ver : Run D × Epoch).1.out =
      index_range 0 E.num_sockets ∧
    (power_rows (amd_cpu_epyc_get_power E st long_ver : Run D × Epoch).1.out).length =
      E.num_sockets ∧
    vendor_calls (amd_cpu_epyc_get_power E st long_ver : Run D × Epoch).1.out =
      (List.range' 0 E.num_sockets).map
        (fun (j : Nat) => (Fn.esmi_socket_power_get, [(j : Int)])) := by
  obtain ⟨h1, h2, h3⟩ := get_power_loop_success (D := D) E long_ver
    (latch_epoch E st).start E.num_sockets 0 (fun j _ h => hok j (by omega))
  unfold amd_cpu_epyc_get_power
  dsimp only
  unfold power_rows at h2 ⊢
  rw [row_indices_append, row_indices_append, vendor_calls_append, vendor_calls_append,
    log_entry_no_calls, latch_header_no_calls, latch_header_no_rows,
    log_entry_no_rows _ _ _ _ _ (by decide), h2, h3]
  refine ⟨h1, rfl, ?_, rfl⟩
  simp [index_range]

/-- The row theorem applied to `amd_two_sockets`, first terse call. -/
theorem get_power_emits_all_rows_witness :
    (amd_cpu_epyc_get_power amd_two_sockets Epoch.fresh 0 : Run ℚ × Epoch).1.ret = 0 ∧
    power_rows (amd_cpu_epyc_get_power amd_two_sockets Epoch.fresh 0 : Run ℚ × Epoch).1.out =
      [0, 1] :=
  ⟨(get_power_emits_all_rows amd_two_sockets Epoch.fresh 0 (fun _ _ => rfl)).1,
   (get_power_emits_all_rows amd_two_sockets Epoch.fresh 0 (fun _ _ => rfl)).2.1⟩

/-- The power loop when socket `k` is the first whose query fails. -/
theorem get_power_loop_failure {D : Type} [DoubleOps D] (E : AmdEnv)
    (long_ver : Int) (start : Timeval) (k : Nat)
    (hk : (E.esmi_socket_power_get k).1 ≠ 0) :
    ∀ (left i : Nat), i ≤ k → k < i + left →
    (∀ j, i ≤ j → j < k → (E.esmi_socket_power_get j).1 = 0) →
    (get_power_loop E long_ver start left i : Run D).ret = (E.esmi_socket_power_get k).1 ∧
    power_rows (get_power_loop E long_ver start left i : Run D).out =
      index_range i (k - i) ∧
    vendor_calls (get_power_loop E long_ver start left i : Run D).out =
      (List.range' i (k - i + 1)).map
        (fun (j : Nat) => (Fn.esmi_socket_power_get, [(j : Int)])) := by
  intro left
  induction left with
  | zero =>
    intro i h1 h2
    omega
  | succ left ih =>
    intro i h1 h2 h
    unfold power_rows row_indices vendor_calls power_row_formats
    by_cases hik : i = k
    · subst hik
      simp [get_power_loop, hk, row_index, vendor_call, index_range]
    · have h0 := h i (le_refl _) (by omega)
      obtain ⟨ih1, ih2, ih3⟩ := ih (i + 1) (by omega) (by omega)
        (fun j h1 h2 => h j (by omega) h2)
      unfold power_rows row_indices power_row_formats at ih2
      unfold vendor_calls at ih3
      have e1 : k - i = (k - (i + 1)) + 1 := by omega
      rw [e1, index_range_succ, List.range'_succ]
      simp only [get_power_loop, h0, ne_eq, not_true_eq_false, if_false]
      refine ⟨ih1, ?_, ?_⟩
      · by_cases hl : long_ver = 0
        · subst hl
          simp [row_index, ih2]
        · simp [hl, row_index, ih2]
      · by_cases hl : long_ver = 0
        · subst hl
          simp [vendor_call, ih3]
        · simp [hl, vendor_call, ih3]

/-- The limits loop when socket `k` is the first with a failing query, and
that query is the one at position `q` of the three. -/
theorem get_power_limits_loop_failure {D : Type} [DoubleOps D] (E : AmdEnv)
    (long_ver : Int) (start : Timeval) (k q : Nat) (r : Int)
    (hpre : ∀ s ∈ (limit_status E k).take q, s = 0)
    (hr : (limit_status E k)[q]? = some r) (hne : r ≠ 0) :
    ∀ (left i : Nat), i ≤ k → k < i + left →
    (∀ j, i ≤ j → j < k → ∀ s ∈ limit_status E j, s = 0) →
    (get_power_limits_loop E long_ver start left i : Run D).ret = r ∧
    limit_rows (get_power_limits_loop E long_ver start left i : Run D).out =
      index_range i (k - i) ∧
    vendor_calls (get_power_limits_loop E long_ver start left i : Run D).out =
      (List.range' i (k - i)).flatMap limit_queries ++ (limit_queries k).take (q + 1) := by
  intro left
  induction left with
  | zero =>
    intro i h1 h2
    omega
  | succ left ih =>
    intro i h1 h2 h
    unfold limit_rows row_indices vendor_calls limit_row_formats
    by_cases hik : i = k
    · subst hik
      have hq : q < 3 := by
        by_contra hq
        have : (limit_status E i)[q]? = none := by
          apply List.getElem?_eq_none
          simp [limit_status]
          omega
        rw [this] at hr
        cases hr
      interval_cases q
      · simp [limit_status] at hr
        subst hr
        simp [get_power_limits_loop, hne, row_index, vendor_call, index_range, limit_queries]
      · simp [limit_status] at hr hpre
        subst hr
        simp [get_power_limits_loop, hne, hpre, row_index, vendor_call, index_range,
          limit_queries]
      · simp [limit_status] at hr hpre
        subst hr
        simp [get_power_limits_loop, hne, hpre, row_index, vendor_call, index_range,
          limit_queries]
    · have h0 := h i (le_refl _) (by omega)
      simp [limit_status] at h0
      obtain ⟨ha, hb, hc⟩ := h0
      obtain ⟨ih1, ih2, ih3⟩ := ih (i + 1) (by omega) (by omega)
        (fun j h1 h2 => h j (by omega) h2)
      unfold limit_rows row_indices limit_row_formats at ih2
      unfold vendor_calls at ih3
      have e1 : k - i = (k - (i + 1)) + 1 := by omega
      rw [e1, index_range_succ, List.range'_succ, List.flatMap_cons]
      simp only [get_power_limits_loop, ha, hb, hc, ne_eq, not_true_eq_false, if_false]
      refine ⟨ih1, ?_, ?_⟩
      · by_cases hl : long_ver = 0
        · subst hl
          simp [row_index, ih2]
        · simp [hl, row_index, ih2]
      · by_cases hl : long_ver = 0
        · subst hl
          simp [vendor_call, ih3, limit_queries]
        · simp [hl, vendor_call, ih3, limit_queries]

/-- C5. In `amd_cpu_epyc_get_power`, if socket `k` is the first whose power
query returns a non-zero code, the call returns exactly that code, the data
rows are those of sockets `0..k-1`, and the vendor calls are the power queries
of sockets `0..k` and nothing else. In `amd_cpu_epyc_get_power_limits`, if
socket `k` is the first with a failing query, the failing query being number
`q` of the three (power, cap, maximum cap) and returning `r`, the call returns
exactly `r`, the data rows are those of sockets `0..k-1`, and the vendor calls
are the three queries of each socket before `k` followed by the first `q + 1`
queries of socket `k` and nothing else. -/
theorem reporting_loops_abort_on_first_failure {D : Type} [DoubleOps D]
    (E : AmdEnv) (st : Epoch) (long_ver : Int) (k : Nat) (hk : k < E.num_sockets) :
    ((∀ j, j < k → (E.esmi_socket_power_get j).1 = 0) →
      (E.esmi_socket_power_get k).1 ≠ 0 →
      (amd_cpu_epyc_get_power E st long_ver : Run D × Epoch).1.ret =
        (E.esmi_socket_power_get k).1 ∧
      power_rows (amd_cpu_epyc_get_power E st long_ver : Run D × Epoch).1.out =
        index_range 0 k ∧
      vendor_calls (amd_cpu_epyc_get_power E st long_ver : Run D × Epoch).1.out =
        (List.range' 0 (k + 1)).map
          (fun (j : Nat) => (Fn.esmi_socket_power_get, [(j : Int)]))) ∧
    (∀ (q : Nat) (r : Int),
      (∀ j, j < k → ∀ s ∈ limit_status E j, s = 0) →
      (∀ s ∈ (limit_status E k).take q, s = 0) →
      (limit_status E k)[q]? = some r → r ≠ 0 →
      (amd_cpu_epyc_get_power_limits E st long_ver : Run D × Epoch).1.ret = r ∧
      limit_rows (amd_cpu_epyc_get_power_limits E st long_ver : Run D × Epoch).1.out =
        index_range 0 k ∧
      vendor_calls (amd_cpu_epyc_get_power_limits E st long_ver : Run D × Epoch).1.out =
        (List.range' 0 k).flatMap limit_queries ++ (limit_queries k).take (q + 1)) := by
  constructor
  · intro hpre hfail
    obtain ⟨h1, h2, h3⟩ := get_power_loop_failure (D := D) E long_ver
      (latch_epoch E st).start k hfail E.num_sockets 0 (Nat.zero_le _) (by omega)
      (fun j _ h => hpre j h)
    unfold amd_cpu_epyc_get_power
    dsimp only
    unfold power_rows at h2 ⊢
    rw [row_indices_append, row_indices_append, vendor_calls_append, vendor_calls_append,
      log_entry_no_calls, latch_header_no_calls, latch_header_no_rows,
      log_entry_no_rows _ _ _ _ _ (by decide), h2, h3]
    exact ⟨h1, rfl, rfl⟩
  · intro q r hpre hq hr hne
    obtain ⟨h1, h2, h3⟩ := get_power_limits_loop_failure (D := D) E long_ver
      (latch_epoch E st).start k q r hq hr hne E.num_sockets 0 (Nat.zero_le _) (by omega)
      (fun j _ h => hpre j h)
    unfold amd_cpu_epyc_get_power_limits
    dsimp only
    unfold limit_rows at h2 ⊢
    rw [row_indices_append, row_indices_append, vendor_calls_append, vendor_calls_append,
      log_entry_no_calls, latch_header_no_calls, latch_header_no_rows,
      log_entry_no_rows _ _ _ _ _ (by decide), h2, h3]
    exact ⟨h1, rfl, rfl⟩

/-- The abort theorem applied to `amd_power_fails` (the power query of socket
1 returns 5) and to `amd_query_fails` (the cap query of socket 1 returns 7). -/
theorem reporting_loops_abort_on_first_failure_witness :
    ((amd_cpu_epyc_get_power amd_power_fails Epoch.fresh 0 : Run ℚ × Epoch).1.ret = 5 ∧
      power_rows (amd_cpu_epyc_get_power amd_power_fails Epoch.fresh 0 :
        Run ℚ × Epoch).1.out = [0] ∧
      vendor_calls (amd_cpu_epyc_get_power amd_power_fails Epoch.fresh 0 :
        Run ℚ × Epoch).1.out =
        [(Fn.esmi_socket_power_get, [0]), (Fn.esmi_socket_power_get, [1])]) ∧
    ((amd_cpu_epyc_get_power_limits amd_query_fails Epoch.fresh 0 : Run ℚ × Epoch).1.ret = 7 ∧
      limit_rows (amd_cpu_epyc_get_power_limits amd_query_fails Epoch.fresh 0 :
        Run ℚ × Epoch).1.out = [0] ∧
      vendor_calls (amd_cpu_epyc_get_power_limits amd_query_fails Epoch.fresh 0 :
        Run ℚ × Epoch).1.out =
        [(Fn.esmi_socket_power_get, [0]), (Fn.esmi_socket_power_cap_get, [0]),
         (Fn.esmi_socket_power_cap_max_get, [0]),
         (Fn.esmi_socket_power_get, [1]), (Fn.esmi_socket_power_cap_get, [1])]) :=
  ⟨(reporting_loops_abort_on_first_failure amd_power_fails Epoch.fresh 0 1
      (by decide)).1 (by decide) (by decide),
   (reporting_loops_abort_on_first_failure amd_query_fails Epoch.fresh 0 1
      (by decide)).2 1 7 (by decide) (by decide) (by decide) (by decide)⟩

/-! ## The energy report: the core loop continues past a failing core -/

theorem cores_with_status_succ (E : AmdEnv) (failing : Bool) (s n : Nat) :
    cores_with_status E failing s (n + 1) =
      (if decide ((E.esmi_core_energy_get s).1 ≠ 0) == failing then [(s : Int)] else []) ++
        cores_with_status E failing (s + 1) n := by
  unfold cores_with_status
  rw [List.range'_succ, List.filter_cons]
  split <;> simp

/-- The socket loop of the energy report when every socket query succeeds:
it runs to its end, queries every socket once, and prints no core line. -/
theorem socket_energy_loop_success {D : Type} [DoubleOps D] (E : AmdEnv) :
    ∀ (left i : Nat),
    (∀ j, i ≤ j → j < i + left → (E.esmi_socket_energy_get j).1 = 0) →
    (socket_energy_loop E left i : Bool × List (Event D)).1 = true ∧
    vendor_calls (socket_energy_loop E left i : Bool × List (Event D)).2 =
      (List.range' i left).map
        (fun (j : Nat) => (Fn.esmi_socket_energy_get, [(j : Int)])) ∧
    core_energy_rows (socket_energy_loop E left i : Bool × List (Event D)).2 = [] ∧
    core_failure_lines (socket_energy_loop E left i : Bool × List (Event D)).2 = [] := by
  intro left
  induction left with
  | zero =>
    intro i _
    simp [socket_energy_loop, vendor_calls, core_energy_rows, core_failure_lines,
      row_indices]
  | succ left ih =>
    intro i h
    have h0 := h i (le_refl _) (by omega)
    obtain ⟨ih1, ih2, ih3, ih4⟩ := ih (i + 1) (fun j h1 h2 => h j (by omega) (by omega))
    unfold vendor_calls at ih2 ⊢
    unfold core_energy_rows row_indices at ih3 ⊢
    unfold core_failure_lines row_indices at ih4 ⊢
    rw [List.range'_succ]
    simp only [socket_energy_loop, h0, ne_eq, not_true_eq_false, if_false]
    refine ⟨ih1, ?_, ?_, ?_⟩
    · simp [vendor_call, ih2]
    · simp [row_index, ih3]
    · simp [row_index, ih4]

/-- The core loop of the energy report, for any pattern of failing cores. -/
theorem core_energy_loop_spec {D : Type} [DoubleOps D] (E : AmdEnv) :
    ∀ (left i : Nat),
    vendor_calls (core_energy_loop E left i : List (Event D)) =
      (List.range' i left).map
        (fun (j : Nat) => (Fn.esmi_core_energy_get, [(j : Int)])) ∧
    core_energy_rows (core_energy_loop E left i : List (Event D)) =
      cores_with_status E false i left ∧
    core_failure_lines (core_energy_loop E left i : List (Event D)) =
      cores_with_status E true i left := by
  intro left
  induction left with
  | zero =>
    intro i
    simp [core_energy_loop, vendor_calls, core_energy_rows, core_failure_lines,
      row_indices, cores_with_status]
  | succ left ih =>
    intro i
    obtain ⟨ih1, ih2, ih3⟩ := ih (i + 1)
    rw [cores_with_status_succ, cores_with_status_succ, List.range'_succ]
    unfold vendor_calls at ih1 ⊢
    unfold core_energy_rows row_indices at ih2 ⊢
    unfold core_failure_lines row_indices at ih3 ⊢
    simp only [core_energy_loop]
    by_cases hf : (E.esmi_core_energy_get i).1 = 0
    · simp [hf, vendor_call, row_index, ih1, ih2, ih3]
    · simp [hf, vendor_call, row_index, ih1, ih2, ih3]

/-- C6. In `amd_cpu_epyc_print_energy` with `esmi_init` succeeding,
`long_ver == 0` and every per-socket energy query succeeding: whatever the set
of cores whose `esmi_core_energy_get` fails, the call returns 0; its vendor
calls are `esmi_init`, one energy query per socket and then one energy query
per core `0..total_cores-1` in ascending order; the failure lines name exactly
the failing cores and the energy rows exactly the other cores, both in
ascending order. -/
theorem print_energy_continues_past_failing_cores {D : Type} [DoubleOps D]
    (E : AmdEnv) (long_ver : Int) (hinit : E.esmi_init = 0) (hlong : long_ver = 0)
    (hsock : ∀ i, i < E.num_sockets → (E.esmi_socket_energy_get i).1 = 0) :
    (amd_cpu_epyc_print_energy E long_ver : Run D).ret = 0 ∧
    vendor_calls (amd_cpu_epyc_print_energy E long_ver : Run D).out =
      (Fn.esmi_init, []) ::
        ((List.range' 0 E.num_sockets).map
          (fun (j : Nat) => (Fn.esmi_socket_energy_get, [(j : Int)])) ++
         (List.range' 0 E.total_cores).map
          (fun (j : Nat) => (Fn.esmi_core_energy_get, [(j : Int)]))) ∧
    core_failure_lines (amd_cpu_epyc_print_energy E long_ver : Run D).out =
      cores_with_status E true 0 E.total_cores ∧
    core_energy_rows (amd_cpu_epyc_print_energy E long_ver : Run D).out =
      cores_with_status E false 0 E.total_cores := by
  obtain ⟨s1, s2, s3, s4⟩ := socket_energy_loop_success (D := D) E E.num_sockets 0
    (fun j _ h => hsock j (by omega))
  obtain ⟨c1, c2, c3⟩ := core_energy_loop_spec (D := D) E E.total_cores 0
  have l1 := log_entry_no_calls (D := D) E.VARIORUM_LOG "Running %s\n"
    [Arg.str "amd_cpu_epyc_print_energy"]
  have l2 := log_entry_no_rows (D := D) [" %6d | %17.06f | \n"] 0 E.VARIORUM_LOG
    "Running %s\n" [Arg.str "amd_cpu_epyc_print_energy"] (by decide)
  have l3 := log_entry_no_rows (D := D)
    ["Failed to get core[%d] _COREENERGY, Err[%d]:%s\n"] 0 E.VARIORUM_LOG
    "Running %s\n" [Arg.str "amd_cpu_epyc_print_energy"] (by decide)
  unfold core_energy_rows at s3 c2 ⊢
  unfold core_failure_lines at s4 c3 ⊢
  unfold amd_cpu_epyc_print_energy
  simp only [hinit, hlong, and_self, if_true, s1]
  simp only [vendor_calls_append, row_indices_append, l1, l2, l3, s2, s3, s4, c1, c2, c3]
  refine ⟨trivial, ?_, ?_, ?_⟩
  · simp [vendor_calls, vendor_call]
  · simp [row_indices, row_index]
  · simp [row_indices, row_index]

/-- The energy theorem applied to `amd_two_sockets`, whose core 1 fails: the
call returns 0, the failure line names core 1, the rows are cores 0, 2, 3. -/
theorem print_energy_continues_past_failing_cores_witness :
    (amd_cpu_epyc_print_energy amd_two_sockets 0 : Run ℚ).ret = 0 ∧
    core_failure_lines (amd_cpu_epyc_print_energy amd_two_sockets 0 : Run ℚ).out = [1] ∧
    core_energy_rows (amd_cpu_epyc_print_energy amd_two_sockets 0 : Run ℚ).out =
      [0, 2, 3] :=
  ⟨(print_energy_continues_past_failing_cores amd_two_sockets 0 rfl rfl
      (fun _ _ => rfl)).1,
   (print_energy_continues_past_failing_cores amd_two_sockets 0 rfl rfl
      (fun _ _ => rfl)).2.2.1,
   (print_energy_continues_past_failing_cores amd_two_sockets 0 rfl rfl
      (fun _ _ => rfl)).2.2.2⟩

/-! ## JSON objects -/

theorem members_get_set_self {D : Type} (ms : List (String × Json D)) (key : String)
    (v : Json D) : members_get (members_set ms key v) key = some v := by
  induction ms with
  | nil => simp [members_set, members_get]
  | cons kv rest ih =>
    obtain ⟨k, x⟩ := kv
    by_cases h : k = key
    · simp [members_set, members_get, h]
    · simp [members_set, members_get, h, ih]

theorem members_get_set_ne {D : Type} (ms : List (String × Json D)) (key key' : String)
    (v : Json D) (hne : key' ≠ key) :
    members_get (members_set ms key v) key' = members_get ms key' := by
  induction ms with
  | nil =>
    have : ¬ key = key' := fun h => hne h.symm
    simp [members_set, members_get, this]
  | cons kv rest ih =>
    obtain ⟨k, x⟩ := kv
    by_cases h : k = key
    · subst h
      have : ¬ k = key' := fun h => hne h.symm
      simp [members_set, members_get, this]
    · by_cases h' : k = key'
      · subst h'
        simp [members_set, members_get, h]
      · simp [members_set, members_get, h, h', ih]

theorem json_in_place_object {D : Type} (ms : List (String × Json D)) (key : String)
    (f : Json D → Json D) :
    ∃ ms', json_in_place (Json.object ms) key f = Json.object ms' ∧
      ∀ key', key' ≠ key → members_get ms' key' = members_get ms key' := by
  unfold json_in_place
  cases h : json_object_get (Json.object ms) key with
  | none => exact ⟨ms, rfl, fun _ _ => rfl⟩
  | some child =>
    exact ⟨members_set ms key (f child), rfl,
      fun key' hne => members_get_set_ne ms key key' _ hne⟩

/-! ## Node totals written by the CPU exporters -/

theorem socket_watts_succ {D : Type} [DoubleOps D] (E : AmdEnv) (s n : Nat) :
    (socket_watts E s (n + 1) : List D) =
      milli_to_unit ((u32 (E.esmi_socket_power_get s).2 : Nat) : Int) ::
        socket_watts E (s + 1) n := by
  unfold socket_watts
  simp [List.range'_succ]

/-- The JSON power loop when every query of the range succeeds: it returns 0,
leaves an object, and the member `power_node_watts` of that object is the
running total plus the socket powers of the range, whatever was there. -/
theorem get_power_json_loop_total {D : Type} [DoubleOps D] (E : AmdEnv) :
    ∀ (left i : Nat) (ms : List (String × Json D)) (acc : D),
    (∀ j, i ≤ j → j < i + left → (E.esmi_socket_power_get j).1 = 0) →
    (get_power_json_loop E left i (Json.object ms) acc).1.ret = 0 ∧
    ∃ ms', (get_power_json_loop E left i (Json.object ms) acc).2 = Json.object ms' ∧
      members_get ms' "power_node_watts" =
        some (Json.real (sum_from acc (socket_watts E i left))) := by
  intro left
  induction left with
  | zero =>
    intro i ms acc _
    refine ⟨rfl, members_set ms "power_node_watts" (Json.real acc), rfl, ?_⟩
    rw [members_get_set_self]
    rfl
  | succ left ih =>
    intro i ms acc h
    have h0 := h i (le_refl _) (by omega)
    obtain ⟨m1, e1, _⟩ := json_in_place_object
      (members_set ms (snprintf_socket i) (Json.object [])) (snprintf_socket i)
      (fun socket_obj => json_object_set_new socket_obj "power_cpu_watts"
        (Json.real (milli_to_unit ((u32 (E.esmi_socket_power_get i).2 : Nat) : Int)) : Json D))
    obtain ⟨m2, e2, _⟩ := json_in_place_object m1 (snprintf_socket i)
      (fun socket_obj => json_object_set_new socket_obj "power_mem_watts"
        (Json.real (DoubleOps.ofInt (-1)) : Json D))
    obtain ⟨ih1, ms', ih2, ih3⟩ := ih (i + 1) m2
      (DoubleOps.add acc (milli_to_unit ((u32 (E.esmi_socket_power_get i).2 : Nat) : Int)))
      (fun j h1 h2 => h j (by omega) (by omega))
    have hstep : get_power_json_loop E (left + 1) i (Json.object ms) acc =
        (⟨(get_power_json_loop E left (i + 1) (Json.object m2)
            (DoubleOps.add acc
              (milli_to_unit ((u32 (E.esmi_socket_power_get i).2 : Nat) : Int)))).1.ret,
          Event.call Fn.esmi_socket_power_get [(i : Int)] ::
          (get_power_json_loop E left (i + 1) (Json.object m2)
            (DoubleOps.add acc
              (milli_to_unit ((u32 (E.esmi_socket_power_get i).2 : Nat) : Int)))).1.out⟩,
         (get_power_json_loop E left (i + 1) (Json.object m2)
            (DoubleOps.add acc
              (milli_to_unit ((u32 (E.esmi_socket_power_get i).2 : Nat) : Int)))).2) := by
      rw [← e2, ← e1]
      simp [get_power_json_loop, h0, json_object_set_new]
    rw [hstep]
    refine ⟨ih1, ms', ih2, ?_⟩
    rw [ih3, socket_watts_succ]
    rfl

/-- C8 (as amended). The CPU exporters replace a node-level total: with every
socket query succeeding, `amd_cpu_epyc_get_power_json` returns 0 and leaves
`power_node_watts` equal to the sum of the socket powers it measured, whatever
the document held before; `ibm_cpu_p9_get_node_energy_json` leaves
`energy_node_joules` equal to the integer 0 on a start toggle and to its
accumulator value on a stop toggle, whatever the document held before. -/
theorem cpu_exporters_replace_node_total {D : Type} [DoubleOps D] (E : AmdEnv)
    (ms : List (String × Json D))
    (hok : ∀ i, i < E.num_sockets → (E.esmi_socket_power_get i).1 = 0)
    (st : Sampler) (ms2 : List (String × Json D)) :
    (amd_cpu_epyc_get_power_json E (Json.object ms)).1.ret = 0 ∧
    json_object_get (amd_cpu_epyc_get_power_json E (Json.object ms)).2 "power_node_watts" =
      some (Json.real (sum_from (DoubleOps.ofInt 0) (socket_watts E 0 E.num_sockets))) ∧
    json_object_get
      (ibm_cpu_p9_get_node_energy_json st (Json.object ms2) : Run D × Sampler × Json D).2.2
      "energy_node_joules" =
      some (Json.integer
        (toInt64 (if st.active_sampling = 0 then 0 else (u64 st.energy_acc : Int)))) := by
  obtain ⟨h1, ms', h2, h3⟩ := get_power_json_loop_total E E.num_sockets 0 ms
    (DoubleOps.ofInt 0 : D) (fun j _ h => hok j (by omega))
  refine ⟨h1, ?_, ?_⟩
  · unfold amd_cpu_epyc_get_power_json
    dsimp only
    rw [h2]
    exact h3
  · unfold ibm_cpu_p9_get_node_energy_json
    split
    · simp [json_object_set_new, json_object_get, json_integer, members_get_set_self]
    · simp [json_object_set_new, json_object_get, json_integer, members_get_set_self]

/-- The replacement theorem applied to `amd_two_sockets` on a document holding
`power_node_watts = 5.0` and to a running sampler on a document holding
`energy_node_joules = 5`. -/
theorem cpu_exporters_replace_node_total_witness :
    (amd_cpu_epyc_get_power_json amd_two_sockets
      (Json.object [("power_node_watts", Json.real (5 : ℚ))])).1.ret = 0 ∧
    json_object_get (amd_cpu_epyc_get_power_json amd_two_sockets
      (Json.object [("power_node_watts", Json.real (5 : ℚ))])).2 "power_node_watts" =
      some (Json.real (sum_from (DoubleOps.ofInt 0)
        (socket_watts amd_two_sockets 0 amd_two_sockets.num_sockets))) ∧
    json_object_get
      (ibm_cpu_p9_get_node_energy_json sampler_running
        (Json.object [("energy_node_joules", Json.integer 5)]) :
          Run ℚ × Sampler × Json ℚ).2.2 "energy_node_joules" =
      some (Json.integer
        (toInt64 (if sampler_running.active_sampling = 0 then 0
          else (u64 sampler_running.energy_acc : Int)))) :=
  cpu_exporters_replace_node_total amd_two_sockets _ (fun _ _ => rfl) sampler_running _

/-- C8 fails as stated. On a document that holds `power_node_watts = 5.0`, the
two-socket node measuring 50 W and 51 W leaves `power_node_watts = 101.0`, not
`5.0 + 101.0`; on a document that holds `energy_node_joules = 5`, the stop
toggle of a sampler with accumulator 7 leaves `energy_node_joules = 7`, not
`5 + 7`. -/
theorem cpu_exporters_add_to_node_total_counterexample :
    (json_object_get (amd_cpu_epyc_get_power_json amd_two_sockets
        (Json.object [("power_node_watts", Json.real (5 : ℚ))])).2 "power_node_watts" =
      some (Json.real (101 : ℚ)) ∧
      (101 : ℚ) ≠ 5 + 101) ∧
    (json_object_get
        (ibm_cpu_p9_get_node_energy_json sampler_running
          (Json.object [("energy_node_joules", Json.integer 5)]) :
            Run ℚ × Sampler × Json ℚ).2.2 "energy_node_joules" =
      some (Json.integer 7) ∧
      (7 : Int) ≠ 5 + 7) := by
  refine ⟨⟨?_, by norm_num⟩, ⟨?_, by decide⟩⟩
  · obtain ⟨_, ms', h2, h3⟩ := get_power_json_loop_total (D := ℚ) amd_two_sockets 2 0
      [("power_node_watts", Json.real (5 : ℚ))] (DoubleOps.ofInt 0) (fun _ _ _ => rfl)
    have e : amd_two_sockets.num_sockets = 2 := rfl
    unfold amd_cpu_epyc_get_power_json
    dsimp only
    rw [e, h2]
    unfold json_object_get
    dsimp only
    rw [h3]
    have hs : sum_from (DoubleOps.ofInt 0 : ℚ) (socket_watts amd_two_sockets 0 2) = 101 := by
      simp [sum_from, socket_watts, milli_to_unit, amd_two_sockets, u32, DoubleOps.ofInt,
        DoubleOps.add, DoubleOps.div, List.range'_succ]
      norm_num
    rw [hs]
  · rfl

/-! ## The domain-info export -/

theorem toInt64_of_small (x : Int) (h0 : 0 ≤ x) (h1 : x < 4294967296) :
    toInt64 x = x := by
  unfold toInt64
  omega

/-- C10. For `amd_cpu_epyc_get_node_power_domain_info_json`: if the
maximum-power query for socket 0 succeeds with `m` milliwatts, the call returns
0 and stores a document whose node object (under the host name) has
`unsupported = ["power_node", "power_mem"]` and whose `control.power_cpu` has
`max` equal to the integer `m / 1000` (whole watts), `min = 50` and
`units = "Watts"`; if that query fails with code `r`, the call returns `r` and
stores no document. -/
theorem domain_info_reports_cpu_power_range {D : Type} (E : AmdEnv) :
    ((E.esmi_socket_power_cap_max_get 0).1 = 0 →
      (amd_cpu_epyc_get_node_power_domain_info_json E : Run D × Option (Json D)).1.ret = 0 ∧
      (amd_cpu_epyc_get_node_power_domain_info_json E : Run D × Option (Json D)).2 ≠ none ∧
      json_path (amd_cpu_epyc_get_node_power_domain_info_json E : Run D × Option (Json D)).2
          [E.hostname, "unsupported"] =
        some (Json.array [Json.string "power_node", Json.string "power_mem"]) ∧
      json_path (amd_cpu_epyc_get_node_power_domain_info_json E : Run D × Option (Json D)).2
          [E.hostname, "control", "power_cpu", "max"] =
        some (Json.integer ((u32 (E.esmi_socket_power_cap_max_get 0).2 / 1000 : Nat) : Int)) ∧
      json_path (amd_cpu_epyc_get_node_power_domain_info_json E : Run D × Option (Json D)).2
          [E.hostname, "control", "power_cpu", "min"] = some (Json.integer 50) ∧
      json_path (amd_cpu_epyc_get_node_power_domain_info_json E : Run D × Option (Json D)).2
          [E.hostname, "control", "power_cpu", "units"] = some (Json.string "Watts")) ∧
    ((E.esmi_socket_power_cap_max_get 0).1 ≠ 0 →
      (amd_cpu_epyc_get_node_power_domain_info_json E : Run D × Option (Json D)).1.ret =
        (E.esmi_socket_power_cap_max_get 0).1 ∧
      (amd_cpu_epyc_get_node_power_domain_info_json E : Run D × Option (Json D)).2 = none) := by
  constructor
  · intro h
    have hmax : toInt64 ((u32 (E.esmi_socket_power_cap_max_get 0).2 / 1000 : Nat) : Int) =
        ((u32 (E.esmi_socket_power_cap_max_get 0).2 / 1000 : Nat) : Int) := by
      apply toInt64_of_small
      · omega
      · unfold u32
        omega
    have h50 : toInt64 50 = 50 := by decide
    unfold amd_cpu_epyc_get_node_power_domain_info_json
    simp only [h, ne_eq, not_true_eq_false, if_false]
    refine ⟨trivial, ?_, ?_, ?_, ?_, ?_⟩
    · simp
    · simp [json_path, json_object_get, json_object_set_new, members_set, members_get,
        json_array_append]
    · simp [json_path, json_object_get, json_object_set_new, members_set, members_get,
        json_integer]
      exact_mod_cast hmax
    · simp [json_path, json_object_get, json_object_set_new, members_set, members_get,
        json_integer, h50]
    · simp [json_path, json_object_get, json_object_set_new, members_set, members_get]
  · intro h
    unfold amd_cpu_epyc_get_node_power_domain_info_json
    simp only [h, ne_eq, not_false_eq_true, if_true]
    exact ⟨trivial, trivial⟩

/-- The domain-info theorem applied to `amd_two_sockets` (maximum 200000 mW):
the exported `control.power_cpu.max` is 200. -/
theorem domain_info_reports_cpu_power_range_witness :
    (amd_cpu_epyc_get_node_power_domain_info_json amd_two_sockets :
      Run ℚ × Option (Json ℚ)).1.ret = 0 ∧
    json_path (amd_cpu_epyc_get_node_power_domain_info_json amd_two_sockets :
      Run ℚ × Option (Json ℚ)).2 ["node0", "control", "power_cpu", "max"] =
      some (Json.integer 200) :=
  ⟨((domain_info_reports_cpu_power_range amd_two_sockets).1 rfl).1,
   ((domain_info_reports_cpu_power_range amd_two_sockets).1 rfl).2.2.2.1⟩

/-! ## The GPU energy merge -/

theorem snprintf_d_length (size : Nat) (pre : String) (i : Nat) :
    (snprintf_d size pre i).length ≤ size - 1 := by
  show ((pre.toList ++ decimal i).take (size - 1)).length ≤ size - 1
  exact List.length_take_le _ _

theorem snprintf_socket_ne_energy_node (i : Nat) :
    snprintf_socket i ≠ "energy_node_joules" := by
  intro h
  have h1 := snprintf_d_length 12 "socket_" i
  unfold snprintf_socket at h
  rw [h] at h1
  revert h1
  decide

theorem json_object_get_set_new_ne {D : Type} (ms : List (String × Json D))
    (key key' : String) (v : Json D) (hne : key' ≠ key) :
    json_object_get (json_object_set_new (Json.object ms) key v) key' =
      json_object_get (Json.object ms) key' := by
  unfold json_object_set_new json_object_get
  exact members_get_set_ne ms key key' v hne

/-- When the document is an object whose `energy_node_joules` is a JSON real
`X`, `get_energy_json` leaves it equal to `X + S`, with `S` the accumulated sum
`((0.0 + v0) + v1) + ...` of the per-device values it wrote. -/
theorem get_energy_json_adds_to_real_total {D : Type} [DoubleOps D]
    (readenergy : Int → Nat) (chipid : Nat) (st : GpuState D)
    (ms : List (String × Json D)) (X : D)
    (hX : members_get ms "energy_node_joules" = some (Json.real X)) :
    json_object_get (get_energy_json readenergy chipid st (Json.object ms)).2.2
        "energy_node_joules" =
      some (Json.real (DoubleOps.add X
        (energy_json_devices readenergy chipid st).total_energy_gpu)) := by
  have hne := snprintf_socket_ne_energy_node chipid
  have hne' : "energy_node_joules" ≠ snprintf_socket chipid := fun h => hne h.symm
  -- the document after the first three steps is an object that still holds `X`
  have h1 : members_get (members_set ms "num_gpus_per_socket"
      (json_integer st.m_gpus_per_socket)) "energy_node_joules" = some (Json.real X) := by
    rw [members_get_set_ne _ _ _ _ (by decide), hX]
  have h2 : ∃ m2, (match json_object_get (json_object_set_new (Json.object ms)
        "num_gpus_per_socket" (json_integer st.m_gpus_per_socket))
        (snprintf_socket chipid) with
      | none => json_object_set_new (json_object_set_new (Json.object ms)
          "num_gpus_per_socket" (json_integer st.m_gpus_per_socket))
          (snprintf_socket chipid) (Json.object [])
      | some _ => json_object_set_new (Json.object ms)
          "num_gpus_per_socket" (json_integer st.m_gpus_per_socket)) = Json.object m2 ∧
      members_get m2 "energy_node_joules" = some (Json.real X) := by
    split
    · exact ⟨_, rfl, by rw [members_get_set_ne _ _ _ _ hne', h1]⟩
    · exact ⟨_, rfl, h1⟩
  obtain ⟨m2, e2, g2⟩ := h2
  unfold get_energy_json
  dsimp only
  rw [e2]
  obtain ⟨m3, e3, g3⟩ := json_in_place_object m2 (snprintf_socket chipid)
    (fun socket_obj => json_object_set_new socket_obj "energy_gpu_joules"
      (energy_json_devices readenergy chipid st).gpu_obj)
  rw [e3]
  have g4 : json_object_get (Json.object m3) "energy_node_joules" = some (Json.real X) := by
    show members_get m3 "energy_node_joules" = some (Json.real X)
    rw [g3 _ hne', g2]
  rw [g4]
  dsimp only
  unfold json_object_set_new json_object_get
  dsimp only
  rw [members_get_set_self]
  rfl

/-- The accumulated total of the device loop is the sum of the values it
wrote, added in loop order to the starting total. -/
theorem get_energy_json_loop_total {D : Type} [DoubleOps D] (readenergy : Int → Nat)
    (init : Int) :
    ∀ (left : Nat) (d : Int) (baseline : Int → D) (gpu_obj : Json D) (total : D),
    (get_energy_json_loop readenergy init left d baseline gpu_obj total).total_energy_gpu =
      sum_from total
        (get_energy_json_loop readenergy init left d baseline gpu_obj total).values := by
  intro left
  induction left with
  | zero =>
    intro d baseline gpu_obj total
    rfl
  | succ left ih =>
    intro d baseline gpu_obj total
    simp only [get_energy_json_loop]
    rw [ih]
    rfl

/-- The device loop of socket 0 on the one-GPU node runs once, from device 0. -/
theorem gpu_started_device_range :
    device_count 0 gpu_started.m_gpus_per_socket = 1 ∧
    device_first 0 gpu_started.m_gpus_per_socket = 0 := by
  unfold device_count
  decide

/-- C7 (the code at the failing input). The document left by the IBM CPU
exporter holds `energy_node_joules` as the JSON integer 7. `get_energy_json`
for socket 0 (one device, counter 3000000 uJ, baseline 1 J) writes the single
device value 2.0 and leaves `energy_node_joules = 2.0`: the sum of the GPU
values alone, because `json_real_value` yields 0.0 for an integer. -/
theorem gpu_energy_merge_drops_integer_total :
    json_object_get cpu_energy_document "energy_node_joules" = some (Json.integer 7) ∧
    gpu_values gpu_counter 0 gpu_started = [2] ∧
    json_object_get (get_energy_json gpu_counter 0 gpu_started cpu_energy_document).2.2
      "energy_node_joules" = some (Json.real 2) := by
  have hk : snprintf_socket 0 = "socket_0" := by decide
  have hg : snprintf_int 24 "GPU_" 0 = "GPU_0" := by decide
  have hc := gpu_started_device_range.1
  have hf := gpu_started_device_range.2
  have hi : gpu_started.m_init_energy 0 = 1 := rfl
  have hv : gpu_values gpu_counter 0 gpu_started = [2] := by
    unfold gpu_values energy_json_devices
    rw [hc, hf, hi]
    simp [gpu_started, gpu_counter, get_energy_json_loop, u64,
      DoubleOps.ofInt, DoubleOps.mul, DoubleOps.sub, DoubleOps.micro]
    norm_num
  refine ⟨rfl, hv, ?_⟩
  unfold get_energy_json energy_json_devices
  rw [hc, hf, hi]
  simp [cpu_energy_document, ibm_cpu_p9_get_node_energy_json,
    sampler_running, gpu_started, gpu_counter, get_energy_json_loop, hk, hg,
    json_object_set_new, json_object_get, json_in_place, members_set, members_get,
    json_integer, json_real_value, u64, DoubleOps.ofInt, DoubleOps.mul, DoubleOps.sub,
    DoubleOps.add, DoubleOps.micro]
  norm_num

/-! ## Decimal formatting and the socket keys -/

theorem digitChar_value (m : Nat) (h : m < 10) : (Nat.digitChar m).toNat - 48 = m := by
  interval_cases m <;> rfl

theorem toDigitsCore_length_le :
    ∀ (fuel n : Nat) (ds : List Char) (k : Nat), 1 ≤ k → n < 10 ^ k →
    (Nat.toDigitsCore 10 fuel n ds).length ≤ k + ds.length := by
  intro fuel
  induction fuel with
  | zero =>
    intro n ds k _ _
    simp [Nat.toDigitsCore]
  | succ fuel ih =>
    intro n ds k hk hn
    simp only [Nat.toDigitsCore]
    split
    · simp
      omega
    · rename_i hne
      have hk2 : 2 ≤ k := by
        by_contra hlt
        have : k = 1 := by omega
        subst this
        simp at hn
        omega
      have hdiv : n / 10 < 10 ^ (k - 1) := by
        apply Nat.div_lt_of_lt_mul
        have : 10 ^ k = 10 * 10 ^ (k - 1) := by
          rw [← Nat.pow_succ']
          congr 1
          omega
        omega
      have := ih (n / 10) (Nat.digitChar (n % 10) :: ds) (k - 1) (by omega) hdiv
      simp at this
      omega

theorem toDigitsCore_value :
    ∀ (fuel n : Nat) (ds : List Char), n < fuel →
    ∃ pre, Nat.toDigitsCore 10 fuel n ds = pre ++ ds ∧ digits_value pre = n := by
  intro fuel
  induction fuel with
  | zero =>
    intro n ds h
    omega
  | succ fuel ih =>
    intro n ds h
    simp only [Nat.toDigitsCore]
    split
    · rename_i h0
      refine ⟨[Nat.digitChar (n % 10)], rfl, ?_⟩
      have hn : n < 10 := by omega
      simp [digits_value, digitChar_value (n % 10) (Nat.mod_lt _ (by decide))]
      omega
    · rename_i hne
      obtain ⟨pre, h1, h2⟩ := ih (n / 10) (Nat.digitChar (n % 10) :: ds) (by omega)
      refine ⟨pre ++ [Nat.digitChar (n % 10)], by simp [h1], ?_⟩
      unfold digits_value at h2 ⊢
      rw [List.foldl_append, h2]
      simp [digitChar_value (n % 10) (Nat.mod_lt _ (by decide))]
      omega

theorem decimal_injective (i j : Nat) (h : decimal i = decimal j) : i = j := by
  unfold decimal Nat.toDigits at h
  obtain ⟨p, hp1, hp2⟩ := toDigitsCore_value (i + 1) i [] (by omega)
  obtain ⟨q, hq1, hq2⟩ := toDigitsCore_value (j + 1) j [] (by omega)
  rw [hp1, hq1] at h
  simp at h
  rw [← hp2, ← hq2, h]

theorem decimal_length_le (i : Nat) (h : i < 10000) : (decimal i).length ≤ 4 := by
  have := toDigitsCore_length_le (i + 1) i [] 4 (by decide) (by simpa using h)
  simpa [decimal, Nat.toDigits] using this

/-- For a socket index below 10000 the buffer of 12 bytes holds the whole
text `socket_<i>`. -/
theorem snprintf_socket_untruncated (i : Nat) (h : i < 10000) :
    snprintf_socket i = String.mk ("socket_".toList ++ decimal i) := by
  unfold snprintf_socket snprintf_d
  congr 1
  apply List.take_of_length_le
  have := decimal_length_le i h
  simp
  omega

theorem snprintf_socket_injective (i j : Nat) (hi : i < 10000) (hj : j < 10000)
    (h : snprintf_socket i = snprintf_socket j) : i = j := by
  rw [snprintf_socket_untruncated i hi, snprintf_socket_untruncated j hj] at h
  have h' : "socket_".toList ++ decimal i = "socket_".toList ++ decimal j :=
    congrArg String.data h
  exact decimal_injective i j (List.append_cancel_left h')

theorem snprintf_socket_ne_power_node (i : Nat) :
    snprintf_socket i ≠ "power_node_watts" := by
  intro h
  have h1 := snprintf_d_length 12 "socket_" i
  unfold snprintf_socket at h
  rw [h] at h1
  revert h1
  decide

/-! ## The power document -/

theorem members_get_none_of_fresh {D : Type} (ms : List (String × Json D)) (key : String)
    (h : ∀ p ∈ ms, p.1 ≠ key) : members_get ms key = none := by
  induction ms with
  | nil => rfl
  | cons kv rest ih =>
    obtain ⟨k, x⟩ := kv
    have hk : k ≠ key := h (k, x) (List.mem_cons_self _ _)
    simp only [members_get, hk, if_false]
    exact ih (fun p hp => h p (List.mem_cons_of_mem _ hp))

theorem members_set_fresh {D : Type} (ms : List (String × Json D)) (key : String)
    (v : Json D) (h : ∀ p ∈ ms, p.1 ≠ key) :
    members_set ms key v = ms ++ [(key, v)] := by
  induction ms with
  | nil => rfl
  | cons kv rest ih =>
    obtain ⟨k, x⟩ := kv
    have hk : k ≠ key := h (k, x) (List.mem_cons_self _ _)
    simp only [members_set, hk, if_false, List.cons_append]
    rw [ih (fun p hp => h p (List.mem_cons_of_mem _ hp))]

theorem members_get_last {D : Type} (ms : List (String × Json D)) (key : String)
    (v : Json D) (rest : List (String × Json D)) (h : ∀ p ∈ ms, p.1 ≠ key) :
    members_get (ms ++ (key, v) :: rest) key = some v := by
  induction ms with
  | nil => simp [members_get]
  | cons kv tail ih =>
    obtain ⟨k, x⟩ := kv
    have hk : k ≠ key := h (k, x) (List.mem_cons_self _ _)
    simp only [List.cons_append, members_get, hk, if_false]
    exact ih (fun p hp => h p (List.mem_cons_of_mem _ hp))

theorem members_set_last {D : Type} (ms : List (String × Json D)) (key : String)
    (v v' : Json D) (h : ∀ p ∈ ms, p.1 ≠ key) :
    members_set (ms ++ [(key, v)]) key v' = ms ++ [(key, v')] := by
  induction ms with
  | nil => simp [members_set]
  | cons kv tail ih =>
    obtain ⟨k, x⟩ := kv
    have hk : k ≠ key := h (k, x) (List.mem_cons_self _ _)
    have e := ih (fun p hp => h p (List.mem_cons_of_mem _ hp))
    simp only [List.cons_append, members_set, hk, if_false]
    exact congrArg (fun t => (k, x) :: t) e

theorem json_in_place_last {D : Type} (ms : List (String × Json D)) (key : String)
    (v : Json D) (f : Json D → Json D) (h : ∀ p ∈ ms, p.1 ≠ key) :
    json_in_place (Json.object (ms ++ [(key, v)])) key f =
      Json.object (ms ++ [(key, f v)]) := by
  unfold json_in_place json_object_get
  dsimp only
  rw [members_get_last ms key v [] h]
  dsimp only
  unfold json_object_set_new
  dsimp only
  rw [members_set_last ms key v (f v) h]

/-- The JSON power loop on an object whose keys are neither the node key nor
the key of a socket still to come: it appends one member per socket of the
range and then the node total. -/
theorem get_power_json_loop_document {D : Type} [DoubleOps D] (E : AmdEnv) :
    ∀ (left i : Nat) (ms : List (String × Json D)) (acc : D),
    (∀ j, i ≤ j → j < i + left → (E.esmi_socket_power_get j).1 = 0) →
    i + left ≤ 10000 →
    (∀ p ∈ ms, p.1 ≠ "power_node_watts" ∧
      ∀ j, i ≤ j → j < 10000 → p.1 ≠ snprintf_socket j) →
    (get_power_json_loop E left i (Json.object ms) acc).2 =
      Json.object (ms ++ (List.range' i left).map (socket_entry E) ++
        [("power_node_watts", Json.real (sum_from acc (socket_watts E i left)))]) := by
  intro left
  induction left with
  | zero =>
    intro i ms acc _ _ hms
    simp only [get_power_json_loop, json_object_set_new]
    rw [members_set_fresh ms _ _ (fun p hp => (hms p hp).1)]
    simp [socket_watts, sum_from]
  | succ left ih =>
    intro i ms acc h hle hms
    have h0 := h i (le_refl _) (by omega)
    have hfresh : ∀ p ∈ ms, p.1 ≠ snprintf_socket i :=
      fun p hp => (hms p hp).2 i (le_refl _) (by omega)
    have hstep : (get_power_json_loop E (left + 1) i (Json.object ms) acc).2 =
        (get_power_json_loop E left (i + 1) (Json.object (ms ++ [socket_entry E i]))
          (DoubleOps.add acc
            (milli_to_unit ((u32 (E.esmi_socket_power_get i).2 : Nat) : Int)))).2 := by
      simp only [get_power_json_loop, h0, ne_eq, not_true_eq_false, if_false,
        json_object_set_new]
      rw [members_set_fresh ms _ _ hfresh, json_in_place_last ms _ _ _ hfresh,
        json_in_place_last ms _ _ _ hfresh]
      rfl
    rw [hstep, ih (i + 1) _ _ (fun j h1 h2 => h j (by omega) (by omega)) (by omega)]
    · rw [socket_watts_succ, List.range'_succ]
      simp [sum_from]
    · intro p hp
      rcases List.mem_append.mp hp with hp | hp
      · exact ⟨(hms p hp).1, fun j h1 h2 => (hms p hp).2 j (by omega) h2⟩
      · simp only [List.mem_singleton] at hp
        subst hp
        refine ⟨snprintf_socket_ne_power_node i, fun j h1 h2 hEq => ?_⟩
        have := snprintf_socket_injective i j (by omega) h2 hEq
        omega

/-- Lookup of the member of socket `i` in a list of socket members. -/
theorem members_get_socket_entry {D : Type} [DoubleOps D] (E : AmdEnv)
    (rest : List (String × Json D)) :
    ∀ (n s i : Nat), s ≤ i → i < s + n → s + n ≤ 10000 →
    members_get ((List.range' s n).map (socket_entry E) ++ rest) (snprintf_socket i) =
      some (socket_entry E i : String × Json D).2 := by
  intro n
  induction n with
  | zero =>
    intro s i h1 h2
    omega
  | succ n ih =>
    intro s i h1 h2 h3
    rw [List.range'_succ, List.map_cons, List.cons_append]
    by_cases hsi : s = i
    · subst hsi
      simp [members_get, socket_entry]
    · have hne : snprintf_socket s ≠ snprintf_socket i := fun hEq =>
        hsi (snprintf_socket_injective s i (by omega) (by omega) hEq)
      have hne' : (socket_entry E s : String × Json D).1 ≠ snprintf_socket i := hne
      rw [show (socket_entry E s : String × Json D) =
        ((socket_entry E s : String × Json D).1, (socket_entry E s : String × Json D).2)
        from rfl]
      simp only [members_get, hne', if_false]
      exact ih (s + 1) i (by omega) (by omega) (by omega)

/-- The JSON power loop never touches a key that is neither the node key nor
the key of a socket. -/
theorem get_power_json_loop_foreign_key {D : Type} [DoubleOps D] (E : AmdEnv)
    (key : String) (hnode : key ≠ "power_node_watts")
    (hsock : ∀ j, key ≠ snprintf_socket j) :
    ∀ (left i : Nat) (ms : List (String × Json D)) (acc : D),
    ∃ ms', (get_power_json_loop E left i (Json.object ms) acc).2 = Json.object ms' ∧
      members_get ms' key = members_get ms key := by
  intro left
  induction left with
  | zero =>
    intro i ms acc
    exact ⟨_, rfl, members_get_set_ne ms _ key _ hnode⟩
  | succ left ih =>
    intro i ms acc
    have g0 := members_get_set_ne ms (snprintf_socket i) key (Json.object []) (hsock i)
    by_cases h0 : (E.esmi_socket_power_get i).1 = 0
    · obtain ⟨m1, e1, g1⟩ := json_in_place_object
        (members_set ms (snprintf_socket i) (Json.object [])) (snprintf_socket i)
        (fun socket_obj => json_object_set_new socket_obj "power_cpu_watts"
          (Json.real (milli_to_unit ((u32 (E.esmi_socket_power_get i).2 : Nat) : Int)) :
            Json D))
      obtain ⟨m2, e2, g2⟩ := json_in_place_object m1 (snprintf_socket i)
        (fun socket_obj => json_object_set_new socket_obj "power_mem_watts"
          (Json.real (DoubleOps.ofInt (-1)) : Json D))
      obtain ⟨ms', e3, g3⟩ := ih (i + 1) m2
        (DoubleOps.add acc (milli_to_unit ((u32 (E.esmi_socket_power_get i).2 : Nat) : Int)))
      refine ⟨ms', ?_, ?_⟩
      · rw [← e3, ← e2, ← e1]
        simp [get_power_json_loop, h0, json_object_set_new]
      · rw [g3, g2 key (hsock i), g1 key (hsock i), g0]
    · refine ⟨members_set ms (snprintf_socket i) (Json.object []), ?_, g0⟩
      simp [get_power_json_loop, h0, json_object_set_new]

/-- C9 (as amended). For every socket count `N <= 10000` and every successful
sequence of readings, `amd_cpu_epyc_get_power_json` called on an empty document
returns 0 and leaves exactly the members `socket_0 .. socket_<N-1>` followed by
`power_node_watts`: the key of socket `i` is the untruncated text `socket_<i>`,
its object holds `power_cpu_watts = p_i / 1000` and `power_mem_watts = -1.0`,
and `power_node_watts` is the sum `((0.0 + p_0/1000) + p_1/1000) + ...`. -/
theorem power_document_of_empty {D : Type} [DoubleOps D] (E : AmdEnv)
    (hN : E.num_sockets ≤ 10000)
    (hok : ∀ i, i < E.num_sockets → (E.esmi_socket_power_get i).1 = 0) :
    (amd_cpu_epyc_get_power_json E (Json.object [] : Json D)).1.ret = 0 ∧
    (amd_cpu_epyc_get_power_json E (Json.object [] : Json D)).2 =
      Json.object ((List.range' 0 E.num_sockets).map (socket_entry E) ++
        [("power_node_watts",
          Json.real (sum_from (DoubleOps.ofInt 0) (socket_watts E 0 E.num_sockets)))]) ∧
    (∀ i, i < E.num_sockets →
      snprintf_socket i = String.mk ("socket_".toList ++ decimal i) ∧
      json_path (some (amd_cpu_epyc_get_power_json E (Json.object [] : Json D)).2)
          [snprintf_socket i, "power_cpu_watts"] =
        some (Json.real (milli_to_unit ((u32 (E.esmi_socket_power_get i).2 : Nat) : Int))) ∧
      json_path (some (amd_cpu_epyc_get_power_json E (Json.object [] : Json D)).2)
          [snprintf_socket i, "power_mem_watts"] =
        some (Json.real (DoubleOps.ofInt (-1)))) ∧
    json_path (some (amd_cpu_epyc_get_power_json E (Json.object [] : Json D)).2)
        ["power_node_watts"] =
      some (Json.real (sum_from (DoubleOps.ofInt 0) (socket_watts E 0 E.num_sockets))) := by
  obtain ⟨h1, ms', h2, h3⟩ := get_power_json_loop_total E E.num_sockets 0 []
    (DoubleOps.ofInt 0 : D) (fun j _ h => hok j (by omega))
  have hdoc := get_power_json_loop_document E E.num_sockets 0 []
    (DoubleOps.ofInt 0 : D) (fun j _ h => hok j (by omega)) (by omega)
    (fun p hp => absurd hp (List.not_mem_nil _))
  have hd : (amd_cpu_epyc_get_power_json E (Json.object [] : Json D)).2 =
      Json.object ((List.range' 0 E.num_sockets).map (socket_entry E) ++
        [("power_node_watts",
          Json.real (sum_from (DoubleOps.ofInt 0) (socket_watts E 0 E.num_sockets)))]) := by
    unfold amd_cpu_epyc_get_power_json
    dsimp only
    rw [hdoc]
    simp
  refine ⟨h1, hd, ?_, ?_⟩
  · intro i hi
    have hget := members_get_socket_entry (D := D) E
      [("power_node_watts",
        Json.real (sum_from (DoubleOps.ofInt 0) (socket_watts E 0 E.num_sockets)))]
      E.num_sockets 0 i (Nat.zero_le _) (by omega) (by omega)
    refine ⟨snprintf_socket_untruncated i (by omega), ?_, ?_⟩
    · rw [hd]
      simp only [json_path, json_object_get]
      rw [hget]
      simp [socket_entry, json_path, members_get]
    · rw [hd]
      simp only [json_path, json_object_get]
      rw [hget]
      simp [socket_entry, json_path, members_get]
  · unfold amd_cpu_epyc_get_power_json
    dsimp only
    rw [h2]
    simp only [json_path, json_object_get]
    exact h3

/-- The document theorem applied to `amd_two_sockets`. -/
theorem power_document_of_empty_witness :
    (amd_cpu_epyc_get_power_json amd_two_sockets (Json.object [] : Json ℚ)).1.ret = 0 ∧
    (amd_cpu_epyc_get_power_json amd_two_sockets (Json.object [] : Json ℚ)).2 =
      Json.object ((List.range' 0 amd_two_sockets.num_sockets).map
          (socket_entry amd_two_sockets) ++
        [("power_node_watts",
          Json.real (sum_from (DoubleOps.ofInt 0)
            (socket_watts amd_two_sockets 0 amd_two_sockets.num_sockets)))]) :=
  ⟨(power_document_of_empty amd_two_sockets (by decide) (fun _ _ => rfl)).1,
   (power_document_of_empty amd_two_sockets (by decide) (fun _ _ => rfl)).2.1⟩

theorem get_power_json_ret_eq {D : Type} [DoubleOps D] (E : AmdEnv) (doc : Json D) :
    (amd_cpu_epyc_get_power_json E doc).1.ret =
      (get_power_json_loop E E.num_sockets 0 doc (DoubleOps.ofInt 0)).1.ret := rfl

theorem get_power_json_doc_eq {D : Type} [DoubleOps D] (E : AmdEnv) (doc : Json D) :
    (amd_cpu_epyc_get_power_json E doc).2 =
      (get_power_json_loop E E.num_sockets 0 doc (DoubleOps.ofInt 0)).2 := rfl

/-- C9 fails as stated. With 10001 sockets, every reading succeeding, the call
on an empty document returns 0 and the document has no member `socket_10000`:
the 12-byte buffer cuts the key of socket 10000 to `socket_1000`. -/
theorem power_document_counterexample :
    (amd_cpu_epyc_get_power_json amd_many_sockets (Json.object [] : Json ℚ)).1.ret = 0 ∧
    String.mk ("socket_".toList ++ decimal 10000) = "socket_10000" ∧
    snprintf_socket 10000 = "socket_1000" ∧
    json_object_get (amd_cpu_epyc_get_power_json amd_many_sockets
      (Json.object [] : Json ℚ)).2 "socket_10000" = none := by
  obtain ⟨h1, _⟩ := get_power_json_loop_total (D := ℚ) amd_many_sockets
    amd_many_sockets.num_sockets 0 [] (DoubleOps.ofInt 0) (fun _ _ _ => rfl)
  obtain ⟨ms', h2, h3⟩ := get_power_json_loop_foreign_key (D := ℚ) amd_many_sockets
    "socket_10000" (by decide)
    (fun j h => by
      have hl := snprintf_d_length 12 "socket_" j
      unfold snprintf_socket at h
      rw [← h] at hl
      revert hl
      decide)
    amd_many_sockets.num_sockets 0 [] (DoubleOps.ofInt 0)
  refine ⟨?_, by decide, by decide, ?_⟩
  · rw [get_power_json_ret_eq]
    exact h1
  · rw [get_power_json_doc_eq, h2]
    exact h3

/-! ## Return codes of the node cap: write failure and verification failure -/

/-- The return value of the node cap when a failing write occurs in the run. -/
theorem node_power_limit_ret_of_write_failure {D : Type} [DoubleOps D] (E : AmdEnv)
    (pcap_new : Int) (i v : Nat)
    (hcall : wrote
      (amd_cpu_epyc_set_and_verify_best_effort_node_power_limit E pcap_new : Run D).out i v)
    (hne : E.esmi_socket_power_cap_set i v ≠ 0) :
    (amd_cpu_epyc_set_and_verify_best_effort_node_power_limit E pcap_new : Run D).ret =
      (if E.esmi_socket_power_cap_set i v = E.ESMI_PERMISSION then -1
       else E.esmi_socket_power_cap_set i v) := by
  unfold amd_cpu_epyc_set_and_verify_best_effort_node_power_limit at hcall ⊢
  dsimp only at hcall ⊢
  rw [wrote_log_entry_append] at hcall
  exact (node_power_limit_loop_write_failure E E.num_sockets 0 _ i v hcall hne).1

/-- The return value of the node cap when every write and read-back succeeds
and some socket does not verify. -/
theorem node_power_limit_ret_of_mismatch {D : Type} [DoubleOps D] (E : AmdEnv)
    (pcap_new : Int)
    (hset : ∀ i, i < E.num_sockets → ∀ v, E.esmi_socket_power_cap_set i v = 0)
    (hget : ∀ i, i < E.num_sockets → (E.esmi_socket_power_cap_get i).1 = 0)
    (hbad : ¬ ∀ j, j < E.num_sockets → readback_ok E
      (amd_cpu_epyc_set_and_verify_best_effort_node_power_limit E pcap_new : Run D).out j) :
    (amd_cpu_epyc_set_and_verify_best_effort_node_power_limit E pcap_new : Run D).ret = -1 := by
  obtain ⟨_, _, h3⟩ := node_power_limit_loop_spec (D := D) E E.num_sockets 0
    (toInt32 (toInt32 (Int.tdiv pcap_new 2) * 1000)) (toInt32_in_int32 _)
    (fun j _ h => hset j (by omega)) (fun j _ h => hget j (by omega))
  unfold amd_cpu_epyc_set_and_verify_best_effort_node_power_limit at hbad ⊢
  dsimp only at hbad ⊢
  simp only [readback_ok_log_entry_append] at hbad
  simp only [Nat.zero_le, true_implies, Nat.zero_add] at h3
  exact (h3 hbad).1

/-- C20 (as amended). In
`amd_cpu_epyc_set_and_verify_best_effort_node_power_limit` a verification
failure returns -1; a write that fails with code `r` returns -1 when `r` is
`ESMI_PERMISSION` and `r` itself otherwise. The two return values are equal
exactly when `r` is `ESMI_PERMISSION` or `r` is -1. Here the first run has a
failing write `esmi_socket_power_cap_set(i, v) = r` in its trace, and the
second run has every write and read-back succeeding with some socket not
verifying. -/
theorem write_failure_code_vs_verification_code {D : Type} [DoubleOps D]
    (E : AmdEnv) (pcap_new : Int) (i v : Nat) (r : Int)
    (hcall : wrote
      (amd_cpu_epyc_set_and_verify_best_effort_node_power_limit E pcap_new : Run D).out i v)
    (hr : E.esmi_socket_power_cap_set i v = r) (hne : r ≠ 0)
    (E' : AmdEnv) (pcap_new' : Int)
    (hset : ∀ i, i < E'.num_sockets → ∀ v, E'.esmi_socket_power_cap_set i v = 0)
    (hget : ∀ i, i < E'.num_sockets → (E'.esmi_socket_power_cap_get i).1 = 0)
    (hbad : ¬ ∀ j, j < E'.num_sockets → readback_ok E'
      (amd_cpu_epyc_set_and_verify_best_effort_node_power_limit E' pcap_new' : Run D).out j) :
    (amd_cpu_epyc_set_and_verify_best_effort_node_power_limit E' pcap_new' : Run D).ret = -1 ∧
    (amd_cpu_epyc_set_and_verify_best_effort_node_power_limit E pcap_new : Run D).ret =
      (if r = E.ESMI_PERMISSION then -1 else r) ∧
    ((amd_cpu_epyc_set_and_verify_best_effort_node_power_limit E pcap_new : Run D).ret =
        (amd_cpu_epyc_set_and_verify_best_effort_node_power_limit E' pcap_new' : Run D).ret ↔
      (r = E.ESMI_PERMISSION ∨ r = -1)) := by
  subst hr
  have h1 := node_power_limit_ret_of_write_failure E pcap_new i v hcall hne
  have h2 := node_power_limit_ret_of_mismatch E' pcap_new' hset hget hbad
  refine ⟨h2, h1, ?_⟩
  rw [h1, h2]
  split
  · rename_i hp
    exact ⟨fun _ => Or.inl hp, fun _ => rfl⟩
  · rename_i hp
    constructor
    · intro h
      exact Or.inr h
    · rintro (h | h)
      · exact absurd h hp
      · exact h

theorem amd_two_sockets_600_mismatch :
    ¬ ∀ j, j < amd_two_sockets.num_sockets → readback_ok amd_two_sockets
      (amd_cpu_epyc_set_and_verify_best_effort_node_power_limit amd_two_sockets 600 :
        Run ℚ).out j := by
  intro h
  obtain ⟨v, hv, hrb⟩ := h 0 (by decide)
  have hv' : v = 100000 := by
    rw [← hrb]
    rfl
  subst hv'
  revert hv
  unfold wrote
  decide

/-- The return-code theorem applied to `amd_write_error` (write code 5 on
socket 0) against `amd_two_sockets` with a request of 600 W (300 W per socket
is clamped to 200 W, the read-back is 100 W): 5 against -1. -/
theorem write_failure_code_vs_verification_code_witness :
    (amd_cpu_epyc_set_and_verify_best_effort_node_power_limit amd_two_sockets 600 :
      Run ℚ).ret = -1 ∧
    (amd_cpu_epyc_set_and_verify_best_effort_node_power_limit amd_write_error 200 :
      Run ℚ).ret = (if (5 : Int) = amd_write_error.ESMI_PERMISSION then -1 else 5) ∧
    ((amd_cpu_epyc_set_and_verify_best_effort_node_power_limit amd_write_error 200 :
        Run ℚ).ret =
      (amd_cpu_epyc_set_and_verify_best_effort_node_power_limit amd_two_sockets 600 :
        Run ℚ).ret ↔
      ((5 : Int) = amd_write_error.ESMI_PERMISSION ∨ (5 : Int) = -1)) :=
  write_failure_code_vs_verification_code amd_write_error 200 0 100000 5
    (by unfold wrote; decide) rfl (by decide) amd_two_sockets 600
    (fun _ _ _ => rfl) (fun _ _ => rfl) amd_two_sockets_600_mismatch

/-- C20 fails as stated. A power-cap write failing with the vendor code 5
makes the call return 5; a read-back that differs from the written value makes
it return -1. -/
theorem write_failure_code_counterexample :
    amd_write_error.esmi_socket_power_cap_set 0 100000 = 5 ∧
    (amd_cpu_epyc_set_and_verify_best_effort_node_power_limit amd_write_error 200 :
      Run ℚ).ret = 5 ∧
    (amd_cpu_epyc_set_and_verify_best_effort_node_power_limit amd_two_sockets 600 :
      Run ℚ).ret = -1 ∧
    verify_guidance ⊆
      (amd_cpu_epyc_set_and_verify_best_effort_node_power_limit amd_two_sockets 600 :
        Run ℚ).out := by
  refine ⟨rfl, by decide, by decide, ?_⟩
  intro e he
  simp only [verify_guidance, List.mem_cons, List.mem_singleton, List.not_mem_nil,
    or_false] at he
  rcases he with rfl | rfl | rfl <;> decide

/-! ## The terse header over a sequence of calls -/

theorem power_header_count_append {D : Type} (a b : List (Event D)) :
    power_header_count (a ++ b) = power_header_count a + power_header_count b := by
  unfold power_header_count
  exact List.countP_append _ _ _

theorem log_entry_no_header {D : Type} (val : Option String) (args : List (Arg D)) :
    power_header_count (log_entry val "Running %s\n" args) = 0 := by
  unfold power_header_count log_entry
  split
  · split
    · cases args <;> simp [is_power_header]
    · simp
  · simp

theorem get_power_loop_no_header {D : Type} [DoubleOps D] (E : AmdEnv) (long_ver : Int)
    (start : Timeval) :
    ∀ (left i : Nat),
    power_header_count (get_power_loop E long_ver start left i : Run D).out = 0 := by
  intro left
  induction left with
  | zero =>
    intro i
    simp [get_power_loop, power_header_count]
  | succ left ih =>
    intro i
    have := ih (i + 1)
    unfold power_header_count at this ⊢
    simp only [get_power_loop]
    split
    · simp [is_power_header]
    · split <;> simp [is_power_header, this]

/-- One call: the header is printed exactly when the latch is open and the
call is terse, and the call closes the latch. -/
theorem get_power_header {D : Type} [DoubleOps D] (E : AmdEnv) (st : Epoch)
    (long_ver : Int) :
    power_header_count (amd_cpu_epyc_get_power E st long_ver : Run D × Epoch).1.out =
      (if st.initial = 0 ∧ long_ver = 0 then 1 else 0) ∧
    (amd_cpu_epyc_get_power E st long_ver : Run D × Epoch).2.initial ≠ 0 := by
  constructor
  · unfold amd_cpu_epyc_get_power
    dsimp only
    rw [power_header_count_append, power_header_count_append, log_entry_no_header,
      get_power_loop_no_header]
    unfold latch_header power_header_count
    split <;> simp [is_power_header]
  · unfold amd_cpu_epyc_get_power latch_epoch
    dsimp only
    split
    · simp
    · assumption

/-- Once the latch is closed no call prints the header. -/
theorem get_power_calls_no_header {D : Type} [DoubleOps D] :
    ∀ (calls : List (AmdEnv × Int)) (st : Epoch), st.initial ≠ 0 →
    power_header_count (get_power_calls calls st : List (Event D) × Epoch).1 = 0 := by
  intro calls
  induction calls with
  | nil =>
    intro st _
    rfl
  | cons c rest ih =>
    intro st h
    obtain ⟨E, long_ver⟩ := c
    obtain ⟨h1, h2⟩ := get_power_header (D := D) E st long_ver
    simp only [get_power_calls]
    rw [power_header_count_append, h1, ih _ h2]
    simp [h]

/-- C18 (as amended). For every non-empty sequence of calls of
`amd_cpu_epyc_get_power` in a fresh process (latch open), the terse header is
emitted once if the first call is terse and never if the first call is
verbose, whatever calls follow. When the first call is terse, the output is
`pre ++ header :: post` where `pre` holds no terse data row and `post` holds no
header, so the header precedes every terse data row. -/
theorem power_header_once_iff_first_call_terse {D : Type} [DoubleOps D]
    (E : AmdEnv) (long_ver : Int) (rest : List (AmdEnv × Int)) (st : Epoch)
    (hfresh : st.initial = 0) :
    power_header_count
        (get_power_calls ((E, long_ver) :: rest) st : List (Event D) × Epoch).1 =
      (if long_ver = 0 then 1 else 0) ∧
    (long_ver = 0 →
      ∃ pre post : List (Event D),
        (get_power_calls ((E, long_ver) :: rest) st : List (Event D) × Epoch).1 =
          pre ++ Event.printf "_AMDPOWER Host Socket Power_W Timestamp_sec\n" [] :: post ∧
        terse_power_rows pre = [] ∧ power_header_count post = 0) := by
  obtain ⟨h1, h2⟩ := get_power_header (D := D) E st long_ver
  have h3 := get_power_calls_no_header (D := D) rest _ h2
  constructor
  · simp only [get_power_calls]
    rw [power_header_count_append, h1, h3]
    simp [hfresh]
  · intro hl
    subst hl
    refine ⟨log_entry E.VARIORUM_LOG "Running %s\n" [Arg.str "amd_cpu_epyc_get_power"],
      (get_power_loop E 0 (latch_epoch E st).start E.num_sockets 0 : Run D).out ++
        (get_power_calls rest (amd_cpu_epyc_get_power E st 0 : Run D × Epoch).2 :
          List (Event D) × Epoch).1, ?_, ?_, ?_⟩
    · simp [get_power_calls, amd_cpu_epyc_get_power, latch_header, hfresh]
    · exact log_entry_no_rows _ _ _ _ _ (by decide)
    · rw [power_header_count_append, get_power_loop_no_header, Nat.zero_add]
      exact h3

/-- The header theorem applied to a terse call followed by a verbose and a
terse call on `amd_two_sockets`. -/
theorem power_header_once_iff_first_call_terse_witness :
    power_header_count
        (get_power_calls [(amd_two_sockets, 0), (amd_two_sockets, 1), (amd_two_sockets, 0)]
          Epoch.fresh : List (Event ℚ) × Epoch).1 =
      (if (0 : Int) = 0 then 1 else 0) :=
  (power_header_once_iff_first_call_terse amd_two_sockets 0
    [(amd_two_sockets, 1), (amd_two_sockets, 0)] Epoch.fresh rfl).1

/-- C18 fails as stated. A verbose call followed by a terse call in a fresh
process: the terse call prints its two data rows and the header is never
printed. -/
theorem power_header_counterexample :
    power_header_count
        (get_power_calls [(amd_two_sockets, 1), (amd_two_sockets, 0)]
          Epoch.fresh : List (Event ℚ) × Epoch).1 = 0 ∧
    terse_power_rows
        (get_power_calls [(amd_two_sockets, 1), (amd_two_sockets, 0)]
          Epoch.fresh : List (Event ℚ) × Epoch).1 = [0, 1] := by
  constructor
  · decide
  · decide

/-! ## The epoch latch and the elapsed-time column -/

theorem elapsed_columns_append {D : Type} (a b : List (Event D)) :
    elapsed_columns (a ++ b) = elapsed_columns a ++ elapsed_columns b := by
  unfold elapsed_columns
  exact List.filterMap_append _ _ _

theorem elapsed_column_running {D : Type} (args : List (Arg D)) :
    elapsed_column (Event.printf "Running %s\n" args) = none := by
  unfold elapsed_column
  split
  · rename_i heq
    injection heq with h1 h2
    subst h1
    simp [power_row_formats]
  · rfl

theorem log_entry_no_elapsed {D : Type} (val : Option String) (args : List (Arg D)) :
    elapsed_columns (log_entry val "Running %s\n" args) = [] := by
  unfold elapsed_columns log_entry
  split
  · split
    · simp [elapsed_column_running]
    · simp
  · simp

theorem latch_header_no_elapsed {D : Type} (st : Epoch) (long_ver : Int) (header : String) :
    elapsed_columns (latch_header st long_ver header : List (Event D)) = [] := by
  unfold elapsed_columns latch_header
  split <;> simp [elapsed_column]

theorem get_power_loop_elapsed {D : Type} [DoubleOps D] (E : AmdEnv) (long_ver : Int)
    (start : Timeval) :
    ∀ (left i : Nat),
    elapsed_columns (get_power_loop E long_ver start left i : Run D).out =
      (List.range' i (rows_emitted E left i)).map
        (fun (j : Nat) => (elapsed (E.clock_now j) start : D)) := by
  intro left
  induction left with
  | zero =>
    intro i
    simp [get_power_loop, elapsed_columns, rows_emitted]
  | succ left ih =>
    intro i
    have h := ih (i + 1)
    unfold elapsed_columns at h ⊢
    by_cases h0 : (E.esmi_socket_power_get i).1 = 0
    · simp only [get_power_loop, rows_emitted, h0, ne_eq, not_true_eq_false, if_false]
      rw [Nat.add_comm 1, List.range'_succ]
      by_cases hl : long_ver = 0
      · subst hl
        simp [elapsed_column, power_row_formats, h]
      · simp [hl, elapsed_column, power_row_formats, h]
    · simp [get_power_loop, rows_emitted, h0, elapsed_column]

/-- One call: the elapsed-time columns are taken against the latched epoch. -/
theorem get_power_elapsed {D : Type} [DoubleOps D] (E : AmdEnv) (st : Epoch)
    (long_ver : Int) :
    elapsed_columns (amd_cpu_epyc_get_power E st long_ver : Run D × Epoch).1.out =
      (List.range' 0 (rows_emitted E E.num_sockets 0)).map
        (fun (j : Nat) => (elapsed (E.clock_now j) (latch_epoch E st).start : D)) ∧
    (amd_cpu_epyc_get_power E st long_ver : Run D × Epoch).2 = latch_epoch E st := by
  constructor
  · unfold amd_cpu_epyc_get_power
    dsimp only
    rw [elapsed_columns_append, elapsed_columns_append, log_entry_no_elapsed,
      latch_header_no_elapsed, get_power_loop_elapsed]
    rfl
  · rfl

theorem latch_epoch_closed (E : AmdEnv) (st : Epoch) (h : st.initial ≠ 0) :
    latch_epoch E st = st := by
  unfold latch_epoch
  rw [if_neg h]

/-- A sequence of calls with the latch closed: the epoch stays as it is and
every elapsed-time column is taken against it. -/
theorem get_power_calls_closed {D : Type} [DoubleOps D] :
    ∀ (calls : List (AmdEnv × Int)) (st : Epoch), st.initial ≠ 0 →
    (get_power_calls calls st : List (Event D) × Epoch).2 = st ∧
    elapsed_columns (get_power_calls calls st : List (Event D) × Epoch).1 =
      (row_clocks calls).map (fun t => (elapsed t st.start : D)) := by
  intro calls
  induction calls with
  | nil =>
    intro st _
    exact ⟨rfl, rfl⟩
  | cons c rest ih =>
    intro st h
    obtain ⟨E, long_ver⟩ := c
    obtain ⟨h1, h2⟩ := get_power_elapsed (D := D) E st long_ver
    rw [latch_epoch_closed E st h] at h1 h2
    obtain ⟨ih1, ih2⟩ := ih st h
    simp only [get_power_calls]
    rw [h2, elapsed_columns_append, h1, ih2]
    refine ⟨ih1, ?_⟩
    simp [row_clocks, List.flatMap_cons]

/-- The elapsed time in exact arithmetic: the difference of the two clock
readings in microseconds, divided by 1000000. -/
theorem elapsed_exact (now start : Timeval) :
    (elapsed now start : ℚ) = ((micros now - micros start : Int) : ℚ) / 1000000 := by
  unfold elapsed micros
  simp only [DoubleOps.add, DoubleOps.div, DoubleOps.ofInt]
  push_cast
  ring

/-- C19. For every non-empty sequence of calls of `amd_cpu_epyc_get_power` in a
fresh process: after the first call and after every later call the epoch
`start` is the clock value read by the first call; the elapsed-time columns of
the rows are, in order, `elapsed (clock at that row) start`. In exact arithmetic
this is the difference of the two readings in seconds, so under a clock that
does not decrease from the epoch on and along the rows, every column is
`>= 0`, the columns are non-decreasing across rows and calls, and a row whose
clock is at least `S` seconds after the epoch reports at least `S`. -/
theorem elapsed_time_against_latched_epoch {D : Type} [DoubleOps D] (E : AmdEnv)
    (long_ver : Int) (rest : List (AmdEnv × Int)) (st : Epoch) (hfresh : st.initial = 0)
    (hclock : List.Pairwise (fun a b => micros a ≤ micros b)
      (E.clock_start :: row_clocks ((E, long_ver) :: rest))) :
    (∀ k, (get_power_calls (((E, long_ver) :: rest).take (k + 1)) st :
        List (Event D) × Epoch).2 = ⟨1, E.clock_start⟩) ∧
    elapsed_columns
        (get_power_calls ((E, long_ver) :: rest) st : List (Event D) × Epoch).1 =
      (row_clocks ((E, long_ver) :: rest)).map (fun t => (elapsed t E.clock_start : D)) ∧
    (∀ t, (elapsed t E.clock_start : ℚ) =
      ((micros t - micros E.clock_start : Int) : ℚ) / 1000000) ∧
    (∀ e ∈ elapsed_columns
        (get_power_calls ((E, long_ver) :: rest) st : List (Event ℚ) × Epoch).1, 0 ≤ e) ∧
    List.Pairwise (fun a b => a ≤ b) (elapsed_columns
        (get_power_calls ((E, long_ver) :: rest) st : List (Event ℚ) × Epoch).1) ∧
    (∀ t ∈ row_clocks ((E, long_ver) :: rest), ∀ S : ℚ,
      (micros E.clock_start : ℚ) + S * 1000000 ≤ (micros t : ℚ) →
      S ≤ (elapsed t E.clock_start : ℚ)) := by
  have hl : latch_epoch E st = ⟨1, E.clock_start⟩ := by
    unfold latch_epoch
    rw [if_pos hfresh]
  have hcols : ∀ (F : Type) [DoubleOps F], elapsed_columns
      (get_power_calls ((E, long_ver) :: rest) st : List (Event F) × Epoch).1 =
      (row_clocks ((E, long_ver) :: rest)).map (fun t => (elapsed t E.clock_start : F)) := by
    intro F _
    obtain ⟨h1, h2⟩ := get_power_elapsed (D := F) E st long_ver
    rw [hl] at h1 h2
    obtain ⟨_, c2⟩ := get_power_calls_closed (D := F) rest ⟨1, E.clock_start⟩ (by simp)
    simp only [get_power_calls]
    rw [h2, elapsed_columns_append, h1, c2]
    simp [row_clocks, List.flatMap_cons]
  obtain ⟨hstart, hsorted⟩ := List.pairwise_cons.mp hclock
  have hmono : ∀ a b : Timeval, micros a ≤ micros b →
      (elapsed a E.clock_start : ℚ) ≤ elapsed b E.clock_start := by
    intro a b hab
    rw [elapsed_exact, elapsed_exact]
    have : ((micros a - micros E.clock_start : Int) : ℚ) ≤
        ((micros b - micros E.clock_start : Int) : ℚ) := by
      exact_mod_cast (by omega : micros a - micros E.clock_start ≤
        micros b - micros E.clock_start)
    exact div_le_div_of_nonneg_right this (by norm_num)
  refine ⟨?_, hcols D, fun t => elapsed_exact t E.clock_start, ?_, ?_, ?_⟩
  · intro k
    obtain ⟨_, h2⟩ := get_power_elapsed (D := D) E st long_ver
    rw [hl] at h2
    obtain ⟨c1, _⟩ := get_power_calls_closed (D := D) (rest.take k) ⟨1, E.clock_start⟩
      (by simp)
    simp only [List.take_succ_cons, get_power_calls]
    rw [h2]
    exact c1
  · intro e he
    rw [hcols ℚ] at he
    obtain ⟨t, ht, rfl⟩ := List.mem_map.mp he
    rw [elapsed_exact]
    have : (0 : ℚ) ≤ ((micros t - micros E.clock_start : Int) : ℚ) := by
      exact_mod_cast (by have := hstart t ht; omega : (0 : Int) ≤
        micros t - micros E.clock_start)
    exact div_nonneg this (by norm_num)
  · rw [hcols ℚ]
    rw [List.pairwise_map]
    exact hsorted.imp (fun {a b} hab => hmono a b hab)
  · intro t _ S hS
    rw [elapsed_exact]
    rw [le_div_iff₀ (by norm_num : (0 : ℚ) < 1000000)]
    push_cast
    linarith

/-- The elapsed-time theorem applied to two calls on a two-socket node, the
epoch read at 10 s, the first call's rows at 12 s and the second call's rows
at 15 s: the columns are 2, 2, 5, 5. -/
theorem elapsed_time_against_latched_epoch_witness :
    elapsed_columns
        (get_power_calls [(amd_two_sockets, 0), (amd_two_sockets_later, 0)] Epoch.fresh :
          List (Event ℚ) × Epoch).1 =
      (row_clocks [(amd_two_sockets, 0), (amd_two_sockets_later, 0)]).map
        (fun t => (elapsed t amd_two_sockets.clock_start : ℚ)) ∧
    List.Pairwise (fun a b => a ≤ b) (elapsed_columns
        (get_power_calls [(amd_two_sockets, 0), (amd_two_sockets_later, 0)] Epoch.fresh :
          List (Event ℚ) × Epoch).1) :=
  ⟨(elapsed_time_against_latched_epoch (D := ℚ) amd_two_sockets 0
      [(amd_two_sockets_later, 0)] Epoch.fresh rfl (by decide)).2.1,
   (elapsed_time_against_latched_epoch (D := ℚ) amd_two_sockets 0
      [(amd_two_sockets_later, 0)] Epoch.fresh rfl (by decide)).2.2.2.2.1⟩

/-! ## The IBM cap setters -/

/-- The IBM preamble never prints: `atoi("VARIORUM_LOG")` is 0. -/
theorem ibm_log_entry_silent {D : Type} (fmt : String) (args : List (Arg D)) :
    (ibm_log_entry fmt args : List (Event D)) = [] := by
  have h : atoi "VARIORUM_LOG" ≠ 1 := by decide
  unfold ibm_log_entry log_entry
  simp [h]

/-- C14. For `ibm_cpu_p9_cap_and_verify_node_power_limit`: when the cap file
opens for the write and for the read-back, the request `R` is written once to
it and the read-back follows the 100 ms sleep; the call returns 0 and prints
`Changed node power cap to R W.` if and only if the value read back
(`pcap_test`: the integer converted by `fscanf`, the initial 0 if none is)
equals `R`, and otherwise it prints the guidance text and returns -1. If either
open fails the error handler is invoked once and the call returns -1. -/
theorem ibm_cap_verified_iff_read_back {D : Type} (E : IbmEnv) (R : Int) :
    (E.fopen powercap_current "w+" = true → E.fopen powercap_current "r" = true →
      file_writes (ibm_cpu_p9_cap_and_verify_node_power_limit E R : Run D).out =
        [(powercap_current, R)] ∧
      handler_messages (ibm_cpu_p9_cap_and_verify_node_power_limit E R : Run D).out = [] ∧
      (∃ post, (ibm_cpu_p9_cap_and_verify_node_power_limit E R : Run D).out =
        [Event.fopen powercap_current "w+", Event.fprintf_d powercap_current R,
         Event.fclose powercap_current, Event.call Fn.usleep [100000],
         Event.fopen powercap_current "r", Event.fscanf_d powercap_current,
         Event.fclose powercap_current] ++ post) ∧
      (((ibm_cpu_p9_cap_and_verify_node_power_limit E R : Run D).ret = 0 ∧
          Event.printf "Changed node power cap to %d W.\n" [Arg.int R] ∈
            (ibm_cpu_p9_cap_and_verify_node_power_limit E R : Run D).out) ↔
        ibm_read_back E = R) ∧
      (ibm_read_back E ≠ R →
        (ibm_cpu_p9_cap_and_verify_node_power_limit E R : Run D).ret = -1 ∧
        (∃ pre, (ibm_cpu_p9_cap_and_verify_node_power_limit E R : Run D).out =
          pre ++ ibm_verify_guidance))) ∧
    ((E.fopen powercap_current "w+" = false ∨ E.fopen powercap_current "r" = false) →
      (ibm_cpu_p9_cap_and_verify_node_power_limit E R : Run D).ret = -1 ∧
      handler_messages (ibm_cpu_p9_cap_and_verify_node_power_limit E R : Run D).out =
        ["Incorrect permissions on OPAL files"]) := by
  constructor
  · intro hw hr
    unfold ibm_cpu_p9_cap_and_verify_node_power_limit ibm_read_back
    simp only [hw, hr, ibm_log_entry_silent, Bool.true_eq_false, if_false, List.nil_append]
    by_cases hm : R = (match E.fscanf_d powercap_current with
        | some v => v
        | none => 0)
    · rw [if_neg (not_not_intro hm)]
      refine ⟨?_, ?_, ⟨_, rfl⟩, ?_, ?_⟩
      · simp [file_writes, file_write]
      · simp [handler_messages, handler_message]
      · simp [hm.symm]
      · intro hne
        exact absurd hm.symm hne
    · rw [if_pos hm]
      refine ⟨?_, ?_, ⟨_, rfl⟩, ?_, ?_⟩
      · simp [file_writes, file_write, ibm_verify_guidance]
      · simp [handler_messages, handler_message, ibm_verify_guidance]
      · constructor
        · rintro ⟨h, _⟩
          simp at h
        · intro h
          exact absurd h.symm hm
      · intro _
        exact ⟨rfl, _, rfl⟩
  · intro h
    unfold ibm_cpu_p9_cap_and_verify_node_power_limit
    simp only [ibm_log_entry_silent, List.nil_append]
    by_cases hw : E.fopen powercap_current "w+" = false
    · simp [hw, handler_messages, handler_message, opal_permission_error]
    · have hr : E.fopen powercap_current "r" = false := by
        rcases h with h | h
        · exact absurd h hw
        · exact h
      simp [hw, hr, handler_messages, handler_message, opal_permission_error]

/-- The cap theorem applied to `ibm_node`, whose cap file reads back 3000,
with a request of 3000. -/
theorem ibm_cap_verified_iff_read_back_witness :
    ((ibm_cpu_p9_cap_and_verify_node_power_limit ibm_node 3000 : Run ℚ).ret = 0 ∧
      Event.printf "Changed node power cap to %d W.\n" [Arg.int 3000] ∈
        (ibm_cpu_p9_cap_and_verify_node_power_limit ibm_node 3000 : Run ℚ).out) ↔
      ibm_read_back ibm_node = 3000 :=
  ((ibm_cap_verified_iff_read_back ibm_node 3000).1 rfl rfl).2.2.2.1

/-- C15 (as amended). `ibm_cpu_p9_cap_and_verify_node_power_limit` has no
clamp: for every request `R` and whatever the maximum-cap file holds, it never
opens `powercap-max` (it opens only `powercap-current`), every value it writes
is `R` itself, written to `powercap-current`, it prints nothing but the
guidance lines or the `Changed` line, and when the cap file opens for writing
`R` is written exactly once. -/
theorem ibm_cap_writes_request_unclamped {D : Type} (E : IbmEnv) (R : Int) :
    (∀ o ∈ file_opens (ibm_cpu_p9_cap_and_verify_node_power_limit E R : Run D).out,
      o.1 = powercap_current) ∧
    (∀ w ∈ file_writes (ibm_cpu_p9_cap_and_verify_node_power_limit E R : Run D).out,
      w = (powercap_current, R)) ∧
    (∀ f ∈ printed_formats (ibm_cpu_p9_cap_and_verify_node_power_limit E R : Run D).out,
      f ∈ printed_formats (ibm_verify_guidance : List (Event D)) ∨
      f = "Changed node power cap to %d W.\n") ∧
    (E.fopen powercap_current "w+" = true →
      file_writes (ibm_cpu_p9_cap_and_verify_node_power_limit E R : Run D).out =
        [(powercap_current, R)]) := by
  unfold ibm_cpu_p9_cap_and_verify_node_power_limit
  simp only [ibm_log_entry_silent, List.nil_append]
  by_cases hw : E.fopen powercap_current "w+" = false
  · simp [hw, file_opens, file_open, file_writes, file_write, printed_formats,
      opal_permission_error]
  · by_cases hr : E.fopen powercap_current "r" = false
    · simp [hw, hr, file_opens, file_open, file_writes, file_write, printed_formats,
        opal_permission_error]
    · rw [if_neg hw, if_neg hr]
      split <;>
        simp [file_opens, file_open, file_writes, file_write, printed_formats,
          ibm_verify_guidance]

/-- The no-clamp theorem applied to `ibm_node` (maximum 3050) with a request
of 5000. -/
theorem ibm_cap_writes_request_unclamped_witness :
    file_writes (ibm_cpu_p9_cap_and_verify_node_power_limit ibm_node 5000 : Run ℚ).out =
      [(powercap_current, 5000)] :=
  (ibm_cap_writes_request_unclamped ibm_node 5000).2.2.2 rfl

/-- C15 fails as stated. On `ibm_node` the maximum-cap file holds 3050; a
request of 5000 is written as 5000 to `powercap-current`, `powercap-max` is
never opened, and the cap file is opened for the write and for the read-back
only. -/
theorem ibm_cap_clamp_counterexample :
    ibm_node.fscanf_d powercap_max = some 3050 ∧
    file_writes (ibm_cpu_p9_cap_and_verify_node_power_limit ibm_node 5000 : Run ℚ).out =
      [(powercap_current, 5000)] ∧
    file_opens (ibm_cpu_p9_cap_and_verify_node_power_limit ibm_node 5000 : Run ℚ).out =
      [(powercap_current, "w+"), (powercap_current, "r")] := by
  refine ⟨by decide, by decide, by decide⟩

/-- C16. For every ratio value `v`, `ibm_cpu_p9_cap_gpu_power_ratio` opens both
power-shift-ratio files; if both open, `v` is written to each of the two files
(first `cpu_to_gpu_0`, then `cpu_to_gpu_8`), the error handler is not invoked
and the call returns 0; if at least one does not open, nothing is written to
either file, the error handler is invoked once and the call returns -1. -/
theorem ibm_ratio_written_to_both_or_neither {D : Type} (E : IbmEnv) (v : Int) :
    (E.fopen psr_cpu_to_gpu_0 "w+" = true → E.fopen psr_cpu_to_gpu_8 "w+" = true →
      (ibm_cpu_p9_cap_gpu_power_ratio E v : Run D).ret = 0 ∧
      file_writes (ibm_cpu_p9_cap_gpu_power_ratio E v : Run D).out =
        [(psr_cpu_to_gpu_0, v), (psr_cpu_to_gpu_8, v)] ∧
      handler_messages (ibm_cpu_p9_cap_gpu_power_ratio E v : Run D).out = []) ∧
    ((E.fopen psr_cpu_to_gpu_0 "w+" = false ∨ E.fopen psr_cpu_to_gpu_8 "w+" = false) →
      (ibm_cpu_p9_cap_gpu_power_ratio E v : Run D).ret = -1 ∧
      file_writes (ibm_cpu_p9_cap_gpu_power_ratio E v : Run D).out = [] ∧
      handler_messages (ibm_cpu_p9_cap_gpu_power_ratio E v : Run D).out =
        ["Incorrect permissions on OPAL files"]) ∧
    file_opens (ibm_cpu_p9_cap_gpu_power_ratio E v : Run D).out =
      [(psr_cpu_to_gpu_0, "w+"), (psr_cpu_to_gpu_8, "w+")] := by
  refine ⟨?_, ?_, ?_⟩
  · intro h0 h8
    unfold ibm_cpu_p9_cap_gpu_power_ratio
    simp [h0, h8, ibm_log_entry_silent, file_writes, file_write, handler_messages,
      handler_message]
  · intro h
    unfold ibm_cpu_p9_cap_gpu_power_ratio
    simp only [ibm_log_entry_silent, List.nil_append]
    rw [if_pos h]
    simp [file_writes, file_write, handler_messages, handler_message,
      opal_permission_error]
  · unfold ibm_cpu_p9_cap_gpu_power_ratio
    simp only [ibm_log_entry_silent, List.nil_append]
    split <;> simp [file_opens, file_open, opal_permission_error]

/-- The ratio theorem applied to `ibm_node` (both files open) and to
`ibm_node_psr_denied` (the second file does not open), ratio 40. -/
theorem ibm_ratio_written_to_both_or_neither_witness :
    ((ibm_cpu_p9_cap_gpu_power_ratio ibm_node 40 : Run ℚ).ret = 0 ∧
      file_writes (ibm_cpu_p9_cap_gpu_power_ratio ibm_node 40 : Run ℚ).out =
        [(psr_cpu_to_gpu_0, 40), (psr_cpu_to_gpu_8, 40)] ∧
      handler_messages (ibm_cpu_p9_cap_gpu_power_ratio ibm_node 40 : Run ℚ).out = []) ∧
    ((ibm_cpu_p9_cap_gpu_power_ratio ibm_node_psr_denied 40 : Run ℚ).ret = -1 ∧
      file_writes (ibm_cpu_p9_cap_gpu_power_ratio ibm_node_psr_denied 40 : Run ℚ).out = [] ∧
      handler_messages (ibm_cpu_p9_cap_gpu_power_ratio ibm_node_psr_denied 40 : Run ℚ).out =
        ["Incorrect permissions on OPAL files"]) :=
  ⟨(ibm_ratio_written_to_both_or_neither ibm_node 40).1 rfl rfl,
   (ibm_ratio_written_to_both_or_neither ibm_node_psr_denied 40).2.1 (Or.inr (by decide))⟩

/-! ## The IBM sensor blocks -/

theorem calls_of_append {D : Type} (fn : Fn) (a b : List (Event D)) :
    calls_of fn (a ++ b) = calls_of fn a ++ calls_of fn b := by
  unfold calls_of
  rw [vendor_calls_append, List.filterMap_append]

/-- The number of bytes the read loop ends with does not depend on the type of
the trace. -/
theorem read_block_loop_bytes {D F : Type} (size fd : Int) (read : Nat → Int) :
    ∀ (fuel k : Nat) (bytes : Int),
    (read_block_loop size fd read fuel k bytes : Int × List (Event D)).1 =
      (read_block_loop size fd read fuel k bytes : Int × List (Event F)).1 := by
  intro fuel
  induction fuel with
  | zero =>
    intro k bytes
    rfl
  | succ fuel ih =>
    intro k bytes
    simp only [read_block_loop]
    split
    · split
      · rfl
      · exact ih (k + 1) _
    · rfl

/-- The read loop does not need more iterations than bytes are missing: with
that many allowed, allowing more changes nothing. -/
theorem read_block_loop_fuel {D : Type} (size fd : Int) (read : Nat → Int) (extra : Nat) :
    ∀ (fuel k : Nat) (bytes : Int), (size - bytes).toNat ≤ fuel →
    (read_block_loop size fd read (fuel + extra) k bytes : Int × List (Event D)) =
      read_block_loop size fd read fuel k bytes := by
  intro fuel
  induction fuel with
  | zero =>
    intro k bytes h
    have hb : ¬ bytes < size := by omega
    cases extra with
    | zero => rfl
    | succ e => simp [read_block_loop, hb]
  | succ fuel ih =>
    intro k bytes h
    have e : fuel + 1 + extra = (fuel + extra) + 1 := by omega
    rw [e]
    simp only [read_block_loop]
    split
    · split
      · rfl
      · rename_i hrc
        rw [ih (k + 1) (bytes + read k) (by omega)]
    · rfl

/-- The read loop issues `read` calls only, all on the descriptor `fd`. -/
theorem read_block_loop_calls {D : Type} (size fd : Int) (read : Nat → Int) :
    ∀ (fuel k : Nat) (bytes : Int),
    (∀ fn, fn ≠ Fn.read →
      calls_of fn (read_block_loop size fd read fuel k bytes : Int × List (Event D)).2 = []) ∧
    (∀ a ∈ calls_of Fn.read
        (read_block_loop size fd read fuel k bytes : Int × List (Event D)).2,
      ∃ b c, a = [fd, b, c]) := by
  intro fuel
  induction fuel with
  | zero =>
    intro k bytes
    simp [read_block_loop, calls_of, vendor_calls]
  | succ fuel ih =>
    intro k bytes
    obtain ⟨ih1, ih2⟩ := ih (k + 1) (bytes + read k)
    simp only [read_block_loop]
    split
    · split
      · constructor
        · intro fn hfn
          simp [calls_of, vendor_calls, vendor_call, hfn.symm]
        · intro a ha
          simp [calls_of, vendor_calls, vendor_call] at ha
          exact ⟨_, _, ha⟩
      · constructor
        · intro fn hfn
          have := ih1 fn hfn
          unfold calls_of vendor_calls at this ⊢
          simp [vendor_call, hfn.symm, this]
        · intro a ha
          unfold calls_of vendor_calls at ha ih2
          simp only [List.filterMap_cons, vendor_call, if_true] at ha
          rcases List.mem_cons.mp ha with h | h
          · exact ⟨_, _, h⟩
          · exact ih2 a h
    · simp [calls_of, vendor_calls]

theorem block_ok_iff {D : Type} (E : IbmEnv) (iter : Nat) :
    block_ok E iter ↔
      E.malloc iter = true ∧
        (read_block E iter : Int × List (Event D)).1 = E.OCC_SENSOR_DATA_BLOCK_SIZE := by
  unfold block_ok read_block
  rw [read_block_loop_bytes (D := Unit) (F := D)]

/-- The IBM socket loop: it returns 0 or -1, and 0 exactly when every block of
the range is allocated and read in full. -/
theorem ibm_get_power_loop_ret {D : Type} (E : IbmEnv) (long_ver : Int) :
    ∀ (left i : Nat),
    ((ibm_get_power_loop E long_ver left i : Run D).ret = 0 ↔
      ∀ j, i ≤ j → j < i + left → block_ok E j) ∧
    ((ibm_get_power_loop E long_ver left i : Run D).ret = 0 ∨
      (ibm_get_power_loop E long_ver left i : Run D).ret = -1) := by
  intro left
  induction left with
  | zero =>
    intro i
    refine ⟨⟨fun _ j h1 h2 => by omega, fun _ => rfl⟩, Or.inl rfl⟩
  | succ left ih =>
    intro i
    obtain ⟨ih1, ih2⟩ := ih (i + 1)
    have hb := block_ok_iff (D := D) E i
    simp only [ibm_get_power_loop]
    by_cases hm : E.malloc i = false
    · rw [if_pos hm]
      refine ⟨⟨fun h => by simp at h, fun h => ?_⟩, Or.inr rfl⟩
      have := (hb.mp (h i (le_refl _) (by omega))).1
      rw [hm] at this
      cases this
    · rw [if_neg hm]
      by_cases hr : (read_block E i : Int × List (Event D)).1 = E.OCC_SENSOR_DATA_BLOCK_SIZE
      · rw [if_neg (not_not_intro hr)]
        dsimp only
        refine ⟨⟨fun h j h1 h2 => ?_, fun h => ?_⟩, ih2⟩
        · by_cases hji : j = i
          · subst hji
            exact hb.mpr ⟨by simpa using hm, hr⟩
          · exact ih1.mp h j (by omega) (by omega)
        · exact ih1.mpr (fun j h1 h2 => h j (by omega) (by omega))
      · rw [if_pos hr]
        refine ⟨⟨fun h => by simp at h, fun h => ?_⟩, Or.inr rfl⟩
        exact absurd (hb.mp (h i (le_refl _) (by omega))).2 hr

/-- The IBM socket loop up to the first block that is not allocated or not
read in full (`k = i + left` when there is none): the blocks before `k` are
decoded in ascending order, and the seeks are those of the sockets up to `k`,
each at `socket * SIZE` on the one descriptor. -/
theorem ibm_get_power_loop_trace {D : Type} (E : IbmEnv) (long_ver : Int) :
    ∀ (left i k : Nat), i ≤ k → k ≤ i + left →
    (∀ j, i ≤ j → j < k → block_ok E j) →
    (k < i + left → ¬ block_ok E k) →
    calls_of Fn.print_power_sensors (ibm_get_power_loop E long_ver left i : Run D).out =
      (List.range' i (k - i)).map (fun (j : Nat) => [(j : Int), long_ver]) ∧
    calls_of Fn.lseek (ibm_get_power_loop E long_ver left i : Run D).out =
      (List.range' i (min (k + 1) (i + left) - i)).map
        (fun (j : Nat) => [E.open_sensors, (j : Int) * E.OCC_SENSOR_DATA_BLOCK_SIZE]) ∧
    (∀ a ∈ calls_of Fn.read (ibm_get_power_loop E long_ver left i : Run D).out,
      ∃ b c, a = [E.open_sensors, b, c]) := by
  intro left
  induction left with
  | zero =>
    intro i k h1 h2 _ _
    have : k = i := by omega
    subst this
    simp [ibm_get_power_loop, calls_of, vendor_calls, vendor_call]
  | succ left ih =>
    intro i k h1 h2 hok hbad
    have hb := block_ok_iff (D := D) E i
    obtain ⟨r1, r2⟩ := read_block_loop_calls (D := D) E.OCC_SENSOR_DATA_BLOCK_SIZE
      E.open_sensors (E.read i) E.OCC_SENSOR_DATA_BLOCK_SIZE.toNat 0 0
    have hhead1 : calls_of Fn.print_power_sensors
        ([Event.call Fn.lseek [E.open_sensors, (i : Int) * E.OCC_SENSOR_DATA_BLOCK_SIZE],
          Event.call Fn.malloc [E.OCC_SENSOR_DATA_BLOCK_SIZE]] : List (Event D)) = [] := by
      simp [calls_of, vendor_calls, vendor_call]
    have hhead2 : calls_of Fn.lseek
        ([Event.call Fn.lseek [E.open_sensors, (i : Int) * E.OCC_SENSOR_DATA_BLOCK_SIZE],
          Event.call Fn.malloc [E.OCC_SENSOR_DATA_BLOCK_SIZE]] : List (Event D)) =
        [[E.open_sensors, (i : Int) * E.OCC_SENSOR_DATA_BLOCK_SIZE]] := by
      simp [calls_of, vendor_calls, vendor_call]
    have hhead3 : calls_of Fn.read
        ([Event.call Fn.lseek [E.open_sensors, (i : Int) * E.OCC_SENSOR_DATA_BLOCK_SIZE],
          Event.call Fn.malloc [E.OCC_SENSOR_DATA_BLOCK_SIZE]] : List (Event D)) = [] := by
      simp [calls_of, vendor_calls, vendor_call]
    by_cases hik : i = k
    · subst hik
      have hnot := hbad (by omega)
      have e1 : min (i + 1) (i + (left + 1)) - i = 1 := by omega
      rw [Nat.sub_self, e1]
      simp only [ibm_get_power_loop]
      by_cases hm : E.malloc i = false
      · rw [if_pos hm]
        simp [calls_of, vendor_calls, vendor_call]
      · rw [if_neg hm]
        have hr : (read_block E i : Int × List (Event D)).1 ≠ E.OCC_SENSOR_DATA_BLOCK_SIZE :=
          fun h => hnot (hb.mpr ⟨by simpa using hm, h⟩)
        rw [if_pos hr]
        dsimp only
        rw [calls_of_append, calls_of_append, calls_of_append, calls_of_append,
          calls_of_append, calls_of_append, hhead1, hhead2, hhead3]
        unfold read_block
        rw [r1 _ (by decide), r1 _ (by decide)]
        refine ⟨by simp [calls_of, vendor_calls, vendor_call],
          by simp [calls_of, vendor_calls, vendor_call], ?_⟩
        intro a ha
        simp only [List.mem_append] at ha
        rcases ha with (ha | ha) | ha
        · simp at ha
        · exact r2 a ha
        · simp [calls_of, vendor_calls, vendor_call] at ha
    · obtain ⟨hm, hr⟩ := hb.mp (hok i (le_refl _) (by omega))
      obtain ⟨ih1, ih2, ih3⟩ := ih (i + 1) k (by omega) (by omega)
        (fun j h1 h2 => hok j (by omega) h2) (fun h => hbad (by omega))
      have e1 : k - i = (k - (i + 1)) + 1 := by omega
      have e2 : min (k + 1) (i + (left + 1)) - i =
          (min (k + 1) (i + 1 + left) - (i + 1)) + 1 := by omega
      rw [e1, e2, List.range'_succ, List.range'_succ]
      simp only [ibm_get_power_loop, hm, Bool.true_eq_false, if_false, hr, ne_eq,
        not_true_eq_false]
      rw [calls_of_append, calls_of_append, calls_of_append, calls_of_append,
        calls_of_append, calls_of_append, calls_of_append, calls_of_append, calls_of_append,
        hhead1, hhead2, hhead3, ih1, ih2]
      unfold read_block
      rw [r1 _ (by decide), r1 _ (by decide)]
      refine ⟨by simp [calls_of, vendor_calls, vendor_call],
        by simp [calls_of, vendor_calls, vendor_call], ?_⟩
      intro a ha
      simp only [List.mem_append] at ha
      rcases ha with ((ha | ha) | ha) | ha
      · simp at ha
      · exact r2 a ha
      · simp [calls_of, vendor_calls, vendor_call] at ha
      · exact ih3 a ha

/-- C17. For every socket count `N`, `ibm_cpu_p9_get_power` opens the sensor
file once and returns 0 or -1; it returns 0 if and only if the file opens and
every socket's block is allocated and read in full. If the file does not open
nothing is read or decoded. If it opens and `k` is the first socket whose block
is not allocated or not read in full (`k = N` when there is none), exactly the
blocks of sockets `0..k-1` are decoded, in ascending order; the seeks are those
of the sockets up to `k`, socket `j` at offset `j * OCC_SENSOR_DATA_BLOCK_SIZE`,
and every seek and read is on the one opened descriptor. -/
theorem ibm_get_power_decodes_until_first_bad_block {D : Type} (E : IbmEnv)
    (long_ver : Int) :
    ((ibm_cpu_p9_get_power E long_ver : Run D).ret = 0 ↔
      0 ≤ E.open_sensors ∧ ∀ k, k < E.nsockets → block_ok E k) ∧
    ((ibm_cpu_p9_get_power E long_ver : Run D).ret = 0 ∨
      (ibm_cpu_p9_get_power E long_ver : Run D).ret = -1) ∧
    calls_of Fn.open_occ_inband_sensors (ibm_cpu_p9_get_power E long_ver : Run D).out =
      [[]] ∧
    (E.open_sensors < 0 →
      calls_of Fn.print_power_sensors (ibm_cpu_p9_get_power E long_ver : Run D).out = [] ∧
      calls_of Fn.lseek (ibm_cpu_p9_get_power E long_ver : Run D).out = [] ∧
      calls_of Fn.read (ibm_cpu_p9_get_power E long_ver : Run D).out = []) ∧
    (0 ≤ E.open_sensors → ∀ k, k ≤ E.nsockets → (∀ j, j < k → block_ok E j) →
      (k < E.nsockets → ¬ block_ok E k) →
      calls_of Fn.print_power_sensors (ibm_cpu_p9_get_power E long_ver : Run D).out =
        (List.range' 0 k).map (fun (j : Nat) => [(j : Int), long_ver]) ∧
      calls_of Fn.lseek (ibm_cpu_p9_get_power E long_ver : Run D).out =
        (List.range' 0 (min (k + 1) E.nsockets)).map
          (fun (j : Nat) => [E.open_sensors, (j : Int) * E.OCC_SENSOR_DATA_BLOCK_SIZE]) ∧
      (∀ a ∈ calls_of Fn.read (ibm_cpu_p9_get_power E long_ver : Run D).out,
        ∃ b c, a = [E.open_sensors, b, c])) := by
  obtain ⟨l1, l2⟩ := ibm_get_power_loop_ret (D := D) E long_ver E.nsockets 0
  have hpre : ∀ fn, fn ≠ Fn.open_occ_inband_sensors →
      calls_of fn ((ibm_log_entry "Running %s\n" [Arg.str "ibm_cpu_p9_get_power"] ++
        [Event.call Fn.open_occ_inband_sensors []] : List (Event D))) = [] := by
    intro fn hfn
    rw [ibm_log_entry_silent]
    simp [calls_of, vendor_calls, vendor_call, hfn.symm]
  have hopen_loop : ∀ (left i : Nat), calls_of Fn.open_occ_inband_sensors
      (ibm_get_power_loop E long_ver left i : Run D).out = [] := by
    intro left
    induction left with
    | zero =>
      intro i
      simp [ibm_get_power_loop, calls_of, vendor_calls, vendor_call]
    | succ left ih =>
      intro i
      obtain ⟨r1, _⟩ := read_block_loop_calls (D := D) E.OCC_SENSOR_DATA_BLOCK_SIZE
        E.open_sensors (E.read i) E.OCC_SENSOR_DATA_BLOCK_SIZE.toNat 0 0
      have hr := r1 Fn.open_occ_inband_sensors (by decide)
      simp only [ibm_get_power_loop]
      split
      · simp [calls_of, vendor_calls, vendor_call]
      · split
        · dsimp only
          rw [calls_of_append, calls_of_append]
          unfold read_block
          rw [hr]
          simp [calls_of, vendor_calls, vendor_call]
        · dsimp only
          rw [calls_of_append, calls_of_append, calls_of_append, ih]
          unfold read_block
          rw [hr]
          simp [calls_of, vendor_calls, vendor_call]
  by_cases hfd : E.open_sensors < 0
  · have hrun : (ibm_cpu_p9_get_power E long_ver : Run D) =
        ⟨-1, (ibm_log_entry "Running %s\n" [Arg.str "ibm_cpu_p9_get_power"] ++
          [Event.call Fn.open_occ_inband_sensors []]) ++
          [Event.printf "Failed to open occ_inband_sensors file\n" []]⟩ := by
      unfold ibm_cpu_p9_get_power
      simp [hfd]
    rw [hrun]
    dsimp only
    refine ⟨⟨fun h => by simp at h, fun h => by omega⟩, Or.inr rfl, ?_, ?_, ?_⟩
    · rw [ibm_log_entry_silent]
      simp [calls_of, vendor_calls, vendor_call]
    · intro _
      rw [ibm_log_entry_silent]
      simp [calls_of, vendor_calls, vendor_call]
    · intro h
      omega
  · have hrun : (ibm_cpu_p9_get_power E long_ver : Run D) =
        ⟨(ibm_get_power_loop E long_ver E.nsockets 0 : Run D).ret,
          (ibm_log_entry "Running %s\n" [Arg.str "ibm_cpu_p9_get_power"] ++
          [Event.call Fn.open_occ_inband_sensors []]) ++
          (ibm_get_power_loop E long_ver E.nsockets 0 : Run D).out⟩ := by
      unfold ibm_cpu_p9_get_power
      simp [hfd]
    rw [hrun]
    dsimp only
    refine ⟨?_, l2, ?_, fun h => absurd h hfd, ?_⟩
    · rw [l1]
      constructor
      · intro h
        exact ⟨by omega, fun k hk => h k (Nat.zero_le _) (by omega)⟩
      · rintro ⟨_, h⟩ j _ hj
        exact h j (by omega)
    · rw [calls_of_append, hopen_loop, ibm_log_entry_silent]
      simp [calls_of, vendor_calls, vendor_call]
    · intro _ k hk hok hbad
      obtain ⟨t1, t2, t3⟩ := ibm_get_power_loop_trace (D := D) E long_ver E.nsockets 0 k
        (Nat.zero_le _) (by omega) (fun j _ h => hok j h) (fun h => hbad (by omega))
      have p1 := hpre Fn.print_power_sensors (by decide)
      have p2 := hpre Fn.lseek (by decide)
      have p3 := hpre Fn.read (by decide)
      rw [calls_of_append Fn.print_power_sensors, calls_of_append Fn.lseek,
        calls_of_append Fn.read, p1, p2, p3, t1, t2]
      simp only [Nat.sub_zero, Nat.zero_add, List.nil_append] at t3 ⊢
      exact ⟨trivial, trivial, t3⟩

/-- The sensor theorem applied to `ibm_node` (both blocks arrive in full) and
to `ibm_node_short_read` (the block of socket 1 stops after 5 of 8 bytes). -/
theorem ibm_get_power_decodes_until_first_bad_block_witness :
    ((ibm_cpu_p9_get_power ibm_node 0 : Run ℚ).ret = 0 ∧
      calls_of Fn.print_power_sensors (ibm_cpu_p9_get_power ibm_node 0 : Run ℚ).out =
        [[0, 0], [1, 0]] ∧
      calls_of Fn.lseek (ibm_cpu_p9_get_power ibm_node 0 : Run ℚ).out =
        [[3, 0], [3, 8]]) ∧
    ((ibm_cpu_p9_get_power ibm_node_short_read 0 : Run ℚ).ret = -1 ∧
      calls_of Fn.print_power_sensors
        (ibm_cpu_p9_get_power ibm_node_short_read 0 : Run ℚ).out = [[0, 0]]) :=
  ⟨⟨(ibm_get_power_decodes_until_first_bad_block ibm_node 0).1.mpr
      ⟨by decide, fun j hj => by
        have : j = 0 ∨ j = 1 := by
          have : j < 2 := hj
          omega
        rcases this with rfl | rfl <;> (unfold block_ok; decide)⟩,
     ((ibm_get_power_decodes_until_first_bad_block ibm_node 0).2.2.2.2 (by decide) 2
        (by decide)
        (fun j hj => by
          have : j = 0 ∨ j = 1 := by omega
          rcases this with rfl | rfl <;> (unfold block_ok; decide))
        (fun h => absurd h (by decide))).1,
     ((ibm_get_power_decodes_until_first_bad_block ibm_node 0).2.2.2.2 (by decide) 2
        (by decide)
        (fun j hj => by
          have : j = 0 ∨ j = 1 := by omega
          rcases this with rfl | rfl <;> (unfold block_ok; decide))
        (fun h => absurd h (by decide))).2.1⟩,
   ⟨by decide,
    ((ibm_get_power_decodes_until_first_bad_block ibm_node_short_read 0).2.2.2.2
        (by decide) 1 (by decide)
        (fun j hj => by
          have : j = 0 := by omega
          subst this
          unfold block_ok
          decide)
        (fun _ => by unfold block_ok; decide)).1⟩⟩

/-! ## The IBM energy toggle -/

theorem latch_header_no_energy {D : Type} (ep : Epoch) (long_ver : Int) :
    reported_energy (latch_header ep long_ver
      "_IBMENERGY Host AccumulatedEnergy_J Timestamp_sec\n" : List (Event D)) = [] := by
  unfold reported_energy latch_header
  split <;> simp [energy_row_value]

/-- One call of `ibm_cpu_p9_get_energy`: the return value, the sampler it
leaves and the value its row reports. -/
theorem ibm_get_energy_toggle {D : Type} [DoubleOps D] (E : IbmEnv) (ep : Epoch)
    (st : Sampler) (long_ver : Int) :
    (ibm_cpu_p9_get_energy E ep st long_ver : Run D × Epoch × Sampler).1.ret = 0 ∧
    (ibm_cpu_p9_get_energy E ep st long_ver : Run D × Epoch × Sampler).2.2 =
      (if st.active_sampling = 0 then ⟨1, 0, 250⟩ else { st with active_sampling := 0 }) ∧
    reported_energy
        (ibm_cpu_p9_get_energy E ep st long_ver : Run D × Epoch × Sampler).1.out =
      [if st.active_sampling = 0 then 0 else (u64 st.energy_acc : Int)] := by
  have hh := latch_header_no_energy (D := D) ep long_ver
  unfold reported_energy at hh ⊢
  unfold ibm_cpu_p9_get_energy
  by_cases ha : st.active_sampling = 0
  · by_cases hl : long_ver = 0
    · subst hl
      simp [ha, hh, energy_row_value, u64]
    · simp [ha, hl, hh, energy_row_value, u64]
  · by_cases hl : long_ver = 0
    · subst hl
      simp [ha, hh, energy_row_value]
    · simp [ha, hl, hh, energy_row_value]

/-- One call of `ibm_cpu_p9_get_node_energy_json` on an object: the return
value, the sampler it leaves and the value it stores. -/
theorem ibm_get_node_energy_json_toggle {D : Type} (st : Sampler)
    (ms : List (String × Json D)) :
    (ibm_cpu_p9_get_node_energy_json st (Json.object ms) : Run D × Sampler × Json D).1.ret =
      0 ∧
    (ibm_cpu_p9_get_node_energy_json st (Json.object ms) : Run D × Sampler × Json D).2.1 =
      (if st.active_sampling = 0 then ⟨1, 0, 250⟩ else { st with active_sampling := 0 }) ∧
    json_object_get
        (ibm_cpu_p9_get_node_energy_json st (Json.object ms) : Run D × Sampler × Json D).2.2
        "energy_node_joules" =
      some (Json.integer
        (toInt64 (if st.active_sampling = 0 then 0 else (u64 st.energy_acc : Int)))) := by
  unfold ibm_cpu_p9_get_node_energy_json
  by_cases ha : st.active_sampling = 0
  · simp [ha, json_object_set_new, json_object_get, json_integer, members_get_set_self]
  · simp [ha, json_object_set_new, json_object_get, json_integer, members_get_set_self]

/-- C12. The IBM energy toggle, through `ibm_cpu_p9_get_energy` or through
`ibm_cpu_p9_get_node_energy_json` (on an object), is a two-state machine on
`(active_sampling, energy_acc, sample_interval)`. From Idle
(`active_sampling = 0`) a call leaves `(1, 0, 250)`, reports 0 and returns 0.
From Sampling a call sets `active_sampling = 0`, leaves `energy_acc` and
`sample_interval` as they are, reports the current `energy_acc` (printed as
`%lu`, stored as `json_integer(energy_acc)`) and returns 0. Hence a toggle from
Idle followed at once by a second toggle reports 0 both times and ends in
`(0, 0, 250)`. -/
theorem ibm_energy_toggle_two_states {D : Type} [DoubleOps D] (E : IbmEnv) (ep : Epoch)
    (st : Sampler) (long_ver : Int) (ms : List (String × Json D)) :
    (st.active_sampling = 0 →
      ((ibm_cpu_p9_get_energy E ep st long_ver : Run D × Epoch × Sampler).1.ret = 0 ∧
        (ibm_cpu_p9_get_energy E ep st long_ver : Run D × Epoch × Sampler).2.2 =
          ⟨1, 0, 250⟩ ∧
        reported_energy
          (ibm_cpu_p9_get_energy E ep st long_ver : Run D × Epoch × Sampler).1.out = [0]) ∧
      ((ibm_cpu_p9_get_node_energy_json st (Json.object ms) :
          Run D × Sampler × Json D).1.ret = 0 ∧
        (ibm_cpu_p9_get_node_energy_json st (Json.object ms) :
          Run D × Sampler × Json D).2.1 = ⟨1, 0, 250⟩ ∧
        json_object_get (ibm_cpu_p9_get_node_energy_json st (Json.object ms) :
          Run D × Sampler × Json D).2.2 "energy_node_joules" = some (Json.integer 0))) ∧
    (st.active_sampling ≠ 0 →
      ((ibm_cpu_p9_get_energy E ep st long_ver : Run D × Epoch × Sampler).1.ret = 0 ∧
        (ibm_cpu_p9_get_energy E ep st long_ver : Run D × Epoch × Sampler).2.2 =
          ⟨0, st.energy_acc, st.sample_interval⟩ ∧
        reported_energy
          (ibm_cpu_p9_get_energy E ep st long_ver : Run D × Epoch × Sampler).1.out =
          [(u64 st.energy_acc : Int)]) ∧
      ((ibm_cpu_p9_get_node_energy_json st (Json.object ms) :
          Run D × Sampler × Json D).1.ret = 0 ∧
        (ibm_cpu_p9_get_node_energy_json st (Json.object ms) :
          Run D × Sampler × Json D).2.1 = ⟨0, st.energy_acc, st.sample_interval⟩ ∧
        json_object_get (ibm_cpu_p9_get_node_energy_json st (Json.object ms) :
          Run D × Sampler × Json D).2.2 "energy_node_joules" =
          some (Json.integer (toInt64 (u64 st.energy_acc))))) ∧
    (∀ (E2 : IbmEnv) (ep2 : Epoch) (long_ver2 : Int) (ms2 : List (String × Json D)),
      reported_energy (ibm_cpu_p9_get_energy E2 ep2 ⟨1, 0, 250⟩ long_ver2 :
          Run D × Epoch × Sampler).1.out = [0] ∧
      (ibm_cpu_p9_get_energy E2 ep2 ⟨1, 0, 250⟩ long_ver2 :
          Run D × Epoch × Sampler).2.2 = ⟨0, 0, 250⟩ ∧
      json_object_get (ibm_cpu_p9_get_node_energy_json ⟨1, 0, 250⟩ (Json.object ms2) :
          Run D × Sampler × Json D).2.2 "energy_node_joules" = some (Json.integer 0) ∧
      (ibm_cpu_p9_get_node_energy_json ⟨1, 0, 250⟩ (Json.object ms2) :
          Run D × Sampler × Json D).2.1 = ⟨0, 0, 250⟩) := by
  obtain ⟨a1, a2, a3⟩ := ibm_get_energy_toggle (D := D) E ep st long_ver
  obtain ⟨b1, b2, b3⟩ := ibm_get_node_energy_json_toggle (D := D) st ms
  refine ⟨fun h => ?_, fun h => ?_, fun E2 ep2 long_ver2 ms2 => ?_⟩
  · rw [if_pos h] at a2 a3 b2 b3
    exact ⟨⟨a1, a2, a3⟩, b1, b2, b3⟩
  · rw [if_neg h] at a2 a3 b2 b3
    exact ⟨⟨a1, a2, a3⟩, b1, b2, b3⟩
  · obtain ⟨_, c2, c3⟩ := ibm_get_energy_toggle (D := D) E2 ep2 ⟨1, 0, 250⟩ long_ver2
    obtain ⟨_, d2, d3⟩ := ibm_get_node_energy_json_toggle (D := D) ⟨1, 0, 250⟩ ms2
    exact ⟨c3, c2, d3, d2⟩

/-- The toggle theorem applied to an idle sampler and to a running sampler
holding 7. -/
theorem ibm_energy_toggle_two_states_witness :
    (reported_energy (ibm_cpu_p9_get_energy ibm_node Epoch.fresh sampler_idle 0 :
        Run ℚ × Epoch × Sampler).1.out = [0] ∧
      (ibm_cpu_p9_get_energy ibm_node Epoch.fresh sampler_idle 0 :
        Run ℚ × Epoch × Sampler).2.2 = ⟨1, 0, 250⟩) ∧
    (reported_energy (ibm_cpu_p9_get_energy ibm_node Epoch.fresh sampler_running 0 :
        Run ℚ × Epoch × Sampler).1.out = [7] ∧
      (ibm_cpu_p9_get_energy ibm_node Epoch.fresh sampler_running 0 :
        Run ℚ × Epoch × Sampler).2.2 = ⟨0, 7, 250⟩) :=
  ⟨⟨(((ibm_energy_toggle_two_states (D := ℚ) ibm_node Epoch.fresh sampler_idle 0 []).1
        rfl).1).2.2,
    (((ibm_energy_toggle_two_states (D := ℚ) ibm_node Epoch.fresh sampler_idle 0 []).1
        rfl).1).2.1⟩,
   ⟨(((ibm_energy_toggle_two_states (D := ℚ) ibm_node Epoch.fresh sampler_running 0 []).2.1
        (by decide)).1).2.2,
    (((ibm_energy_toggle_two_states (D := ℚ) ibm_node Epoch.fresh sampler_running 0 []).2.1
        (by decide)).1).2.1⟩⟩

/-! ## The accumulated energy after two sampling steps -/

/-- Started from the state a start toggle leaves, two sampling steps under a
constant measurement `P` accumulate `500 * P` (as long as that fits 64 bits):
each step adds `P * 250`, the interval being counted in milliseconds. -/
theorem two_sampling_steps_accumulate (P : Nat) (hP : 500 * P < 18446744073709551616) :
    (power_measurement_step P (power_measurement_step P ⟨1, 0, 250⟩)).energy_acc =
      500 * P := by
  unfold power_measurement_step u64
  simp only
  omega

/-- C13 (the code at the failing input). Toggle on, two sampling steps under a
constant measurement of 100 W, toggle off: the reported value is 50000, through
`ibm_cpu_p9_get_energy` and through `ibm_cpu_p9_get_node_energy_json` alike. The
claimed interval for `2 * 0.25 s * 100 W` is `[45, 55]`. -/
theorem ibm_energy_two_steps_at_100_watts :
    reported_energy
        (ibm_cpu_p9_get_energy ibm_node
          (ibm_cpu_p9_get_energy ibm_node Epoch.fresh sampler_idle 0 :
            Run ℚ × Epoch × Sampler).2.1
          (power_measurement_step 100 (power_measurement_step 100
            (ibm_cpu_p9_get_energy ibm_node Epoch.fresh sampler_idle 0 :
              Run ℚ × Epoch × Sampler).2.2)) 0 :
          Run ℚ × Epoch × Sampler).1.out = [50000] ∧
    json_object_get
        (ibm_cpu_p9_get_node_energy_json
          (power_measurement_step 100 (power_measurement_step 100
            (ibm_cpu_p9_get_node_energy_json sampler_idle (Json.object []) :
              Run ℚ × Sampler × Json ℚ).2.1))
          (Json.object []) : Run ℚ × Sampler × Json ℚ).2.2 "energy_node_joules" =
      some (Json.integer 50000) ∧
    ¬ ((50000 : ℚ) ≤ 2 * (1 / 4) * 100 * (11 / 10)) := by
  refine ⟨by decide, by rfl, by norm_num⟩

/-! ## The device ranges of the Intel GPU operations -/

theorem device_range_of_fit (chipid g : Nat) (hfit : (chipid + 1) * g < 2147483648) :
    device_first chipid g = ((chipid * g : Nat) : Int) ∧ device_count chipid g = g := by
  have hcg : chipid * g < 2147483648 := by
    calc chipid * g ≤ (chipid + 1) * g := Nat.mul_le_mul_right g (by omega)
      _ < 2147483648 := hfit
  rcases Nat.eq_zero_or_pos g with h | h
  · subst h
    unfold device_count device_bound device_first
    simp [toInt32]
  · have hg : g < 2147483648 := by
      calc g = 1 * g := (Nat.one_mul g).symm
        _ ≤ (chipid + 1) * g := Nat.mul_le_mul_right g (by omega)
        _ < 2147483648 := hfit
    have hc : chipid + 1 < 2147483648 := by
      calc chipid + 1 = (chipid + 1) * 1 := (Nat.mul_one _).symm
        _ ≤ (chipid + 1) * g := Nat.mul_le_mul_left _ h
        _ < 2147483648 := hfit
    have e1 : toInt32 (g : Int) = (g : Int) := by
      apply toInt32_of_in_int32
      unfold in_int32
      omega
    have e2 : toInt32 ((chipid : Int) + 1) = (chipid : Int) + 1 := by
      apply toInt32_of_in_int32
      unfold in_int32
      omega
    have e3 : toInt32 ((chipid : Int) * (g : Int)) = ((chipid * g : Nat) : Int) := by
      rw [← Nat.cast_mul]
      generalize chipid * g = m at hcg
      apply toInt32_of_in_int32
      unfold in_int32
      omega
    have e4 : toInt32 (((chipid : Int) + 1) * (g : Int)) = (((chipid + 1) * g : Nat) : Int) := by
      have : ((chipid : Int) + 1) * (g : Int) = (((chipid + 1) * g : Nat) : Int) := by
        push_cast; rfl
      rw [this]
      generalize (chipid + 1) * g = m at hfit
      apply toInt32_of_in_int32
      unfold in_int32
      omega
    unfold device_count device_bound device_first
    rw [e1, e2, e3, e4]
    refine ⟨rfl, ?_⟩
    have : (((chipid + 1) * g : Nat) : Int) - ((chipid * g : Nat) : Int) = (g : Int) := by
      push_cast; ring
    rw [this]
    rfl

theorem vendor_calls_cons_call {D : Type} (fn : Fn) (args : List Int)
    (out : List (Event D)) :
    vendor_calls (Event.call fn args :: out) = (fn, args) :: vendor_calls out := rfl

theorem vendor_calls_cons_printf {D : Type} (fmt : String) (args : List (Arg D))
    (out : List (Event D)) :
    vendor_calls (Event.printf fmt args :: out) = vendor_calls out := rfl

theorem get_power_data_loop_calls {D : Type} (hostname : String)
    (readpoweravg : Int → D) (chipid : Nat) (verbose : Int) :
    ∀ (left s : Nat) (init_output : Int),
    vendor_calls (get_power_data_loop hostname readpoweravg chipid verbose left (s : Int)
      init_output).1 =
      (List.range' s left).map (fun (d : Nat) => (Fn.apmidg_readpoweravg, [(d : Int), 0])) := by
  intro left
  induction left with
  | zero => intro s io; rfl
  | succ left ih =>
    intro s io
    have e : (s : Int) + 1 = ((s + 1 : Nat) : Int) := by push_cast; rfl
    unfold get_power_data_loop
    dsimp only
    rw [e]
    split
    · rw [vendor_calls_cons_call, vendor_calls_cons_printf, ih]
      rfl
    · dsimp only
      rw [vendor_calls_append, vendor_calls_cons_call, vendor_calls_cons_printf, ih]
      split <;> rfl

theorem get_thermal_data_loop_calls {D : Type} (hostname : String)
    (readtemp : Int → D) (chipid : Nat) (verbose : Int) :
    ∀ (left s : Nat) (init_output : Int),
    vendor_calls (get_thermal_data_loop hostname readtemp chipid verbose left (s : Int)
      init_output).1 =
      (List.range' s left).map (fun (d : Nat) => (Fn.apmidg_readtemp, [(d : Int), 0])) := by
  intro left
  induction left with
  | zero => intro s io; rfl
  | succ left ih =>
    intro s io
    have e : (s : Int) + 1 = ((s + 1 : Nat) : Int) := by push_cast; rfl
    unfold get_thermal_data_loop
    dsimp only
    rw [e]
    split
    · rw [vendor_calls_cons_call, vendor_calls_cons_printf, ih]
      rfl
    · dsimp only
      rw [vendor_calls_append, vendor_calls_cons_call, vendor_calls_cons_printf, ih]
      split <;> rfl

theorem get_clocks_data_loop_calls {D : Type} [DoubleOps D] (hostname : String)
    (readfreq : Int → D) (chipid : Nat) (verbose : Int) :
    ∀ (left s : Nat) (init_output : Int),
    vendor_calls (get_clocks_data_loop hostname readfreq chipid verbose left (s : Int)
      init_output).1 =
      (List.range' s left).map (fun (d : Nat) => (Fn.apmidg_readfreq, [(d : Int), 0])) := by
  intro left
  induction left with
  | zero => intro s io; rfl
  | succ left ih =>
    intro s io
    have e : (s : Int) + 1 = ((s + 1 : Nat) : Int) := by push_cast; rfl
    unfold get_clocks_data_loop
    dsimp only
    rw [e]
    split
    · rw [vendor_calls_cons_call, vendor_calls_cons_printf, ih]
      rfl
    · dsimp only
      rw [vendor_calls_append, vendor_calls_cons_call, vendor_calls_cons_printf, ih]
      split <;> rfl

theorem get_power_limit_data_loop_calls {D : Type} (hostname : String)
    (getpwrlim : Int → Int) (chipid : Nat) (verbose : Int) :
    ∀ (left s : Nat) (init_output : Int),
    vendor_calls (get_power_limit_data_loop hostname getpwrlim chipid verbose left (s : Int)
      init_output : List (Event D) × Int).1 =
      (List.range' s left).map (fun (d : Nat) => (Fn.apmidg_getpwrlim, [(d : Int), 0])) := by
  intro left
  induction left with
  | zero => intro s io; rfl
  | succ left ih =>
    intro s io
    have e : (s : Int) + 1 = ((s + 1 : Nat) : Int) := by push_cast; rfl
    unfold get_power_limit_data_loop
    dsimp only
    rw [e]
    split
    · rw [vendor_calls_cons_call, vendor_calls_cons_printf, ih]
      rfl
    · dsimp only
      rw [vendor_calls_append, vendor_calls_cons_call, vendor_calls_cons_printf, ih]
      split <;> rfl

theorem get_energy_data_loop_calls {D : Type} [DoubleOps D] (hostname : String)
    (readenergy : Int → Nat) (chipid : Nat) (verbose : Int) (init : Int) :
    ∀ (left s : Nat) (init_output : Int) (baseline : Int → D),
    vendor_calls (get_energy_data_loop hostname readenergy chipid verbose init left (s : Int)
      init_output baseline).out =
      (List.range' s left).map (fun (d : Nat) => (Fn.apmidg_readenergy, [(d : Int), 0])) := by
  intro left
  induction left with
  | zero => intro s io baseline; rfl
  | succ left ih =>
    intro s io baseline
    have e : (s : Int) + 1 = ((s + 1 : Nat) : Int) := by push_cast; rfl
    unfold get_energy_data_loop
    dsimp only
    rw [e]
    split
    · rw [vendor_calls_cons_call, vendor_calls_cons_printf, ih]
      rfl
    · dsimp only
      rw [vendor_calls_append, vendor_calls_cons_call, vendor_calls_cons_printf, ih]
      split <;> rfl

theorem get_energy_json_loop_calls {D : Type} [DoubleOps D] (readenergy : Int → Nat)
    (init : Int) :
    ∀ (left s : Nat) (baseline : Int → D) (gpu_obj : Json D) (total : D),
    vendor_calls (get_energy_json_loop readenergy init left (s : Int) baseline gpu_obj
      total).out =
      (List.range' s left).map (fun (d : Nat) => (Fn.apmidg_readenergy, [(d : Int), 0])) := by
  intro left
  induction left with
  | zero => intro s baseline gpu_obj total; rfl
  | succ left ih =>
    intro s baseline gpu_obj total
    have e : (s : Int) + 1 = ((s + 1 : Nat) : Int) := by push_cast; rfl
    unfold get_energy_json_loop
    dsimp only
    rw [e, vendor_calls_cons_call, ih]
    rfl

theorem vendor_calls_cons_error_handler {D : Type} (msg err func : String)
    (out : List (Event D)) :
    vendor_calls (Event.error_handler msg err func :: out) = vendor_calls out := rfl

theorem cap_each_gpu_power_limit_loop_calls {D : Type} (getpwrlim : Int → Int)
    (powerlimit_mwatts : Int) :
    ∀ (left s : Nat),
    vendor_calls (cap_each_gpu_power_limit_loop getpwrlim powerlimit_mwatts left (s : Int) :
      List (Event D)) =
      ((List.range' s left).map (fun (d : Nat) =>
        [(Fn.apmidg_setpwrlim, [(d : Int), 0, powerlimit_mwatts]),
         (Fn.apmidg_getpwrlim, [(d : Int), 0])])).flatten := by
  intro left
  induction left with
  | zero => intro s; rfl
  | succ left ih =>
    intro s
    have e : (s : Int) + 1 = ((s + 1 : Nat) : Int) := by push_cast; rfl
    unfold cap_each_gpu_power_limit_loop
    dsimp only
    rw [e, vendor_calls_append, vendor_calls_append, ih]
    split <;> rfl

theorem get_energy_data_out_eq {D : Type} [DoubleOps D] (hostname : String)
    (readenergy : Int → Nat) (init_output : Int) (chipid : Nat) (verbose : Int)
    (st : GpuState D) :
    ∃ io st1, get_energy_data hostname readenergy init_output chipid verbose st =
      ((get_energy_data_loop hostname readenergy chipid verbose (st.m_init_energy chipid)
        (device_count chipid st.m_gpus_per_socket) (device_first chipid st.m_gpus_per_socket)
        init_output st.m_initial_energy_for_gpu).out, io, st1) :=
  ⟨_, _, rfl⟩

theorem get_energy_json_out_eq {D : Type} [DoubleOps D] (readenergy : Int → Nat)
    (chipid : Nat) (st : GpuState D) (get_energy_obj : Json D) :
    ∃ st1 doc, get_energy_json readenergy chipid st get_energy_obj =
      ((energy_json_devices readenergy chipid st).out, st1, doc) :=
  ⟨_, _, rfl⟩

/-- C11 (amended). For a socket index `0 <= chipid` and a devices-per-socket
count `g` whose range fits an `int`, `(chipid + 1) * g <= INT_MAX`, each of the
seven per-socket operations passes to the vendor library exactly the device
indices `chipid*g, ..., chipid*g + g - 1`, every one once and in ascending
order (for the cap: the limit of a device is set, then read back, before the
next device), and makes no other vendor call; the indices listed are exactly
the `d` with `chipid*g <= d < (chipid+1)*g`. -/
theorem gpu_operations_visit_socket_devices {D : Type} [DoubleOps D]
    (hostname : String) (readpoweravg readtemp readfreq : Int → D)
    (getpwrlim : Int → Int) (readenergy : Int → Nat) (st : GpuState D)
    (init_output verbose : Int) (chipid powerlimit : Nat) (get_energy_obj : Json D)
    (hchip : chipid < 2147483648)
    (hfit : (chipid + 1) * st.m_gpus_per_socket < 2147483648) :
    vendor_calls (get_power_data hostname readpoweravg st.m_gpus_per_socket init_output
        chipid verbose).1 =
      device_calls Fn.apmidg_readpoweravg chipid st.m_gpus_per_socket ∧
    vendor_calls (get_thermal_data hostname readtemp st.m_gpus_per_socket init_output
        chipid verbose).1 =
      device_calls Fn.apmidg_readtemp chipid st.m_gpus_per_socket ∧
    vendor_calls (get_clocks_data hostname readfreq st.m_gpus_per_socket init_output
        chipid verbose).1 =
      device_calls Fn.apmidg_readfreq chipid st.m_gpus_per_socket ∧
    vendor_calls (get_power_limit_data hostname getpwrlim st.m_gpus_per_socket init_output
        chipid verbose : List (Event D) × Int).1 =
      device_calls Fn.apmidg_getpwrlim chipid st.m_gpus_per_socket ∧
    vendor_calls (get_energy_data hostname readenergy init_output chipid verbose st).1 =
      device_calls Fn.apmidg_readenergy chipid st.m_gpus_per_socket ∧
    vendor_calls (get_energy_json readenergy chipid st get_energy_obj).1 =
      device_calls Fn.apmidg_readenergy chipid st.m_gpus_per_socket ∧
    vendor_calls (cap_each_gpu_power_limit getpwrlim st.m_gpus_per_socket chipid
        powerlimit : List (Event D)) =
      cap_device_calls (toInt32 (u32 (u32 powerlimit * 1000))) chipid
        st.m_gpus_per_socket ∧
    (∀ d : Nat, d ∈ List.range' (chipid * st.m_gpus_per_socket) st.m_gpus_per_socket ↔
      chipid * st.m_gpus_per_socket ≤ d ∧ d < (chipid + 1) * st.m_gpus_per_socket) ∧
    (List.range' (chipid * st.m_gpus_per_socket) st.m_gpus_per_socket).length =
      st.m_gpus_per_socket ∧
    List.Pairwise (fun a b => a < b)
      (List.range' (chipid * st.m_gpus_per_socket) st.m_gpus_per_socket) := by
  have _ := hchip
  obtain ⟨hf, hc⟩ := device_range_of_fit chipid st.m_gpus_per_socket hfit
  refine ⟨?_, ?_, ?_, ?_, ?_, ?_, ?_, ?_, ?_, ?_⟩
  · unfold get_power_data device_calls
    rw [hf, hc]
    exact get_power_data_loop_calls _ _ _ _ _ _ _
  · unfold get_thermal_data device_calls
    rw [hf, hc]
    exact get_thermal_data_loop_calls _ _ _ _ _ _ _
  · unfold get_clocks_data device_calls
    rw [hf, hc]
    exact get_clocks_data_loop_calls _ _ _ _ _ _ _
  · unfold get_power_limit_data device_calls
    rw [hf, hc]
    exact get_power_limit_data_loop_calls _ _ _ _ _ _ _
  · obtain ⟨io, st1, h⟩ :=
      get_energy_data_out_eq hostname readenergy init_output chipid verbose st
    rw [h]
    unfold device_calls
    rw [hf, hc]
    exact get_energy_data_loop_calls _ _ _ _ _ _ _ _ _
  · obtain ⟨st1, doc, h⟩ := get_energy_json_out_eq readenergy chipid st get_energy_obj
    rw [h]
    unfold energy_json_devices device_calls
    rw [hf, hc]
    exact get_energy_json_loop_calls _ _ _ _ _ _ _
  · unfold cap_each_gpu_power_limit cap_device_calls
    rw [hf, hc]
    exact cap_each_gpu_power_limit_loop_calls _ _ _ _
  · intro d
    rw [List.mem_range'_1, Nat.add_mul, Nat.one_mul]
  · exact List.length_range' _ _ _
  · exact List.pairwise_lt_range' _ _

/-- C11 witness. Socket 1 of a node with three GPUs per socket: every
operation visits the devices 3, 4, 5 in this order. -/
theorem gpu_operations_visit_socket_devices_witness :
    (1 : Nat) < 2147483648 ∧
    (1 + 1) * gpu_two_by_three.m_gpus_per_socket < 2147483648 ∧
    vendor_calls (get_power_data "node" (fun _ => (0 : ℚ))
        gpu_two_by_three.m_gpus_per_socket 0 1 0).1 =
      [(Fn.apmidg_readpoweravg, [3, 0]), (Fn.apmidg_readpoweravg, [4, 0]),
       (Fn.apmidg_readpoweravg, [5, 0])] ∧
    vendor_calls (get_energy_json gpu_counter 1 gpu_two_by_three (Json.object [])).1 =
      [(Fn.apmidg_readenergy, [3, 0]), (Fn.apmidg_readenergy, [4, 0]),
       (Fn.apmidg_readenergy, [5, 0])] ∧
    vendor_calls (cap_each_gpu_power_limit (fun _ => 150000)
        gpu_two_by_three.m_gpus_per_socket 1 150 : List (Event ℚ)) =
      [(Fn.apmidg_setpwrlim, [3, 0, 150000]), (Fn.apmidg_getpwrlim, [3, 0]),
       (Fn.apmidg_setpwrlim, [4, 0, 150000]), (Fn.apmidg_getpwrlim, [4, 0]),
       (Fn.apmidg_setpwrlim, [5, 0, 150000]), (Fn.apmidg_getpwrlim, [5, 0])] :=
  ⟨by decide, by decide,
   (gpu_operations_visit_socket_devices "node" (fun _ => (0 : ℚ)) (fun _ => (0 : ℚ))
      (fun _ => (0 : ℚ)) (fun _ => 150000) gpu_counter gpu_two_by_three 0 0 1 150
      (Json.object []) (by decide) (by decide)).1,
   (gpu_operations_visit_socket_devices "node" (fun _ => (0 : ℚ)) (fun _ => (0 : ℚ))
      (fun _ => (0 : ℚ)) (fun _ => 150000) gpu_counter gpu_two_by_three 0 0 1 150
      (Json.object []) (by decide) (by decide)).2.2.2.2.2.1,
   (gpu_operations_visit_socket_devices "node" (fun _ => (0 : ℚ)) (fun _ => (0 : ℚ))
      (fun _ => (0 : ℚ)) (fun _ => 150000) gpu_counter gpu_two_by_three 0 0 1 150
      (Json.object []) (by decide) (by decide)).2.2.2.2.2.2.1⟩

theorem device_count_out_of_int :
    device_count 0 gpu_count_out_of_int.m_gpus_per_socket = 0 := by
  unfold device_count
  decide

/-- C11 counterexample. With `m_gpus_per_socket = 2147483648` (a value of the
`unsigned` static that `(int)` turns into `INT_MIN`) and `chipid = 0`, device 0
satisfies `chipid*g <= 0 < (chipid+1)*g`, yet the loop bound is negative and no
operation makes a vendor call. -/
theorem gpu_device_range_counterexample :
    (0 * gpu_count_out_of_int.m_gpus_per_socket ≤ 0 ∧
      0 < (0 + 1) * gpu_count_out_of_int.m_gpus_per_socket) ∧
    device_bound 0 gpu_count_out_of_int.m_gpus_per_socket = -2147483648 ∧
    vendor_calls (get_power_data "node" (fun _ => (0 : ℚ))
      gpu_count_out_of_int.m_gpus_per_socket 0 0 0).1 = [] ∧
    vendor_calls (get_thermal_data "node" (fun _ => (0 : ℚ))
      gpu_count_out_of_int.m_gpus_per_socket 0 0 0).1 = [] ∧
    vendor_calls (get_clocks_data "node" (fun _ => (0 : ℚ))
      gpu_count_out_of_int.m_gpus_per_socket 0 0 0).1 = [] ∧
    vendor_calls (get_power_limit_data "node" (fun _ => 0)
      gpu_count_out_of_int.m_gpus_per_socket 0 0 0 : List (Event ℚ) × Int).1 = [] ∧
    vendor_calls (get_energy_data "node" gpu_counter 0 0 0 gpu_count_out_of_int).1 = [] ∧
    vendor_calls (get_energy_json gpu_counter 0 gpu_count_out_of_int (Json.object [])).1 = [] ∧
    vendor_calls (cap_each_gpu_power_limit (fun _ => 0)
      gpu_count_out_of_int.m_gpus_per_socket 0 150 : List (Event ℚ)) = [] := by
  have hc := device_count_out_of_int
  refine ⟨by decide, by decide, ?_, ?_, ?_, ?_, ?_, ?_, ?_⟩
  · unfold get_power_data
    rw [hc]
    rfl
  · unfold get_thermal_data
    rw [hc]
    rfl
  · unfold get_clocks_data
    rw [hc]
    rfl
  · unfold get_power_limit_data
    rw [hc]
    rfl
  · obtain ⟨io, st1, h⟩ := get_energy_data_out_eq "node" gpu_counter 0 0 0 gpu_count_out_of_int
    rw [h, hc]
    rfl
  · obtain ⟨st1, doc, h⟩ :=
      get_energy_json_out_eq gpu_counter 0 gpu_count_out_of_int (Json.object [])
    rw [h]
    unfold energy_json_devices
    rw [hc]
    rfl
  · unfold cap_each_gpu_power_limit
    rw [hc]
    rfl

/-! ## One pass of the sampling thread -/

theorem take_measurement_failure {D : Type} (E : IbmEnv) (node_power : Nat)
    (hbad : ¬ block_ok E 0) :
    (take_measurement E node_power : Nat × List (Event D)).1 = 18446744073709551615 := by
  have hb := block_ok_iff (D := D) E 0
  unfold take_measurement
  dsimp only
  by_cases hm : E.malloc 0 = false
  · rw [if_pos hm]
    rfl
  · rw [if_neg hm]
    have hm1 : E.malloc 0 = true := by simpa using hm
    split
    · rfl
    · rename_i hr
      exfalso
      apply hbad
      rw [hb]
      exact ⟨hm1, not_not.mp hr⟩

theorem take_measurement_success {D : Type} (E : IbmEnv) (node_power : Nat)
    (hok : block_ok E 0) :
    (take_measurement E node_power : Nat × List (Event D)).1 = u64 node_power := by
  have hb := (block_ok_iff (D := D) E 0).mp hok
  unfold take_measurement
  dsimp only
  have hm : ¬ E.malloc 0 = false := by simp [hb.1]
  rw [if_neg hm, if_neg (not_not_intro hb.2)]

/-- C29. With `sample_interval = 250`, a pass through the loop body of
`power_measurement` whose `take_measurement` returns `m` leaves
`energy_acc = (energy_acc + m * 250) mod 2^64` and the flag and the interval as
they were. `take_measurement` returns `get_node_power(buf)` for a block read in
full and `(unsigned long)-1 = 2^64 - 1` when the allocation fails or the block
is short; the pass is made all the same and leaves
`energy_acc = (a - 250) mod 2^64`. -/
theorem sampling_pass_accumulates (E : IbmEnv) (node_power : Nat) (st : Sampler)
    (m : Nat) (hm : m < 18446744073709551616)
    (ha : st.energy_acc < 18446744073709551616) (hi : st.sample_interval = 250) :
    power_measurement_step m st =
      { active_sampling := st.active_sampling
        energy_acc := (st.energy_acc + m * 250) % 18446744073709551616
        sample_interval := st.sample_interval } ∧
    (block_ok E 0 →
      (take_measurement E node_power : Nat × List (Event Unit)).1 = u64 node_power) ∧
    (¬ block_ok E 0 →
      (take_measurement E node_power : Nat × List (Event Unit)).1 = 18446744073709551615 ∧
      (((power_measurement_step (take_measurement E node_power : Nat × List (Event Unit)).1
          st).energy_acc : Nat) : Int) =
        ((st.energy_acc : Int) - 250) % 18446744073709551616) := by
  have hstep : ∀ x : Nat, x < 18446744073709551616 →
      (power_measurement_step x st).energy_acc =
        (st.energy_acc + x * 250) % 18446744073709551616 := by
    intro x hx
    unfold power_measurement_step u64
    simp only [hi]
    rw [Nat.mod_eq_of_lt ha, Nat.mod_eq_of_lt hx]
    omega
  refine ⟨?_, take_measurement_success E node_power, ?_⟩
  · have h := hstep m hm
    unfold power_measurement_step at h ⊢
    simp only at h ⊢
    rw [h]
  · intro hbad
    have ht := take_measurement_failure (D := Unit) E node_power hbad
    refine ⟨ht, ?_⟩
    rw [ht, hstep _ (by omega)]
    omega

/-- C29 witness. From the accumulator 7 a pass measuring 100 leaves 25007; a
pass whose allocation fails leaves `7 - 250` modulo `2^64`. -/
theorem sampling_pass_accumulates_witness :
    ((100 : Nat) < 18446744073709551616 ∧
      sampler_running.energy_acc < 18446744073709551616 ∧
      sampler_running.sample_interval = 250) ∧
    power_measurement_step 100 sampler_running =
      { active_sampling := 1, energy_acc := 25007, sample_interval := 250 } ∧
    ¬ block_ok ibm_node_no_memory 0 ∧
    (power_measurement_step
      (take_measurement ibm_node_no_memory 100 : Nat × List (Event Unit)).1
      sampler_running).energy_acc = 18446744073709551373 :=
  ⟨⟨by decide, by decide, rfl⟩,
   (sampling_pass_accumulates ibm_node 100 sampler_running 100 (by decide) (by decide)
      rfl).1,
   by simp [block_ok, ibm_node_no_memory],
   by
    have h := ((sampling_pass_accumulates ibm_node_no_memory 100 sampler_running 100
      (by decide) (by decide) rfl).2.2 (by simp [block_ok, ibm_node_no_memory])).2
    have e : sampler_running.energy_acc = 7 := rfl
    rw [e] at h
    omega⟩

/-! ## The read loop of the sensor blocks -/

theorem read_block_loop_sum {D : Type} (size fd : Int) (read : Nat → Int) :
    ∀ (fuel k : Nat) (bytes : Int),
    (read_block_loop size fd read fuel k bytes : Int × List (Event D)).1 =
      bytes + ((delivered read k
        (read_block_loop size fd read fuel k bytes : Int × List (Event D))).filter
          (fun rc => decide (0 < rc))).sum ∧
    (∀ i, i + 1 < (read_block_loop size fd read fuel k bytes :
        Int × List (Event D)).2.length → 0 < read (k + i)) := by
  intro fuel
  induction fuel with
  | zero =>
    intro k bytes
    simp [read_block_loop, delivered]
  | succ fuel ih =>
    intro k bytes
    simp only [read_block_loop]
    split
    · split
      · rename_i hrc
        have hn : ¬ 0 < read k := by omega
        simp [delivered, List.range'_succ, hn]
      · rename_i hrc
        have hp : 0 < read k := by omega
        obtain ⟨h1, h2⟩ := ih (k + 1) (bytes + read k)
        constructor
        · dsimp only
          rw [h1]
          simp only [delivered, List.length_cons, List.range'_succ, List.map_cons,
            List.filter_cons, hp, decide_True, if_true, List.sum_cons]
          omega
        · intro i hi
          cases i with
          | zero => simpa using hp
          | succ i =>
            have := h2 i (by simpa using hi)
            have e : k + (i + 1) = k + 1 + i := by omega
            rw [e]
            exact this
    · simp [delivered]

theorem read_block_loop_bounds {D : Type} (size fd : Int) (read : Nat → Int) :
    ∀ (fuel k : Nat) (bytes : Int), bytes ≤ size → reads_fit size read fuel k bytes →
    bytes ≤ (read_block_loop size fd read fuel k bytes : Int × List (Event D)).1 ∧
    (read_block_loop size fd read fuel k bytes : Int × List (Event D)).1 ≤ size := by
  intro fuel
  induction fuel with
  | zero =>
    intro k bytes hb _
    simp [read_block_loop, hb]
  | succ fuel ih =>
    intro k bytes hb hfit
    simp only [read_block_loop]
    split
    · rename_i hlt
      obtain ⟨f1, f2⟩ := hfit hlt
      split
      · exact ⟨le_refl _, hb⟩
      · rename_i hrc
        have hp : 0 < read k := by omega
        obtain ⟨h1, h2⟩ := ih (k + 1) (bytes + read k) (by omega) (f2 hp)
        exact ⟨by dsimp only; omega, h2⟩
    · exact ⟨le_refl _, hb⟩

/-- C30. The read loop `for (rc = bytes = 0; bytes < SIZE; bytes += rc)` of the
sensor operations, for a block size `SIZE >= 0`. It terminates: `SIZE`
iterations suffice, allowing more changes neither the result nor the calls
(this holds for every sequence of results). Every `read` call but the last
delivers `rc > 0`, and `bytes` ends as the sum of the positive results
delivered, so a zero or negative result ends the loop without being added. When
each result is at most the number of bytes requested, `0 <= bytes <= SIZE` on
exit, and `bytes = SIZE` exactly when the positive results delivered sum to
`SIZE`. -/
theorem read_loop_terminates_within_block {D : Type} (size fd : Int) (read : Nat → Int)
    (extra : Nat) (hsize : 0 ≤ size) (hfit : reads_fit size read size.toNat 0 0) :
    (read_block_loop size fd read (size.toNat + extra) 0 0 : Int × List (Event D)) =
      read_block_loop size fd read size.toNat 0 0 ∧
    (∀ i, i + 1 < (read_block_loop size fd read size.toNat 0 0 :
        Int × List (Event D)).2.length → 0 < read i) ∧
    (read_block_loop size fd read size.toNat 0 0 : Int × List (Event D)).1 =
      ((delivered read 0 (read_block_loop size fd read size.toNat 0 0 :
        Int × List (Event D))).filter (fun rc => decide (0 < rc))).sum ∧
    0 ≤ (read_block_loop size fd read size.toNat 0 0 : Int × List (Event D)).1 ∧
    (read_block_loop size fd read size.toNat 0 0 : Int × List (Event D)).1 ≤ size ∧
    ((read_block_loop size fd read size.toNat 0 0 : Int × List (Event D)).1 = size ↔
      ((delivered read 0 (read_block_loop size fd read size.toNat 0 0 :
        Int × List (Event D))).filter (fun rc => decide (0 < rc))).sum = size) := by
  obtain ⟨s1, s2⟩ := read_block_loop_sum (D := D) size fd read size.toNat 0 0
  obtain ⟨b1, b2⟩ := read_block_loop_bounds (D := D) size fd read size.toNat 0 0 hsize hfit
  rw [Int.zero_add] at s1
  refine ⟨read_block_loop_fuel size fd read extra size.toNat 0 0 (by omega), ?_, s1, b1, b2,
    ?_⟩
  · intro i hi
    have := s2 i hi
    rwa [Nat.zero_add] at this
  · rw [← s1]

/-- C30 witness. A block of eight bytes delivered as 5 and 3: two calls, eight
bytes. -/
theorem read_loop_terminates_within_block_witness :
    ((0 : Int) ≤ 8 ∧ reads_fit 8 (ibm_node.read 0) (8 : Int).toNat 0 0) ∧
    (read_block_loop 8 3 (ibm_node.read 0) ((8 : Int).toNat + 100) 0 0 :
      Int × List (Event Unit)) =
      (8, [Event.call Fn.read [3, 0, 8], Event.call Fn.read [3, 5, 3]]) :=
  ⟨⟨by decide, by simp [reads_fit, ibm_node]⟩,
   ((read_loop_terminates_within_block 8 3 (ibm_node.read 0) 100 (by decide)
      (by simp [reads_fit, ibm_node])).1).trans (by decide)⟩

/-! ## The device ranges of the sockets -/

theorem mem_device_range (s g d : Nat) :
    d ∈ device_range s g ↔ s * g ≤ d ∧ d < (s + 1) * g := by
  unfold device_range
  rw [List.mem_range'_1, Nat.add_mul, Nat.one_mul]

theorem device_range_disjoint (s t g d : Nat) (hst : s < t)
    (hs : d ∈ device_range s g) : d ∉ device_range t g := by
  rw [mem_device_range] at hs ⊢
  intro ht
  have h : (s + 1) * g ≤ t * g := Nat.mul_le_mul_right g hst
  omega

theorem device_range_union (num g d : Nat) :
    (∃ s, s < num ∧ d ∈ device_range s g) ↔ d < num * g := by
  constructor
  · rintro ⟨s, hs, hd⟩
    rw [mem_device_range] at hd
    have h : (s + 1) * g ≤ num * g := Nat.mul_le_mul_right g hs
    omega
  · intro hd
    have hg : 0 < g := by
      rcases Nat.eq_zero_or_pos g with h | h
      · subst h
        simp at hd
      · exact h
    refine ⟨d / g, ?_, ?_⟩
    · rw [Nat.div_lt_iff_lt_mul hg]
      exact hd
    · rw [mem_device_range]
      constructor
      · exact Nat.div_mul_le_self d g
      · rw [Nat.add_mul, Nat.one_mul]
        have := Nat.mod_lt d hg
        have e := Nat.div_add_mod d g
        rw [Nat.mul_comm] at e
        omega

/-- C28. With `g = total_devices / num_sockets` as `initAPMIDG` computes it
(`num_sockets >= 1`): the device ranges `[s*g, (s+1)*g)` of distinct sockets are
disjoint; the ranges of the sockets `0 .. num_sockets - 1` cover exactly
`[0, num_sockets*g)`; they cover `[0, total_devices)` if and only if
`num_sockets` divides `total_devices`; in general `num_sockets*g` falls short of
`total_devices` by `total_devices mod num_sockets`, and the devices from
`num_sockets*g` on are in no socket's range. For a device count that fits an
`int`, these ranges are the devices `get_power_data` queries for socket `s`. -/
theorem socket_device_ranges_partition {D : Type} (m_total_unit_devices m_num_package : Nat)
    (hostname : String) (readpoweravg : Int → D) (init_output verbose : Int)
    (hnum : 1 ≤ m_num_package) :
    (initAPMIDG_gpus_per_socket m_total_unit_devices m_num_package * m_num_package ≤
        m_total_unit_devices ∧
      m_total_unit_devices <
        (initAPMIDG_gpus_per_socket m_total_unit_devices m_num_package + 1) * m_num_package) ∧
    (∀ s t d, s ≠ t →
      d ∈ device_range s (initAPMIDG_gpus_per_socket m_total_unit_devices m_num_package) →
      d ∉ device_range t (initAPMIDG_gpus_per_socket m_total_unit_devices m_num_package)) ∧
    (∀ d, (∃ s, s < m_num_package ∧
        d ∈ device_range s (initAPMIDG_gpus_per_socket m_total_unit_devices m_num_package)) ↔
      d < m_num_package * initAPMIDG_gpus_per_socket m_total_unit_devices m_num_package) ∧
    ((∀ d, d < m_total_unit_devices → ∃ s, s < m_num_package ∧
        d ∈ device_range s (initAPMIDG_gpus_per_socket m_total_unit_devices m_num_package)) ↔
      m_num_package ∣ m_total_unit_devices) ∧
    m_num_package * initAPMIDG_gpus_per_socket m_total_unit_devices m_num_package +
      m_total_unit_devices % m_num_package = m_total_unit_devices ∧
    (∀ d s, m_num_package * initAPMIDG_gpus_per_socket m_total_unit_devices m_num_package ≤ d →
      s < m_num_package →
      d ∉ device_range s (initAPMIDG_gpus_per_socket m_total_unit_devices m_num_package)) ∧
    (m_total_unit_devices < 2147483648 → ∀ s, s < m_num_package →
      vendor_calls (get_power_data hostname readpoweravg
        (initAPMIDG_gpus_per_socket m_total_unit_devices m_num_package) init_output s
        verbose).1 =
      (device_range s (initAPMIDG_gpus_per_socket m_total_unit_devices m_num_package)).map
        (fun (d : Nat) => (Fn.apmidg_readpoweravg, [(d : Int), 0]))) := by
  have hsum : m_num_package * (m_total_unit_devices / m_num_package) +
      m_total_unit_devices % m_num_package = m_total_unit_devices :=
    Nat.div_add_mod m_total_unit_devices m_num_package
  unfold initAPMIDG_gpus_per_socket
  generalize hg : m_total_unit_devices / m_num_package = g at hsum ⊢
  have hmod : m_total_unit_devices % m_num_package < m_num_package :=
    Nat.mod_lt _ (by omega)
  refine ⟨?_, ?_, fun d => device_range_union _ g d, ?_, hsum, ?_, ?_⟩
  · rw [Nat.add_mul, Nat.one_mul, Nat.mul_comm g]
    omega
  · intro s t d hst hs
    rcases Nat.lt_or_gt_of_ne hst with h | h
    · exact device_range_disjoint s t g d h hs
    · intro ht
      exact device_range_disjoint t s g d h ht hs
  · constructor
    · intro hall
      have hle : m_total_unit_devices ≤ m_num_package * g := by
        rcases Nat.eq_zero_or_pos m_total_unit_devices with h0 | hpos
        · omega
        · have := (device_range_union m_num_package g (m_total_unit_devices - 1)).mp
            (hall _ (by omega))
          omega
      exact Dvd.intro g (by omega)
    · intro hdvd d hd
      rw [device_range_union]
      have : m_total_unit_devices % m_num_package = 0 := Nat.mod_eq_zero_of_dvd hdvd
      omega
  · intro d s hd hs hmem
    have := (device_range_union m_num_package g d).mp ⟨s, hs, hmem⟩
    omega
  · intro hfit s hs
    have h1 : (s + 1) * g ≤ m_num_package * g := Nat.mul_le_mul_right g hs
    obtain ⟨hf, hc⟩ := device_range_of_fit s g (by omega)
    unfold get_power_data device_range
    rw [hf, hc]
    exact get_power_data_loop_calls _ _ _ _ _ _ _

/-- C28 witness. Seven devices on two sockets: three per socket, the ranges are
{0,1,2} and {3,4,5}, and device 6 is queried for no socket. -/
theorem socket_device_ranges_partition_witness :
    (1 ≤ 2 ∧ 7 < 2147483648) ∧
    initAPMIDG_gpus_per_socket 7 2 = 3 ∧
    device_range 0 3 = [0, 1, 2] ∧ device_range 1 3 = [3, 4, 5] ∧
    ¬ (2 ∣ 7) ∧ 6 ∉ device_range 0 3 ∧ 6 ∉ device_range 1 3 ∧
    vendor_calls (get_power_data "node" (fun _ => (0 : ℚ)) (initAPMIDG_gpus_per_socket 7 2)
      0 1 0).1 =
      (device_range 1 (initAPMIDG_gpus_per_socket 7 2)).map
        (fun (d : Nat) => (Fn.apmidg_readpoweravg, [(d : Int), 0])) :=
  ⟨⟨by decide, by decide⟩, by decide, by decide, by decide, by decide, by decide, by decide,
   (socket_device_ranges_partition 7 2 "node" (fun _ => (0 : ℚ)) 0 0 (by decide)).2.2.2.2.2.2
     (by decide) 1 (by decide)⟩

/-! ## The node cap: the value written to each socket -/

theorem clamp_through_succ (E : AmdEnv) :
    ∀ (n i : Nat) (p : Int),
    clamp_through E (n + 1) i p = clamp_value E (i + n) (clamp_through E n i p) := by
  intro n
  induction n with
  | zero => intro i p; rfl
  | succ n ih =>
    intro i p
    show clamp_through E (n + 1) (i + 1) (clamp_value E i p) = _
    rw [ih (i + 1) (clamp_value E i p)]
    have e : i + 1 + n = i + (n + 1) := by omega
    rw [e]
    rfl

theorem clamp_through_eq_cap_upto (E : AmdEnv) (p : Int) :
    ∀ n : Nat,
    (∀ j, j < n → (E.esmi_socket_power_cap_max_get j).1 = 0 ∧
      (E.esmi_socket_power_cap_max_get j).2 < 2147483648) →
    clamp_through E n 0 p = cap_upto E p n := by
  intro n
  induction n with
  | zero => intro _; rfl
  | succ n ih =>
    intro h
    rw [clamp_through_succ, ih (fun j hj => h j (by omega)), Nat.zero_add]
    obtain ⟨h1, h2⟩ := h n (by omega)
    rw [clamp_value_of_max E n _ _ h2 (Prod.ext h1 rfl)]
    show _ = min _ _
    split
    · rw [min_eq_right (by omega)]
    · rw [min_eq_left (by omega)]

theorem cap_upto_bounds (E : AmdEnv) (p : Int) (hp : 0 ≤ p) :
    ∀ n : Nat, 0 ≤ cap_upto E p n ∧ cap_upto E p n ≤ p ∧
      cap_upto E p (n + 1) ≤ cap_upto E p n ∧
      cap_upto E p (n + 1) ≤ ((E.esmi_socket_power_cap_max_get n).2 : Int) := by
  intro n
  have h0 : ∀ m : Nat, 0 ≤ cap_upto E p m ∧ cap_upto E p m ≤ p := by
    intro m
    induction m with
    | zero => exact ⟨hp, le_refl _⟩
    | succ m ih =>
      show 0 ≤ min _ _ ∧ min _ _ ≤ p
      constructor
      · exact le_min ih.1 (by omega)
      · exact le_trans (min_le_left _ _) ih.2
  exact ⟨(h0 n).1, (h0 n).2, min_le_left _ _, min_le_right _ _⟩

theorem calls_of_cons_printf {D : Type} (fn : Fn) (fmt : String) (args : List (Arg D))
    (out : List (Event D)) :
    calls_of fn (Event.printf fmt args :: out) = calls_of fn out := rfl

theorem calls_of_clamp_events {D : Type} [DoubleOps D] (E : AmdEnv) (i : Nat) (p : Int) :
    calls_of Fn.esmi_socket_power_cap_set (clamp_events E i p : List (Event D)) = [] := by
  unfold clamp_events
  dsimp only
  split <;> rfl

theorem calls_of_cap_set_failure {D : Type} (E : AmdEnv) (func : String) (i : Nat)
    (ret : Int) :
    calls_of Fn.esmi_socket_power_cap_set (cap_set_failure E func i ret : Run D).out = [] ∧
    ((cap_set_failure E func i ret : Run D).ret = 0 → ret = 0) := by
  unfold cap_set_failure
  dsimp only
  split
  · exact ⟨rfl, fun h => by simp at h⟩
  · exact ⟨rfl, fun h => h⟩

theorem calls_of_cons_call_self {D : Type} (fn : Fn) (args : List Int)
    (out : List (Event D)) :
    calls_of fn (Event.call fn args :: out) = args :: calls_of fn out := by
  simp [calls_of, vendor_calls, vendor_call]

theorem calls_of_cons_call_ne {D : Type} (fn other : Fn) (args : List Int)
    (out : List (Event D)) (h : other ≠ fn) :
    calls_of fn (Event.call other args :: out) = calls_of fn out := by
  simp [calls_of, vendor_calls, vendor_call, h]

theorem calls_of_verify_guidance {D : Type} (fn : Fn) :
    calls_of fn (verify_guidance : List (Event D)) = [] := rfl

theorem node_power_limit_loop_writes {D : Type} [DoubleOps D] (E : AmdEnv) :
    ∀ (left i : Nat) (p : Int),
    ∃ k, k ≤ left ∧
      calls_of Fn.esmi_socket_power_cap_set (node_power_limit_loop E left i p : Run D).out =
        (List.range k).map (fun (n : Nat) =>
          [((i + n : Nat) : Int), ((toUInt32 (clamp_through E (n + 1) i p) : Nat) : Int)]) ∧
      ((node_power_limit_loop E left i p : Run D).ret = 0 →
        k = left ∧
        (node_power_limit_loop E left i p : Run D).out.getLast? =
          some (Event.printf "Changed node power cap to %2.03f W.\n"
            [Arg.dbl (milli_to_unit (clamp_through E left i p))])) := by
  intro left
  induction left with
  | zero =>
    intro i p
    exact ⟨0, le_refl _, rfl, fun _ => ⟨rfl, rfl⟩⟩
  | succ left ih =>
    intro i p
    obtain ⟨k, hk, hcalls, hret⟩ := ih (i + 1) (clamp_value E i p)
    have hc := calls_of_clamp_events (D := D) E i p
    unfold node_power_limit_loop
    dsimp only
    split
    · rename_i hset
      obtain ⟨f1, f2⟩ := calls_of_cap_set_failure (D := D) E
        "amd_cpu_epyc_set_and_verify_best_effort_node_power_limit" i
        (E.esmi_socket_power_cap_set i (toUInt32 (clamp_value E i p)))
      refine ⟨1, by omega, ?_, ?_⟩
      · dsimp only
        rw [calls_of_append, hc, List.nil_append, calls_of_cons_call_self, f1]
        rfl
      · intro h
        exact absurd (f2 h) hset
    · split
      · rename_i hget
        refine ⟨1, by omega, ?_, ?_⟩
        · dsimp only
          rw [calls_of_append, calls_of_append, hc, List.nil_append, calls_of_cons_call_self,
            calls_of_cons_call_ne _ _ _ _ (by decide),
            calls_of_cons_call_ne _ _ _ _ (by decide)]
          rfl
        · intro h
          exact absurd h hget
      · split
        · refine ⟨1, by omega, ?_, ?_⟩
          · dsimp only
            rw [calls_of_append, calls_of_append, hc, List.nil_append,
              calls_of_cons_call_self, calls_of_cons_call_ne _ _ _ _ (by decide),
              calls_of_cons_call_ne _ _ _ _ (by decide), calls_of_verify_guidance]
            rfl
          · intro h
            simp at h
        · refine ⟨k + 1, by omega, ?_, ?_⟩
          · dsimp only
            rw [calls_of_append, calls_of_append, hc, List.nil_append,
              calls_of_cons_call_self, calls_of_cons_call_ne _ _ _ _ (by decide),
              calls_of_cons_call_ne _ _ _ _ (by decide), hcalls, List.range_succ_eq_map,
              List.map_cons, List.map_map]
            refine congrArg₂ _ rfl ?_
            apply List.map_congr_left
            intro n _
            show [((i + 1 + n : Nat) : Int), _] = [((i + (n + 1) : Nat) : Int), _]
            have e : i + 1 + n = i + (n + 1) := by omega
            rw [e]
            rfl
          · intro h
            obtain ⟨h1, h2⟩ := hret h
            refine ⟨by omega, ?_⟩
            dsimp only
            rw [List.getLast?_append_of_ne_nil, h2]
            · rfl
            · intro hnil
              rw [hnil] at h2
              simp at h2

/-- C25. In `amd_cpu_epyc_set_and_verify_best_effort_node_power_limit`, for a
request `R >= 0` with `(R / 2) * 1000` an `int` and every maximum query
succeeding with a maximum below `2^31`: the cap writes of the call are, in
order, the sockets `0, 1, ..., k - 1` (`k` at most the socket count, and equal
to it when the call returns 0) and the value written to socket `i` is
`min((R / 2) * 1000, M_0, ..., M_i)`. These values do not increase with the
socket index, each is at most the socket's maximum and at most
`(R / 2) * 1000`, and on success the last line printed is the `Changed node
power cap` line carrying the minimum over all sockets divided by 1000. -/
theorem node_cap_writes_running_minimum {D : Type} [DoubleOps D] (E : AmdEnv) (R : Int)
    (hR : 0 ≤ R) (hrep : R / 2 * 1000 < 2147483648)
    (hmax : ∀ i, i < E.num_sockets → (E.esmi_socket_power_cap_max_get i).1 = 0 ∧
      (E.esmi_socket_power_cap_max_get i).2 < 2147483648) :
    (∃ k, k ≤ E.num_sockets ∧
      calls_of Fn.esmi_socket_power_cap_set
        (amd_cpu_epyc_set_and_verify_best_effort_node_power_limit E R : Run D).out =
        (List.range k).map (fun (i : Nat) => [(i : Int), cap_upto E (R / 2 * 1000) (i + 1)]) ∧
      ((amd_cpu_epyc_set_and_verify_best_effort_node_power_limit E R : Run D).ret = 0 →
        k = E.num_sockets ∧
        (amd_cpu_epyc_set_and_verify_best_effort_node_power_limit E R : Run D).out.getLast? =
          some (Event.printf "Changed node power cap to %2.03f W.\n"
            [Arg.dbl (milli_to_unit (cap_upto E (R / 2 * 1000) E.num_sockets))]))) ∧
    (∀ i, cap_upto E (R / 2 * 1000) (i + 1 + 1) ≤ cap_upto E (R / 2 * 1000) (i + 1)) ∧
    (∀ i, cap_upto E (R / 2 * 1000) (i + 1) ≤ ((E.esmi_socket_power_cap_max_get i).2 : Int)) ∧
    (∀ n, 0 ≤ cap_upto E (R / 2 * 1000) n ∧ cap_upto E (R / 2 * 1000) n ≤ R / 2 * 1000) := by
  have hh : 0 ≤ R / 2 := Int.ediv_nonneg hR (by decide)
  have hb := cap_upto_bounds E (R / 2 * 1000) (by omega)
  have hp0 : toInt32 (toInt32 (Int.tdiv R 2) * 1000) = R / 2 * 1000 := by
    rw [Int.tdiv_eq_ediv hR (by decide)]
    have e1 : toInt32 (R / 2) = R / 2 := by
      apply toInt32_of_in_int32
      unfold in_int32
      omega
    rw [e1]
    apply toInt32_of_in_int32
    unfold in_int32
    omega
  refine ⟨?_, fun i => (hb (i + 1)).2.2.1, fun i => (hb i).2.2.2, fun n => ⟨(hb n).1, (hb n).2.1⟩⟩
  obtain ⟨k, hk, hcalls, hret⟩ :=
    node_power_limit_loop_writes (D := D) E E.num_sockets 0 (R / 2 * 1000)
  have hlog : calls_of Fn.esmi_socket_power_cap_set
      (log_entry E.VARIORUM_LOG "Running %s with value %d\n"
        [Arg.str "amd_cpu_epyc_set_and_verify_best_effort_node_power_limit",
         Arg.int R] : List (Event D)) = [] := by
    unfold calls_of
    rw [log_entry_no_calls]
    rfl
  refine ⟨k, hk, ?_, ?_⟩
  · unfold amd_cpu_epyc_set_and_verify_best_effort_node_power_limit
    dsimp only
    rw [hp0, calls_of_append, hlog, List.nil_append, hcalls]
    apply List.map_congr_left
    intro n hn
    have hn1 : n < k := List.mem_range.mp hn
    rw [clamp_through_eq_cap_upto E _ (n + 1) (fun j hj => hmax j (by omega)), Nat.zero_add]
    have h1 := (hb (n + 1)).1
    have h2 := (hb (n + 1)).2.1
    have e : ((toUInt32 (cap_upto E (R / 2 * 1000) (n + 1)) : Nat) : Int) =
        cap_upto E (R / 2 * 1000) (n + 1) := by
      unfold toUInt32
      omega
    rw [e]
  · unfold amd_cpu_epyc_set_and_verify_best_effort_node_power_limit
    dsimp only
    rw [hp0]
    intro h
    obtain ⟨h1, h2⟩ := hret h
    refine ⟨h1, ?_⟩
    rw [List.getLast?_append_of_ne_nil, h2,
      clamp_through_eq_cap_upto E _ E.num_sockets hmax]
    intro hnil
    rw [hnil] at h2
    simp at h2

/-- C25 witness. A request of 601 W on a node with maxima 150 W and 200 W:
300000 mW is clamped to 150000 at socket 0 and socket 1 is written 150000 too,
although its own maximum is 200000; the call returns 0. -/
theorem node_cap_writes_running_minimum_witness :
    ((0 : Int) ≤ 601 ∧ (601 : Int) / 2 * 1000 < 2147483648 ∧
      ∀ i, i < amd_uneven_maxima.num_sockets →
        (amd_uneven_maxima.esmi_socket_power_cap_max_get i).1 = 0 ∧
        (amd_uneven_maxima.esmi_socket_power_cap_max_get i).2 < 2147483648) ∧
    (∀ i, cap_upto amd_uneven_maxima (601 / 2 * 1000) (i + 1) ≤
      ((amd_uneven_maxima.esmi_socket_power_cap_max_get i).2 : Int)) ∧
    cap_upto amd_uneven_maxima (601 / 2 * 1000) 1 = 150000 ∧
    cap_upto amd_uneven_maxima (601 / 2 * 1000) 2 = 150000 ∧
    calls_of Fn.esmi_socket_power_cap_set
      (amd_cpu_epyc_set_and_verify_best_effort_node_power_limit amd_uneven_maxima 601 :
        Run ℚ).out = [[0, 150000], [1, 150000]] ∧
    (amd_cpu_epyc_set_and_verify_best_effort_node_power_limit amd_uneven_maxima 601 :
      Run ℚ).ret = 0 :=
  ⟨⟨by decide, by decide, by decide⟩,
   (node_cap_writes_running_minimum (D := ℚ) amd_uneven_maxima 601 (by decide) (by decide)
     (by decide)).2.2.1,
   by decide, by decide, by decide, by decide⟩

/-! ## The energy latch and the baselines of the Intel GPU adapter -/

theorem get_energy_json_loop_state {D : Type} [DoubleOps D] (readenergy : Int → Nat)
    (init : Int) :
    ∀ (left : Nat) (d : Int) (baseline : Int → D) (gpu_obj : Json D) (total : D),
    (init = 0 →
      (get_energy_json_loop readenergy init left d baseline gpu_obj total).values =
        List.replicate left (DoubleOps.ofInt 0) ∧
      (get_energy_json_loop readenergy init left d baseline gpu_obj
          total).m_initial_energy_for_gpu =
        fun x => if d ≤ x ∧ x < d + left then counter_joules readenergy x else baseline x) ∧
    (init ≠ 0 →
      (get_energy_json_loop readenergy init left d baseline gpu_obj total).values =
        (List.range left).map (fun (n : Nat) =>
          DoubleOps.sub (counter_joules readenergy (d + n)) (baseline (d + n))) ∧
      (get_energy_json_loop readenergy init left d baseline gpu_obj
          total).m_initial_energy_for_gpu = baseline) := by
  intro left
  induction left with
  | zero =>
    intro d baseline gpu_obj total
    refine ⟨fun _ => ⟨rfl, ?_⟩, fun _ => ⟨rfl, rfl⟩⟩
    funext x
    have : ¬ (d ≤ x ∧ x < d + ((0 : Nat) : Int)) := by omega
    rw [if_neg this]
    rfl
  | succ left ih =>
    intro d baseline gpu_obj total
    constructor
    · intro h0
      simp only [get_energy_json_loop, h0, if_true]
      obtain ⟨h1, h2⟩ := (ih (d + 1) _ _ _).1 h0
      simp only [h0, if_true] at h1 h2
      rw [h1, h2]
      refine ⟨rfl, ?_⟩
      funext x
      by_cases hx : x = d
      · subst hx
        have c1 : ¬ (x + 1 ≤ x ∧ x < x + 1 + (left : Int)) := by omega
        have c2 : x ≤ x ∧ x < x + ((left + 1 : Nat) : Int) := by omega
        rw [if_neg c1, if_pos c2, Function.update_same]
        rfl
      · rw [Function.update_noteq hx]
        by_cases hr : d + 1 ≤ x ∧ x < d + 1 + (left : Int)
        · have c2 : d ≤ x ∧ x < d + ((left + 1 : Nat) : Int) := by omega
          rw [if_pos hr, if_pos c2]
        · have c2 : ¬ (d ≤ x ∧ x < d + ((left + 1 : Nat) : Int)) := by omega
          rw [if_neg hr, if_neg c2]
    · intro h0
      simp only [get_energy_json_loop, h0, if_false]
      obtain ⟨h1, h2⟩ := (ih (d + 1) baseline
        (json_object_set_new gpu_obj (snprintf_int 24 "GPU_" d)
          (Json.real (DoubleOps.sub
            (DoubleOps.mul (DoubleOps.ofInt (u64 (readenergy d))) DoubleOps.micro)
            (baseline d))))
        (DoubleOps.add total (DoubleOps.sub
            (DoubleOps.mul (DoubleOps.ofInt (u64 (readenergy d))) DoubleOps.micro)
            (baseline d)))).2 h0
      rw [h1, h2, List.range_succ_eq_map, List.map_cons, List.map_map]
      refine ⟨?_, rfl⟩
      refine congrArg₂ _ ?_ ?_
      · show _ = DoubleOps.sub (counter_joules readenergy (d + ((0 : Nat) : Int)))
          (baseline (d + ((0 : Nat) : Int)))
        rw [Int.ofNat_zero, Int.add_zero]
        rfl
      · apply List.map_congr_left
        intro n _
        show DoubleOps.sub (counter_joules readenergy (d + 1 + (n : Int)))
            (baseline (d + 1 + (n : Int))) =
          DoubleOps.sub (counter_joules readenergy (d + ((n + 1 : Nat) : Int)))
            (baseline (d + ((n + 1 : Nat) : Int)))
        have e : d + 1 + (n : Int) = d + ((n + 1 : Nat) : Int) := by push_cast; ring
        rw [e]

theorem energy_data_values_step {D : Type} (hostname : String) (chipid : Nat) (d : Int)
    (verbose init_output : Int) (value : D) (rest : List (Event D)) :
    energy_data_values
      (Event.call Fn.apmidg_readenergy [d, 0] ::
        Event.printf "%s: %s, %s: %d, %s: %d, %s: %lf J\n"
          [Arg.str "_INTEL_GPU_ENERGY_USAGE Host", Arg.str hostname, Arg.str "Socket",
           Arg.int chipid, Arg.str "DeviceID", Arg.int d, Arg.str "Energy",
           Arg.dbl value] :: rest) = value :: energy_data_values rest ∧
    energy_data_values
      ((Event.call Fn.apmidg_readenergy [d, 0] ::
        (if init_output = 0 then
          [Event.printf "%s %s %s %s %s\n"
            [Arg.str "_INTEL_GPU_ENERGY_USAGE", Arg.str "Host", Arg.str "Socket",
             Arg.str "DeviceID", Arg.str "Energy"]]
        else [])) ++
        Event.printf "%s %s %d %d %lf\n"
          [Arg.str "_INTEL_GPU_ENERGY_USAGE", Arg.str hostname, Arg.int chipid, Arg.int d,
           Arg.dbl value] :: rest) = value :: energy_data_values rest := by
  have _ := verbose
  constructor
  · simp [energy_data_values, energy_data_value]
  · split <;> simp [energy_data_values, energy_data_value]

theorem get_energy_data_loop_state {D : Type} [DoubleOps D] (hostname : String)
    (readenergy : Int → Nat) (chipid : Nat) (verbose : Int) (init : Int) :
    ∀ (left : Nat) (d : Int) (init_output : Int) (baseline : Int → D),
    (init = 0 →
      energy_data_values (get_energy_data_loop hostname readenergy chipid verbose init left d
          init_output baseline).out = List.replicate left (DoubleOps.ofInt 0) ∧
      (get_energy_data_loop hostname readenergy chipid verbose init left d init_output
          baseline).m_initial_energy_for_gpu =
        fun x => if d ≤ x ∧ x < d + left then counter_joules readenergy x else baseline x) ∧
    (init ≠ 0 →
      energy_data_values (get_energy_data_loop hostname readenergy chipid verbose init left d
          init_output baseline).out =
        (List.range left).map (fun (n : Nat) =>
          DoubleOps.sub (counter_joules readenergy (d + n)) (baseline (d + n))) ∧
      (get_energy_data_loop hostname readenergy chipid verbose init left d init_output
          baseline).m_initial_energy_for_gpu = baseline) := by
  intro left
  induction left with
  | zero =>
    intro d io baseline
    refine ⟨fun _ => ⟨rfl, ?_⟩, fun _ => ⟨rfl, rfl⟩⟩
    funext x
    have : ¬ (d ≤ x ∧ x < d + ((0 : Nat) : Int)) := by omega
    rw [if_neg this]
    rfl
  | succ left ih =>
    intro d io baseline
    have hupd : (fun x => if d + 1 ≤ x ∧ x < d + 1 + (left : Int)
          then counter_joules readenergy x
          else Function.update baseline d (counter_joules readenergy d : D) x) =
        fun x => if d ≤ x ∧ x < d + ((left + 1 : Nat) : Int)
          then counter_joules readenergy x else baseline x := by
      funext x
      by_cases hx : x = d
      · subst hx
        have c1 : ¬ (x + 1 ≤ x ∧ x < x + 1 + (left : Int)) := by omega
        have c2 : x ≤ x ∧ x < x + ((left + 1 : Nat) : Int) := by omega
        rw [if_neg c1, if_pos c2, Function.update_same]
      · rw [Function.update_noteq hx]
        by_cases hr : d + 1 ≤ x ∧ x < d + 1 + (left : Int)
        · have c2 : d ≤ x ∧ x < d + ((left + 1 : Nat) : Int) := by omega
          rw [if_pos hr, if_pos c2]
        · have c2 : ¬ (d ≤ x ∧ x < d + ((left + 1 : Nat) : Int)) := by omega
          rw [if_neg hr, if_neg c2]
    have hshift : (List.range (left + 1)).map (fun (n : Nat) =>
          DoubleOps.sub (counter_joules readenergy (d + n)) (baseline (d + n))) =
        DoubleOps.sub (counter_joules readenergy d) (baseline d) ::
          (List.range left).map (fun (n : Nat) =>
            DoubleOps.sub (counter_joules readenergy (d + 1 + n)) (baseline (d + 1 + n))) := by
      rw [List.range_succ_eq_map, List.map_cons, List.map_map]
      refine congrArg₂ _ ?_ ?_
      · show DoubleOps.sub (counter_joules readenergy (d + ((0 : Nat) : Int)))
          (baseline (d + ((0 : Nat) : Int))) = _
        rw [Int.ofNat_zero, Int.add_zero]
      · apply List.map_congr_left
        intro n _
        show DoubleOps.sub (counter_joules readenergy (d + ((n + 1 : Nat) : Int)))
            (baseline (d + ((n + 1 : Nat) : Int))) =
          DoubleOps.sub (counter_joules readenergy (d + 1 + (n : Int)))
            (baseline (d + 1 + (n : Int)))
        have e : d + 1 + (n : Int) = d + ((n + 1 : Nat) : Int) := by push_cast; ring
        rw [e]
    constructor
    · intro h0
      unfold get_energy_data_loop
      simp only [h0, if_true]
      split
      · obtain ⟨h1, h2⟩ := (ih (d + 1) io
          (Function.update baseline d (counter_joules readenergy d))).1 h0
        simp only [h0] at h1 h2
        refine ⟨?_, ?_⟩
        · rw [(energy_data_values_step hostname chipid d verbose io _ _).1]
          unfold counter_joules at h1
          rw [h1]
          rfl
        · unfold counter_joules at h2 hupd ⊢
          rw [h2]
          exact hupd
      · obtain ⟨h1, h2⟩ := (ih (d + 1) (header_latched io)
          (Function.update baseline d (counter_joules readenergy d))).1 h0
        simp only [h0] at h1 h2
        refine ⟨?_, ?_⟩
        · rw [(energy_data_values_step hostname chipid d verbose io _ _).2]
          unfold counter_joules at h1
          rw [h1]
          rfl
        · unfold counter_joules at h2 hupd ⊢
          rw [h2]
          exact hupd
    · intro h0
      unfold get_energy_data_loop
      simp only [h0, if_false]
      split
      · obtain ⟨h1, h2⟩ := (ih (d + 1) io baseline).2 h0
        refine ⟨?_, h2⟩
        rw [(energy_data_values_step hostname chipid d verbose io _ _).1, h1, hshift]
        rfl
      · obtain ⟨h1, h2⟩ := (ih (d + 1) (header_latched io) baseline).2 h0
        refine ⟨?_, h2⟩
        rw [(energy_data_values_step hostname chipid d verbose io _ _).2, h1, hshift]
        rfl

theorem get_energy_data_eq {D : Type} [DoubleOps D] (hostname : String)
    (readenergy : Int → Nat) (init_output : Int) (chipid : Nat) (verbose : Int)
    (st : GpuState D) :
    get_energy_data hostname readenergy init_output chipid verbose st =
      ((get_energy_data_loop hostname readenergy chipid verbose (st.m_init_energy chipid)
        (device_count chipid st.m_gpus_per_socket) (device_first chipid st.m_gpus_per_socket)
        init_output st.m_initial_energy_for_gpu).out,
       (get_energy_data_loop hostname readenergy chipid verbose (st.m_init_energy chipid)
        (device_count chipid st.m_gpus_per_socket) (device_first chipid st.m_gpus_per_socket)
        init_output st.m_initial_energy_for_gpu).init_output,
       { m_gpus_per_socket := st.m_gpus_per_socket
         m_init_energy := Function.update st.m_init_energy chipid 1
         m_initial_energy_for_gpu :=
           (get_energy_data_loop hostname readenergy chipid verbose (st.m_init_energy chipid)
            (device_count chipid st.m_gpus_per_socket)
            (device_first chipid st.m_gpus_per_socket)
            init_output st.m_initial_energy_for_gpu).m_initial_energy_for_gpu }) := by
  unfold get_energy_data
  exact rfl

theorem get_energy_json_eq {D : Type} [DoubleOps D] (readenergy : Int → Nat)
    (chipid : Nat) (st : GpuState D) (get_energy_obj : Json D) :
    ∃ doc, get_energy_json readenergy chipid st get_energy_obj =
      ((energy_json_devices readenergy chipid st).out,
       { m_gpus_per_socket := st.m_gpus_per_socket
         m_init_energy := Function.update st.m_init_energy chipid 1
         m_initial_energy_for_gpu :=
           (energy_json_devices readenergy chipid st).m_initial_energy_for_gpu },
       doc) :=
  ⟨_, rfl⟩

theorem energy_data_state_eq {D : Type} [DoubleOps D] (hostname : String)
    (readenergy : Int → Nat) (init_output : Int) (chipid : Nat) (verbose : Int)
    (st : GpuState D) :
    energy_data_state hostname readenergy init_output chipid verbose st =
      { m_gpus_per_socket := st.m_gpus_per_socket
        m_init_energy := Function.update st.m_init_energy chipid 1
        m_initial_energy_for_gpu :=
          (get_energy_data_loop hostname readenergy chipid verbose (st.m_init_energy chipid)
            (device_count chipid st.m_gpus_per_socket)
            (device_first chipid st.m_gpus_per_socket)
            init_output st.m_initial_energy_for_gpu).m_initial_energy_for_gpu } := by
  unfold energy_data_state
  rw [get_energy_data_eq]

theorem energy_data_reported_eq {D : Type} [DoubleOps D] (hostname : String)
    (readenergy : Int → Nat) (init_output : Int) (chipid : Nat) (verbose : Int)
    (st : GpuState D) :
    energy_data_reported hostname readenergy init_output chipid verbose st =
      energy_data_values
        (get_energy_data_loop hostname readenergy chipid verbose (st.m_init_energy chipid)
          (device_count chipid st.m_gpus_per_socket)
          (device_first chipid st.m_gpus_per_socket)
          init_output st.m_initial_energy_for_gpu).out := by
  unfold energy_data_reported
  rw [get_energy_data_eq]

theorem energy_json_state_eq {D : Type} [DoubleOps D] (readenergy : Int → Nat)
    (chipid : Nat) (st : GpuState D) (get_energy_obj : Json D) :
    energy_json_state readenergy chipid st get_energy_obj =
      { m_gpus_per_socket := st.m_gpus_per_socket
        m_init_energy := Function.update st.m_init_energy chipid 1
        m_initial_energy_for_gpu :=
          (energy_json_devices readenergy chipid st).m_initial_energy_for_gpu } := by
  obtain ⟨doc, h⟩ := get_energy_json_eq readenergy chipid st get_energy_obj
  unfold energy_json_state
  rw [h]

theorem range_map_shift {α : Type} (f : Int → α) (s n : Nat) :
    (List.range n).map (fun (k : Nat) => f (((s : Nat) : Int) + (k : Int))) =
      (List.range' s n).map (fun (d : Nat) => f (d : Int)) := by
  rw [List.range'_eq_map_range, List.map_map]
  apply List.map_congr_left
  intro k _
  show f _ = f (((s + k : Nat)) : Int)
  rw [Nat.cast_add]

theorem energy_json_devices_state {D : Type} [DoubleOps D] (readenergy : Int → Nat)
    (chipid : Nat) (st : GpuState D)
    (hfit : (chipid + 1) * st.m_gpus_per_socket < 2147483648) :
    (st.m_init_energy chipid = 0 →
      gpu_values readenergy chipid st =
        List.replicate st.m_gpus_per_socket (DoubleOps.ofInt 0) ∧
      (energy_json_devices readenergy chipid st).m_initial_energy_for_gpu =
        fun x => if ((chipid * st.m_gpus_per_socket : Nat) : Int) ≤ x ∧
            x < ((chipid * st.m_gpus_per_socket : Nat) : Int) + st.m_gpus_per_socket
          then counter_joules readenergy x else st.m_initial_energy_for_gpu x) ∧
    (st.m_init_energy chipid ≠ 0 →
      gpu_values readenergy chipid st =
        (device_range chipid st.m_gpus_per_socket).map (fun (d : Nat) =>
          DoubleOps.sub (counter_joules readenergy d) (st.m_initial_energy_for_gpu d)) ∧
      (energy_json_devices readenergy chipid st).m_initial_energy_for_gpu =
        st.m_initial_energy_for_gpu) := by
  obtain ⟨hf, hc⟩ := device_range_of_fit chipid st.m_gpus_per_socket hfit
  unfold gpu_values energy_json_devices device_range
  rw [hf, hc]
  obtain ⟨h1, h2⟩ := get_energy_json_loop_state readenergy (st.m_init_energy chipid)
    st.m_gpus_per_socket ((chipid * st.m_gpus_per_socket : Nat) : Int)
    st.m_initial_energy_for_gpu (Json.object []) (DoubleOps.ofInt 0)
  refine ⟨h1, fun h => ?_⟩
  obtain ⟨h3, h4⟩ := h2 h
  refine ⟨?_, h4⟩
  rw [h3]
  exact range_map_shift (fun x => DoubleOps.sub (counter_joules readenergy x)
    (st.m_initial_energy_for_gpu x)) _ _

theorem energy_data_loop_state {D : Type} [DoubleOps D] (hostname : String)
    (readenergy : Int → Nat) (init_output verbose : Int) (chipid : Nat) (st : GpuState D)
    (hfit : (chipid + 1) * st.m_gpus_per_socket < 2147483648) :
    (st.m_init_energy chipid = 0 →
      energy_data_reported hostname readenergy init_output chipid verbose st =
        List.replicate st.m_gpus_per_socket (DoubleOps.ofInt 0) ∧
      (energy_data_state hostname readenergy init_output chipid verbose
          st).m_initial_energy_for_gpu =
        fun x => if ((chipid * st.m_gpus_per_socket : Nat) : Int) ≤ x ∧
            x < ((chipid * st.m_gpus_per_socket : Nat) : Int) + st.m_gpus_per_socket
          then counter_joules readenergy x else st.m_initial_energy_for_gpu x) ∧
    (st.m_init_energy chipid ≠ 0 →
      energy_data_reported hostname readenergy init_output chipid verbose st =
        (device_range chipid st.m_gpus_per_socket).map (fun (d : Nat) =>
          DoubleOps.sub (counter_joules readenergy d) (st.m_initial_energy_for_gpu d)) ∧
      (energy_data_state hostname readenergy init_output chipid verbose
          st).m_initial_energy_for_gpu = st.m_initial_energy_for_gpu) := by
  obtain ⟨hf, hc⟩ := device_range_of_fit chipid st.m_gpus_per_socket hfit
  rw [energy_data_reported_eq, energy_data_state_eq]
  unfold device_range
  rw [hf, hc]
  obtain ⟨h1, h2⟩ := get_energy_data_loop_state hostname readenergy chipid verbose
    (st.m_init_energy chipid) st.m_gpus_per_socket
    ((chipid * st.m_gpus_per_socket : Nat) : Int) init_output st.m_initial_energy_for_gpu
  refine ⟨h1, fun h => ?_⟩
  obtain ⟨h3, h4⟩ := h2 h
  refine ⟨?_, h4⟩
  rw [h3]
  exact range_map_shift (fun x => DoubleOps.sub (counter_joules readenergy x)
    (st.m_initial_energy_for_gpu x)) _ _

theorem counter_joules_mono (c0 c1 : Int → Nat) (d : Int) (hle : c0 d ≤ c1 d)
    (hlt : c1 d < 18446744073709551616) :
    (0 : ℚ) ≤ DoubleOps.sub (counter_joules c1 d : ℚ) (counter_joules c0 d : ℚ) := by
  have e0 : u64 (c0 d) = c0 d := Nat.mod_eq_of_lt (by omega)
  have e1 : u64 (c1 d) = c1 d := Nat.mod_eq_of_lt hlt
  unfold counter_joules
  rw [e0, e1]
  show (0 : ℚ) ≤ (((c1 d : Nat) : Int) : ℚ) * (1 / 1000000) -
    (((c0 d : Nat) : Int) : ℚ) * (1 / 1000000)
  have h : (((c0 d : Nat) : Int) : ℚ) ≤ (((c1 d : Nat) : Int) : ℚ) := by exact_mod_cast hle
  linarith

/-- C27. For the Intel-GPU energy operations `get_energy_data` and
`get_energy_json` on a socket `chipid` whose device range fits an `int`. Both
leave the same statics: the latch of `chipid` set, the latch of every other
socket and the baseline of every device outside the range of `chipid` as they
were. With the latch clear (first call for the socket, through either
function) every device of the socket is reported as 0 and its baseline becomes
its counter times `1e-6`; with the latch set (a later call) device `d` is
reported as `counter * 1e-6 - baseline` and no baseline changes. In exact
arithmetic, after a first call that read counters `c0`, a call reading
counters `c1 >= c0` reports only values `>= 0`, through either function. -/
theorem gpu_energy_latch_and_baselines {D : Type} [DoubleOps D] (hostname : String)
    (readenergy : Int → Nat) (init_output verbose : Int) (chipid : Nat) (st : GpuState D)
    (get_energy_obj : Json D)
    (hfit : (chipid + 1) * st.m_gpus_per_socket < 2147483648) :
    energy_data_state hostname readenergy init_output chipid verbose st =
      energy_json_state readenergy chipid st get_energy_obj ∧
    (energy_json_state readenergy chipid st get_energy_obj).m_init_energy chipid = 1 ∧
    (∀ s, s ≠ chipid →
      (energy_json_state readenergy chipid st get_energy_obj).m_init_energy s =
        st.m_init_energy s) ∧
    (energy_json_state readenergy chipid st get_energy_obj).m_gpus_per_socket =
      st.m_gpus_per_socket ∧
    (∀ x : Int, ¬ (((chipid * st.m_gpus_per_socket : Nat) : Int) ≤ x ∧
        x < (((chipid + 1) * st.m_gpus_per_socket : Nat) : Int)) →
      (energy_json_state readenergy chipid st get_energy_obj).m_initial_energy_for_gpu x =
        st.m_initial_energy_for_gpu x) ∧
    (st.m_init_energy chipid = 0 →
      energy_data_reported hostname readenergy init_output chipid verbose st =
        List.replicate st.m_gpus_per_socket (DoubleOps.ofInt 0) ∧
      gpu_values readenergy chipid st =
        List.replicate st.m_gpus_per_socket (DoubleOps.ofInt 0) ∧
      ∀ d, d ∈ device_range chipid st.m_gpus_per_socket →
        (energy_json_state readenergy chipid st get_energy_obj).m_initial_energy_for_gpu d =
          counter_joules readenergy d) ∧
    (st.m_init_energy chipid ≠ 0 →
      energy_data_reported hostname readenergy init_output chipid verbose st =
        (device_range chipid st.m_gpus_per_socket).map (fun (d : Nat) =>
          DoubleOps.sub (counter_joules readenergy d) (st.m_initial_energy_for_gpu d)) ∧
      gpu_values readenergy chipid st =
        (device_range chipid st.m_gpus_per_socket).map (fun (d : Nat) =>
          DoubleOps.sub (counter_joules readenergy d) (st.m_initial_energy_for_gpu d)) ∧
      (energy_json_state readenergy chipid st get_energy_obj).m_initial_energy_for_gpu =
        st.m_initial_energy_for_gpu) ∧
    (∀ (q : GpuState ℚ) (c0 c1 : Int → Nat) (doc : Json ℚ),
      (chipid + 1) * q.m_gpus_per_socket < 2147483648 → q.m_init_energy chipid = 0 →
      (∀ d, c0 d ≤ c1 d) → (∀ d, c1 d < 18446744073709551616) →
      (∀ v, v ∈ gpu_values c1 chipid (energy_json_state c0 chipid q doc) → 0 ≤ v) ∧
      (∀ v, v ∈ energy_data_reported hostname c1 init_output chipid verbose
          (energy_json_state c0 chipid q doc) → 0 ≤ v)) := by
  have hstate : ∀ (F : Type) [DoubleOps F] (r : Int → Nat) (s : GpuState F) (o : Json F),
      (chipid + 1) * s.m_gpus_per_socket < 2147483648 →
      energy_data_state hostname r init_output chipid verbose s =
        energy_json_state r chipid s o := by
    intro F _ r s o hs
    obtain ⟨hf, hc⟩ := device_range_of_fit chipid s.m_gpus_per_socket hs
    rw [energy_data_state_eq, energy_json_state_eq]
    unfold energy_json_devices
    rw [hf, hc]
    obtain ⟨a1, a2⟩ := get_energy_data_loop_state hostname r chipid verbose
      (s.m_init_energy chipid) s.m_gpus_per_socket
      ((chipid * s.m_gpus_per_socket : Nat) : Int) init_output s.m_initial_energy_for_gpu
    obtain ⟨b1, b2⟩ := get_energy_json_loop_state r (s.m_init_energy chipid)
      s.m_gpus_per_socket ((chipid * s.m_gpus_per_socket : Nat) : Int)
      s.m_initial_energy_for_gpu (Json.object []) (DoubleOps.ofInt 0)
    by_cases h0 : s.m_init_energy chipid = 0
    · rw [(a1 h0).2, (b1 h0).2]
    · rw [(a2 h0).2, (b2 h0).2]
  have hbase : ∀ (F : Type) [DoubleOps F] (r : Int → Nat) (s : GpuState F) (o : Json F),
      (chipid + 1) * s.m_gpus_per_socket < 2147483648 →
      (s.m_init_energy chipid = 0 →
        (energy_json_state r chipid s o).m_initial_energy_for_gpu =
          fun x => if ((chipid * s.m_gpus_per_socket : Nat) : Int) ≤ x ∧
              x < ((chipid * s.m_gpus_per_socket : Nat) : Int) + s.m_gpus_per_socket
            then counter_joules r x else s.m_initial_energy_for_gpu x) ∧
      (s.m_init_energy chipid ≠ 0 →
        (energy_json_state r chipid s o).m_initial_energy_for_gpu =
          s.m_initial_energy_for_gpu) := by
    intro F _ r s o hs
    obtain ⟨j1, j2⟩ := energy_json_devices_state r chipid s hs
    rw [energy_json_state_eq]
    exact ⟨fun h => (j1 h).2, fun h => (j2 h).2⟩
  have hrange : ∀ (g : Nat) (x : Int),
      (((chipid * g : Nat) : Int) ≤ x ∧ x < ((chipid * g : Nat) : Int) + g) ↔
      (((chipid * g : Nat) : Int) ≤ x ∧ x < (((chipid + 1) * g : Nat) : Int)) := by
    intro g x
    have e : (((chipid + 1) * g : Nat) : Int) = ((chipid * g : Nat) : Int) + g := by
      push_cast
      ring
    rw [e]
  obtain ⟨j1, j2⟩ := energy_json_devices_state readenergy chipid st hfit
  obtain ⟨d1, d2⟩ := energy_data_loop_state hostname readenergy init_output verbose chipid st
    hfit
  obtain ⟨s1, s2⟩ := hbase D readenergy st get_energy_obj hfit
  refine ⟨hstate D readenergy st get_energy_obj hfit, ?_, ?_, ?_, ?_, ?_, ?_, ?_⟩
  · rw [energy_json_state_eq]
    exact Function.update_same _ _ _
  · intro s hs
    rw [energy_json_state_eq]
    exact Function.update_noteq hs _ _
  · rw [energy_json_state_eq]
  · intro x hx
    by_cases h0 : st.m_init_energy chipid = 0
    · rw [s1 h0]
      have : ¬ (((chipid * st.m_gpus_per_socket : Nat) : Int) ≤ x ∧
          x < ((chipid * st.m_gpus_per_socket : Nat) : Int) + st.m_gpus_per_socket) := by
        rw [hrange]
        exact hx
      simp only [this, if_false]
    · rw [s2 h0]
  · intro h0
    refine ⟨(d1 h0).1, (j1 h0).1, ?_⟩
    intro d hd
    rw [s1 h0]
    rw [mem_device_range] at hd
    have : ((chipid * st.m_gpus_per_socket : Nat) : Int) ≤ (d : Int) ∧
        (d : Int) < ((chipid * st.m_gpus_per_socket : Nat) : Int) + st.m_gpus_per_socket := by
      rw [hrange]
      constructor
      · exact_mod_cast hd.1
      · exact_mod_cast hd.2
    simp only [this, and_self, if_true]
  · intro h0
    exact ⟨(d2 h0).1, (j2 h0).1, s2 h0⟩
  · intro q c0 c1 doc hq hq0 hle hlt
    have hg : (energy_json_state c0 chipid q doc).m_gpus_per_socket = q.m_gpus_per_socket := by
      rw [energy_json_state_eq]
    have hl : (energy_json_state c0 chipid q doc).m_init_energy chipid ≠ 0 := by
      rw [energy_json_state_eq]
      simp
    have hq1 : (chipid + 1) * (energy_json_state c0 chipid q doc).m_gpus_per_socket <
        2147483648 := by
      rw [hg]
      exact hq
    have hb := (hbase ℚ c0 q doc hq).1 hq0
    have hval : ∀ d, d ∈ device_range chipid q.m_gpus_per_socket →
        (0 : ℚ) ≤ DoubleOps.sub (counter_joules c1 (d : Int) : ℚ)
          ((energy_json_state c0 chipid q doc).m_initial_energy_for_gpu d) := by
      intro d hd
      rw [hb]
      rw [mem_device_range] at hd
      have : ((chipid * q.m_gpus_per_socket : Nat) : Int) ≤ (d : Int) ∧
          (d : Int) < ((chipid * q.m_gpus_per_socket : Nat) : Int) + q.m_gpus_per_socket := by
        rw [hrange]
        constructor
        · exact_mod_cast hd.1
        · exact_mod_cast hd.2
      simp only [this, and_self, if_true]
      exact counter_joules_mono c0 c1 d (hle d) (hlt d)
    obtain ⟨_, k2⟩ := energy_json_devices_state c1 chipid (energy_json_state c0 chipid q doc) hq1
    obtain ⟨_, e2⟩ := energy_data_loop_state hostname c1 init_output verbose chipid
      (energy_json_state c0 chipid q doc) hq1
    constructor
    · intro v hv
      rw [(k2 hl).1, hg, List.mem_map] at hv
      obtain ⟨d, hd, rfl⟩ := hv
      exact hval d hd
    · intro v hv
      rw [(e2 hl).1, hg, List.mem_map] at hv
      obtain ⟨d, hd, rfl⟩ := hv
      exact hval d hd

/-- C27 witness. Socket 1 of the node with three GPUs per socket, latch clear,
every counter at 3000000 uJ: the first call through `get_energy_json` reports
three zeros, sets the latch of socket 1 and leaves the latch of socket 0 clear. -/
theorem gpu_energy_latch_and_baselines_witness :
    (1 + 1) * gpu_two_by_three.m_gpus_per_socket < 2147483648 ∧
    gpu_two_by_three.m_init_energy 1 = 0 ∧
    gpu_values gpu_counter 1 gpu_two_by_three =
      List.replicate gpu_two_by_three.m_gpus_per_socket (DoubleOps.ofInt 0) ∧
    (energy_json_state gpu_counter 1 gpu_two_by_three (Json.object [])).m_init_energy 1 = 1 ∧
    (energy_json_state gpu_counter 1 gpu_two_by_three (Json.object [])).m_init_energy 0 =
      gpu_two_by_three.m_init_energy 0 :=
  ⟨by decide, rfl,
   ((gpu_energy_latch_and_baselines "node" gpu_counter 0 0 1 gpu_two_by_three (Json.object [])
      (by decide)).2.2.2.2.2.1 rfl).2.1,
   (gpu_energy_latch_and_baselines "node" gpu_counter 0 0 1 gpu_two_by_three (Json.object [])
      (by decide)).2.1,
   (gpu_energy_latch_and_baselines "node" gpu_counter 0 0 1 gpu_two_by_three (Json.object [])
      (by decide)).2.2.1 0 (by decide)⟩

/-! ## The frame of the GPU energy export -/

theorem snprintf_socket_ne_num_gpus (i : Nat) :
    snprintf_socket i ≠ "num_gpus_per_socket" := by
  intro h
  have h1 := snprintf_d_length 12 "socket_" i
  unfold snprintf_socket at h
  rw [h] at h1
  revert h1
  decide

theorem get_energy_json_document {D : Type} [DoubleOps D] (readenergy : Int → Nat)
    (chipid : Nat) (st : GpuState D) (ms : List (String × Json D)) :
    ∃ m4, (get_energy_json readenergy chipid st (Json.object ms)).2.2 = Json.object m4 ∧
      (∀ key, key ≠ "num_gpus_per_socket" → key ≠ snprintf_socket chipid →
        key ≠ "energy_node_joules" → members_get m4 key = members_get ms key) ∧
      members_get m4 (snprintf_socket chipid) =
        some (json_object_set_new
          (match members_get ms (snprintf_socket chipid) with
           | some v => v
           | none => Json.object [])
          "energy_gpu_joules" (energy_json_devices readenergy chipid st).gpu_obj) ∧
      (members_get ms "energy_node_joules" = none →
        members_get m4 "energy_node_joules" = none) ∧
      members_get m4 "num_gpus_per_socket" = some (json_integer st.m_gpus_per_socket) := by
  have hsn := snprintf_socket_ne_num_gpus chipid
  have hse := snprintf_socket_ne_energy_node chipid
  have hne : ("energy_node_joules" : String) ≠ "num_gpus_per_socket" := by decide
  -- after the first assignment
  have g1 : ∀ key, key ≠ "num_gpus_per_socket" →
      members_get (members_set ms "num_gpus_per_socket"
        (json_integer st.m_gpus_per_socket)) key = members_get ms key :=
    fun key h => members_get_set_ne ms _ key _ h
  have n1 : members_get (members_set ms "num_gpus_per_socket"
      (json_integer st.m_gpus_per_socket)) "num_gpus_per_socket" =
      some (json_integer st.m_gpus_per_socket) := members_get_set_self _ _ _
  -- after the socket object is found or created
  have h2 : ∃ m2, (match json_object_get (json_object_set_new (Json.object ms)
        "num_gpus_per_socket" (json_integer st.m_gpus_per_socket))
        (snprintf_socket chipid) with
      | none => json_object_set_new (json_object_set_new (Json.object ms)
          "num_gpus_per_socket" (json_integer st.m_gpus_per_socket))
          (snprintf_socket chipid) (Json.object [])
      | some _ => json_object_set_new (Json.object ms)
          "num_gpus_per_socket" (json_integer st.m_gpus_per_socket)) = Json.object m2 ∧
      (∀ key, key ≠ snprintf_socket chipid → members_get m2 key =
        members_get (members_set ms "num_gpus_per_socket"
          (json_integer st.m_gpus_per_socket)) key) ∧
      members_get m2 (snprintf_socket chipid) =
        some (match members_get ms (snprintf_socket chipid) with
          | some v => v
          | none => Json.object []) := by
    have e : json_object_get (json_object_set_new (Json.object ms)
        "num_gpus_per_socket" (json_integer st.m_gpus_per_socket))
        (snprintf_socket chipid) = members_get ms (snprintf_socket chipid) :=
      g1 _ hsn
    rw [e]
    cases hc : members_get ms (snprintf_socket chipid) with
    | none =>
      exact ⟨_, rfl, fun key h => members_get_set_ne _ _ key _ h, members_get_set_self _ _ _⟩
    | some v =>
      refine ⟨_, rfl, fun _ _ => rfl, ?_⟩
      rw [g1 _ hsn, hc]
  obtain ⟨m2, e2, g2, s2⟩ := h2
  unfold get_energy_json
  dsimp only
  rw [e2]
  -- after the GPU object is attached
  have h3 : ∃ m3, json_in_place (Json.object m2) (snprintf_socket chipid)
      (fun socket_obj => json_object_set_new socket_obj "energy_gpu_joules"
        (energy_json_devices readenergy chipid st).gpu_obj) = Json.object m3 ∧
      (∀ key, key ≠ snprintf_socket chipid → members_get m3 key = members_get m2 key) ∧
      members_get m3 (snprintf_socket chipid) =
        some (json_object_set_new
          (match members_get ms (snprintf_socket chipid) with
           | some v => v
           | none => Json.object [])
          "energy_gpu_joules" (energy_json_devices readenergy chipid st).gpu_obj) := by
    unfold json_in_place
    have e : json_object_get (Json.object m2) (snprintf_socket chipid) =
        some (match members_get ms (snprintf_socket chipid) with
          | some v => v
          | none => Json.object []) := s2
    rw [e]
    exact ⟨_, rfl, fun key h => members_get_set_ne _ _ key _ h, members_get_set_self _ _ _⟩
  obtain ⟨m3, e3, g3, s3⟩ := h3
  rw [e3]
  have k3 : ∀ key, key ≠ "num_gpus_per_socket" → key ≠ snprintf_socket chipid →
      members_get m3 key = members_get ms key := by
    intro key a b
    rw [g3 key b, g2 key b, g1 key a]
  have n3 : members_get m3 "num_gpus_per_socket" =
      some (json_integer st.m_gpus_per_socket) := by
    rw [g3 _ (fun h => hsn h.symm), g2 _ (fun h => hsn h.symm), n1]
  cases hq : json_object_get (Json.object m3) "energy_node_joules" with
  | none =>
    refine ⟨m3, rfl, fun key a b _ => k3 key a b, s3, fun _ => hq, n3⟩
  | some e =>
    refine ⟨_, rfl, ?_, ?_, ?_, ?_⟩
    · intro key a b c
      rw [members_get_set_ne _ _ key _ c, k3 key a b]
    · rw [members_get_set_ne _ _ _ _ hse, s3]
    · intro habs
      have : members_get m3 "energy_node_joules" = none := by
        rw [k3 _ hne (fun h => hse h.symm), habs]
      have hq' : members_get m3 "energy_node_joules" = some e := hq
      rw [this] at hq'
      cases hq'
    · rw [members_get_set_ne _ _ _ _ (fun h => hne h.symm), n3]

/-- C26 (as amended). For a socket index `chipid < 10000` (so that the 12-byte
key `socket_<chipid>` is not truncated) and a caller's document that is a JSON
object, `get_energy_json` changes only the key `num_gpus_per_socket`, the entry
`energy_gpu_joules` inside `socket_<chipid>` and, when present,
`energy_node_joules`: every other top-level key keeps its value, in particular
the object of every other socket `j < 10000`; an existing `socket_<chipid>`
object keeps every entry other than `energy_gpu_joules`, a missing one is
created holding only that entry; and `energy_node_joules` absent before the
call is absent after it. -/
theorem gpu_energy_export_frame {D : Type} [DoubleOps D] (readenergy : Int → Nat)
    (chipid : Nat) (st : GpuState D) (ms : List (String × Json D))
    (hchip : chipid < 10000) :
    (∀ key, key ≠ "num_gpus_per_socket" → key ≠ snprintf_socket chipid →
      key ≠ "energy_node_joules" →
      json_object_get (get_energy_json readenergy chipid st (Json.object ms)).2.2 key =
        json_object_get (Json.object ms) key) ∧
    (∀ j, j < 10000 → j ≠ chipid →
      json_object_get (get_energy_json readenergy chipid st (Json.object ms)).2.2
          (snprintf_socket j) =
        json_object_get (Json.object ms) (snprintf_socket j)) ∧
    (∀ sm, json_object_get (Json.object ms) (snprintf_socket chipid) = some (Json.object sm) →
      ∃ sm', json_object_get (get_energy_json readenergy chipid st (Json.object ms)).2.2
          (snprintf_socket chipid) = some (Json.object sm') ∧
        (∀ k, k ≠ "energy_gpu_joules" → members_get sm' k = members_get sm k) ∧
        members_get sm' "energy_gpu_joules" =
          some (energy_json_devices readenergy chipid st).gpu_obj) ∧
    (json_object_get (Json.object ms) (snprintf_socket chipid) = none →
      json_object_get (get_energy_json readenergy chipid st (Json.object ms)).2.2
          (snprintf_socket chipid) =
        some (Json.object
          [("energy_gpu_joules", (energy_json_devices readenergy chipid st).gpu_obj)])) ∧
    (json_object_get (Json.object ms) "energy_node_joules" = none →
      json_object_get (get_energy_json readenergy chipid st (Json.object ms)).2.2
        "energy_node_joules" = none) ∧
    json_object_get (get_energy_json readenergy chipid st (Json.object ms)).2.2
      "num_gpus_per_socket" = some (json_integer st.m_gpus_per_socket) := by
  obtain ⟨m4, e4, f1, f2, f3, f4⟩ := get_energy_json_document readenergy chipid st ms
  rw [e4]
  refine ⟨f1, ?_, ?_, ?_, f3, f4⟩
  · intro j hj hne
    apply f1
    · exact snprintf_socket_ne_num_gpus j
    · intro h
      exact hne (snprintf_socket_injective j chipid hj hchip h)
    · exact snprintf_socket_ne_energy_node j
  · intro sm hsm
    have hsm' : members_get ms (snprintf_socket chipid) = some (Json.object sm) := hsm
    rw [hsm'] at f2
    exact ⟨_, f2, fun k hk => members_get_set_ne sm _ k _ hk, members_get_set_self sm _ _⟩
  · intro habs
    have habs' : members_get ms (snprintf_socket chipid) = none := habs
    rw [habs'] at f2
    exact f2

/-- C26 witness. Socket 0 of the one-GPU node on the document
`{"energy_node_joules": 7}`: the key `power_node_watts`, absent before, is absent
after, and the socket object is created. -/
theorem gpu_energy_export_frame_witness :
    (0 : Nat) < 10000 ∧
    json_object_get (get_energy_json gpu_counter 0 gpu_started cpu_energy_document).2.2
      "power_node_watts" = json_object_get cpu_energy_document "power_node_watts" ∧
    json_object_get (get_energy_json gpu_counter 0 gpu_started cpu_energy_document).2.2
      "num_gpus_per_socket" = some (json_integer gpu_started.m_gpus_per_socket) :=
  ⟨by decide,
   (gpu_energy_export_frame gpu_counter 0 gpu_started
      [("energy_node_joules", Json.integer 7)] (by decide)).1 "power_node_watts"
      (by decide) (by decide) (by decide),
   (gpu_energy_export_frame gpu_counter 0 gpu_started
      [("energy_node_joules", Json.integer 7)] (by decide)).2.2.2.2.2⟩

/-- C26 counterexample. For `chipid = 10000` the key written into the 12-byte
buffer is `socket_1000`, the key of socket 1000: on a document holding an empty
object for socket 1000 and nothing for socket 10000, the call for socket 10000
changes the object of socket 1000. -/
theorem gpu_energy_export_frame_counterexample :
    snprintf_socket 10000 = "socket_1000" ∧ snprintf_socket 1000 = "socket_1000" ∧
    json_object_get (Json.object [("socket_1000", Json.object [])] : Json ℚ)
      (snprintf_socket 1000) = some (Json.object []) ∧
    json_object_get (get_energy_json gpu_counter 10000 gpu_without_devices
        (Json.object [("socket_1000", Json.object [])])).2.2 (snprintf_socket 1000) =
      some (Json.object [("energy_gpu_joules", Json.object [])]) := by
  have h1 : snprintf_socket 10000 = "socket_1000" := by decide
  have h2 : snprintf_socket 1000 = "socket_1000" := by decide
  have hc : device_count 10000 gpu_without_devices.m_gpus_per_socket = 0 := by
    unfold device_count
    decide
  refine ⟨h1, h2, ?_, ?_⟩
  · rw [h2]
    rfl
  · obtain ⟨m4, e4, _, f2, _, _⟩ := get_energy_json_document gpu_counter 10000
      gpu_without_devices [("socket_1000", Json.object [])]
    rw [e4, h2]
    rw [h1] at f2
    show members_get m4 "socket_1000" = _
    rw [f2]
    unfold energy_json_devices
    rw [hc]
    rfl

/-! ## The sampling engine: restart before the old thread wakes -/

/-- A woken thread leaves only when it finds the flag clear: while
`active_sampling` is set no wake-up lowers the number of live threads, and
every start toggle with a sensor file that opens raises it by one. -/
theorem engine_step_tasks (E : IbmEnv) (s : Engine) :
    (∀ m, s.sampler.active_sampling ≠ 0 →
      (engine_step E s (EngineStep.wake m)).tasks = s.tasks) ∧
    (s.sampler.active_sampling = 0 → 0 ≤ E.open_sensors →
      (engine_step E s EngineStep.toggle).tasks = s.tasks + 1 ∧
      (engine_step E s EngineStep.toggle).sampler.active_sampling = 1) := by
  constructor
  · intro m h
    by_cases h0 : s.tasks = 0
    · simp [engine_step, h0]
    · simp [engine_step, h0, h]
  · intro h ho
    have hno : ¬ E.open_sensors < 0 := by omega
    unfold engine_step ibm_cpu_p9_get_node_energy_json
    simp only [h, if_true, hno, if_false]
    exact ⟨rfl, trivial⟩

/-- C24 (the code at the failing input). Start, stop, start again before the
first thread wakes: the stop only clears the flag, the thread of the first
start is still asleep, the second start sets the flag again and creates a second
thread, so two threads are alive with the flag set; when each has woken once
under a measurement of 100 the accumulator holds 50000, twice what one thread
adds. Had the first thread woken between the stop and the restart it would
have ended and one thread would be left. -/
theorem restart_before_wake_leaves_two_threads :
    engine_run ibm_node engine_idle [EngineStep.toggle] = ⟨⟨1, 0, 250⟩, 1⟩ ∧
    engine_run ibm_node engine_idle [EngineStep.toggle, EngineStep.toggle] =
      ⟨⟨0, 0, 250⟩, 1⟩ ∧
    engine_run ibm_node engine_idle
      [EngineStep.toggle, EngineStep.toggle, EngineStep.toggle] = ⟨⟨1, 0, 250⟩, 2⟩ ∧
    engine_run ibm_node engine_idle
      [EngineStep.toggle, EngineStep.toggle, EngineStep.toggle, EngineStep.wake 100,
       EngineStep.wake 100] = ⟨⟨1, 50000, 250⟩, 2⟩ ∧
    engine_run ibm_node engine_idle
      [EngineStep.toggle, EngineStep.toggle, EngineStep.wake 100, EngineStep.toggle] =
      ⟨⟨1, 0, 250⟩, 1⟩ := by
  refine ⟨?_, ?_, ?_, ?_, ?_⟩ <;> decide

/-! ## Per-unit loops of the AMD adapter at the first failing unit -/

theorem print_boostlimit_loop_failure {D : Type} (E : AmdEnv) (k : Nat)
    (hk : (E.esmi_core_boostlimit_get k).1 ≠ 0) :
    ∀ (left i : Nat), i ≤ k → k < i + left →
    (∀ j, i ≤ j → j < k → (E.esmi_core_boostlimit_get j).1 = 0) →
    (print_boostlimit_loop E left i : Run D).ret = (E.esmi_core_boostlimit_get k).1 ∧
    vendor_calls (print_boostlimit_loop E left i : Run D).out =
      (List.range' i (k - i + 1)).map
        (fun (j : Nat) => (Fn.esmi_core_boostlimit_get, [(j : Int)])) := by
  intro left
  induction left with
  | zero =>
    intro i h1 h2
    omega
  | succ left ih =>
    intro i h1 h2 h
    unfold print_boostlimit_loop
    dsimp only
    by_cases hik : i = k
    · subst hik
      rw [if_pos hk]
      have e : i - i + 1 = 1 := by omega
      rw [e]
      exact ⟨rfl, rfl⟩
    · have h0 := h i (le_refl _) (by omega)
      obtain ⟨ih1, ih2⟩ := ih (i + 1) (by omega) (by omega)
        (fun j h1 h2 => h j (by omega) h2)
      rw [if_neg (not_not_intro h0)]
      have e1 : k - i + 1 = (k - (i + 1) + 1) + 1 := by omega
      rw [e1, List.range'_succ]
      refine ⟨ih1, ?_⟩
      dsimp only
      rw [vendor_calls_cons_call, vendor_calls_cons_printf, ih2]
      rfl

theorem print_boostlimit_loop_success {D : Type} (E : AmdEnv) :
    ∀ (left i : Nat),
    (∀ j, i ≤ j → j < i + left → (E.esmi_core_boostlimit_get j).1 = 0) →
    (print_boostlimit_loop E left i : Run D).ret = 0 ∧
    vendor_calls (print_boostlimit_loop E left i : Run D).out =
      (List.range' i left).map
        (fun (j : Nat) => (Fn.esmi_core_boostlimit_get, [(j : Int)])) := by
  intro left
  induction left with
  | zero =>
    intro i _
    exact ⟨rfl, rfl⟩
  | succ left ih =>
    intro i h
    have h0 := h i (le_refl _) (by omega)
    obtain ⟨ih1, ih2⟩ := ih (i + 1) (fun j h1 h2 => h j (by omega) (by omega))
    unfold print_boostlimit_loop
    dsimp only
    rw [if_neg (not_not_intro h0), List.range'_succ]
    refine ⟨ih1, ?_⟩
    dsimp only
    rw [vendor_calls_cons_call, vendor_calls_cons_printf, ih2]
    rfl

theorem socket_energy_loop_failure {D : Type} [DoubleOps D] (E : AmdEnv) (k : Nat)
    (hk : (E.esmi_socket_energy_get k).1 ≠ 0) :
    ∀ (left i : Nat), i ≤ k → k < i + left →
    (∀ j, i ≤ j → j < k → (E.esmi_socket_energy_get j).1 = 0) →
    (socket_energy_loop E left i : Bool × List (Event D)).1 = false ∧
    vendor_calls (socket_energy_loop E left i : Bool × List (Event D)).2 =
      (List.range' i (k - i + 1)).map
        (fun (j : Nat) => (Fn.esmi_socket_energy_get, [(j : Int)])) := by
  intro left
  induction left with
  | zero =>
    intro i h1 h2
    omega
  | succ left ih =>
    intro i h1 h2 h
    unfold socket_energy_loop
    dsimp only
    by_cases hik : i = k
    · subst hik
      rw [if_pos hk]
      have e : i - i + 1 = 1 := by omega
      rw [e]
      exact ⟨rfl, rfl⟩
    · have h0 := h i (le_refl _) (by omega)
      obtain ⟨ih1, ih2⟩ := ih (i + 1) (by omega) (by omega)
        (fun j h1 h2 => h j (by omega) h2)
      rw [if_neg (not_not_intro h0)]
      have e1 : k - i + 1 = (k - (i + 1) + 1) + 1 := by omega
      rw [e1, List.range'_succ]
      refine ⟨ih1, ?_⟩
      dsimp only
      rw [vendor_calls_cons_call, vendor_calls_cons_printf, ih2]
      rfl

/-- C21 (as amended). Two per-unit loops of the AMD adapter stop at the first
failing unit. `amd_cpu_epyc_print_boostlimit`: when core `k` is the first whose
query returns non-zero, the cores `0..k` are queried, no later core is, and the
call returns the status of core `k`. The socket loop of
`amd_cpu_epyc_print_energy` (terse mode, `esmi_init` succeeding): when socket
`k` is the first whose query returns non-zero, the sockets `0..k` are queried,
no later socket and no core is, and control goes to the MSR fallback: the call
returns what `print_energy_data` returns, not the status of socket `k`. -/
theorem unit_loops_stop_at_first_failure {D : Type} [DoubleOps D] (E : AmdEnv)
    (long_ver : Int) (k : Nat) :
    (k < E.total_cores → (E.esmi_core_boostlimit_get k).1 ≠ 0 →
      (∀ j, j < k → (E.esmi_core_boostlimit_get j).1 = 0) →
      (amd_cpu_epyc_print_boostlimit E long_ver : Run D).ret =
        (E.esmi_core_boostlimit_get k).1 ∧
      vendor_calls (amd_cpu_epyc_print_boostlimit E long_ver : Run D).out =
        (List.range' 0 (k + 1)).map
          (fun (j : Nat) => (Fn.esmi_core_boostlimit_get, [(j : Int)]))) ∧
    (E.esmi_init = 0 → k < E.num_sockets → (E.esmi_socket_energy_get k).1 ≠ 0 →
      (∀ j, j < k → (E.esmi_socket_energy_get j).1 = 0) →
      (amd_cpu_epyc_print_energy E 0 : Run D).ret = E.print_energy_data ∧
      vendor_calls (amd_cpu_epyc_print_energy E 0 : Run D).out =
        (Fn.esmi_init, []) ::
          ((List.range' 0 (k + 1)).map
            (fun (j : Nat) => (Fn.esmi_socket_energy_get, [(j : Int)])) ++
          [(Fn.print_energy_data, [0xC0010299, 0xC001029A])])) := by
  constructor
  · intro hk hfail hpre
    obtain ⟨h1, h2⟩ := print_boostlimit_loop_failure (D := D) E k hfail E.total_cores 0
      (Nat.zero_le _) (by omega) (fun j _ hj => hpre j hj)
    rw [Nat.sub_zero] at h2
    unfold amd_cpu_epyc_print_boostlimit
    dsimp only
    refine ⟨h1, ?_⟩
    rw [vendor_calls_append, vendor_calls_append, log_entry_no_calls, h2]
    rfl
  · intro hinit hk hfail hpre
    obtain ⟨h1, h2⟩ := socket_energy_loop_failure (D := D) E k hfail E.num_sockets 0
      (Nat.zero_le _) (by omega) (fun j _ hj => hpre j hj)
    rw [Nat.sub_zero] at h2
    unfold amd_cpu_epyc_print_energy
    dsimp only
    rw [if_pos ⟨hinit, rfl⟩, h1]
    simp only [Bool.false_eq_true, if_false]
    refine ⟨rfl, ?_⟩
    rw [vendor_calls_append, vendor_calls_append, vendor_calls_append, vendor_calls_append,
      log_entry_no_calls, h2]
    rfl

/-- C21 witness. Core 1 is the first failing core of the four-core node: two
queries, status 6 returned. Socket 0 fails on the other node: one socket query,
then the MSR fallback, whose result 0 is returned. -/
theorem unit_loops_stop_at_first_failure_witness :
    (1 < amd_boost_fails.total_cores ∧ (amd_boost_fails.esmi_core_boostlimit_get 1).1 ≠ 0 ∧
      ∀ j, j < 1 → (amd_boost_fails.esmi_core_boostlimit_get j).1 = 0) ∧
    ((amd_cpu_epyc_print_boostlimit amd_boost_fails 0 : Run ℚ).ret = 6 ∧
      vendor_calls (amd_cpu_epyc_print_boostlimit amd_boost_fails 0 : Run ℚ).out =
        [(Fn.esmi_core_boostlimit_get, [0]), (Fn.esmi_core_boostlimit_get, [1])]) ∧
    (amd_socket_energy_fails.esmi_init = 0 ∧ 0 < amd_socket_energy_fails.num_sockets ∧
      (amd_socket_energy_fails.esmi_socket_energy_get 0).1 ≠ 0) ∧
    ((amd_cpu_epyc_print_energy amd_socket_energy_fails 0 : Run ℚ).ret = 0 ∧
      vendor_calls (amd_cpu_epyc_print_energy amd_socket_energy_fails 0 : Run ℚ).out =
        [(Fn.esmi_init, []), (Fn.esmi_socket_energy_get, [0]),
         (Fn.print_energy_data, [0xC0010299, 0xC001029A])]) :=
  ⟨⟨by decide, by decide, by decide⟩,
   (unit_loops_stop_at_first_failure (D := ℚ) amd_boost_fails 0 1).1 (by decide) (by decide)
     (by decide),
   ⟨rfl, by decide, by decide⟩,
   (unit_loops_stop_at_first_failure (D := ℚ) amd_socket_energy_fails 0 0).2 rfl (by decide)
     (by decide) (by decide)⟩

/-- C21 counterexample. Socket 0 fails with status 5 in
`amd_cpu_epyc_print_energy`: the call returns 0, the result of the MSR
fallback, not the status of the failing unit. -/
theorem unit_loops_counterexample :
    (amd_socket_energy_fails.esmi_socket_energy_get 0).1 = 5 ∧
    (amd_cpu_epyc_print_energy amd_socket_energy_fails 0 : Run ℚ).ret = 0 ∧
    vendor_calls (amd_cpu_epyc_print_energy amd_socket_energy_fails 0 : Run ℚ).out =
      [(Fn.esmi_init, []), (Fn.esmi_socket_energy_get, [0]),
       (Fn.print_energy_data, [0xC0010299, 0xC001029A])] := by
  refine ⟨rfl, ?_, ?_⟩ <;> decide

/-- The two boost-limit loops the amended C21 leaves out, on the node whose
core 1 fails with status 6: `amd_cpu_epyc_set_each_core_boostlimit` prints the
failure line of core 1, goes on to the cores 2 and 3 and returns 0;
`amd_cpu_epyc_get_json_boostlimit` queries all four cores and returns 0. -/
theorem boostlimit_loops_continue_past_failure :
    (amd_cpu_epyc_set_each_core_boostlimit amd_boost_fails 2000 : Run ℚ).ret = 0 ∧
    vendor_calls (amd_cpu_epyc_set_each_core_boostlimit amd_boost_fails 2000 : Run ℚ).out =
      [(Fn.esmi_core_boostlimit_set, [0, 2000]), (Fn.esmi_core_boostlimit_set, [1, 2000]),
       (Fn.esmi_core_boostlimit_set, [2, 2000]), (Fn.esmi_core_boostlimit_set, [3, 2000])] ∧
    (amd_cpu_epyc_get_json_boostlimit amd_boost_fails 0 (Json.object []) :
      Run ℚ × Json ℚ).1.ret = 0 ∧
    vendor_calls (amd_cpu_epyc_get_json_boostlimit amd_boost_fails 0 (Json.object []) :
      Run ℚ × Json ℚ).1.out =
      [(Fn.esmi_core_boostlimit_get, [0]), (Fn.esmi_core_boostlimit_get, [1]),
       (Fn.esmi_core_boostlimit_get, [2]), (Fn.esmi_core_boostlimit_get, [3])] := by
  refine ⟨?_, ?_, ?_, ?_⟩ <;> decide

/-! ## The `VARIORUM_LOG` preamble -/

/-- C23 (the code at the failing input). With `VARIORUM_LOG=1` the AMD entry
points print their `Running` line first, read through `getenv`. The IBM entry
points test `atoi("VARIORUM_LOG")`, the name of the variable itself, which is 0:
`ibm_cpu_p9_get_power`, `ibm_cpu_p9_cap_and_verify_node_power_limit` and
`ibm_cpu_p9_cap_gpu_power_ratio` print no `Running` line at all, whatever the
environment holds. Among the AMD setters `amd_cpu_epyc_set_socket_power_limit`
prints its name without its input value. -/
theorem ibm_entry_points_print_no_running_line :
    atoi "VARIORUM_LOG" = 0 ∧
    "Running %s\n" ∉ printed_formats (ibm_cpu_p9_get_power ibm_node 0 : Run ℚ).out ∧
    "Running %s with value %d\n" ∉
      printed_formats (ibm_cpu_p9_cap_and_verify_node_power_limit ibm_node 3000 : Run ℚ).out ∧
    "Running %s with value %d\n" ∉
      printed_formats (ibm_cpu_p9_cap_gpu_power_ratio ibm_node 50 : Run ℚ).out ∧
    (amd_cpu_epyc_get_power amd_logging Epoch.fresh 0 : Run ℚ × Epoch).1.out.head? =
      some (Event.printf "Running %s\n" [Arg.str "amd_cpu_epyc_get_power"]) ∧
    (amd_cpu_epyc_set_and_verify_best_effort_node_power_limit amd_logging 200 :
        Run ℚ).out.head? =
      some (Event.printf "Running %s with value %d\n"
        [Arg.str "amd_cpu_epyc_set_and_verify_best_effort_node_power_limit", Arg.int 200]) ∧
    (amd_cpu_epyc_set_each_core_boostlimit amd_logging 2000 : Run ℚ).out.head? =
      some (Event.printf "Running %s with value %u\n\n"
        [Arg.str "amd_cpu_epyc_set_each_core_boostlimit", Arg.int 2000]) ∧
    (amd_cpu_epyc_set_socket_power_limit amd_logging 100 : Run ℚ).out.head? =
      some (Event.printf "Running %s\n" [Arg.str "amd_cpu_epyc_set_socket_power_limit"]) := by
  refine ⟨?_, ?_, ?_, ?_, ?_, ?_, ?_, ?_⟩
  · decide
  · decide
  · decide
  · decide
  · rfl
  · rfl
  · rfl
  · rfl

/-! ## Failures that are reported -/

theorem has_diagnostic_cons {D : Type} (e : Event D) (out : List (Event D))
    (h : has_diagnostic out) : has_diagnostic (e :: out) := by
  obtain ⟨x, hx, hd⟩ := h
  exact ⟨x, List.mem_cons_of_mem _ hx, hd⟩

theorem has_diagnostic_head {D : Type} (e : Event D) (out : List (Event D))
    (h : is_diagnostic e = true) : has_diagnostic (e :: out) :=
  ⟨e, List.mem_cons_self _ _, h⟩

theorem has_diagnostic_append_left {D : Type} (a b : List (Event D))
    (h : has_diagnostic a) : has_diagnostic (a ++ b) := by
  obtain ⟨x, hx, hd⟩ := h
  exact ⟨x, List.mem_append_left _ hx, hd⟩

theorem has_diagnostic_append_right {D : Type} (a b : List (Event D))
    (h : has_diagnostic b) : has_diagnostic (a ++ b) := by
  obtain ⟨x, hx, hd⟩ := h
  exact ⟨x, List.mem_append_right _ hx, hd⟩

theorem is_diagnostic_failed {D : Type} (fmt : String) (args : List (Arg D))
    (h : fmt.toList.take 10 = "Failed to ".toList) :
    is_diagnostic (Event.printf fmt args) = true := by
  unfold is_diagnostic
  exact decide_eq_true h

theorem mem_vendor_calls_cons_call {D : Type} (c : Fn × List Int) (fn : Fn)
    (args : List Int) (out : List (Event D)) :
    c ∈ vendor_calls (Event.call fn args :: out) ↔ c = (fn, args) ∨ c ∈ vendor_calls out := by
  rw [vendor_calls_cons_call, List.mem_cons]

theorem mem_vendor_calls_cons_printf {D : Type} (c : Fn × List Int) (fmt : String)
    (args : List (Arg D)) (out : List (Event D)) :
    c ∈ vendor_calls (Event.printf fmt args :: out) ↔ c ∈ vendor_calls out := by
  rw [vendor_calls_cons_printf]

theorem get_power_loop_reports {D : Type} [DoubleOps D] (E : AmdEnv) (long_ver : Int)
    (start : Timeval) :
    ∀ (left i : Nat) (c : Fn × List Int),
    c ∈ vendor_calls (get_power_loop E long_ver start left i : Run D).out →
    amd_call_failed E c →
    has_diagnostic (get_power_loop E long_ver start left i : Run D).out := by
  intro left
  induction left with
  | zero =>
    intro i c hc
    simp [get_power_loop, vendor_calls] at hc
  | succ left ih =>
    intro i c hc hf
    unfold get_power_loop at hc ⊢
    dsimp only at hc ⊢
    split at hc
    · rename_i h
      rw [if_pos h]
      exact has_diagnostic_cons _ _ (has_diagnostic_head _ _ (is_diagnostic_failed _ _ (by decide)))
    · rename_i h
      rw [if_neg h]
      rw [mem_vendor_calls_cons_call] at hc
      dsimp only
      rcases hc with hc | hc
      · subst hc
        simp [amd_call_failed] at hf
        exact absurd hf h
      · have hc' : c ∈ vendor_calls
            (get_power_loop E long_ver start left (i + 1) : Run D).out := by
          split at hc <;> rwa [mem_vendor_calls_cons_printf] at hc
        exact has_diagnostic_cons _ _ (has_diagnostic_cons _ _ (ih (i + 1) c hc' hf))

theorem get_power_limits_loop_reports {D : Type} [DoubleOps D] (E : AmdEnv) (long_ver : Int)
    (start : Timeval) :
    ∀ (left i : Nat) (c : Fn × List Int),
    c ∈ vendor_calls (get_power_limits_loop E long_ver start left i : Run D).out →
    amd_call_failed E c →
    has_diagnostic (get_power_limits_loop E long_ver start left i : Run D).out := by
  intro left
  induction left with
  | zero =>
    intro i c hc
    simp [get_power_limits_loop, vendor_calls] at hc
  | succ left ih =>
    intro i c hc hf
    unfold get_power_limits_loop at hc ⊢
    dsimp only at hc ⊢
    by_cases h1 : (E.esmi_socket_power_get i).1 ≠ 0
    · rw [if_pos h1]
      exact has_diagnostic_cons _ _
        (has_diagnostic_head _ _ (is_diagnostic_failed _ _ (by decide)))
    · rw [if_neg h1] at hc ⊢
      by_cases h2 : (E.esmi_socket_power_cap_get i).1 ≠ 0
      · rw [if_pos h2]
        exact has_diagnostic_cons _ _ (has_diagnostic_cons _ _
          (has_diagnostic_head _ _ (is_diagnostic_failed _ _ (by decide))))
      · rw [if_neg h2] at hc ⊢
        by_cases h3 : (E.esmi_socket_power_cap_max_get i).1 ≠ 0
        · rw [if_pos h3]
          exact has_diagnostic_cons _ _ (has_diagnostic_cons _ _ (has_diagnostic_cons _ _
            (has_diagnostic_head _ _ (is_diagnostic_failed _ _ (by decide)))))
        · rw [if_neg h3] at hc ⊢
          dsimp only at hc ⊢
          rw [mem_vendor_calls_cons_call, mem_vendor_calls_cons_call,
            mem_vendor_calls_cons_call] at hc
          rcases hc with hc | hc | hc | hc
          · subst hc
            simp [amd_call_failed] at hf
            exact absurd hf h1
          · subst hc
            simp [amd_call_failed] at hf
            exact absurd hf h2
          · subst hc
            simp [amd_call_failed] at hf
            exact absurd hf h3
          · have hc' : c ∈ vendor_calls
                (get_power_limits_loop E long_ver start left (i + 1) : Run D).out := by
              split at hc <;> rwa [mem_vendor_calls_cons_printf] at hc
            exact has_diagnostic_cons _ _ (has_diagnostic_cons _ _ (has_diagnostic_cons _ _
              (has_diagnostic_cons _ _ (ih (i + 1) c hc' hf))))

theorem mem_vendor_calls_clamp_events {D : Type} [DoubleOps D] (E : AmdEnv) (i : Nat)
    (p : Int) (c : Fn × List Int) (hc : c ∈ vendor_calls (clamp_events E i p : List (Event D))) :
    c.1 = Fn.esmi_socket_power_cap_max_get := by
  unfold clamp_events at hc
  dsimp only at hc
  rw [mem_vendor_calls_cons_call] at hc
  rcases hc with hc | hc
  · rw [hc]
  · split at hc
    · rw [mem_vendor_calls_cons_printf] at hc
      simp [vendor_calls] at hc
    · simp [vendor_calls] at hc

theorem cap_set_failure_reports {D : Type} (E : AmdEnv) (func : String) (i : Nat)
    (ret : Int) : has_diagnostic (cap_set_failure E func i ret : Run D).out := by
  unfold cap_set_failure
  dsimp only
  split <;> exact has_diagnostic_head _ _ (is_diagnostic_failed _ _ (by decide))

theorem node_power_limit_loop_reports {D : Type} [DoubleOps D] (E : AmdEnv) :
    ∀ (left i : Nat) (p : Int) (c : Fn × List Int),
    c ∈ vendor_calls (node_power_limit_loop E left i p : Run D).out →
    c.1 ≠ Fn.esmi_socket_power_cap_max_get → amd_call_failed E c →
    has_diagnostic (node_power_limit_loop E left i p : Run D).out := by
  intro left
  induction left with
  | zero =>
    intro i p c hc
    simp [node_power_limit_loop, vendor_calls, vendor_call] at hc
  | succ left ih =>
    intro i p c hc hne hf
    unfold node_power_limit_loop at hc ⊢
    dsimp only at hc ⊢
    by_cases h1 : E.esmi_socket_power_cap_set i (toUInt32 (clamp_value E i p)) ≠ 0
    · rw [if_pos h1]
      dsimp only
      exact has_diagnostic_append_right _ _
        (has_diagnostic_cons _ _ (cap_set_failure_reports E _ i _))
    · rw [if_neg h1] at hc ⊢
      by_cases h2 : (E.esmi_socket_power_cap_get i).1 ≠ 0
      · rw [if_pos h2]
        dsimp only
        exact has_diagnostic_append_right _ _
          (has_diagnostic_head _ _ (is_diagnostic_failed _ _ (by decide)))
      · rw [if_neg h2] at hc ⊢
        have hmid : c ∈ vendor_calls (clamp_events E i p ++
            [Event.call Fn.esmi_socket_power_cap_set [(i : Int), (toUInt32 (clamp_value E i p) : Int)],
             Event.call Fn.usleep [100000],
             Event.call Fn.esmi_socket_power_cap_get [(i : Int)]] : List (Event D)) → False := by
          intro hm
          rw [vendor_calls_append, List.mem_append] at hm
          rcases hm with hm | hm
          · exact hne (mem_vendor_calls_clamp_events E i p c hm)
          · rw [mem_vendor_calls_cons_call, mem_vendor_calls_cons_call,
              mem_vendor_calls_cons_call] at hm
            rcases hm with hm | hm | hm | hm
            · subst hm
              simp [amd_call_failed] at hf
              exact h1 hf
            · subst hm
              simp [amd_call_failed] at hf
            · subst hm
              simp [amd_call_failed] at hf
              exact h2 hf
            · simp [vendor_calls] at hm
        split at hc
        · dsimp only at hc
          rw [vendor_calls_append, List.mem_append] at hc
          rcases hc with hc | hc
          · exact absurd hc hmid
          · simp [vendor_calls, verify_guidance, vendor_call] at hc
        · dsimp only at hc
          rw [vendor_calls_append, List.mem_append] at hc
          rename_i hv
          rw [if_neg hv]
          dsimp only
          rcases hc with hc | hc
          · exact absurd hc hmid
          · exact has_diagnostic_append_right _ _ (ih (i + 1) _ c hc hne hf)

theorem socket_power_limit_loop_reports {D : Type} [DoubleOps D] (E : AmdEnv) :
    ∀ (left i : Nat) (p : Int) (c : Fn × List Int),
    c ∈ vendor_calls (socket_power_limit_loop E left i p : Run D).out →
    c.1 ≠ Fn.esmi_socket_power_cap_max_get → amd_call_failed E c →
    has_diagnostic (socket_power_limit_loop E left i p : Run D).out := by
  intro left
  induction left with
  | zero =>
    intro i p c hc
    simp [socket_power_limit_loop, vendor_calls] at hc
  | succ left ih =>
    intro i p c hc hne hf
    unfold socket_power_limit_loop at hc ⊢
    dsimp only at hc ⊢
    by_cases h1 : E.esmi_socket_power_cap_set i (toUInt32 (clamp_value E i p)) ≠ 0
    · rw [if_pos h1]
      dsimp only
      exact has_diagnostic_append_right _ _
        (has_diagnostic_cons _ _ (cap_set_failure_reports E _ i _))
    · rw [if_neg h1] at hc ⊢
      dsimp only at hc ⊢
      rw [vendor_calls_append, List.mem_append, vendor_calls_append, List.mem_append] at hc
      rcases hc with (hc | hc) | hc
      · exact absurd (mem_vendor_calls_clamp_events E i p c hc) hne
      · rw [mem_vendor_calls_cons_call, mem_vendor_calls_cons_printf] at hc
        rcases hc with hc | hc
        · subst hc
          simp [amd_call_failed] at hf
          exact absurd hf h1
        · simp [vendor_calls] at hc
      · exact has_diagnostic_append_right _ _ (ih (i + 1) _ c hc hne hf)

theorem socket_energy_loop_reports {D : Type} [DoubleOps D] (E : AmdEnv) :
    ∀ (left i : Nat) (c : Fn × List Int),
    c ∈ vendor_calls (socket_energy_loop E left i : Bool × List (Event D)).2 →
    amd_call_failed E c →
    has_diagnostic (socket_energy_loop E left i : Bool × List (Event D)).2 := by
  intro left
  induction left with
  | zero =>
    intro i c hc
    simp [socket_energy_loop, vendor_calls] at hc
  | succ left ih =>
    intro i c hc hf
    unfold socket_energy_loop at hc ⊢
    dsimp only at hc ⊢
    by_cases h1 : (E.esmi_socket_energy_get i).1 ≠ 0
    · rw [if_pos h1]
      exact has_diagnostic_cons _ _
        (has_diagnostic_head _ _ (is_diagnostic_failed _ _ (by decide)))
    · rw [if_neg h1] at hc ⊢
      dsimp only at hc ⊢
      rw [mem_vendor_calls_cons_call, mem_vendor_calls_cons_printf] at hc
      rcases hc with hc | hc
      · subst hc
        simp [amd_call_failed] at hf
        exact absurd hf h1
      · exact has_diagnostic_cons _ _ (has_diagnostic_cons _ _ (ih (i + 1) c hc hf))

theorem core_energy_loop_reports {D : Type} [DoubleOps D] (E : AmdEnv) :
    ∀ (left i : Nat) (c : Fn × List Int),
    c ∈ vendor_calls (core_energy_loop E left i : List (Event D)) →
    amd_call_failed E c →
    has_diagnostic (core_energy_loop E left i : List (Event D)) := by
  intro left
  induction left with
  | zero =>
    intro i c hc
    simp [core_energy_loop, vendor_calls] at hc
  | succ left ih =>
    intro i c hc hf
    unfold core_energy_loop at hc ⊢
    dsimp only at hc ⊢
    by_cases h1 : (E.esmi_core_energy_get i).1 ≠ 0
    · rw [if_pos h1]
      exact has_diagnostic_cons _ _
        (has_diagnostic_head _ _ (is_diagnostic_failed _ _ (by decide)))
    · rw [if_neg h1] at hc ⊢
      rw [mem_vendor_calls_cons_call, mem_vendor_calls_cons_printf] at hc
      rcases hc with hc | hc
      · subst hc
        simp [amd_call_failed] at hf
        exact absurd hf h1
      · exact has_diagnostic_cons _ _ (has_diagnostic_cons _ _ (ih (i + 1) c hc hf))

theorem print_boostlimit_loop_reports {D : Type} (E : AmdEnv) :
    ∀ (left i : Nat) (c : Fn × List Int),
    c ∈ vendor_calls (print_boostlimit_loop E left i : Run D).out →
    amd_call_failed E c →
    has_diagnostic (print_boostlimit_loop E left i : Run D).out := by
  intro left
  induction left with
  | zero =>
    intro i c hc
    simp [print_boostlimit_loop, vendor_calls] at hc
  | succ left ih =>
    intro i c hc hf
    unfold print_boostlimit_loop at hc ⊢
    dsimp only at hc ⊢
    by_cases h1 : (E.esmi_core_boostlimit_get i).1 ≠ 0
    · rw [if_pos h1]
      exact has_diagnostic_cons _ _
        (has_diagnostic_head _ _ (is_diagnostic_failed _ _ (by decide)))
    · rw [if_neg h1] at hc ⊢
      dsimp only at hc ⊢
      rw [mem_vendor_calls_cons_call, mem_vendor_calls_cons_printf] at hc
      rcases hc with hc | hc
      · subst hc
        simp [amd_call_failed] at hf
        exact absurd hf h1
      · exact has_diagnostic_cons _ _ (has_diagnostic_cons _ _ (ih (i + 1) c hc hf))

theorem set_each_core_boostlimit_loop_reports {D : Type} (E : AmdEnv) (boostlimit : Int) :
    ∀ (left i : Nat) (c : Fn × List Int),
    c ∈ vendor_calls (set_each_core_boostlimit_loop E boostlimit left i : Run D).out →
    amd_call_failed E c →
    has_diagnostic (set_each_core_boostlimit_loop E boostlimit left i : Run D).out := by
  intro left
  induction left with
  | zero =>
    intro i c hc
    simp [set_each_core_boostlimit_loop, vendor_calls] at hc
  | succ left ih =>
    intro i c hc hf
    unfold set_each_core_boostlimit_loop at hc ⊢
    dsimp only at hc ⊢
    by_cases h1 : E.esmi_core_boostlimit_set i (toUInt32 boostlimit) ≠ 0
    · rw [if_pos h1]
      split <;>
        exact has_diagnostic_cons _ _
          (has_diagnostic_head _ _ (is_diagnostic_failed _ _ (by decide)))
    · rw [if_neg h1] at hc ⊢
      dsimp only at hc ⊢
      rw [mem_vendor_calls_cons_call] at hc
      rcases hc with hc | hc
      · subst hc
        simp [amd_call_failed] at hf
        exact absurd hf h1
      · exact has_diagnostic_cons _ _ (ih (i + 1) c hc hf)

theorem get_power_json_loop_reports {D : Type} [DoubleOps D] (E : AmdEnv) :
    ∀ (left i : Nat) (doc : Json D) (node_power : D) (c : Fn × List Int),
    c ∈ vendor_calls (get_power_json_loop E left i doc node_power).1.out →
    amd_call_failed E c →
    has_diagnostic (get_power_json_loop E left i doc node_power).1.out := by
  intro left
  induction left with
  | zero =>
    intro i doc np c hc
    simp [get_power_json_loop, vendor_calls] at hc
  | succ left ih =>
    intro i doc np c hc hf
    unfold get_power_json_loop at hc ⊢
    dsimp only at hc ⊢
    by_cases h1 : (E.esmi_socket_power_get i).1 ≠ 0
    · rw [if_pos h1]
      exact has_diagnostic_cons _ _
        (has_diagnostic_head _ _ (is_diagnostic_failed _ _ (by decide)))
    · rw [if_neg h1] at hc ⊢
      dsimp only at hc ⊢
      rw [mem_vendor_calls_cons_call] at hc
      rcases hc with hc | hc
      · subst hc
        simp [amd_call_failed] at hf
        exact absurd hf h1
      · exact has_diagnostic_cons _ _ (ih (i + 1) _ _ c hc hf)

theorem has_diagnostic_iff_any {D : Type} (out : List (Event D)) :
    has_diagnostic out ↔ out.any is_diagnostic = true := by
  unfold has_diagnostic
  rw [List.any_eq_true]

theorem not_mem_vendor_calls_log_entry {D : Type} (val : Option String) (fmt : String)
    (args : List (Arg D)) (c : Fn × List Int) :
    c ∉ vendor_calls (log_entry val fmt args) := by
  rw [log_entry_no_calls]
  exact List.not_mem_nil _

theorem not_mem_vendor_calls_latch_header {D : Type} (st : Epoch) (long_ver : Int)
    (header : String) (c : Fn × List Int) :
    c ∉ vendor_calls (latch_header st long_ver header : List (Event D)) := by
  rw [latch_header_no_calls]
  exact List.not_mem_nil _

theorem ibm_get_power_loop_reports {D : Type} (E : IbmEnv) (long_ver : Int) :
    ∀ (left i : Nat), (ibm_get_power_loop E long_ver left i : Run D).ret ≠ 0 →
    has_diagnostic (ibm_get_power_loop E long_ver left i : Run D).out := by
  intro left
  induction left with
  | zero =>
    intro i h
    exact absurd rfl h
  | succ left ih =>
    intro i h
    unfold ibm_get_power_loop at h ⊢
    dsimp only at h ⊢
    by_cases hm : E.malloc i = false
    · rw [if_pos hm]
      exact has_diagnostic_append_right _ _
        (has_diagnostic_head _ _ (is_diagnostic_failed _ _ (by decide)))
    · rw [if_neg hm] at h ⊢
      by_cases hr : (read_block E i : Int × List (Event D)).1 ≠ E.OCC_SENSOR_DATA_BLOCK_SIZE
      · rw [if_pos hr]
        exact has_diagnostic_append_right _ _
          (has_diagnostic_head _ _ (is_diagnostic_failed _ _ (by decide)))
      · rw [if_neg hr] at h ⊢
        exact has_diagnostic_append_right _ _ (ih (i + 1) h)

theorem has_diagnostic_nil {D : Type} : ¬ has_diagnostic ([] : List (Event D)) := by
  rintro ⟨e, he, _⟩
  exact absurd he (List.not_mem_nil _)

theorem has_diagnostic_cons_iff {D : Type} (e : Event D) (out : List (Event D)) :
    has_diagnostic (e :: out) ↔ is_diagnostic e = true ∨ has_diagnostic out := by
  constructor
  · rintro ⟨x, hx, hd⟩
    rcases List.mem_cons.mp hx with h | h
    · subst h
      exact Or.inl hd
    · exact Or.inr ⟨x, h, hd⟩
  · rintro (h | h)
    · exact has_diagnostic_head _ _ h
    · exact has_diagnostic_cons _ _ h

theorem has_diagnostic_append_iff {D : Type} (a b : List (Event D)) :
    has_diagnostic (a ++ b) ↔ has_diagnostic a ∨ has_diagnostic b := by
  constructor
  · rintro ⟨x, hx, hd⟩
    rcases List.mem_append.mp hx with h | h
    · exact Or.inl ⟨x, h, hd⟩
    · exact Or.inr ⟨x, h, hd⟩
  · rintro (h | h)
    · exact has_diagnostic_append_left _ _ h
    · exact has_diagnostic_append_right _ _ h

theorem has_diagnostic_cons_call {D : Type} (fn : Fn) (args : List Int)
    (out : List (Event D)) :
    has_diagnostic (Event.call fn args :: out) ↔ has_diagnostic out := by
  rw [has_diagnostic_cons_iff]
  simp [is_diagnostic]

theorem has_diagnostic_cons_printf {D : Type} (fmt : String) (args : List (Arg D))
    (out : List (Event D)) (h : fmt.toList.take 10 ≠ "Failed to ".toList) :
    has_diagnostic (Event.printf fmt args :: out) ↔ has_diagnostic out := by
  rw [has_diagnostic_cons_iff]
  constructor
  · rintro (hd | hd)
    · unfold is_diagnostic at hd
      exact absurd (of_decide_eq_true hd) h
    · exact hd
  · exact Or.inr

theorem log_entry_no_diagnostic {D : Type} (val : Option String) (fmt : String)
    (args : List (Arg D)) (h : fmt.toList.take 10 ≠ "Failed to ".toList) :
    ¬ has_diagnostic (log_entry val fmt args) := by
  unfold log_entry
  cases val with
  | none => exact has_diagnostic_nil
  | some v =>
    dsimp only
    split
    · rw [has_diagnostic_cons_printf _ _ _ h]
      exact has_diagnostic_nil
    · exact has_diagnostic_nil

theorem clamp_events_no_diagnostic {D : Type} [DoubleOps D] (E : AmdEnv) (i : Nat) (p : Int) :
    ¬ has_diagnostic (clamp_events E i p : List (Event D)) := by
  unfold clamp_events
  dsimp only
  rw [has_diagnostic_cons_call]
  split
  · rw [has_diagnostic_cons_printf _ _ _ (by decide)]
    exact has_diagnostic_nil
  · exact has_diagnostic_nil

theorem verify_guidance_no_diagnostic {D : Type} :
    ¬ has_diagnostic (verify_guidance : List (Event D)) := by
  unfold verify_guidance
  rw [has_diagnostic_cons_printf _ _ _ (by decide),
    has_diagnostic_cons_printf _ _ _ (by decide),
    has_diagnostic_cons_printf _ _ _ (by decide)]
  exact has_diagnostic_nil

theorem node_power_limit_loop_diagnostic {D : Type} [DoubleOps D] (E : AmdEnv) :
    ∀ (left i : Nat) (p : Int),
    has_diagnostic (node_power_limit_loop E left i p : Run D).out →
    ∃ c, c ∈ vendor_calls (node_power_limit_loop E left i p : Run D).out ∧
      amd_call_failed E c ∧ c.1 ≠ Fn.esmi_socket_power_cap_max_get := by
  intro left
  induction left with
  | zero =>
    intro i p h
    unfold node_power_limit_loop at h
    dsimp only at h
    rw [has_diagnostic_cons_printf _ _ _ (by decide)] at h
    exact absurd h has_diagnostic_nil
  | succ left ih =>
    intro i p h
    unfold node_power_limit_loop at h ⊢
    dsimp only at h ⊢
    by_cases h1 : E.esmi_socket_power_cap_set i (toUInt32 (clamp_value E i p)) ≠ 0
    · rw [if_pos h1]
      dsimp only
      refine ⟨(Fn.esmi_socket_power_cap_set,
        [(i : Int), (toUInt32 (clamp_value E i p) : Int)]), ?_, ?_, by simp⟩
      · rw [vendor_calls_append, List.mem_append, mem_vendor_calls_cons_call]
        exact Or.inr (Or.inl rfl)
      · simpa [amd_call_failed] using h1
    · rw [if_neg h1] at h ⊢
      by_cases h2 : (E.esmi_socket_power_cap_get i).1 ≠ 0
      · rw [if_pos h2]
        dsimp only
        refine ⟨(Fn.esmi_socket_power_cap_get, [(i : Int)]), ?_, ?_, by simp⟩
        · rw [vendor_calls_append, List.mem_append, vendor_calls_append, List.mem_append,
            mem_vendor_calls_cons_call, mem_vendor_calls_cons_call,
            mem_vendor_calls_cons_call]
          exact Or.inl (Or.inr (Or.inr (Or.inr (Or.inl rfl))))
        · simpa [amd_call_failed] using h2
      · rw [if_neg h2] at h ⊢
        have hmid : ¬ has_diagnostic (clamp_events E i p ++
            [Event.call Fn.esmi_socket_power_cap_set
                [(i : Int), (toUInt32 (clamp_value E i p) : Int)],
             Event.call Fn.usleep [100000],
             Event.call Fn.esmi_socket_power_cap_get [(i : Int)]] : List (Event D)) := by
          rw [has_diagnostic_append_iff, has_diagnostic_cons_call, has_diagnostic_cons_call,
            has_diagnostic_cons_call]
          rintro (hm | hm)
          · exact clamp_events_no_diagnostic E i p hm
          · exact has_diagnostic_nil hm
        split at h
        · dsimp only at h
          rw [has_diagnostic_append_iff] at h
          rcases h with h | h
          · exact absurd h hmid
          · exact absurd h verify_guidance_no_diagnostic
        · rename_i hv
          rw [if_neg hv]
          dsimp only at h ⊢
          rw [has_diagnostic_append_iff] at h
          rcases h with h | h
          · exact absurd h hmid
          · obtain ⟨c, hc, hf, hne⟩ := ih (i + 1) _ h
            refine ⟨c, ?_, hf, hne⟩
            rw [vendor_calls_append, List.mem_append]
            exact Or.inr hc

theorem socket_power_limit_loop_diagnostic {D : Type} [DoubleOps D] (E : AmdEnv) :
    ∀ (left i : Nat) (p : Int),
    has_diagnostic (socket_power_limit_loop E left i p : Run D).out →
    ∃ c, c ∈ vendor_calls (socket_power_limit_loop E left i p : Run D).out ∧
      amd_call_failed E c ∧ c.1 ≠ Fn.esmi_socket_power_cap_max_get := by
  intro left
  induction left with
  | zero =>
    intro i p h
    unfold socket_power_limit_loop at h
    exact absurd h has_diagnostic_nil
  | succ left ih =>
    intro i p h
    unfold socket_power_limit_loop at h ⊢
    dsimp only at h ⊢
    by_cases h1 : E.esmi_socket_power_cap_set i (toUInt32 (clamp_value E i p)) ≠ 0
    · rw [if_pos h1]
      dsimp only
      refine ⟨(Fn.esmi_socket_power_cap_set,
        [(i : Int), (toUInt32 (clamp_value E i p) : Int)]), ?_, ?_, by simp⟩
      · rw [vendor_calls_append, List.mem_append, mem_vendor_calls_cons_call]
        exact Or.inr (Or.inl rfl)
      · simpa [amd_call_failed] using h1
    · rw [if_neg h1] at h ⊢
      dsimp only at h ⊢
      rw [has_diagnostic_append_iff, has_diagnostic_append_iff, has_diagnostic_cons_call,
        has_diagnostic_cons_printf _ _ _ (by decide)] at h
      rcases h with (h | h) | h
      · exact absurd h (clamp_events_no_diagnostic E i p)
      · exact absurd h has_diagnostic_nil
      · obtain ⟨c, hc, hf, hne⟩ := ih (i + 1) _ h
        refine ⟨c, ?_, hf, hne⟩
        rw [vendor_calls_append, List.mem_append]
        exact Or.inr hc
theorem socket_energy_loop_diagnostic {D : Type} [DoubleOps D] (E : AmdEnv) :
    ∀ (left i : Nat),
    has_diagnostic (socket_energy_loop E left i : Bool × List (Event D)).2 →
    ∃ c, c ∈ vendor_calls (socket_energy_loop E left i : Bool × List (Event D)).2 ∧
      amd_call_failed E c ∧ c.1 = Fn.esmi_socket_energy_get := by
  intro left
  induction left with
  | zero =>
    intro i h
    unfold socket_energy_loop at h
    exact absurd h has_diagnostic_nil
  | succ left ih =>
    intro i h
    unfold socket_energy_loop at h ⊢
    dsimp only at h ⊢
    by_cases h1 : (E.esmi_socket_energy_get i).1 ≠ 0
    · rw [if_pos h1]
      refine ⟨(Fn.esmi_socket_energy_get, [(i : Int)]), ?_, ?_, rfl⟩
      · rw [mem_vendor_calls_cons_call]
        exact Or.inl rfl
      · simpa [amd_call_failed] using h1
    · rw [if_neg h1] at h ⊢
      dsimp only at h ⊢
      rw [has_diagnostic_cons_call, has_diagnostic_cons_printf _ _ _ (by decide)] at h
      obtain ⟨c, hc, hf, hfn⟩ := ih (i + 1) h
      refine ⟨c, ?_, hf, hfn⟩
      rw [mem_vendor_calls_cons_call, mem_vendor_calls_cons_printf]
      exact Or.inr hc

theorem core_energy_loop_diagnostic {D : Type} [DoubleOps D] (E : AmdEnv) :
    ∀ (left i : Nat),
    has_diagnostic (core_energy_loop E left i : List (Event D)) →
    ∃ c, c ∈ vendor_calls (core_energy_loop E left i : List (Event D)) ∧
      amd_call_failed E c ∧ c.1 = Fn.esmi_core_energy_get := by
  intro left
  induction left with
  | zero =>
    intro i h
    unfold core_energy_loop at h
    exact absurd h has_diagnostic_nil
  | succ left ih =>
    intro i h
    unfold core_energy_loop at h ⊢
    dsimp only at h ⊢
    by_cases h1 : (E.esmi_core_energy_get i).1 ≠ 0
    · refine ⟨(Fn.esmi_core_energy_get, [(i : Int)]), ?_, ?_, rfl⟩
      · rw [mem_vendor_calls_cons_call]
        exact Or.inl rfl
      · simpa [amd_call_failed] using h1
    · rw [if_neg h1] at h ⊢
      rw [has_diagnostic_cons_call, has_diagnostic_cons_printf _ _ _ (by decide)] at h
      obtain ⟨c, hc, hf, hfn⟩ := ih (i + 1) h
      refine ⟨c, ?_, hf, hfn⟩
      rw [mem_vendor_calls_cons_call, mem_vendor_calls_cons_printf]
      exact Or.inr hc

theorem energy_batch_no_diagnostic {D : Type} (E : AmdEnv) :
    ¬ has_diagnostic (energy_batch E : Run D).out := by
  unfold energy_batch
  dsimp only
  rw [has_diagnostic_cons_printf _ _ _ (by decide), has_diagnostic_cons_call]
  exact has_diagnostic_nil

theorem mem_vendor_calls_energy_batch {D : Type} (E : AmdEnv) (c : Fn × List Int)
    (h : c ∈ vendor_calls (energy_batch E : Run D).out) : c.1 = Fn.print_energy_data := by
  unfold energy_batch at h
  dsimp only at h
  rw [mem_vendor_calls_cons_printf, mem_vendor_calls_cons_call] at h
  rcases h with h | h
  · subst h
    rfl
  · simp [vendor_calls] at h

theorem mem_vendor_calls_print_energy_pre {D : Type} (val : Option String)
    (c : Fn × List Int)
    (h : c ∈ vendor_calls
      (log_entry val "Running %s\n" [Arg.str "amd_cpu_epyc_print_energy"] ++
        [Event.call Fn.esmi_init []] : List (Event D))) : c.1 = Fn.esmi_init := by
  rw [vendor_calls_append, List.mem_append] at h
  rcases h with h | h
  · exact absurd h (not_mem_vendor_calls_log_entry _ _ _ c)
  · rw [mem_vendor_calls_cons_call] at h
    rcases h with h | h
    · subst h
      rfl
    · simp [vendor_calls] at h

theorem print_energy_pre_no_diagnostic {D : Type} (val : Option String) :
    ¬ has_diagnostic
      (log_entry val "Running %s\n" [Arg.str "amd_cpu_epyc_print_energy"] ++
        [Event.call Fn.esmi_init []] : List (Event D)) := by
  rw [has_diagnostic_append_iff, has_diagnostic_cons_call]
  rintro (h | h)
  · exact log_entry_no_diagnostic _ _ _ (by decide) h
  · exact has_diagnostic_nil h

/-- The fallback path of `amd_cpu_epyc_print_energy`, taken when `esmi_init`
fails or the verbose format is asked for: the result of `print_energy_data` is
returned and the trace is the preamble, the `esmi_init` call, the line
`Msg: Checking msr-safe module...` and the call of `print_energy_data`. -/
theorem print_energy_fallback {D : Type} [DoubleOps D] (E : AmdEnv) (long_ver : Int)
    (h : ¬ (E.esmi_init = 0 ∧ long_ver = 0)) :
    (amd_cpu_epyc_print_energy E long_ver : Run D) =
      ⟨E.print_energy_data,
       log_entry E.VARIORUM_LOG "Running %s\n" [Arg.str "amd_cpu_epyc_print_energy"] ++
        [Event.call Fn.esmi_init [],
         Event.printf "Msg: Checking msr-safe module...\n" [],
         Event.call Fn.print_energy_data [0xC0010299, 0xC001029A]]⟩ := by
  unfold amd_cpu_epyc_print_energy
  dsimp only
  rw [if_neg h]
  unfold energy_batch
  simp

theorem print_energy_fallback_no_diagnostic {D : Type} [DoubleOps D] (E : AmdEnv)
    (long_ver : Int) (h : ¬ (E.esmi_init = 0 ∧ long_ver = 0)) :
    ¬ has_diagnostic (amd_cpu_epyc_print_energy E long_ver : Run D).out := by
  rw [print_energy_fallback E long_ver h]
  dsimp only
  rw [has_diagnostic_append_iff, has_diagnostic_cons_call,
    has_diagnostic_cons_printf _ _ _ (by decide), has_diagnostic_cons_call]
  rintro (h | h)
  · exact log_entry_no_diagnostic _ _ _ (by decide) h
  · exact has_diagnostic_nil h

theorem print_energy_diagnostic_iff {D : Type} [DoubleOps D] (E : AmdEnv)
    (long_ver : Int) :
    has_diagnostic (amd_cpu_epyc_print_energy E long_ver : Run D).out ↔
      ∃ c, c ∈ vendor_calls (amd_cpu_epyc_print_energy E long_ver : Run D).out ∧
        amd_call_failed E c ∧
        (c.1 = Fn.esmi_socket_energy_get ∨ c.1 = Fn.esmi_core_energy_get) := by
  by_cases h0 : E.esmi_init = 0 ∧ long_ver = 0
  · unfold amd_cpu_epyc_print_energy
    dsimp only
    rw [if_pos h0]
    have hhead : ¬ has_diagnostic
        ([Event.printf "_SOCKET_ENERGY :\n" [],
          Event.printf " Socket |  Energy (uJoules) |\n" []] : List (Event D)) := by
      rw [has_diagnostic_cons_printf _ _ _ (by decide),
        has_diagnostic_cons_printf _ _ _ (by decide)]
      exact has_diagnostic_nil
    have htitle : ¬ has_diagnostic
        ([Event.printf "\n_CORE_ENERGY :\n" [],
          Event.printf "   Core |  Energy (uJoules) |\n" []] : List (Event D)) := by
      rw [has_diagnostic_cons_printf _ _ _ (by decide),
        has_diagnostic_cons_printf _ _ _ (by decide)]
      exact has_diagnostic_nil
    cases hs : (socket_energy_loop E E.num_sockets 0 : Bool × List (Event D)).1 with
    | true =>
      simp only [if_true]
      constructor
      · intro h
        rw [has_diagnostic_append_iff, has_diagnostic_append_iff, has_diagnostic_append_iff,
          has_diagnostic_append_iff] at h
        rcases h with (((h | h) | h) | h) | h
        · exact absurd h (print_energy_pre_no_diagnostic _)
        · exact absurd h hhead
        · obtain ⟨c, hc, hf, hfn⟩ := socket_energy_loop_diagnostic E _ _ h
          refine ⟨c, ?_, hf, Or.inl hfn⟩
          rw [vendor_calls_append, vendor_calls_append, vendor_calls_append,
            vendor_calls_append, List.mem_append, List.mem_append, List.mem_append,
            List.mem_append]
          exact Or.inl (Or.inl (Or.inr hc))
        · exact absurd h htitle
        · obtain ⟨c, hc, hf, hfn⟩ := core_energy_loop_diagnostic E _ _ h
          refine ⟨c, ?_, hf, Or.inr hfn⟩
          rw [vendor_calls_append, List.mem_append]
          exact Or.inr hc
      · rintro ⟨c, hc, hf, hfn⟩
        rw [vendor_calls_append, vendor_calls_append, vendor_calls_append,
          vendor_calls_append, List.mem_append, List.mem_append, List.mem_append,
          List.mem_append] at hc
        rcases hc with (((hc | hc) | hc) | hc) | hc
        · have := mem_vendor_calls_print_energy_pre _ c hc
          rw [this] at hfn
          simp at hfn
        · simp [vendor_calls, vendor_call] at hc
        · exact has_diagnostic_append_left _ _ (has_diagnostic_append_left _ _
            (has_diagnostic_append_right _ _ (socket_energy_loop_reports E _ _ c hc hf)))
        · simp [vendor_calls, vendor_call] at hc
        · exact has_diagnostic_append_right _ _ (core_energy_loop_reports E _ _ c hc hf)
    | false =>
      simp only [Bool.false_eq_true, if_false]
      constructor
      · intro h
        rw [has_diagnostic_append_iff, has_diagnostic_append_iff,
          has_diagnostic_append_iff] at h
        rcases h with ((h | h) | h) | h
        · exact absurd h (print_energy_pre_no_diagnostic _)
        · exact absurd h hhead
        · obtain ⟨c, hc, hf, hfn⟩ := socket_energy_loop_diagnostic E _ _ h
          refine ⟨c, ?_, hf, Or.inl hfn⟩
          rw [vendor_calls_append, vendor_calls_append, vendor_calls_append,
            List.mem_append, List.mem_append, List.mem_append]
          exact Or.inl (Or.inr hc)
        · exact absurd h (energy_batch_no_diagnostic E)
      · rintro ⟨c, hc, hf, hfn⟩
        rw [vendor_calls_append, vendor_calls_append, vendor_calls_append,
          List.mem_append, List.mem_append, List.mem_append] at hc
        rcases hc with ((hc | hc) | hc) | hc
        · have := mem_vendor_calls_print_energy_pre _ c hc
          rw [this] at hfn
          simp at hfn
        · simp [vendor_calls, vendor_call] at hc
        · exact has_diagnostic_append_left _ _
            (has_diagnostic_append_right _ _ (socket_energy_loop_reports E _ _ c hc hf))
        · have := mem_vendor_calls_energy_batch E c hc
          rw [this] at hfn
          simp at hfn
  · constructor
    · intro h
      exact absurd h (print_energy_fallback_no_diagnostic E long_ver h0)
    · rintro ⟨c, hc, hf, hfn⟩
      rw [print_energy_fallback E long_ver h0] at hc
      dsimp only at hc
      rw [vendor_calls_append, List.mem_append, mem_vendor_calls_cons_call,
        mem_vendor_calls_cons_printf, mem_vendor_calls_cons_call] at hc
      rcases hc with hc | hc | hc | hc
      · exact absurd hc (not_mem_vendor_calls_log_entry _ _ _ c)
      · subst hc
        simp at hfn
      · subst hc
        simp at hfn
      · simp [vendor_calls] at hc
theorem node_power_limit_diagnostic_iff {D : Type} [DoubleOps D] (E : AmdEnv)
    (pcap_new : Int) :
    has_diagnostic
        (amd_cpu_epyc_set_and_verify_best_effort_node_power_limit E pcap_new : Run D).out ↔
      ∃ c, c ∈ vendor_calls
          (amd_cpu_epyc_set_and_verify_best_effort_node_power_limit E pcap_new : Run D).out ∧
        amd_call_failed E c ∧ c.1 ≠ Fn.esmi_socket_power_cap_max_get := by
  unfold amd_cpu_epyc_set_and_verify_best_effort_node_power_limit
  dsimp only
  constructor
  · intro h
    rw [has_diagnostic_append_iff] at h
    rcases h with h | h
    · exact absurd h (log_entry_no_diagnostic _ _ _ (by decide))
    · obtain ⟨c, hc, hf, hne⟩ := node_power_limit_loop_diagnostic E _ _ _ h
      refine ⟨c, ?_, hf, hne⟩
      rw [vendor_calls_append, List.mem_append]
      exact Or.inr hc
  · rintro ⟨c, hc, hf, hne⟩
    rw [vendor_calls_append, List.mem_append] at hc
    rcases hc with hc | hc
    · exact absurd hc (not_mem_vendor_calls_log_entry _ _ _ c)
    · exact has_diagnostic_append_right _ _ (node_power_limit_loop_reports E _ _ _ c hc hne hf)

theorem socket_power_limit_diagnostic_iff {D : Type} [DoubleOps D] (E : AmdEnv)
    (pcap_new : Int) :
    has_diagnostic (amd_cpu_epyc_set_socket_power_limit E pcap_new : Run D).out ↔
      ∃ c, c ∈ vendor_calls (amd_cpu_epyc_set_socket_power_limit E pcap_new : Run D).out ∧
        amd_call_failed E c ∧ c.1 ≠ Fn.esmi_socket_power_cap_max_get := by
  unfold amd_cpu_epyc_set_socket_power_limit
  dsimp only
  constructor
  · intro h
    rw [has_diagnostic_append_iff, has_diagnostic_cons_printf _ _ _ (by decide)] at h
    rcases h with h | h
    · exact absurd h (log_entry_no_diagnostic _ _ _ (by decide))
    · obtain ⟨c, hc, hf, hne⟩ := socket_power_limit_loop_diagnostic E _ _ _ h
      refine ⟨c, ?_, hf, hne⟩
      rw [vendor_calls_append, List.mem_append, mem_vendor_calls_cons_printf]
      exact Or.inr hc
  · rintro ⟨c, hc, hf, hne⟩
    rw [vendor_calls_append, List.mem_append, mem_vendor_calls_cons_printf] at hc
    rcases hc with hc | hc
    · exact absurd hc (not_mem_vendor_calls_log_entry _ _ _ c)
    · exact has_diagnostic_append_right _ _ (has_diagnostic_cons _ _
        (socket_power_limit_loop_reports E _ _ _ c hc hne hf))

theorem sensor_blocks_loop_reports {D S : Type} (E : IbmEnv)
    (consume : Nat → S → List (Event D) × S) :
    ∀ (left i : Nat) (s : S), (∃ k, i ≤ k ∧ k < i + left ∧ ¬ block_ok E k) →
    has_diagnostic (sensor_blocks_loop E consume left i s).1.out := by
  intro left
  induction left with
  | zero =>
    rintro i s ⟨k, h1, h2, _⟩
    omega
  | succ left ih =>
    rintro i s ⟨k, h1, h2, hbad⟩
    unfold sensor_blocks_loop
    dsimp only
    by_cases hm : E.malloc i = false
    · rw [if_pos hm]
      exact has_diagnostic_append_right _ _
        (has_diagnostic_head _ _ (is_diagnostic_failed _ _ (by decide)))
    · rw [if_neg hm]
      by_cases hr : (read_block E i : Int × List (Event D)).1 ≠ E.OCC_SENSOR_DATA_BLOCK_SIZE
      · rw [if_pos hr]
        exact has_diagnostic_append_right _ _
          (has_diagnostic_head _ _ (is_diagnostic_failed _ _ (by decide)))
      · rw [if_neg hr]
        dsimp only
        have hok : block_ok E i := by
          rw [block_ok_iff (D := D)]
          exact ⟨by simpa using hm, not_not.mp hr⟩
        have hki : k ≠ i := fun h => hbad (h ▸ hok)
        exact has_diagnostic_append_right _ _
          (ih (i + 1) _ ⟨k, by omega, by omega, hbad⟩)

theorem sensor_reader_reports {D S : Type} (E : IbmEnv) (func : String)
    (consume : Nat → S → List (Event D) × S) (s : S)
    (h : E.open_sensors < 0 ∨ ∃ k, k < E.nsockets ∧ ¬ block_ok E k) :
    has_diagnostic (sensor_reader E func consume s).1.out := by
  unfold sensor_reader
  dsimp only
  by_cases ho : E.open_sensors < 0
  · rw [if_pos ho]
    exact has_diagnostic_append_right _ _
      (has_diagnostic_head _ _ (is_diagnostic_failed _ _ (by decide)))
  · rw [if_neg ho]
    rcases h with h | ⟨k, hk, hbad⟩
    · exact absurd h ho
    · exact has_diagnostic_append_right _ _
        (sensor_blocks_loop_reports E consume _ _ _ ⟨k, Nat.zero_le _, by omega, hbad⟩)

theorem ibm_cpu_p9_get_power_reports {D : Type} (I : IbmEnv) (long_ver : Int)
    (h : I.open_sensors < 0 ∨ ∃ k, k < I.nsockets ∧ ¬ block_ok I k) :
    has_diagnostic (ibm_cpu_p9_get_power I long_ver : Run D).out := by
  unfold ibm_cpu_p9_get_power
  dsimp only
  by_cases ho : I.open_sensors < 0
  · rw [if_pos ho]
    exact has_diagnostic_append_right _ _
      (has_diagnostic_head _ _ (is_diagnostic_failed _ _ (by decide)))
  · rw [if_neg ho]
    rcases h with h | ⟨k, hk, hbad⟩
    · exact absurd h ho
    · have hret : (ibm_get_power_loop I long_ver I.nsockets 0 : Run D).ret ≠ 0 := by
        intro h0
        have := (ibm_get_power_loop_ret (D := D) I long_ver I.nsockets 0).1.mp h0 k
          (Nat.zero_le _) (by omega)
        exact hbad this
      exact has_diagnostic_append_right _ _ (ibm_get_power_loop_reports I long_ver _ _ hret)

theorem take_measurement_reports {D : Type} (I : IbmEnv) (node_power : Nat)
    (hbad : ¬ block_ok I 0) :
    has_diagnostic (take_measurement I node_power : Nat × List (Event D)).2 := by
  have hb := block_ok_iff (D := D) I 0
  unfold take_measurement
  dsimp only
  by_cases hm : I.malloc 0 = false
  · rw [if_pos hm]
    exact has_diagnostic_append_right _ _
      (has_diagnostic_head _ _ (is_diagnostic_failed _ _ (by decide)))
  · rw [if_neg hm]
    have hm1 : I.malloc 0 = true := by simpa using hm
    by_cases hr : (read_block I 0 : Int × List (Event D)).1 ≠ I.OCC_SENSOR_DATA_BLOCK_SIZE
    · rw [if_pos hr]
      exact has_diagnostic_append_right _ _
        (has_diagnostic_head _ _ (is_diagnostic_failed _ _ (by decide)))
    · exfalso
      apply hbad
      rw [hb]
      exact ⟨hm1, not_not.mp hr⟩

theorem read_block_loop_bytes_fd {D : Type} (size fd fd2 : Int) (read : Nat → Int) :
    ∀ (fuel k : Nat) (bytes : Int),
    (read_block_loop size fd read fuel k bytes : Int × List (Event D)).1 =
      (read_block_loop size fd2 read fuel k bytes : Int × List (Event D)).1 := by
  intro fuel
  induction fuel with
  | zero => intro k bytes; rfl
  | succ fuel ih =>
    intro k bytes
    unfold read_block_loop
    dsimp only
    split
    · split
      · rfl
      · exact ih _ _
    · rfl

theorem block_ok_fd (P : IbmEnv) (fd : Int) (iter : Nat) :
    block_ok { P with open_sensors := fd } iter ↔ block_ok P iter := by
  unfold block_ok read_block
  dsimp only
  rw [read_block_loop_bytes_fd (D := Unit) P.OCC_SENSOR_DATA_BLOCK_SIZE fd P.open_sensors]

theorem power_measurement_loop_reports {D : Type} (fd : Int) :
    ∀ (passes : List (IbmEnv × Nat)) (st : Sampler),
    (∃ pass, pass ∈ passes ∧ ¬ block_ok pass.1 0) →
    has_diagnostic (power_measurement_loop fd passes st : Sampler × List (Event D)).2 := by
  intro passes
  induction passes with
  | nil =>
    rintro st ⟨pass, hp, _⟩
    exact absurd hp (List.not_mem_nil _)
  | cons p rest ih =>
    rintro st ⟨pass, hp, hbad⟩
    unfold power_measurement_loop
    dsimp only
    rw [has_diagnostic_append_iff, has_diagnostic_cons_call, has_diagnostic_cons_call,
      has_diagnostic_cons_call]
    rcases List.mem_cons.mp hp with h | h
    · subst h
      exact Or.inl (take_measurement_reports _ _
        (fun hok => hbad ((block_ok_fd _ fd 0).mp hok)))
    · exact Or.inr (ih _ ⟨pass, h, hbad⟩)

theorem power_measurement_reports {D : Type} (I : IbmEnv) (passes : List (IbmEnv × Nat))
    (st : Sampler)
    (h : I.open_sensors < 0 ∨ ∃ pass, pass ∈ passes ∧ ¬ block_ok pass.1 0) :
    has_diagnostic (power_measurement I passes st : Sampler × List (Event D)).2 := by
  unfold power_measurement
  by_cases ho : I.open_sensors < 0
  · rw [if_pos ho]
    dsimp only
    rw [has_diagnostic_cons_call]
    exact has_diagnostic_head _ _ (is_diagnostic_failed _ _ (by decide))
  · rw [if_neg ho]
    dsimp only
    rw [has_diagnostic_cons_call, has_diagnostic_cons_call, has_diagnostic_cons_call]
    rcases h with h | h
    · exact absurd h ho
    · exact power_measurement_loop_reports _ _ _ h
theorem scan_and_close_no_diagnostic {D : Type} (E : IbmEnv) (path : String) :
    ¬ has_diagnostic (scan_and_close E path : Int × List (Event D)).2 := by
  rw [has_diagnostic_iff_any]
  simp [scan_and_close, is_diagnostic]

theorem ibm_get_power_limits_diagnostic_iff {D : Type} (I : IbmEnv) (long_ver : Int) :
    has_diagnostic (ibm_cpu_p9_get_power_limits I long_ver : Run D).out ↔
      ∃ path, path ∈ limit_files ∧ I.fopen path "r" = false := by
  rw [has_diagnostic_iff_any]
  unfold ibm_cpu_p9_get_power_limits limit_files
  simp only [ibm_log_entry_silent, List.nil_append]
  by_cases h1 : I.fopen powercap_current "r" = false
  · simp [h1, is_diagnostic]
  · by_cases h2 : I.fopen powercap_max "r" = false
    · simp [h1, h2, is_diagnostic, scan_and_close]
    · by_cases h3 : I.fopen powercap_min "r" = false
      · simp [h1, h2, h3, is_diagnostic, scan_and_close]
      · by_cases h4 : I.fopen psr_cpu_to_gpu_0 "r" = false
        · simp [h1, h2, h3, h4, is_diagnostic, scan_and_close]
        · by_cases h5 : I.fopen psr_cpu_to_gpu_8 "r" = false
          · simp [h1, h2, h3, h4, h5, is_diagnostic, scan_and_close]
          · by_cases hl : long_ver = 0
            · simp [h1, h2, h3, h4, h5, hl, is_diagnostic, scan_and_close]
            · simp [h1, h2, h3, h4, h5, hl, is_diagnostic, scan_and_close]

theorem ibm_get_power_limits_ret {D : Type} (I : IbmEnv) (long_ver : Int) :
    ((ibm_cpu_p9_get_power_limits I long_ver : Run D).ret = 0 ↔
      ∀ path, path ∈ limit_files → I.fopen path "r" = true) ∧
    ((ibm_cpu_p9_get_power_limits I long_ver : Run D).ret = 0 ∨
      (ibm_cpu_p9_get_power_limits I long_ver : Run D).ret = -1) := by
  unfold ibm_cpu_p9_get_power_limits limit_files
  simp only [ibm_log_entry_silent, List.nil_append]
  by_cases h1 : I.fopen powercap_current "r" = false
  · simp [h1]
  · by_cases h2 : I.fopen powercap_max "r" = false
    · simp [h1, h2]
    · by_cases h3 : I.fopen powercap_min "r" = false
      · simp [h1, h2, h3]
      · by_cases h4 : I.fopen psr_cpu_to_gpu_0 "r" = false
        · simp [h1, h2, h3, h4]
        · by_cases h5 : I.fopen psr_cpu_to_gpu_8 "r" = false
          · simp [h1, h2, h3, h4, h5]
          · by_cases hl : long_ver = 0
            · simp [h1, h2, h3, h4, h5, hl]
            · simp [h1, h2, h3, h4, h5, hl]

theorem ibm_cap_and_verify_reports {D : Type} (I : IbmEnv) (pcap_new : Int)
    (h : I.fopen powercap_current "w+" = false ∨ I.fopen powercap_current "r" = false) :
    has_diagnostic (ibm_cpu_p9_cap_and_verify_node_power_limit I pcap_new : Run D).out := by
  unfold ibm_cpu_p9_cap_and_verify_node_power_limit
  dsimp only
  by_cases hw : I.fopen powercap_current "w+" = false
  · rw [if_pos hw]
    exact has_diagnostic_append_right _ _ (has_diagnostic_cons _ _
      (has_diagnostic_head _ _ rfl))
  · rw [if_neg hw]
    rcases h with h | h
    · exact absurd h hw
    · rw [if_pos h]
      exact has_diagnostic_append_right _ _ (has_diagnostic_head _ _ rfl)

theorem ibm_cap_gpu_power_ratio_reports {D : Type} (I : IbmEnv) (gpu_power_ratio : Int)
    (h : I.fopen psr_cpu_to_gpu_0 "w+" = false ∨ I.fopen psr_cpu_to_gpu_8 "w+" = false) :
    has_diagnostic (ibm_cpu_p9_cap_gpu_power_ratio I gpu_power_ratio : Run D).out := by
  unfold ibm_cpu_p9_cap_gpu_power_ratio
  dsimp only
  rw [if_pos h]
  exact has_diagnostic_append_right _ _ (has_diagnostic_head _ _ rfl)

theorem get_energy_data_loop_quiet {D : Type} [DoubleOps D] (hostname : String)
    (readenergy : Int → Nat) (chipid : Nat) (verbose init : Int) :
    ∀ (left : Nat) (d init_output : Int) (baseline : Int → D),
    (get_energy_data_loop hostname readenergy chipid verbose init left d init_output
      baseline).out.any is_diagnostic = false := by
  intro left
  induction left with
  | zero => intro d io b; rfl
  | succ left ih =>
    intro d io b
    unfold get_energy_data_loop
    dsimp only
    split
    · simp [is_diagnostic, ih]
    · split <;> simp [is_diagnostic, ih]

theorem get_energy_json_loop_quiet {D : Type} [DoubleOps D] (readenergy : Int → Nat)
    (init : Int) :
    ∀ (left : Nat) (d : Int) (baseline : Int → D) (gpu_obj : Json D) (total : D),
    (get_energy_json_loop readenergy init left d baseline gpu_obj total).out.any
      is_diagnostic = false := by
  intro left
  induction left with
  | zero => intro d b o t; rfl
  | succ left ih =>
    intro d b o t
    unfold get_energy_json_loop
    dsimp only
    simp [is_diagnostic, ih]

theorem cap_each_gpu_power_limit_loop_diagnostic {D : Type} (getpwrlim : Int → Int)
    (powerlimit_mwatts : Int) :
    ∀ (left : Nat) (d : Int),
    has_diagnostic
        (cap_each_gpu_power_limit_loop getpwrlim powerlimit_mwatts left d : List (Event D)) ↔
      ∃ k : Nat, k < left ∧ getpwrlim (d + k) ≠ powerlimit_mwatts := by
  intro left
  induction left with
  | zero =>
    intro d
    unfold cap_each_gpu_power_limit_loop
    constructor
    · intro h
      exact absurd h has_diagnostic_nil
    · rintro ⟨k, hk, _⟩
      omega
  | succ left ih =>
    intro d
    unfold cap_each_gpu_power_limit_loop
    dsimp only
    rw [has_diagnostic_append_iff, has_diagnostic_append_iff, has_diagnostic_cons_call,
      has_diagnostic_cons_call, ih (d + 1)]
    constructor
    · rintro ((h | h) | ⟨k, hk, hne⟩)
      · exact absurd h has_diagnostic_nil
      · by_cases hm : powerlimit_mwatts ≠ getpwrlim d
        · exact ⟨0, Nat.succ_pos _, by simpa using fun e => hm e.symm⟩
        · rw [if_neg hm] at h
          exact absurd h has_diagnostic_nil
      · refine ⟨k + 1, by omega, ?_⟩
        have : d + ((k + 1 : Nat) : Int) = d + 1 + (k : Int) := by push_cast; ring
        rw [this]
        exact hne
    · rintro ⟨k, hk, hne⟩
      cases k with
      | zero =>
        refine Or.inl (Or.inr ?_)
        have hm : powerlimit_mwatts ≠ getpwrlim d := by
          intro e
          apply hne
          simpa using e.symm
        rw [if_pos hm]
        exact has_diagnostic_head _ _ rfl
      | succ k =>
        refine Or.inr ⟨k, by omega, ?_⟩
        have : d + ((k + 1 : Nat) : Int) = d + 1 + (k : Int) := by push_cast; ring
        rw [this] at hne
        exact hne
theorem get_power_data_loop_quiet {D : Type} (hostname : String) (readpoweravg : Int → D)
    (chipid : Nat) (verbose : Int) :
    ∀ (left : Nat) (d init_output : Int),
    (get_power_data_loop hostname readpoweravg chipid verbose left d init_output).1.any
      is_diagnostic = false := by
  intro left
  induction left with
  | zero => intro d io; rfl
  | succ left ih =>
    intro d io
    unfold get_power_data_loop
    dsimp only
    split
    · simp [is_diagnostic, ih]
    · split <;> simp [is_diagnostic, ih]

theorem get_thermal_data_loop_quiet {D : Type} (hostname : String) (readtemp : Int → D)
    (chipid : Nat) (verbose : Int) :
    ∀ (left : Nat) (d init_output : Int),
    (get_thermal_data_loop hostname readtemp chipid verbose left d init_output).1.any
      is_diagnostic = false := by
  intro left
  induction left with
  | zero => intro d io; rfl
  | succ left ih =>
    intro d io
    unfold get_thermal_data_loop
    dsimp only
    split
    · simp [is_diagnostic, ih]
    · split <;> simp [is_diagnostic, ih]

theorem get_clocks_data_loop_quiet {D : Type} [DoubleOps D] (hostname : String)
    (readfreq : Int → D) (chipid : Nat) (verbose : Int) :
    ∀ (left : Nat) (d init_output : Int),
    (get_clocks_data_loop hostname readfreq chipid verbose left d init_output).1.any
      is_diagnostic = false := by
  intro left
  induction left with
  | zero => intro d io; rfl
  | succ left ih =>
    intro d io
    unfold get_clocks_data_loop
    dsimp only
    split
    · simp [is_diagnostic, ih]
    · split <;> simp [is_diagnostic, ih]

theorem get_power_limit_data_loop_quiet {D : Type} (hostname : String)
    (getpwrlim : Int → Int) (chipid : Nat) (verbose : Int) :
    ∀ (left : Nat) (d init_output : Int),
    (get_power_limit_data_loop hostname getpwrlim chipid verbose left d init_output :
      List (Event D) × Int).1.any is_diagnostic = false := by
  intro left
  induction left with
  | zero => intro d io; rfl
  | succ left ih =>
    intro d io
    unfold get_power_limit_data_loop
    dsimp only
    split
    · simp [is_diagnostic, ih]
    · split <;> simp [is_diagnostic, ih]

/-- C22 (as amended). Which failures the adapters report.

AMD. In `amd_cpu_epyc_get_power`, `_get_power_limits`, `_print_boostlimit`,
`_set_each_core_boostlimit`, `_set_socket_boostlimit`, `_get_power_json` and
`_get_node_power_domain_info_json` every run whose trace holds a failed call
(one of any `esmi_*` function or of `print_energy_data`) holds a `Failed to ...`
line or a call of the error funnel. The two cap setters hold one exactly when a
call other than the maximum-cap query failed. `amd_cpu_epyc_print_energy` holds
one exactly when a socket or core energy query failed; on its fallback path
(`esmi_init` failed, or the verbose format) it returns what `print_energy_data`
returns, and its trace is the preamble, the `esmi_init` call, the line
`Msg: Checking msr-safe module...` and the `print_energy_data` call: no
diagnostic.

IBM. `ibm_cpu_p9_get_power`, `_monitoring`, `_get_power_json`,
`_get_node_thermal_json` and `_get_node_frequency_json` hold one when the sensor
file does not open or a block is not allocated or not read in full;
`take_measurement` when its block is not; `power_measurement` when the sensor file
does not open or a pass meets such a block. `ibm_cpu_p9_get_power_limits` holds
one exactly when one of its five files does not open, and then returns -1; the
two cap setters hold one when a file of theirs does not open.

Intel GPU. The five reporting operations and `get_energy_json` hold none in any
run; `cap_each_gpu_power_limit` holds one exactly when the limit read back for a
device of the loop differs from the limit requested. -/
theorem tested_failures_are_reported {D : Type} [DoubleOps D] (E : AmdEnv) (I : IbmEnv)
    (st : Epoch) (long_ver pcap_new boostlimit socket : Int) (doc : Json D)
    (node_power count : Nat) (passes : List (IbmEnv × Nat)) (smp : Sampler)
    (hostname : String) (readpoweravg readtemp readfreq : Int → D)
    (getpwrlim : Int → Int) (readenergy : Int → Nat) (g : Nat)
    (init_output verbose : Int) (chipid powerlimit : Nat) (gs : GpuState D)
    (c : Fn × List Int) :
    (amd_call_failed E c →
      (c ∈ vendor_calls (amd_cpu_epyc_get_power E st long_ver : Run D × Epoch).1.out →
        has_diagnostic (amd_cpu_epyc_get_power E st long_ver : Run D × Epoch).1.out) ∧
      (c ∈ vendor_calls (amd_cpu_epyc_get_power_limits E st long_ver : Run D × Epoch).1.out →
        has_diagnostic (amd_cpu_epyc_get_power_limits E st long_ver : Run D × Epoch).1.out) ∧
      (c ∈ vendor_calls (amd_cpu_epyc_print_boostlimit E long_ver : Run D).out →
        has_diagnostic (amd_cpu_epyc_print_boostlimit E long_ver : Run D).out) ∧
      (c ∈ vendor_calls (amd_cpu_epyc_set_each_core_boostlimit E boostlimit : Run D).out →
        has_diagnostic (amd_cpu_epyc_set_each_core_boostlimit E boostlimit : Run D).out) ∧
      (c ∈ vendor_calls (amd_cpu_epyc_set_socket_boostlimit E socket boostlimit : Run D).out →
        has_diagnostic (amd_cpu_epyc_set_socket_boostlimit E socket boostlimit : Run D).out) ∧
      (c ∈ vendor_calls (amd_cpu_epyc_get_power_json E doc).1.out →
        has_diagnostic (amd_cpu_epyc_get_power_json E doc).1.out) ∧
      (c ∈ vendor_calls
          (amd_cpu_epyc_get_node_power_domain_info_json E : Run D × Option (Json D)).1.out →
        has_diagnostic
          (amd_cpu_epyc_get_node_power_domain_info_json E : Run D × Option (Json D)).1.out)) ∧
    (has_diagnostic
        (amd_cpu_epyc_set_and_verify_best_effort_node_power_limit E pcap_new : Run D).out ↔
      ∃ q, q ∈ vendor_calls
          (amd_cpu_epyc_set_and_verify_best_effort_node_power_limit E pcap_new : Run D).out ∧
        amd_call_failed E q ∧ q.1 ≠ Fn.esmi_socket_power_cap_max_get) ∧
    (has_diagnostic (amd_cpu_epyc_set_socket_power_limit E pcap_new : Run D).out ↔
      ∃ q, q ∈ vendor_calls (amd_cpu_epyc_set_socket_power_limit E pcap_new : Run D).out ∧
        amd_call_failed E q ∧ q.1 ≠ Fn.esmi_socket_power_cap_max_get) ∧
    (has_diagnostic (amd_cpu_epyc_print_energy E long_ver : Run D).out ↔
      ∃ q, q ∈ vendor_calls (amd_cpu_epyc_print_energy E long_ver : Run D).out ∧
        amd_call_failed E q ∧
        (q.1 = Fn.esmi_socket_energy_get ∨ q.1 = Fn.esmi_core_energy_get)) ∧
    (¬ (E.esmi_init = 0 ∧ long_ver = 0) →
      (amd_cpu_epyc_print_energy E long_ver : Run D).ret = E.print_energy_data ∧
      (amd_cpu_epyc_print_energy E long_ver : Run D).out =
        log_entry E.VARIORUM_LOG "Running %s\n" [Arg.str "amd_cpu_epyc_print_energy"] ++
          [Event.call Fn.esmi_init [],
           Event.printf "Msg: Checking msr-safe module...\n" [],
           Event.call Fn.print_energy_data [0xC0010299, 0xC001029A]] ∧
      ¬ has_diagnostic (amd_cpu_epyc_print_energy E long_ver : Run D).out) ∧
    ((I.open_sensors < 0 ∨ ∃ k, k < I.nsockets ∧ ¬ block_ok I k) →
      has_diagnostic (ibm_cpu_p9_get_power I long_ver : Run D).out ∧
      has_diagnostic (ibm_cpu_p9_monitoring I count : Run D × Nat).1.out ∧
      has_diagnostic (ibm_cpu_p9_get_power_json I : Run D).out ∧
      has_diagnostic (ibm_cpu_p9_get_node_thermal_json I : Run D).out ∧
      has_diagnostic (ibm_cpu_p9_get_node_frequency_json I : Run D).out) ∧
    (¬ block_ok I 0 →
      has_diagnostic (take_measurement I node_power : Nat × List (Event D)).2) ∧
    ((I.open_sensors < 0 ∨ ∃ pass, pass ∈ passes ∧ ¬ block_ok pass.1 0) →
      has_diagnostic (power_measurement I passes smp : Sampler × List (Event D)).2) ∧
    (has_diagnostic (ibm_cpu_p9_get_power_limits I long_ver : Run D).out ↔
      ∃ path, path ∈ limit_files ∧ I.fopen path "r" = false) ∧
    ((∃ path, path ∈ limit_files ∧ I.fopen path "r" = false) →
      (ibm_cpu_p9_get_power_limits I long_ver : Run D).ret = -1) ∧
    ((I.fopen powercap_current "w+" = false ∨ I.fopen powercap_current "r" = false) →
      has_diagnostic (ibm_cpu_p9_cap_and_verify_node_power_limit I pcap_new : Run D).out) ∧
    ((I.fopen psr_cpu_to_gpu_0 "w+" = false ∨ I.fopen psr_cpu_to_gpu_8 "w+" = false) →
      has_diagnostic (ibm_cpu_p9_cap_gpu_power_ratio I pcap_new : Run D).out) ∧
    ¬ has_diagnostic (get_power_data hostname readpoweravg g init_output chipid verbose).1 ∧
    ¬ has_diagnostic (get_thermal_data hostname readtemp g init_output chipid verbose).1 ∧
    ¬ has_diagnostic (get_clocks_data hostname readfreq g init_output chipid verbose).1 ∧
    ¬ has_diagnostic (get_power_limit_data hostname getpwrlim g init_output chipid verbose :
      List (Event D) × Int).1 ∧
    ¬ has_diagnostic (get_energy_data hostname readenergy init_output chipid verbose gs).1 ∧
    ¬ has_diagnostic (get_energy_json readenergy chipid gs doc).1 ∧
    (has_diagnostic (cap_each_gpu_power_limit getpwrlim g chipid powerlimit :
        List (Event D)) ↔
      ∃ k : Nat, k < device_count chipid g ∧
        getpwrlim (device_first chipid g + k) ≠ toInt32 (u32 (u32 powerlimit * 1000))) := by
  refine ⟨fun hf => ⟨?_, ?_, ?_, ?_, ?_, ?_, ?_⟩,
    node_power_limit_diagnostic_iff E pcap_new, socket_power_limit_diagnostic_iff E pcap_new,
    print_energy_diagnostic_iff E long_ver,
    fun h0 => ⟨?_, ?_, print_energy_fallback_no_diagnostic E long_ver h0⟩,
    fun h => ⟨ibm_cpu_p9_get_power_reports I long_ver h, sensor_reader_reports I _ _ _ h,
      sensor_reader_reports I _ _ _ h, sensor_reader_reports I _ _ _ h,
      sensor_reader_reports I _ _ _ h⟩,
    take_measurement_reports I node_power, power_measurement_reports I passes smp,
    ibm_get_power_limits_diagnostic_iff I long_ver, ?_,
    ibm_cap_and_verify_reports I pcap_new, ibm_cap_gpu_power_ratio_reports I pcap_new,
    ?_, ?_, ?_, ?_, ?_, ?_, ?_⟩
  · intro hc
    unfold amd_cpu_epyc_get_power at hc ⊢
    dsimp only at hc ⊢
    rw [vendor_calls_append, vendor_calls_append, List.mem_append, List.mem_append] at hc
    rcases hc with (hc | hc) | hc
    · exact absurd hc (not_mem_vendor_calls_log_entry _ _ _ c)
    · exact absurd hc (not_mem_vendor_calls_latch_header _ _ _ c)
    · exact has_diagnostic_append_right _ _ (get_power_loop_reports E _ _ _ _ c hc hf)
  · intro hc
    unfold amd_cpu_epyc_get_power_limits at hc ⊢
    dsimp only at hc ⊢
    rw [vendor_calls_append, vendor_calls_append, List.mem_append, List.mem_append] at hc
    rcases hc with (hc | hc) | hc
    · exact absurd hc (not_mem_vendor_calls_log_entry _ _ _ c)
    · exact absurd hc (not_mem_vendor_calls_latch_header _ _ _ c)
    · exact has_diagnostic_append_right _ _ (get_power_limits_loop_reports E _ _ _ _ c hc hf)
  · intro hc
    unfold amd_cpu_epyc_print_boostlimit at hc ⊢
    dsimp only at hc ⊢
    rw [vendor_calls_append, vendor_calls_append, List.mem_append, List.mem_append] at hc
    rcases hc with (hc | hc) | hc
    · exact absurd hc (not_mem_vendor_calls_log_entry _ _ _ c)
    · simp [vendor_calls, vendor_call] at hc
    · exact has_diagnostic_append_right _ _ (print_boostlimit_loop_reports E _ _ c hc hf)
  · intro hc
    unfold amd_cpu_epyc_set_each_core_boostlimit at hc ⊢
    dsimp only at hc ⊢
    rw [vendor_calls_append, List.mem_append] at hc
    rcases hc with hc | hc
    · exact absurd hc (not_mem_vendor_calls_log_entry _ _ _ c)
    · exact has_diagnostic_append_right _ _
        (set_each_core_boostlimit_loop_reports E _ _ _ c hc hf)
  · intro hc
    unfold amd_cpu_epyc_set_socket_boostlimit at hc ⊢
    dsimp only at hc ⊢
    by_cases h1 : E.esmi_socket_boostlimit_set socket (toUInt32 boostlimit) ≠ 0
    · rw [if_pos h1]
      split <;>
        exact has_diagnostic_append_right _ _ (has_diagnostic_cons _ _
          (has_diagnostic_head _ _ (is_diagnostic_failed _ _ (by decide))))
    · rw [if_neg h1] at hc
      rw [vendor_calls_append, List.mem_append] at hc
      rcases hc with hc | hc
      · exact absurd hc (not_mem_vendor_calls_log_entry _ _ _ c)
      · rw [mem_vendor_calls_cons_call] at hc
        rcases hc with hc | hc
        · subst hc
          simp [amd_call_failed] at hf
          exact absurd hf h1
        · simp [vendor_calls] at hc
  · intro hc
    unfold amd_cpu_epyc_get_power_json at hc ⊢
    dsimp only at hc ⊢
    rw [vendor_calls_append, List.mem_append] at hc
    rcases hc with hc | hc
    · exact absurd hc (not_mem_vendor_calls_log_entry _ _ _ c)
    · exact has_diagnostic_append_right _ _ (get_power_json_loop_reports E _ _ _ _ c hc hf)
  · intro hc
    unfold amd_cpu_epyc_get_node_power_domain_info_json at hc ⊢
    dsimp only at hc ⊢
    by_cases h1 : (E.esmi_socket_power_cap_max_get 0).1 ≠ 0
    · rw [if_pos h1]
      exact has_diagnostic_append_right _ _ (has_diagnostic_cons _ _
        (has_diagnostic_head _ _ (is_diagnostic_failed _ _ (by decide))))
    · rw [if_neg h1] at hc
      dsimp only at hc
      rw [vendor_calls_append, List.mem_append] at hc
      rcases hc with hc | hc
      · exact absurd hc (not_mem_vendor_calls_log_entry _ _ _ c)
      · rw [mem_vendor_calls_cons_call] at hc
        rcases hc with hc | hc
        · subst hc
          simp [amd_call_failed] at hf
          exact absurd hf h1
        · simp [vendor_calls] at hc
  · rw [print_energy_fallback E long_ver h0]
  · rw [print_energy_fallback E long_ver h0]
  · intro h
    rcases (ibm_get_power_limits_ret (D := D) I long_ver).2 with h0 | h1
    · obtain ⟨path, hp, hf⟩ := h
      have := (ibm_get_power_limits_ret (D := D) I long_ver).1.mp h0 path hp
      rw [hf] at this
      exact absurd this (by decide)
    · exact h1
  · rw [has_diagnostic_iff_any]
    unfold get_power_data
    rw [get_power_data_loop_quiet]
    decide
  · rw [has_diagnostic_iff_any]
    unfold get_thermal_data
    rw [get_thermal_data_loop_quiet]
    decide
  · rw [has_diagnostic_iff_any]
    unfold get_clocks_data
    rw [get_clocks_data_loop_quiet]
    decide
  · rw [has_diagnostic_iff_any]
    unfold get_power_limit_data
    rw [get_power_limit_data_loop_quiet]
    decide
  · rw [has_diagnostic_iff_any]
    unfold get_energy_data
    dsimp only
    rw [get_energy_data_loop_quiet]
    decide
  · rw [has_diagnostic_iff_any]
    unfold get_energy_json energy_json_devices
    dsimp only
    rw [get_energy_json_loop_quiet]
    decide
  · unfold cap_each_gpu_power_limit
    exact cap_each_gpu_power_limit_loop_diagnostic getpwrlim _ _ _
/-- C22 witness. On the node whose power query of socket 1 fails,
`amd_cpu_epyc_get_power` holds the failing call and a diagnostic. On the IBM
node whose sensor file does not open, the five sensor readers and the sampling
thread each hold one. On the node whose `esmi_init` fails,
`amd_cpu_epyc_print_energy` returns the -1 of `print_energy_data` and holds
none. -/
theorem tested_failures_are_reported_witness :
    (amd_call_failed amd_power_fails (Fn.esmi_socket_power_get, [1]) ∧
      (Fn.esmi_socket_power_get, [1]) ∈ vendor_calls
        (amd_cpu_epyc_get_power amd_power_fails Epoch.fresh 0 : Run ℚ × Epoch).1.out ∧
      has_diagnostic (amd_cpu_epyc_get_power amd_power_fails Epoch.fresh 0 :
        Run ℚ × Epoch).1.out) ∧
    (ibm_node_no_sensors.open_sensors < 0 ∧
      has_diagnostic (ibm_cpu_p9_get_power ibm_node_no_sensors 0 : Run ℚ).out ∧
      has_diagnostic (ibm_cpu_p9_monitoring ibm_node_no_sensors 0 : Run ℚ × Nat).1.out ∧
      has_diagnostic (ibm_cpu_p9_get_power_json ibm_node_no_sensors : Run ℚ).out ∧
      has_diagnostic (ibm_cpu_p9_get_node_thermal_json ibm_node_no_sensors : Run ℚ).out ∧
      has_diagnostic (ibm_cpu_p9_get_node_frequency_json ibm_node_no_sensors : Run ℚ).out ∧
      has_diagnostic (power_measurement ibm_node_no_sensors [] sampler_idle :
        Sampler × List (Event ℚ)).2) ∧
    (¬ (amd_esmi_init_fails.esmi_init = 0 ∧ (0 : Int) = 0) ∧
      (amd_cpu_epyc_print_energy amd_esmi_init_fails 0 : Run ℚ).ret = -1 ∧
      ¬ has_diagnostic (amd_cpu_epyc_print_energy amd_esmi_init_fails 0 : Run ℚ).out) := by
  have hf : amd_call_failed amd_power_fails (Fn.esmi_socket_power_get, [1]) := by
    simp [amd_call_failed, amd_power_fails]
  have ho : ibm_node_no_sensors.open_sensors < 0 := by decide
  have hi : ¬ (amd_esmi_init_fails.esmi_init = 0 ∧ (0 : Int) = 0) := by decide
  have T := tested_failures_are_reported (D := ℚ) amd_power_fails ibm_node_no_sensors
    Epoch.fresh 0 0 0 0 (Json.object []) 0 0 [] sampler_idle "node0" (fun _ => 0)
    (fun _ => 0) (fun _ => 0) (fun _ => 0) (fun _ => 0) 1 0 0 0 0 gpu_started
    (Fn.esmi_socket_power_get, [1])
  have U := tested_failures_are_reported (D := ℚ) amd_esmi_init_fails ibm_node_no_sensors
    Epoch.fresh 0 0 0 0 (Json.object []) 0 0 [] sampler_idle "node0" (fun _ => 0)
    (fun _ => 0) (fun _ => 0) (fun _ => 0) (fun _ => 0) 1 0 0 0 0 gpu_started
    (Fn.esmi_init, [])
  have hs := T.2.2.2.2.2.1 (Or.inl ho)
  exact ⟨⟨hf, by decide, (T.1 hf).1 (by decide)⟩,
    ⟨ho, hs.1, hs.2.1, hs.2.2.1, hs.2.2.2.1, hs.2.2.2.2, T.2.2.2.2.2.2.2.1 (Or.inl ho)⟩,
    ⟨hi, (U.2.2.2.2.1 hi).1, (U.2.2.2.2.1 hi).2.2⟩⟩

/-- C22 counterexample. On the node whose maximum-cap query of socket 0 fails
with status 5, `amd_cpu_epyc_set_and_verify_best_effort_node_power_limit(200)`
issues that query, skips the clamp, writes and verifies both sockets and
returns 0: its trace holds the failing vendor query and no diagnostic. On the
node whose `esmi_init` fails with status 1 and whose `print_energy_data`
returns -1, `amd_cpu_epyc_print_energy(0)` returns -1; its trace holds both
failing calls, the line `Msg: Checking msr-safe module...` and no diagnostic. -/
theorem silent_failure_counterexample :
    ((Fn.esmi_socket_power_cap_max_get, [0]) ∈ vendor_calls
      (amd_cpu_epyc_set_and_verify_best_effort_node_power_limit amd_max_query_fails 200 :
        Run ℚ).out ∧
    amd_call_failed amd_max_query_fails (Fn.esmi_socket_power_cap_max_get, [0]) ∧
    (amd_cpu_epyc_set_and_verify_best_effort_node_power_limit amd_max_query_fails 200 :
      Run ℚ).ret = 0 ∧
    ¬ has_diagnostic
      (amd_cpu_epyc_set_and_verify_best_effort_node_power_limit amd_max_query_fails 200 :
        Run ℚ).out) ∧
    ((amd_cpu_epyc_print_energy amd_esmi_init_fails 0 : Run ℚ).ret = -1 ∧
    (amd_cpu_epyc_print_energy amd_esmi_init_fails 0 : Run ℚ).out =
      [Event.call Fn.esmi_init [],
       Event.printf "Msg: Checking msr-safe module...\n" [],
       Event.call Fn.print_energy_data [0xC0010299, 0xC001029A]] ∧
    amd_call_failed amd_esmi_init_fails (Fn.esmi_init, []) ∧
    amd_call_failed amd_esmi_init_fails (Fn.print_energy_data, [0xC0010299, 0xC001029A]) ∧
    ¬ has_diagnostic (amd_cpu_epyc_print_energy amd_esmi_init_fails 0 : Run ℚ).out) := by
  refine ⟨⟨by decide, by simp [amd_call_failed, amd_max_query_fails], by decide, ?_⟩,
    ⟨by decide, by decide, by simp [amd_call_failed, amd_esmi_init_fails],
      by simp [amd_call_failed, amd_esmi_init_fails], ?_⟩⟩
  · rw [has_diagnostic_iff_any]
    decide
  · rw [has_diagnostic_iff_any]
    decide

/-- A failure that goes unreported by a slip: on the node whose boost-limit
query of core 1 fails with status 6, `amd_cpu_epyc_get_json_boostlimit` issues the query,
returns 0 and prints no diagnostic (it stores the status and never reads it). -/
theorem json_boostlimit_failure_is_silent :
    (Fn.esmi_core_boostlimit_get, [1]) ∈ vendor_calls
      (amd_cpu_epyc_get_json_boostlimit amd_boost_fails 0 (Json.object []) :
        Run ℚ × Json ℚ).1.out ∧
    amd_call_failed amd_boost_fails (Fn.esmi_core_boostlimit_get, [1]) ∧
    (amd_cpu_epyc_get_json_boostlimit amd_boost_fails 0 (Json.object []) :
      Run ℚ × Json ℚ).1.ret = 0 ∧
    ¬ has_diagnostic (amd_cpu_epyc_get_json_boostlimit amd_boost_fails 0 (Json.object []) :
      Run ℚ × Json ℚ).1.out := by
  refine ⟨by decide, by simp [amd_call_failed, amd_boost_fails], by decide, ?_⟩
  rw [has_diagnostic_iff_any]
  decide

end Variorum
